import Mathlib

/-!
# Train consist core of `train_cmd.c`

A shallow embedding of the consist recalculator, the depot move command, the
reversal engine, the rail compatibility check and the collision handler of
`src/train_cmd.c`.

Vehicles live in a pool indexed by natural numbers; a C pointer `Vehicle *` is
a pool index and `NULL` is `none`.  Loops that follow `next` pointers take a
fuel argument and return `none` when the fuel runs out; a failed `assert`
also returns `none`.  Unsigned machine integers are natural numbers reduced
modulo `2 ^ width` at every store into a variable of that width.
-/

namespace OpenTTD

/-! ## Data model -/

/-- The train part `v->u.rail` of a vehicle record. -/
structure VehicleRail where
  track : Nat := 0
  flags : Nat := 0
  railtype : Nat := 0
  crash_anim_pos : Nat := 0
  first_engine : Nat := 0
  cached_max_speed : Nat := 0
  cached_power : Nat := 0
  cached_weight : Nat := 0
  cached_veh_weight : Nat := 0
  cached_veh_length : Nat := 0
deriving DecidableEq, Repr

/-- An order record `Order`: its type, flags and station. -/
structure Order where
  type : Nat := 0
  flags : Nat := 0
  station : Nat := 0
deriving DecidableEq, Repr

/-- The fields of a `Vehicle` record that the train code reads or writes;
`force_proceed` and `last_speed` are the fields `u.rail.force_proceed` and
`u.rail.last_speed`. -/
structure Vehicle where
  type : Nat := 0
  subtype : Nat := 0
  engine_type : Nat := 0
  next : Option Nat := none
  first : Option Nat := none
  owner : Nat := 0
  tile : Nat := 0
  x_pos : Int := 0
  y_pos : Int := 0
  z_pos : Nat := 0
  direction : Nat := 0
  vehstatus : Nat := 0
  cargo_type : Nat := 0
  cargo_count : Nat := 0
  spritenum : Nat := 0
  unitnumber : Nat := 0
  cur_speed : Nat := 0
  num_orders : Nat := 0
  x_offs : Nat := 0
  y_offs : Nat := 0
  sprite_width : Nat := 0
  sprite_height : Nat := 0
  cur_image : Nat := 0
  orders : Option Nat := none
  max_speed : Nat := 0
  acceleration : Nat := 0
  rail : VehicleRail := {}
  subspeed : Nat := 0
  progress : Nat := 0
  load_unload_time_rem : Nat := 0
  breakdown_ctr : Nat := 0
  dest_tile : Nat := 0
  last_station_visited : Nat := 0
  current_order : Order := {}
  force_proceed : Nat := 0
  last_speed : Nat := 0
  value : Int := 0
  cargo_cap : Nat := 0
  cur_order_index : Nat := 0
deriving DecidableEq, Repr

/-- The vehicle pool: `w i` is the record behind the pointer `i`. -/
abbrev World := Nat → Vehicle

/-- Store the record `x` behind the pointer `i`. -/
def World.set (w : World) (i : Nat) (x : Vehicle) : World :=
  fun j => if j = i then x else w j

/-- The fields of `RailVehicleInfo` (engine.h) read by the train code. -/
structure RailVehicleInfo where
  flags : Nat := 0
  max_speed : Nat := 0
  power : Nat := 0
  weight : Nat := 0
  callbackmask : Nat := 0
  pow_wag_power : Nat := 0
  pow_wag_weight : Nat := 0
  visual_effect : Nat := 0
  shorten_factor : Nat := 0
  capacity : Nat := 0
  cargo_type : Nat := 0
deriving DecidableEq, Repr

/-- Everything the modelled functions take from other translation units: the
engine table, the cargo weight table, the two new-graphics queries, the
position scan and head lookup of vehicle.c, and the named constants of the
headers.  The queries receive the pool and the pointer, so they may read the
current record of the unit.  They do not write to the pool, but for
`GetFirstVehicleInChain(v)`, which refills the lazily cached `first` pointer:
`GetFirstVehicleInChain w v` is the head that the call returns, and
`FirstCacheAfter w v u` is the pointer `u->first` of each unit `u` after the
call. -/
structure Env where
  RailVehInfo : Nat → RailVehicleInfo
  cargo_weights : Nat → Nat
  UsesWagonOverride : World → Nat → Bool
  GetCallBackResult : Nat → Nat → World → Nat → Nat
  VEH_Train : Nat
  TS_Front_Engine : Nat
  TS_Not_First : Nat
  TS_Free_Car : Nat
  INVALID_VEHICLE : Nat
  RVI_WAGON : Nat
  CBM_WAGON_POWER : Nat
  CBM_VEH_LENGTH : Nat
  CBID_WAGON_POWER : Nat
  CBID_VEH_LENGTH : Nat
  CALLBACK_FAILED : Nat
  VRF_POWEREDWAGON : Nat
  VRF_REVERSING : Nat
  VRF_GOINGUP : Nat
  VRF_GOINGDOWN : Nat
  VS_HIDDEN : Nat
  VS_CRASHED : Nat
  CT_PASSENGERS : Nat
  TILE_FROM_XY : Int → Int → Nat
  VehicleFromPos : World → Nat → (Nat → Option Nat) → Option Nat
  GetFirstVehicleInChain : World → Nat → Nat
  FirstCacheAfter : World → Nat → Nat → Option Nat

/-- Modelled from the spec: the `first` cache is "invalidated by every
structural mutation and lazily recomputed on next read".  The pool after the
call `GetFirstVehicleInChain(v)`: the call writes `first` pointers and no
other field of any unit. -/
def Env.afterFirstRead (env : Env) (w : World) (v : Nat) : World :=
  fun u => { w u with first := env.FirstCacheAfter w v u }

/-- The macro `HASBIT(x, y)`: is bit `y` of `x` set. -/
def HASBIT (x y : Nat) : Bool := (x &&& (1 <<< y)) != 0

/-- The macro `SETBIT(x, y)` applied to a byte variable: `x |= 1 << y`. -/
def SETBIT (x y : Nat) : Nat := (x ||| (1 <<< y)) % 256

/-- The macro `CLRBIT(x, y)` applied to a byte variable: `x &= ~(1 << y)`. -/
def CLRBIT (x y : Nat) : Nat := x &&& (255 ^^^ ((1 <<< y) % 256))

/-- The helper `clamp(a, min, max)` on non-negative values. -/
def clamp (a lo hi : Nat) : Nat :=
  if a ≤ lo then lo else if a ≥ hi then hi else a

/-! ## Consist recalculator -/

/-- The weight of one unit as `TrainCargoChanged` computes it into the
`uint16` local `vweight`. -/
def vehWeight (env : Env) (w : World) (v u : Nat) : Nat :=
  let rvi := env.RailVehInfo (w u).engine_type
  let vweight := 0
  let vweight := (vweight + rvi.weight) % 65536
  let vweight := (vweight + (env.cargo_weights (w u).cargo_type * (w u).cargo_count) / 16) % 65536
  if HASBIT (w u).rail.flags env.VRF_POWEREDWAGON then
    (vweight + (env.RailVehInfo (w v).engine_type).pow_wag_weight) % 65536
  else vweight

/-- The loop `for (u = v; u != NULL; u = u->next)` of `TrainCargoChanged`,
threading the `uint16` accumulator `weight`. -/
def TrainCargoChanged.loop (env : Env) (v : Nat) :
    Nat → Option Nat → Nat → World → Option (World × Nat)
  | _, none, weight, w => some (w, weight)
  | 0, some _, _, _ => none
  | fuel + 1, some u, weight, w =>
    let vweight := vehWeight env w v u
    let weight := (weight + vweight) % 65536
    let w1 := w.set u { w u with rail := { (w u).rail with cached_veh_weight := vweight } }
    TrainCargoChanged.loop env v fuel (w1 u).next weight w1

/-- `TrainCargoChanged(v)`: recompute the cached weights of the consist of `v`. -/
def TrainCargoChanged (env : Env) (w : World) (v : Nat) (fuel : Nat) : Option World :=
  match TrainCargoChanged.loop env v fuel (some v) 0 w with
  | none => none
  | some (w1, weight) =>
    some (w1.set v { w1 v with rail := { (w1 v).rail with cached_weight := weight } })

/-- The powered-wagon test of `TrainConsistChanged` for the unit `u`: the guard
`(rvi_v->pow_wag_power != 0) && (rvi_u->flags & RVI_WAGON) && UsesWagonOverride(u)`
followed by the callback-or-visual-effect code compared with `0x40`. -/
def TrainConsistChanged.powered (env : Env) (rvi_v rvi_u : RailVehicleInfo)
    (w : World) (u : Nat) : Bool :=
  if rvi_v.pow_wag_power ≠ 0 ∧ (rvi_u.flags &&& env.RVI_WAGON) ≠ 0 ∧
      env.UsesWagonOverride w u = true then
    let callback := env.CALLBACK_FAILED
    let callback :=
      if HASBIT rvi_u.callbackmask env.CBM_WAGON_POWER then
        env.GetCallBackResult env.CBID_WAGON_POWER (w u).engine_type w u % 65536
      else callback
    let callback := if callback = env.CALLBACK_FAILED then rvi_u.visual_effect else callback
    decide (callback < 64)
  else false

/-- The vehicle length query of `TrainConsistChanged` for the unit `u`: the
callback result or the shorten factor, clamped to `[0, 7]`. -/
def TrainConsistChanged.vehLen (env : Env) (rvi_u : RailVehicleInfo)
    (w : World) (u : Nat) : Nat :=
  let veh_len := env.CALLBACK_FAILED
  let veh_len :=
    if HASBIT rvi_u.callbackmask env.CBM_VEH_LENGTH then
      env.GetCallBackResult env.CBID_VEH_LENGTH (w u).engine_type w u % 65536
    else veh_len
  let veh_len := if veh_len = env.CALLBACK_FAILED then rvi_u.shorten_factor else veh_len
  clamp veh_len 0 7

/-- The pool on which the powered-wagon test of the unit `u` runs: after the
first-engine write and the clearing of the powered-wagon bit. -/
def TrainConsistChanged.testWorld (env : Env) (v first_engine u : Nat) (w : World) : World :=
  -- update the 'first engine'
  let w1 := w.set u { w u with rail := { (w u).rail with
    first_engine := if v = u then env.INVALID_VEHICLE else first_engine } }
  -- check if its a powered wagon
  w1.set u { w1 u with rail := { (w1 u).rail with
    flags := CLRBIT (w1 u).rail.flags env.VRF_POWEREDWAGON } }

/-- The pool after the writes of one iteration of the loop of
`TrainConsistChanged` to the unit `u`, in the order of the source: the first
engine, the cleared and possibly set powered-wagon bit, the cached length. -/
def TrainConsistChanged.bodyWorld (env : Env) (rvi_v : RailVehicleInfo)
    (v first_engine u : Nat) (w : World) : World :=
  let rvi_u := env.RailVehInfo (w u).engine_type
  let w2 := TrainConsistChanged.testWorld env v first_engine u w
  let w3 := if TrainConsistChanged.powered env rvi_v rvi_u w2 u then
      w2.set u { w2 u with rail := { (w2 u).rail with
        flags := SETBIT (w2 u).rail.flags env.VRF_POWEREDWAGON } }
    else w2
  -- check the vehicle length (callback)
  w3.set u { w3 u with rail := { (w3 u).rail with
    cached_veh_length := 8 - TrainConsistChanged.vehLen env rvi_u w3 u } }

/-- The body of the loop of `TrainConsistChanged` for the unit `u`: returns
the pool and the new values of the locals `power` and `max_speed`. -/
def TrainConsistChanged.body (env : Env) (rvi_v : RailVehicleInfo) (v first_engine u : Nat)
    (power max_speed : Nat) (w : World) : World × Nat × Nat :=
  let rvi_u := env.RailVehInfo (w u).engine_type
  -- power is the sum of the powers of all engines and powered wagons
  let power := (power + rvi_u.power) % 4294967296
  let power :=
    if TrainConsistChanged.powered env rvi_v rvi_u
        (TrainConsistChanged.testWorld env v first_engine u w) u then
      (power + rvi_v.pow_wag_power) % 4294967296
    else power
  -- max speed is the minimum of the speed limits of all vehicles
  let max_speed :=
    if rvi_u.max_speed ≠ 0 then (min rvi_u.max_speed max_speed) % 65536 else max_speed
  (TrainConsistChanged.bodyWorld env rvi_v v first_engine u w, power, max_speed)

/-- The loop `for (u = v; u != NULL; u = u->next)` of `TrainConsistChanged`. -/
def TrainConsistChanged.loop (env : Env) (rvi_v : RailVehicleInfo) (v first_engine : Nat) :
    Nat → Option Nat → Nat → Nat → World → Option (World × Nat × Nat)
  | _, none, power, max_speed, w => some (w, power, max_speed)
  | 0, some _, _, _, _ => none
  | fuel + 1, some u, power, max_speed, w =>
    match TrainConsistChanged.body env rvi_v v first_engine u power max_speed w with
    | (w1, power1, max_speed1) =>
      TrainConsistChanged.loop env rvi_v v first_engine fuel (w1 u).next power1 max_speed1 w1

/-- `TrainConsistChanged(v)`: recompute every cache of the chain headed by `v`.
The two leading `assert`s fail into `none`. -/
def TrainConsistChanged (env : Env) (w : World) (v : Nat) (fuel : Nat) : Option World :=
  if (w v).type ≠ env.VEH_Train then none
  else if ¬ ((w v).subtype = env.TS_Front_Engine ∨ (w v).subtype = env.TS_Free_Car) then none
  else
    let rvi_v := env.RailVehInfo (w v).engine_type
    let first_engine :=
      if (w v).subtype = env.TS_Front_Engine then (w v).engine_type else env.INVALID_VEHICLE
    match TrainConsistChanged.loop env rvi_v v first_engine fuel (some v) 0 65535 w with
    | none => none
    | some (w1, power, max_speed) =>
      let w2 := w1.set v { w1 v with rail := { (w1 v).rail with cached_max_speed := max_speed } }
      let w3 := w2.set v { w2 v with rail := { (w2 v).rail with cached_power := power } }
      TrainCargoChanged env w3 v fuel

/-- The units reached from the pointer `h` by following `next` are exactly the
list `l`, and the walk then arrives at the pointer `t`. -/
def IsSeg (w : World) : Option Nat → List Nat → Option Nat → Prop
  | h, [], t => h = t
  | h, j :: l, t => h = some j ∧ IsSeg w (w j).next l t

/-- The chain starting at `h` is the list `l` and ends in `NULL`. -/
def IsChain (w : World) (h : Option Nat) (l : List Nat) : Prop := IsSeg w h l none

instance IsSeg.instDecidable (w : World) : (h : Option Nat) → (l : List Nat) →
    (t : Option Nat) → Decidable (IsSeg w h l t)
  | h, [], t => inferInstanceAs (Decidable (h = t))
  | h, j :: l, t =>
    have := IsSeg.instDecidable w (w j).next l t
    inferInstanceAs (Decidable (h = some j ∧ IsSeg w (w j).next l t))

instance IsChain.instDecidable (w : World) (h : Option Nat) (l : List Nat) :
    Decidable (IsChain w h l) := IsSeg.instDecidable w h l none

/-! ## Moving vehicles inside a depot -/

/-- What the depot move command takes from other translation units: the pool
index test, the ownership test against the current player, the sprite
classification macros and table, the pool iteration `FOR_ALL_VEHICLES`, the
predecessor lookup of vehicle.c, the depot tile test, the two settings, the
unit number allocator, the order list disposal, and three constants. -/
structure CmdEnv where
  IsVehicleIndex : World → Nat → Bool
  CheckOwnership : Nat → Bool
  is_custom_sprite : Nat → Bool
  IS_CUSTOM_FIRSTHEAD_SPRITE : Nat → Bool
  IS_CUSTOM_SECONDHEAD_SPRITE : Nat → Bool
  engine_sprite_add : Nat → Nat
  allVehicles : World → List Nat
  GetPrevVehicleInChain : World → Nat → Option Nat
  IsTileDepotType : Nat → Bool
  mammoth_trains : Bool
  max_trains : Nat
  GetFreeUnitNumber : World → Nat
  DeleteVehicleOrders : World → Nat → World
  DC_EXEC : Nat
  VS_STOPPED : Nat
  CMD_ERROR : Int

/-- The macro `IS_FIRSTHEAD_SPRITE(spritenum)`. -/
def IS_FIRSTHEAD_SPRITE (cenv : CmdEnv) (spritenum : Nat) : Bool :=
  if cenv.is_custom_sprite spritenum then cenv.IS_CUSTOM_FIRSTHEAD_SPRITE spritenum
  else cenv.engine_sprite_add spritenum == 0

/-- The loop of `CheckTrainStoppedInDepot` with its counter. -/
def CheckTrainStoppedInDepot.loop (env : Env) (cenv : CmdEnv) (w : World) (tile : Nat) :
    Nat → Option Nat → Int → Option Int
  | _, none, count => some count
  | 0, some _, _ => none
  | fuel + 1, some v, count =>
    if (w v).rail.track ≠ 0x80 ∨ (w v).tile ≠ tile ∨
        ((w v).subtype = env.TS_Front_Engine ∧ ((w v).vehstatus &&& cenv.VS_STOPPED) = 0) then
      some (-1)
    else CheckTrainStoppedInDepot.loop env cenv w tile fuel (w v).next (count + 1)

/-- `CheckTrainStoppedInDepot(v)`: the number of units of the chain if all of
them are stopped inside the depot of `v`, else -1. -/
def CheckTrainStoppedInDepot (env : Env) (cenv : CmdEnv) (w : World) (v : Nat) (fuel : Nat) :
    Option Int :=
  let tile := (w v).tile
  -- check if stopped in a depot
  if cenv.IsTileDepotType tile = false ∨ (w v).cur_speed ≠ 0 then some (-1)
  else CheckTrainStoppedInDepot.loop env cenv w tile fuel (some v) 0

/-- The loop `for (u = first; u->next != v; u = u->next) {}`: the unit
before `v` on the walk from `u`; `none` when the walk runs into `NULL`. -/
def findPrev (w : World) (v : Nat) : Nat → Nat → Option Nat
  | 0, _ => none
  | fuel + 1, u =>
    match (w u).next with
    | none => none
    | some n => if n = v then some u else findPrev w v fuel n

/-- The loop `for (v = src; v->next != NULL; v = v->next) {}`: the last unit
of the chain of `v`. -/
def findLast (w : World) : Nat → Nat → Option Nat
  | 0, _ => none
  | fuel + 1, v =>
    match (w v).next with
    | none => some v
    | some n => findLast w fuel n

/-- `UnlinkWagon(v, first)`: unlink a rail wagon from the linked list; returns
the pool and the new value of `first`. -/
def UnlinkWagon (env : Env) (w : World) (v first : Nat) (fuel : Nat) :
    Option (World × Option Nat) :=
  -- unlinking the first vehicle of the chain?
  if v = first then
    match (w v).next with
    | none => some (w, none)
    | some n => some (w.set n { w n with subtype := env.TS_Free_Car }, some n)
  else
    match findPrev w v fuel first with
    | none => none
    | some u => some (w.set u { w u with next := (w v).next }, some first)

/-- The inner loop of `FindGoodVehiclePos`: do all vehicles in the line of
`v` have the engine `eng`. -/
def FindGoodVehiclePos.sameEngine (w : World) (eng : Nat) : Nat → Nat → Option Bool
  | 0, _ => none
  | fuel + 1, v =>
    if (w v).engine_type = eng then
      match (w v).next with
      | none => some true
      | some n => FindGoodVehiclePos.sameEngine w eng fuel n
    else some false

/-- The loop `FOR_ALL_VEHICLES(dst)` of `FindGoodVehiclePos`. -/
def FindGoodVehiclePos.scan (env : Env) (w : World) (src : Nat) (fuel : Nat) :
    List Nat → Option (Option Nat)
  | [] => some none
  | dst :: rest =>
    if (w dst).type = env.VEH_Train ∧ (w dst).subtype = env.TS_Free_Car ∧
        (w dst).tile = (w src).tile then
      -- check so all vehicles in the line have the same engine.
      match FindGoodVehiclePos.sameEngine w (w src).engine_type fuel dst with
      | none => none
      | some true => some (some dst)
      | some false => FindGoodVehiclePos.scan env w src fuel rest
    else FindGoodVehiclePos.scan env w src fuel rest

/-- `FindGoodVehiclePos(src)`: a free wagon line on the tile of `src` whose
vehicles all have the engine of `src`, or `NULL`. -/
def FindGoodVehiclePos (env : Env) (cenv : CmdEnv) (w : World) (src : Nat) (fuel : Nat) :
    Option (Option Nat) :=
  FindGoodVehiclePos.scan env w src fuel (cenv.allVehicles w)

/-- The loop that clears the `first` cache of a chain. -/
def clearFirst (w : World) : Nat → Option Nat → Option World
  | _, none => some w
  | 0, some _ => none
  | fuel + 1, some u => clearFirst (w.set u { w u with first := none }) fuel (w u).next

/-- The loop of `CmdMoveRailVehicle` that drags the destination back to the
first head of a multiheaded engine. -/
def dragToFirstHead (cenv : CmdEnv) (w : World) (src : Nat) : Nat → Nat → Option Nat
  | 0, _ => none
  | fuel + 1, dst =>
    if cenv.IS_CUSTOM_SECONDHEAD_SPRITE (w dst).spritenum = true ∨
        (cenv.is_custom_sprite (w dst).spritenum = false ∧
          cenv.engine_sprite_add (w dst).spritenum ≠ 0) then
      match cenv.GetPrevVehicleInChain w dst with
      | none => some dst
      | some v => if src = v then some dst else dragToFirstHead cenv w src fuel v
    else some dst

/-- `UpdateTrainAcceleration(v)`; both assertions fail into `none`. -/
def UpdateTrainAcceleration (env : Env) (w : World) (v : Nat) : Option World :=
  if (w v).subtype ≠ env.TS_Front_Engine then none
  else
    let weight := (w v).rail.cached_weight
    let power := (w v).rail.cached_power
    let w1 := w.set v { w v with max_speed := (w v).rail.cached_max_speed }
    if weight = 0 then none
    else
      let a := (power / weight * 4) % 4294967296
      let acc := if a ≥ 2147483648 then 1 else clamp a 1 255
      some (w1.set v { w1 v with acceleration := acc })

/-- The recalculation of one head after the move: `TrainConsistChanged` and,
for a front engine, `UpdateTrainAcceleration`.  The window invalidations are
outside the modelled state. -/
def CmdMoveRailVehicle.refresh (env : Env) (w : World) (head : Option Nat) (fuel : Nat) :
    Option World :=
  match head with
  | none => some w
  | some h =>
    match TrainConsistChanged env w h fuel with
    | none => none
    | some w1 =>
      if (w1 h).subtype = env.TS_Front_Engine then UpdateTrainAcceleration env w1 h
      else some w1

/-- The unlinking half of the `DC_EXEC` block of `CmdMoveRailVehicle`: returns
the pool and the new values of `src_head` and `dst_head`. -/
def CmdMoveRailVehicle.unlink (env : Env) (w : World) (p2 : Nat) (src src_head : Nat)
    (dst_head : Option Nat) (fuel : Nat) : Option (World × Option Nat × Option Nat) :=
  if HASBIT p2 0 then
    -- unlink ALL wagons
    if src ≠ src_head then
      match findPrev w src fuel src_head with
      | none => none
      | some v => some (w.set v { w v with next := none }, some src_head, dst_head)
    else some (w, none, dst_head)
  else
    -- if moving within the same chain, dont use dst_head as it may get invalidated
    let dst_head := if some src_head = dst_head then none else dst_head
    -- unlink single wagon from linked list
    match UnlinkWagon env w src src_head fuel with
    | none => none
    | some (w1, src_head) => some (w1.set src { w1 src with next := none }, src_head, dst_head)

/-- The linking half of the `DC_EXEC` block of `CmdMoveRailVehicle`: returns
the pool and the new value of `dst_head`. -/
def CmdMoveRailVehicle.link (env : Env) (cenv : CmdEnv) (w : World) (src : Nat)
    (dst dst_head : Option Nat) (is_loco : Bool) (fuel : Nat) :
    Option (World × Option Nat) :=
  match dst with
  | none =>
    -- move the train to an empty line. for locomotives, we set the type to 0. for wagons, 4.
    if is_loco then
      if (w src).subtype ≠ env.TS_Front_Engine then
        -- setting the type to 0 also involves setting up the orders field.
        if (w src).orders ≠ none then none
        else some (w.set src { w src with subtype := env.TS_Front_Engine, num_orders := 0 },
          some src)
      else some (w, some src)
    else some (w.set src { w src with subtype := env.TS_Free_Car }, some src)
  | some d =>
    let w1 :=
      if (w src).subtype = env.TS_Front_Engine then
        -- the vehicle was previously a loco. need to free the order list
        cenv.DeleteVehicleOrders w src
      else w
    -- doesn't occupy a unitnumber anymore.
    let w2 := w1.set src { w1 src with subtype := env.TS_Not_First, unitnumber := 0 }
    -- link in the wagon(s) in the chain.
    match findLast w2 fuel src with
    | none => none
    | some v =>
      let w3 := w2.set v { w2 v with next := (w2 d).next }
      some (w3.set d { w3 d with next := some src }, dst_head)

/-- The `DC_EXEC` block of `CmdMoveRailVehicle`. -/
def CmdMoveRailVehicle.exec (env : Env) (cenv : CmdEnv) (w : World) (p2 : Nat)
    (src : Nat) (dst : Option Nat) (src_head : Nat) (dst_head : Option Nat)
    (is_loco : Bool) (fuel : Nat) : Option World :=
  match CmdMoveRailVehicle.unlink env w p2 src src_head dst_head fuel with
  | none => none
  | some (w1, src_head, dst_head) =>
    match CmdMoveRailVehicle.link env cenv w1 src dst dst_head is_loco fuel with
    | none => none
    | some (w2, dst_head) =>
      match CmdMoveRailVehicle.refresh env w2 src_head fuel with
      | none => none
      | some w3 => CmdMoveRailVehicle.refresh env w3 dst_head fuel

/-- The destination of `CmdMoveRailVehicle` and the checks on it that follow
the location of the heads: returns the pool, the destination, its head, or a
return value of the command. -/
def CmdMoveRailVehicle.checkDst (env : Env) (cenv : CmdEnv) (w : World) (src src_head : Nat)
    (dst : Option Nat) (dst_head : Option Nat) (fuel : Nat) :
    Option (Option Nat ⊕ Int) :=
  match dst, dst_head with
  | some d, some dh =>
    match CheckTrainStoppedInDepot env cenv w dh fuel with
    | none => none
    | some num =>
      if num < 0 then some (Sum.inr cenv.CMD_ERROR)
      else if num > (if cenv.mammoth_trains then 100 else 9) ∧
          (w dh).subtype = env.TS_Front_Engine then some (Sum.inr cenv.CMD_ERROR)
      else
        -- if it's a multiheaded vehicle we're dragging to, drag to the vehicle before..
        match dragToFirstHead cenv w src fuel d with
        | none => none
        | some d1 =>
          if (w dh).tile ≠ (w src_head).tile then none
          else some (Sum.inl (some d1))
  | _, _ => some (Sum.inl dst)

/-- `CmdMoveRailVehicle(x, y, flags, p1, p2)`: move a rail vehicle around
inside the depot.  Returns the pool after the call and the return value.
The two heads are looked up in the pool before the reads, and `wr` is the
pool after them, with the `first` caches that the reads have refilled: a
cache that is not `NULL` holds the actual head, so that a refilled cache does
not change the head that the second read returns. -/
def CmdMoveRailVehicle (env : Env) (cenv : CmdEnv) (w : World) (flags p1 p2 : Nat)
    (fuel : Nat) : Option (World × Int) :=
  if cenv.IsVehicleIndex w (p1 &&& 0xFFFF) = false then some (w, cenv.CMD_ERROR)
  else
    let src := p1 &&& 0xFFFF
    if (w src).type ≠ env.VEH_Train then some (w, cenv.CMD_ERROR)
    else
      let is_loco : Bool :=
        decide (((env.RailVehInfo (w src).engine_type).flags &&& env.RVI_WAGON) = 0) &&
          IS_FIRSTHEAD_SPRITE cenv (w src).spritenum
      let hi := (p1 >>> 16) % 65536
      -- if nothing is selected as destination, try and find a matching vehicle to drag to.
      let dstOpt : Option (Option Nat) :=
        if hi = 0xFFFF then
          if is_loco then some none else FindGoodVehiclePos env cenv w src fuel
        else if hi < 0x8000 then some (some hi)
        else none
      match dstOpt with
      | none => none
      | some dst =>
        -- don't move the same vehicle..
        if some src = dst then some (w, 0)
        else if cenv.CheckOwnership (w src).owner = false ∨
            (match dst with
              | none => false
              | some d => !cenv.CheckOwnership (w d).owner) = true then
          some (w, cenv.CMD_ERROR)
        else
          -- locate the head of the two chains
          let src_head := env.GetFirstVehicleInChain w src
          let dst_head := dst.map (env.GetFirstVehicleInChain w)
          let wr :=
            match dst with
            | none => env.afterFirstRead w src
            | some d => env.afterFirstRead (env.afterFirstRead w src) d
          -- clear the ->first cache
          match clearFirst wr fuel (some src_head) with
          | none => none
          | some w1 =>
            match clearFirst w1 fuel dst_head with
            | none => none
            | some w2 =>
              -- check if all vehicles in the source train are stopped inside a depot
              match CheckTrainStoppedInDepot env cenv w2 src_head fuel with
              | none => none
              | some n =>
                if n < 0 then some (w2, cenv.CMD_ERROR)
                else
                  match CmdMoveRailVehicle.checkDst env cenv w2 src src_head dst dst_head fuel with
                  | none => none
                  | some (Sum.inr r) => some (w2, r)
                  | some (Sum.inl dst) =>
                    -- when moving all wagons, we can't have the same src_head and dst_head
                    if HASBIT p2 0 = true ∧ some src_head = dst_head then some (w2, 0)
                    else
                      -- moving a loco to a new line?, then we need to assign a unitnumber.
                      let newLoco : Bool := decide (dst = none ∧
                        (w2 src).subtype ≠ env.TS_Front_Engine ∧ is_loco = true)
                      if newLoco = true ∧ cenv.GetFreeUnitNumber w2 > cenv.max_trains then
                        some (w2, cenv.CMD_ERROR)
                      else
                        let w3 :=
                          if newLoco = true ∧ (flags &&& cenv.DC_EXEC) ≠ 0 then
                            w2.set src { w2 src with unitnumber := cenv.GetFreeUnitNumber w2 }
                          else w2
                        -- do it?
                        if (flags &&& cenv.DC_EXEC) ≠ 0 then
                          match CmdMoveRailVehicle.exec env cenv w3 p2 src dst src_head dst_head
                              is_loco fuel with
                          | none => none
                          | some w4 => some (w4, 0)
                        else some (w3, 0)

/-! ## Rail compatibility check -/

/-- The tile classes of tile.h that `train_cmd.c` names, and one constructor
for every other class. -/
inductive TileType where
  | MP_RAILWAY
  | MP_STATION
  | MP_TUNNELBRIDGE
  | MP_STREET
  | MP_OTHER (n : Nat)
deriving DecidableEq, Repr

/-- The tile grid as the train code reads it: the class of a tile, the map
arrays `_map5`, `_map3_lo`, `_map3_hi`, `_map_owner`, `_map2`, the slope query
(slope and height) and the slope predicate `CorrectZ`. -/
structure Map where
  GetTileType : Nat → TileType
  map5 : Nat → Nat
  map3_lo : Nat → Nat
  map3_hi : Nat → Nat
  map_owner : Nat → Nat
  GetTileSlope : Nat → Nat × Nat
  CorrectZ : Nat → Bool
  map2 : Nat → Nat := fun _ => 0

/-- The inline `IsTileOwner(tile, owner)`: the owner check against `_map_owner[tile]`. -/
def IsTileOwner (m : Map) (tile owner : Nat) : Bool := m.map_owner tile == owner

/-- `CheckCompatibleRail(v, tile)`: is the vehicle compatible with the tile. -/
def CheckCompatibleRail (env : Env) (m : Map) (v : Vehicle) (tile : Nat) : Bool :=
  let ownerCheck : Bool :=
    IsTileOwner m tile v.owner &&
      (v.subtype != env.TS_Front_Engine || (m.map3_lo tile &&& 0xF) == v.rail.railtype)
  match m.GetTileType tile with
  | TileType.MP_RAILWAY => ownerCheck
  | TileType.MP_STATION => ownerCheck
  | TileType.MP_TUNNELBRIDGE =>
    if (m.map5 tile &&& 0xC0) = 0xC0 then
      -- is bridge middle part?
      let tileh := (m.GetTileSlope tile).1
      let height := (m.GetTileSlope tile).2
      -- correct Z position of a train going under a bridge on slopes
      let height := if m.CorrectZ tileh then height + 8 else height
      if v.z_pos ≠ height then true -- train is going over bridge
      else ownerCheck
    else ownerCheck
  | TileType.MP_STREET =>
    IsTileOwner m tile v.owner &&
      (v.subtype != env.TS_Front_Engine || (m.map3_hi tile &&& 0xF) == v.rail.railtype)
  | TileType.MP_OTHER _ => true

/-- The argument record of the collision scan. -/
structure TrainCollideChecker where
  v : Nat
  v_skip : Option Nat

/-- The helper `myabs` on integers. -/
def myabs (x : Int) : Int := if x < 0 then -x else x

/-- `FindTrainCollideEnum(v, data)`: the candidate `v` if it collides with the
checked unit `tcc->v`, else `NULL`. -/
def FindTrainCollideEnum (env : Env) (w : World) (v : Nat) (tcc : TrainCollideChecker) :
    Option Nat :=
  if v ≠ tcc.v ∧
      some v ≠ tcc.v_skip ∧
      (w v).type = env.VEH_Train ∧
      (w v).rail.track ≠ 0x80 ∧
      myabs (((w v).z_pos : Int) - ((w tcc.v).z_pos : Int)) ≤ 6 ∧
      myabs ((w v).x_pos - (w tcc.v).x_pos) < 6 ∧
      myabs ((w v).y_pos - (w tcc.v).y_pos) < 6 then
    some v
  else none

/-- The loop `BEGIN_ENUM_WAGONS(v) v->vehstatus |= VS_CRASHED; END_ENUM_WAGONS(v)`,
a do-while over the chain that starts at `v`. -/
def SetVehicleCrashed.loop (env : Env) : Nat → Nat → World → Option World
  | 0, _, _ => none
  | fuel + 1, v, w =>
    let w1 := w.set v { w v with vehstatus := ((w v).vehstatus ||| env.VS_CRASHED) % 256 }
    match (w1 v).next with
    | none => some w1
    | some n => SetVehicleCrashed.loop env fuel n w1

/-- `SetVehicleCrashed(v)`: flag the whole consist of `v` as crashed, unless
its crash animation has already started. -/
def SetVehicleCrashed (env : Env) (w : World) (v : Nat) (fuel : Nat) : Option World :=
  if (w v).rail.crash_anim_pos ≠ 0 then some w
  else
    let w1 := w.set v { w v with rail := { (w v).rail with
      crash_anim_pos := ((w v).rail.crash_anim_pos + 1) % 65536 } }
    SetVehicleCrashed.loop env fuel v w1

/-- The do-while loop of `CountPassengersInTrain` with its accumulator `num`. -/
def CountPassengersInTrain.loop (env : Env) (w : World) : Nat → Nat → Nat → Option Nat
  | 0, _, _ => none
  | fuel + 1, v, num =>
    let num := if (w v).cargo_type = env.CT_PASSENGERS then num + (w v).cargo_count else num
    match (w v).next with
    | none => some num
    | some n => CountPassengersInTrain.loop env w fuel n num

/-- `CountPassengersInTrain(v)`: the passengers carried by the consist of `v`. -/
def CountPassengersInTrain (env : Env) (w : World) (v : Nat) (fuel : Nat) : Option Nat :=
  CountPassengersInTrain.loop env w fuel v 0

/-- The code of `CheckTrainCollision(v)` after the head `coll` of the unit
found by the scan has been looked up. -/
def CheckTrainCollision.struck (env : Env) (w : World) (v realcoll coll : Nat) (fuel : Nat) :
    Option (World × Option Nat) :=
  -- it can't collide with its own wagons
  if v = coll ∨ (((w v).rail.track &&& 0x40) ≠ 0 ∧
      ((w v).direction &&& 2) ≠ ((w realcoll).direction &&& 2)) then some (w, none)
  else
    -- two drivers + passangers killed in train v
    match CountPassengersInTrain env w v fuel with
    | none => none
    | some pv =>
      let num := 2 + pv
      let numOpt : Option Nat :=
        if ((w coll).vehstatus &&& env.VS_CRASHED) = 0 then
          -- two drivers + passangers killed in train coll (if it was not crashed already)
          match CountPassengersInTrain env w coll fuel with
          | none => none
          | some pc => some (num + (2 + pc))
        else some num
      match numOpt with
      | none => none
      | some num =>
        match SetVehicleCrashed env w v fuel with
        | none => none
        | some w1 =>
          if (w1 coll).subtype = env.TS_Front_Engine then
            match SetVehicleCrashed env w1 coll fuel with
            | none => none
            | some w2 => some (w2, some num)
          else some (w1, some num)

/-- `CheckTrainCollision(v)`: returns the pool after the call and, when a crash
is reported, the casualty number handed to the news item.  The station rating
change and the sound are outside the modelled state. -/
def CheckTrainCollision (env : Env) (w : World) (v : Nat) (fuel : Nat) :
    Option (World × Option Nat) :=
  -- can't collide in depot
  if (w v).rail.track = 0x80 then some (w, none)
  else if ¬ ((w v).rail.track = 0x40 ∨
      env.TILE_FROM_XY (w v).x_pos (w v).y_pos = (w v).tile) then none
  else
    let tcc : TrainCollideChecker := { v := v, v_skip := (w v).next }
    -- find colliding vehicle
    match env.VehicleFromPos w (env.TILE_FROM_XY (w v).x_pos (w v).y_pos)
        (fun u => FindTrainCollideEnum env w u tcc) with
    | none => some (w, none)
    | some realcoll =>
      let coll := env.GetFirstVehicleInChain w realcoll
      CheckTrainCollision.struck env (env.afterFirstRead w realcoll) v realcoll coll fuel

/-- The position scan of `CheckTrainCollision(v)` runs and returns the unit
`realcoll` of another consist: `v` is not in a depot, the position assertion
holds, the scan returns `realcoll`, and the head of `realcoll` is not `v`. -/
def ScanHit (env : Env) (w : World) (v realcoll : Nat) : Prop :=
  (w v).rail.track ≠ 0x80 ∧
  ((w v).rail.track = 0x40 ∨ env.TILE_FROM_XY (w v).x_pos (w v).y_pos = (w v).tile) ∧
  env.VehicleFromPos w (env.TILE_FROM_XY (w v).x_pos (w v).y_pos)
    (fun u => FindTrainCollideEnum env w u { v := v, v_skip := (w v).next }) = some realcoll ∧
  env.GetFirstVehicleInChain w realcoll ≠ v

instance ScanHit.instDecidable (env : Env) (w : World) (v realcoll : Nat) :
    Decidable (ScanHit env w v realcoll) := by
  unfold ScanHit
  infer_instance

/-- The exemption of `CheckTrainCollision` for a unit inside a tunnel: `v` has
the tunnel bit 0x40 in its track value and bit 1 of its direction differs from
that of the unit found. -/
def TunnelExempt (w : World) (v realcoll : Nat) : Prop :=
  ((w v).rail.track &&& 0x40) ≠ 0 ∧
    ((w v).direction &&& 2) ≠ ((w realcoll).direction &&& 2)

instance TunnelExempt.instDecidable (w : World) (v realcoll : Nat) :
    Decidable (TunnelExempt w v realcoll) := by
  unfold TunnelExempt
  infer_instance

/-- A unit carries the crashed flag. -/
def isCrashed (env : Env) (x : Vehicle) : Prop := (x.vehstatus &&& env.VS_CRASHED) ≠ 0

instance isCrashed.instDecidable (env : Env) (x : Vehicle) : Decidable (isCrashed env x) :=
  inferInstanceAs (Decidable ((x.vehstatus &&& env.VS_CRASHED) ≠ 0))

/-- The passengers carried by the units of the list `l`. -/
def passengers (env : Env) (w : World) (l : List Nat) : Nat :=
  (l.map (fun u => if (w u).cargo_type = env.CT_PASSENGERS then (w u).cargo_count else 0)).sum

/-- The casualty number as the specification words it: 2 plus the passengers
of each of the two consists that did not carry the crashed flag before. -/
def casualtiesClaimed (env : Env) (w : World) (lv lc : List Nat) (v coll : Nat) : Nat :=
  (if isCrashed env (w v) then 0 else 2 + passengers env w lv) +
  (if isCrashed env (w coll) then 0 else 2 + passengers env w lc)

/-! ## Reversal engine -/

/-- The presentation and tile-entry routines that the reversal calls in other
translation units: the image lookup, the position-changed notification (with
the begin and end of the vehicle move around it) and the tile-entry handler.
The level-crossing light that `ReverseTrainDirection` switches lives in the
tile grid and is outside the vehicle pool. -/
structure Hooks where
  GetTrainImage : World → Nat → Nat → Nat
  VehiclePositionChanged : World → Nat → World
  VehicleEnterTile : World → Nat → Nat → Int → Int → World

/-- The macro `MKIT(a, b, c, d)` packing four bytes into a 32-bit word. -/
def MKIT (a b c d : Int) : Nat :=
  ((a % 256).toNat <<< 24) ||| ((b % 256).toNat <<< 16) ||| ((c % 256).toNat <<< 8) |||
    (d % 256).toNat

/-- The table `_delta_xy_table` of `UpdateTrainDeltaXY`. -/
def _delta_xy_table : List Nat :=
  [MKIT 3 3 (-1) (-1), MKIT 3 7 (-1) (-3), MKIT 3 3 (-1) (-1), MKIT 7 3 (-3) (-1),
   MKIT 3 3 (-1) (-1), MKIT 3 7 (-1) (-3), MKIT 3 3 (-1) (-1), MKIT 7 3 (-3) (-1)]

/-- `UpdateTrainDeltaXY(v, direction)`: the sprite offsets and extents for a
direction in `0..7`. -/
def UpdateTrainDeltaXY (w : World) (v : Nat) (direction : Nat) : World :=
  let x := _delta_xy_table.getD direction 0
  w.set v { w v with x_offs := x % 256, y_offs := (x >>> 8) % 256, sprite_width := (x >>> 16) % 256, sprite_height := (x >>> 24) % 256 }

/-- `UpdateVarsAfterSwap(v)`: refresh offsets and image, announce the move. -/
def UpdateVarsAfterSwap (hooks : Hooks) (w : World) (v : Nat) : World :=
  let w1 := UpdateTrainDeltaXY w v (w v).direction
  let w2 := w1.set v { w1 v with cur_image := hooks.GetTrainImage w1 v (w1 v).direction }
  hooks.VehiclePositionChanged w2 v

/-- `SwapTrainFlags(&flag1, &flag2)` on two distinct flag bytes: returns the
new values of both. -/
def SwapTrainFlags (env : Env) (swap_flag1 swap_flag2 : Nat) : Nat × Nat :=
  let flag1 := swap_flag1
  let flag2 := swap_flag2
  -- Clear the flags
  let s1 := CLRBIT (CLRBIT swap_flag1 env.VRF_GOINGUP) env.VRF_GOINGDOWN
  let s2 := CLRBIT (CLRBIT swap_flag2 env.VRF_GOINGUP) env.VRF_GOINGDOWN
  -- Reverse the rail-flags (if needed)
  let s2 :=
    if HASBIT flag1 env.VRF_GOINGUP then SETBIT s2 env.VRF_GOINGDOWN
    else if HASBIT flag1 env.VRF_GOINGDOWN then SETBIT s2 env.VRF_GOINGUP
    else s2
  let s1 :=
    if HASBIT flag2 env.VRF_GOINGUP then SETBIT s1 env.VRF_GOINGDOWN
    else if HASBIT flag2 env.VRF_GOINGDOWN then SETBIT s1 env.VRF_GOINGUP
    else s1
  (s1, s2)

/-- The walk `for (a = v; l != 0; l--) a = a->next` of `ReverseTrainSwapVeh`;
`none` when it runs into `NULL`. -/
def nthNext (w : World) : Nat → Nat → Option Nat
  | 0, a => some a
  | l + 1, a =>
    match (w a).next with
    | none => none
    | some n => nthNext w l n

/-- The direction after the toggle `if (!(track & 0x80)) direction ^= 4`. -/
def toggleDirection (track direction : Nat) : Nat :=
  if (track &&& 0x80) = 0 then direction ^^^ 4 else direction

/-- The record of the unit `a` after the field exchanges of
`ReverseTrainSwapVeh` with the distinct unit `b`, given the old records `va`
and `vb` and the new flag byte of `a`. -/
def swappedRecord (env : Env) (va vb : Vehicle) (flags : Nat) : Vehicle :=
  { va with vehstatus := (va.vehstatus &&& (255 ^^^ env.VS_HIDDEN)) ||| (vb.vehstatus &&& env.VS_HIDDEN), direction := toggleDirection vb.rail.track vb.direction, x_pos := vb.x_pos, y_pos := vb.y_pos, tile := vb.tile, z_pos := vb.z_pos, rail := { va.rail with track := vb.rail.track, flags := flags } }

/-- `ReverseTrainSwapVeh(v, l, r)`: exchange the places of the units at the
positions `l` and `r` of the chain of `v`. -/
def ReverseTrainSwapVeh (env : Env) (hooks : Hooks) (w : World) (v l r : Nat) : Option World :=
  -- locate vehicles to swap
  match nthNext w l v, nthNext w r v with
  | some a, some b =>
    if a ≠ b then
      let fl := SwapTrainFlags env (w a).rail.flags (w b).rail.flags
      let w1 := (w.set a (swappedRecord env (w a) (w b) fl.1)).set b
        (swappedRecord env (w b) (w a) fl.2)
      -- update other vars
      let w2 := UpdateVarsAfterSwap hooks w1 a
      let w3 := UpdateVarsAfterSwap hooks w2 b
      let w4 := hooks.VehicleEnterTile w3 a (w3 a).tile (w3 a).x_pos (w3 a).y_pos
      some (hooks.VehicleEnterTile w4 b (w4 b).tile (w4 b).x_pos (w4 b).y_pos)
    else
      let w1 := w.set a { w a with direction := toggleDirection (w a).rail.track (w a).direction }
      let w2 := UpdateVarsAfterSwap hooks w1 a
      some (hooks.VehicleEnterTile w2 a (w2 a).tile (w2 a).x_pos (w2 a).y_pos)
  | _, _ => none

/-- Modelled from the spec: `CountVehiclesInChain` of vehicle.c, which is not
under src/; the number of units of the chain that starts at `v`, counted by the
do-while walk over `next`. -/
def CountVehiclesInChain (w : World) : Nat → Nat → Option Nat
  | 0, _ => none
  | fuel + 1, v =>
    match (w v).next with
    | none => some 1
    | some n => (CountVehiclesInChain w fuel n).map (fun c => c + 1)

/-- The call `TrainController(first)` repeated `n` times. -/
def repeatController (ctrl : World → Nat → Option World) (first : Nat) :
    Nat → World → Option World
  | 0, w => some w
  | n + 1, w =>
    match ctrl w first with
    | none => none
    | some w1 => repeatController ctrl first n w1

/-- The loop `while (length > 2)` of `AdvanceWagons`; `ctrl` stands for
`TrainController`. -/
def AdvanceWagons.loop (ctrl : World → Nat → Option World) (before : Bool) :
    Nat → Nat → Option Nat → Nat → World → Option World
  | 0, _, _, length, w => if length > 2 then none else some w
  | fuel + 1, base, first, length, w =>
    if length > 2 then
      match first with
      | none => none
      | some fst =>
        -- find pairwise matching wagon
        match nthNext w (length - 3) fst with
        | none => none
        | some last =>
          let differential : Int :=
            ((w last).rail.cached_veh_length : Int) - ((w base).rail.cached_veh_length : Int)
          let differential := if before then differential * (-1) else differential
          let moved : Option World :=
            if differential > 0 then
              -- disconnect last car to make sure only this subset moves
              let tempnext := (w last).next
              let w1 := w.set last { w last with next := none }
              match repeatController ctrl fst differential.toNat w1 with
              | none => none
              | some w2 => some (w2.set last { w2 last with next := tempnext })
            else some w
          match moved with
          | none => none
          | some w3 => AdvanceWagons.loop ctrl before fuel fst (w3 fst).next (length - 2) w3
    else some w

/-- `AdvanceWagons(v, before)`: the length compensation around a reversal. -/
def AdvanceWagons (ctrl : World → Nat → Option World) (w : World) (v : Nat) (before : Bool)
    (fuel : Nat) : Option World :=
  match CountVehiclesInChain w fuel v with
  | none => none
  | some length => AdvanceWagons.loop ctrl before fuel v (w v).next length w

/-- The loop `do r++; while ((u = u->next) != NULL)` of `ReverseTrainDirection`. -/
def ReverseTrainDirection.count (w : World) : Nat → Nat → Int → Option Int
  | 0, _, _ => none
  | fuel + 1, u, r =>
    match (w u).next with
    | none => some (r + 1)
    | some n => ReverseTrainDirection.count w fuel n (r + 1)

/-- The loop `do ReverseTrainSwapVeh(v, l++, r--); while (l <= r)`. -/
def ReverseTrainDirection.swaps (env : Env) (hooks : Hooks) (v : Nat) :
    Nat → Int → Int → World → Option World
  | 0, _, _, _ => none
  | fuel + 1, l, r, w =>
    match ReverseTrainSwapVeh env hooks w v l.toNat r.toNat with
    | none => none
    | some w1 =>
      if l + 1 ≤ r - 1 then ReverseTrainDirection.swaps env hooks v fuel (l + 1) (r - 1) w1
      else some w1

/-- `ReverseTrainDirection(v)` on the vehicle pool: reverse the consist of
`v` in place.  `ctrl` stands for `TrainController`, looked at without the
tile grid; `ReverseTrainDirection.onGrid` further down is the function with
the grid, and has the same pool when the calls of `TrainController` do not
hang on the grid. -/
def ReverseTrainDirection (env : Env) (hooks : Hooks) (ctrl : World → Nat → Option World)
    (w : World) (v : Nat) (fuel : Nat) : Option World :=
  -- count number of vehicles
  match ReverseTrainDirection.count w fuel v (-1) with
  | none => none
  | some r =>
    match AdvanceWagons ctrl w v true fuel with
    | none => none
    | some w1 =>
      -- swap start<>end, start+1<>end-1, ...
      match ReverseTrainDirection.swaps env hooks v fuel 0 r w1 with
      | none => none
      | some w2 =>
        match AdvanceWagons ctrl w2 v false fuel with
        | none => none
        | some w3 =>
          some (w3.set v { w3 v with rail := { (w3 v).rail with
            flags := CLRBIT (w3 v).rail.flags env.VRF_REVERSING } })

/-- The fields of a unit that the reversal claim is about: position, tile,
direction and occupied track. -/
structure Place where
  x_pos : Int
  y_pos : Int
  z_pos : Nat
  tile : Nat
  direction : Nat
  track : Nat
deriving DecidableEq, Repr

/-- The place of a vehicle record. -/
def Vehicle.place (x : Vehicle) : Place :=
  { x_pos := x.x_pos, y_pos := x.y_pos, z_pos := x.z_pos, tile := x.tile,
    direction := x.direction, track := x.rail.track }

/-- Two records agree in link, place and cached length. -/
def Vehicle.sameKey (x y : Vehicle) : Prop :=
  x.next = y.next ∧ x.place = y.place ∧ x.rail.cached_veh_length = y.rail.cached_veh_length

/-- The hooks leave the link, the place and the cached length of every unit
as they are. -/
def Hooks.KeepPlaces (hooks : Hooks) : Prop :=
  (∀ w u j, (hooks.VehiclePositionChanged w u j).sameKey (w j)) ∧
  (∀ w u t x y j, (hooks.VehicleEnterTile w u t x y j).sameKey (w j))

/-- Two pools agree in the link, place and cached length of every unit. -/
def SameKeys (w w1 : World) : Prop := ∀ j, (w1 j).sameKey (w j)

/-- A place after a reversal step: the direction is toggled unless the track
value has the bit 0x80. -/
def flipPlace (p : Place) : Place :=
  { p with direction := toggleDirection p.track p.direction }

/-- The record with every field the recalculator writes set to zero: two
records with the same image differ in recalculator caches only. -/
def Vehicle.eraseCaches (x : Vehicle) : Vehicle :=
  { x with rail := { x.rail with
      flags := 0, first_engine := 0, cached_max_speed := 0, cached_power := 0,
      cached_weight := 0, cached_veh_weight := 0, cached_veh_length := 0 } }

/-- Two pools that differ in recalculator caches only. -/
def SameUpToCaches (w w1 : World) : Prop :=
  ∀ j, (w1 j).eraseCaches = (w j).eraseCaches

/-- The engine-info speed limit of the unit `u`. -/
def unitMaxSpeed (env : Env) (w : World) (u : Nat) : Nat :=
  (env.RailVehInfo (w u).engine_type).max_speed

/-- The engine-info power of the unit `u`. -/
def unitPower (env : Env) (w : World) (u : Nat) : Nat :=
  (env.RailVehInfo (w u).engine_type).power

/-- The engine-info fields have the widths of `engine.h`: 16 bits for
`max_speed`, `power` and `pow_wag_power`, 8 bits for the others. -/
def Env.WellTyped (env : Env) : Prop :=
  ∀ e, (env.RailVehInfo e).max_speed < 65536 ∧ (env.RailVehInfo e).power < 65536 ∧
    (env.RailVehInfo e).pow_wag_power < 65536

/-- The record with the two weight caches set to zero: two records with the
same image differ in `cached_weight` and `cached_veh_weight` only. -/
def Vehicle.eraseWeights (x : Vehicle) : Vehicle :=
  { x with rail := { x.rail with cached_weight := 0, cached_veh_weight := 0 } }

/-- Two pools that differ in the weight caches only. -/
def SameUpToWeights (w w1 : World) : Prop :=
  ∀ j, (w1 j).eraseWeights = (w j).eraseWeights

/-! ## Concrete inputs -/

/-- An engine table with a locomotive (type 0: 40 t, power 1000, limit 100), a
plain wagon (type 1: 20 t, no limit), a slow wagon (type 2: limit 80) and a
powered-wagon set (types 3 and 4). -/
def exRailVehInfo (e : Nat) : RailVehicleInfo :=
  if e = 0 then { max_speed := 100, power := 1000, weight := 40 }
  else if e = 1 then { flags := 2, weight := 20 }
  else if e = 2 then { flags := 2, max_speed := 80, weight := 20 }
  else if e = 3 then { max_speed := 120, power := 2000, weight := 60,
                       pow_wag_power := 300, pow_wag_weight := 5 }
  else if e = 4 then { flags := 2, weight := 25, visual_effect := 16 }
  else {}

/-- The unit of a pool of 16 records whose `next` pointer is `v`, if any. -/
def exPrev (w : World) (v : Nat) : Option Nat :=
  (List.range 16).find? (fun u => (w u).next = some v)

/-- The head of the chain of `v` in a pool of 16 records, by walking back. -/
def exFirst (w : World) : Nat → Nat → Nat
  | 0, v => v
  | fuel + 1, v =>
    match exPrev w v with
    | none => v
    | some u => exFirst w fuel u

/-- A concrete environment: every cargo weighs 16 sixteenths of a ton per
unit, every wagon uses the override, no callback is implemented.  A head
lookup for a unit whose `first` cache does not point to a front engine fills
the cache of every unit of the chain when the head is a front engine. -/
def exEnv : Env where
  RailVehInfo := exRailVehInfo
  cargo_weights := fun _ => 16
  UsesWagonOverride := fun _ _ => true
  GetCallBackResult := fun _ _ _ _ => 65535
  VEH_Train := 16
  TS_Front_Engine := 0
  TS_Not_First := 2
  TS_Free_Car := 4
  INVALID_VEHICLE := 65535
  RVI_WAGON := 2
  CBM_WAGON_POWER := 0
  CBM_VEH_LENGTH := 1
  CBID_WAGON_POWER := 16
  CBID_VEH_LENGTH := 17
  CALLBACK_FAILED := 65535
  VRF_POWEREDWAGON := 3
  VRF_REVERSING := 0
  VRF_GOINGUP := 1
  VRF_GOINGDOWN := 2
  VS_HIDDEN := 1
  VS_CRASHED := 128
  CT_PASSENGERS := 0
  TILE_FROM_XY := fun x y => (y / 16).toNat * 256 + (x / 16).toNat
  VehicleFromPos := fun _ _ proc => (List.range 16).findSome? proc
  GetFirstVehicleInChain := fun w u => exFirst w 16 u
  FirstCacheAfter := fun w v u =>
    if ((w v).first.map (fun f => (w f).subtype)) = some 0 then (w u).first
    else if (w (exFirst w 16 v)).subtype = 0 ∧ exFirst w 16 u = exFirst w 16 v then
      some (exFirst w 16 v)
    else (w u).first

/-- The three-unit train of the scenario: an engine of 40 t and power 1000
followed by two empty wagons of 20 t. -/
def exTrain : World := fun i =>
  if i = 0 then { type := 16, subtype := 0, engine_type := 0, next := some 1 }
  else if i = 1 then { type := 16, subtype := 2, engine_type := 1, next := some 2 }
  else if i = 2 then { type := 16, subtype := 2, engine_type := 2, next := none }
  else {}

/-- A two-unit train with a powered wagon carrying 30 units of cargo. -/
def exPowered : World := fun i =>
  if i = 0 then { type := 16, subtype := 0, engine_type := 3, next := some 1 }
  else if i = 1 then { type := 16, subtype := 2, engine_type := 4, next := none,
                       cargo_count := 30 }
  else {}

/-- A single engine of 40 t whose 16-bit cargo counter is at its maximum. -/
def exHeavy : World := fun i =>
  if i = 0 then { type := 16, subtype := 0, engine_type := 0, next := none,
                  cargo_count := 65535 }
  else {}

/-- The weight of the unit `u` as the specification words it, over the natural
numbers: engine weight, plus cargo weight times cargo count over 16, plus the
powered-wagon weight of the head engine if the unit is flagged. -/
def unitWeightExact (env : Env) (w : World) (v u : Nat) : Nat :=
  (env.RailVehInfo (w u).engine_type).weight +
    (env.cargo_weights (w u).cargo_type * (w u).cargo_count) / 16 +
    if HASBIT (w u).rail.flags env.VRF_POWEREDWAGON = true
    then (env.RailVehInfo (w v).engine_type).pow_wag_weight else 0

/-- The weight caches of the chain `l` of the head `v` hold the exact unit
weights and their exact sum. -/
def WeightCachesExact (env : Env) (w : World) (v : Nat) (l : List Nat) : Prop :=
  (∀ u ∈ l, (w u).rail.cached_veh_weight = unitWeightExact env w v u) ∧
  (w v).rail.cached_weight = (l.map (fun u => (w u).rail.cached_veh_weight)).sum

/-- The weight caches of the chain `l` of the head `v` hold the unit weights
and the sum of the cached unit weights, each reduced modulo 2^16. -/
def WeightCachesMod (env : Env) (w : World) (v : Nat) (l : List Nat) : Prop :=
  (∀ u ∈ l, (w u).rail.cached_veh_weight = unitWeightExact env w v u % 65536) ∧
  (w v).rail.cached_weight = (l.map (fun u => (w u).rail.cached_veh_weight)).sum % 65536

/-- A grid with a bridge middle part at tile 5 (ground height 0, owner 1, plain
rail type) and a plain railway tile of owner 0 elsewhere. -/
def exMap : Map where
  GetTileType := fun t => if t = 5 then TileType.MP_TUNNELBRIDGE else TileType.MP_RAILWAY
  map5 := fun t => if t = 5 then 0xC0 else 0
  map3_lo := fun _ => 0
  map3_hi := fun _ => 0
  map_owner := fun t => if t = 5 then 1 else 0
  GetTileSlope := fun _ => (0, 0)
  CorrectZ := fun _ => false

/-- Two trains on the same tile: train A is the units 0 and 1 with 10
passengers, train B the units 2 and 3 with 5 passengers; the head of B lies
two x units from the head of A. -/
def exCollide : World := fun i =>
  if i = 0 then { type := 16, subtype := 0, next := some 1, tile := 1542,
                  x_pos := 100, y_pos := 100, rail := { track := 1 } }
  else if i = 1 then { type := 16, subtype := 2, next := none, tile := 1541,
                       x_pos := 90, y_pos := 100, cargo_type := 0, cargo_count := 10,
                       rail := { track := 1 } }
  else if i = 2 then { type := 16, subtype := 0, next := some 3, tile := 1542,
                       x_pos := 102, y_pos := 100, direction := 4, rail := { track := 1 } }
  else if i = 3 then { type := 16, subtype := 2, next := none, tile := 1542,
                       x_pos := 110, y_pos := 100, direction := 4, cargo_type := 0,
                       cargo_count := 5, rail := { track := 1 } }
  else {}

/-- Two single engines inside crossing tunnels: both have the tunnel track
value 0x40 and the same position, their directions 1 and 3 are perpendicular. -/
def exTunnel : World := fun i =>
  if i = 0 then { type := 16, subtype := 0, next := none, tile := 1542,
                  x_pos := 100, y_pos := 100, direction := 1, rail := { track := 64 } }
  else if i = 2 then { type := 16, subtype := 0, next := none, tile := 1542,
                       x_pos := 100, y_pos := 100, direction := 3, rail := { track := 64 } }
  else {}

/-- The trains of `exCollide` when train A carries the crashed flag and a
running crash animation before the call. -/
def exCrashedHit : World := fun i =>
  if i = 0 then
    { (exCollide 0) with vehstatus := 128, rail := { track := 1, crash_anim_pos := 5 } }
  else if i = 1 then { (exCollide 1) with vehstatus := 128 }
  else exCollide i

/-- Hooks that only record an image number. -/
def exHooks : Hooks where
  GetTrainImage := fun _ _ direction => 100 + direction
  VehiclePositionChanged := fun w _ => w
  VehicleEnterTile := fun w _ _ _ _ => w

/-- A train of three units of equal length standing on a straight line,
heading in direction 1. -/
def exLine : World := fun i =>
  if i = 0 then { type := 16, subtype := 0, next := some 1, tile := 10, x_pos := 48,
                  y_pos := 8, z_pos := 0, direction := 1,
                  rail := { track := 1, cached_veh_length := 8 } }
  else if i = 1 then { type := 16, subtype := 2, next := some 2, tile := 9, x_pos := 40,
                       y_pos := 8, z_pos := 0, direction := 1,
                       rail := { track := 1, cached_veh_length := 8 } }
  else if i = 2 then { type := 16, subtype := 2, next := none, tile := 9, x_pos := 32,
                       y_pos := 8, z_pos := 0, direction := 1,
                       rail := { track := 1, cached_veh_length := 8 } }
  else {}

/-- Two pools agree in the link, the type and the subtype of every unit. -/
def SameLinks (w w1 : World) : Prop :=
  ∀ j, (w1 j).next = (w j).next ∧ (w1 j).type = (w j).type ∧ (w1 j).subtype = (w j).subtype

/-- The order list disposal leaves links, types and subtypes alone. -/
def CmdEnv.DeleteKeepsLinks (cenv : CmdEnv) : Prop :=
  ∀ w u, SameLinks w (cenv.DeleteVehicleOrders w u)

/-- The head invariant on one chain: its first unit is a front engine or a
free car and all its other units are not-first. -/
def HeadOK (env : Env) (w : World) (c : List Nat) : Prop :=
  ∀ h t, c = h :: t →
    ((w h).subtype = env.TS_Front_Engine ∨ (w h).subtype = env.TS_Free_Car) ∧
    ∀ u ∈ t, (w u).subtype = env.TS_Not_First

/-- A vehicle state described by the list `cs` of its chains: every list is
the walk over `next` from its first unit to `NULL`, and no unit occurs twice,
neither within a chain (no cycle) nor in two chains (no unit is reachable
from two heads).  An empty list stands for no chain. -/
def WellFormedChains (w : World) (cs : List (List Nat)) : Prop :=
  (∀ c ∈ cs, IsChain w c.head? c) ∧ cs.flatten.Nodup

/-- The head invariant on every chain of the state. -/
def HeadInvariant (env : Env) (w : World) (cs : List (List Nat)) : Prop :=
  ∀ c ∈ cs, HeadOK env w c

/-- Modelled from the spec: `GetFirstVehicleInChain` of vehicle.c returns the
first unit of the chain of its argument, for every unit of the chains `cs`. -/
def Env.FirstIsHead (env : Env) (w : World) (cs : List (List Nat)) : Prop :=
  ∀ c ∈ cs, ∀ u ∈ c, some (env.GetFirstVehicleInChain w u) = c.head?

/-- Modelled from the spec: `GetPrevVehicleInChain` of vehicle.c reads nothing
but links, types and subtypes, and a unit it returns links to its argument
and is a unit of the chain of its argument. -/
def CmdEnv.PrevInChain (cenv : CmdEnv) (w : World) (cs : List (List Nat)) : Prop :=
  ∀ wx, SameLinks w wx → ∀ c ∈ cs, ∀ u ∈ c, ∀ v,
    cenv.GetPrevVehicleInChain wx u = some v → v ∈ c ∧ (wx v).next = some u

/-- The chains `cs` contain every vehicle that the call with the parameter
`p1` can name: the source if it is a train of the pool, the destination if
one is given, and every train that `FOR_ALL_VEHICLES` visits. -/
def CoversCall (env : Env) (cenv : CmdEnv) (w : World) (cs : List (List Nat)) (p1 : Nat) :
    Prop :=
  (cenv.IsVehicleIndex w (p1 &&& 0xFFFF) = true → (w (p1 &&& 0xFFFF)).type = env.VEH_Train →
    (p1 &&& 0xFFFF) ∈ cs.flatten) ∧
  ((p1 >>> 16) % 65536 < 0x8000 → (p1 >>> 16) % 65536 ∈ cs.flatten) ∧
  (∀ u ∈ cenv.allVehicles w, (w u).type = env.VEH_Train → u ∈ cs.flatten)

/-- The chains `old` of the state `cs` of the pool `w` have been rearranged
into the chains `new` of the pool `w1`, over the same units; the other chains
`rest`, and every unit outside `old`, keep link and subtype. -/
def Rearranged (env : Env) (w w1 : World) (cs old new rest : List (List Nat)) : Prop :=
  cs.Perm (old ++ rest) ∧ (∀ c ∈ new, IsChain w1 c.head? c) ∧
  new.flatten.Perm old.flatten ∧
  (∀ j, j ∉ old.flatten → (w1 j).next = (w j).next ∧ (w1 j).subtype = (w j).subtype) ∧
  (∀ j, (w1 j).type = (w j).type) ∧
  ((∀ c ∈ old, HeadOK env w c) → ∀ c ∈ new, HeadOK env w1 c)

/-- A concrete command environment over a pool of 16 records: the player is
owner 0, sprite numbers with an odd table entry are second heads, tile 5 is
the depot, and the order list disposal clears the order fields. -/
def exCmdEnv : CmdEnv where
  IsVehicleIndex := fun _ i => decide (i < 16)
  CheckOwnership := fun o => o == 0
  is_custom_sprite := fun _ => false
  IS_CUSTOM_FIRSTHEAD_SPRITE := fun _ => false
  IS_CUSTOM_SECONDHEAD_SPRITE := fun _ => false
  engine_sprite_add := fun s => s % 2
  allVehicles := fun _ => List.range 16
  GetPrevVehicleInChain := exPrev
  IsTileDepotType := fun t => t == 5
  mammoth_trains := false
  max_trains := 80
  GetFreeUnitNumber := fun _ => 2
  DeleteVehicleOrders := fun w u => w.set u { w u with orders := none, num_orders := 0 }
  DC_EXEC := 1
  VS_STOPPED := 2
  CMD_ERROR := -2147483648

/-- A depot on tile 5 holding a stopped train of an engine and two wagons
(units 0, 1, 2) and a line of two free wagons (units 3, 4). -/
def exDepot : World := fun i =>
  if i = 0 then { type := 16, subtype := 0, engine_type := 0, next := some 1, tile := 5,
                  vehstatus := 2, unitnumber := 1, rail := { track := 128 } }
  else if i = 1 then { type := 16, subtype := 2, engine_type := 1, next := some 2, tile := 5,
                       rail := { track := 128 } }
  else if i = 2 then { type := 16, subtype := 2, engine_type := 2, next := none, tile := 5,
                       rail := { track := 128 } }
  else if i = 3 then { type := 16, subtype := 4, engine_type := 1, next := some 4, tile := 5,
                       rail := { track := 128 } }
  else if i = 4 then { type := 16, subtype := 2, engine_type := 1, next := none, tile := 5,
                       rail := { track := 128 } }
  else {}

/-! ## Second part: track choice, acceleration, movement -/

/-- The hooks leave the status byte of every unit as it is. -/
def Hooks.KeepStatus (hooks : Hooks) : Prop :=
  (∀ w u j, (hooks.VehiclePositionChanged w u j).vehstatus = (w j).vehstatus) ∧
  (∀ w u t x y j, (hooks.VehicleEnterTile w u t x y j).vehstatus = (w j).vehstatus)

/-- A visible engine on a plain track followed by a hidden wagon inside a
tunnel (track value 0x40), both heading in direction 1. -/
def exTunnelSwap : World := fun i =>
  if i = 0 then { type := 16, subtype := 0, next := some 1, tile := 10, x_pos := 48, y_pos := 8, z_pos := 0, direction := 1, vehstatus := 2, rail := { track := 1 } }
  else if i = 1 then { type := 16, subtype := 2, next := none, tile := 9, x_pos := 40, y_pos := 8, z_pos := 0, direction := 1, vehstatus := 1, rail := { track := 64 } }
  else {}

/-- What the swap leaves in the record `x` of a unit whose old record is
`self`, after the exchange with a unit whose old record is `other`: the
track value, position and tile of the other, its hidden bit next to the own
other status bits, and its direction, turned unless its track value has the
bit 0x80. -/
def TookPlaceOf (env : Env) (x self other : Vehicle) : Prop :=
  x.rail.track = other.rail.track ∧ x.x_pos = other.x_pos ∧ x.y_pos = other.y_pos ∧
  x.z_pos = other.z_pos ∧ x.tile = other.tile ∧
  x.vehstatus &&& env.VS_HIDDEN = other.vehstatus &&& env.VS_HIDDEN ∧
  x.vehstatus &&& (255 ^^^ env.VS_HIDDEN) = self.vehstatus &&& (255 ^^^ env.VS_HIDDEN) ∧
  x.direction = (if other.rail.track &&& 0x80 = 0 then other.direction ^^^ 4
    else other.direction)

/-! ### Track choice -/

/-- Modelled from the spec: the table `_ffb_64` behind the macros
`FIND_FIRST_BIT` and `KILL_FIRST_BIT` of macros.h, which is not under src/.
For a value below 64 the first half holds the position of its lowest set bit
(0 for the value 0) and the second half the value with that bit cleared. -/
def _ffb_64 : List Nat :=
  (List.range 64).map (fun x => ((List.range 6).find? (fun i => x.testBit i)).getD 0) ++
    (List.range 64).map (fun x => x &&& (x - 1))

/-- The macro `FIND_FIRST_BIT(x)`, the table entry `_ffb_64[x]`. -/
def FIND_FIRST_BIT (x : Nat) : Nat := _ffb_64.getD x 0

/-- The macro `KILL_FIRST_BIT(x)`, the table entry `_ffb_64[x + 64]`. -/
def KILL_FIRST_BIT (x : Nat) : Nat := _ffb_64.getD (x + 64) 0

/-- The record `TrainTrackFollowerData`. -/
structure TrainTrackFollowerData where
  dest_coords : Nat := 0
  station_index : Nat := 0
  best_bird_dist : Nat := 0
  best_track_dist : Nat := 0
  best_track : Nat := 0
deriving DecidableEq, Repr

/-- The type `TPFEnumProc` of the callback of the track pathfinder, with the
two bytes behind `state` passed in and handed back. -/
abbrev TPFEnumProc :=
  Nat → TrainTrackFollowerData → Nat → Nat → Nat × Nat → Bool × TrainTrackFollowerData × (Nat × Nat)

/-- What the track choice takes from other translation units: the three
pathfinding settings, constants, the two signal tables and the distance of
map.h, the tile offset of a direction, the track direction of a vehicle, the
best track direction found by `NPFRouteToStationOrTile` (for the order data
of the vehicle, a tile and a track direction), and `NewTrainPathfind`, which
runs a callback over the tiles it visits and returns the data record. -/
structure PathEnv where
  new_pathfinding_all : Bool
  new_pathfinding : Bool
  forbid_90_deg : Bool
  INVALID_STATION : Nat
  OT_GOTO_STATION : Nat
  _signal_along_trackdir : Nat → Nat
  _signal_against_trackdir : Nat → Nat
  DistanceManhattan : Nat → Nat → Nat
  TileOffsByDir : Nat → Int
  GetVehicleTrackdir : World → Nat → Nat
  NPFRouteToStationOrTile : Map → World → Nat → Nat → Nat → Nat
  NewTrainPathfind : Map → Nat → Nat → TPFEnumProc → TrainTrackFollowerData →
    TrainTrackFollowerData

/-- A tile index moved by a signed offset, in `uint` arithmetic. -/
def tileAdd (tile : Nat) (diff : Int) : Nat := (((tile : Int) + diff) % 4294967296).toNat

/-- The signal test at the head of `TrainTrackFollower`: `none` when the
callback returns true at once, else the two state bytes to go on with. -/
def TrainTrackFollower.signal (penv : PathEnv) (m : Map) (tile track : Nat)
    (state : Nat × Nat) : Option (Nat × Nat) :=
  if m.GetTileType tile = TileType.MP_RAILWAY ∧ (m.map5 tile &&& 0xC0) = 0x40 then
    -- the tile has a signal
    let m3 := m.map3_lo tile
    if (m3 &&& penv._signal_along_trackdir track) = 0 then
      -- if one way signal not pointing towards us, stop going in this direction.
      if (m3 &&& penv._signal_against_trackdir track) ≠ 0 then none else some state
    else if (m.map2 tile &&& penv._signal_along_trackdir track) ≠ 0 then
      -- green signal in our direction. either one way or two way.
      some (1, state.2)
    else if (m3 &&& penv._signal_against_trackdir track) ≠ 0 then
      -- two way signal. unless we passed another green signal on the way,
      -- stop going in this direction.
      if state.1 = 0 then none else some state
    else some state
  else some state

/-- `TrainTrackFollower(tile, ttfd, track, length, state)`. -/
def TrainTrackFollower (penv : PathEnv) (m : Map) : TPFEnumProc :=
  fun tile ttfd _track length state =>
  match TrainTrackFollower.signal penv m tile _track state with
  | none => (true, ttfd, state)
  | some state =>
    -- heading for nowhere?
    if ttfd.dest_coords = 0 then (false, ttfd, state)
    -- did we reach the final station?
    else if (ttfd.station_index = penv.INVALID_STATION ∧ tile = ttfd.dest_coords) ∨
        (m.GetTileType tile = TileType.MP_STATION ∧ m.map5 tile < 8 ∧
          m.map2 tile = ttfd.station_index) then
      -- found station
      let ttfd := { ttfd with best_bird_dist := 0 }
      let ttfd :=
        if length < ttfd.best_track_dist then { ttfd with best_track_dist := length, best_track := state.2 }
        else ttfd
      (true, ttfd, state)
    else
      -- we've actually found the destination already.
      if ttfd.best_track_dist ≠ 4294967295 then (decide (length ≥ ttfd.best_track_dist), ttfd, state)
      else
        -- didn't find station
        let dist := penv.DistanceManhattan tile ttfd.dest_coords
        let ttfd :=
          if dist < ttfd.best_bird_dist then { ttfd with best_bird_dist := dist, best_track := state.2 }
          else ttfd
        (false, ttfd, state)

/-- `FillWithStationData(fd, v)`. -/
def FillWithStationData (penv : PathEnv) (fd : TrainTrackFollowerData) (x : Vehicle) :
    TrainTrackFollowerData :=
  let fd := { fd with dest_coords := x.dest_tile }
  if x.current_order.type = penv.OT_GOTO_STATION then
    { fd with station_index := x.current_order.station }
  else { fd with station_index := penv.INVALID_STATION }

/-- The table `_search_directions`. -/
def _search_directions : List (List Nat) :=
  [[0, 9, 2, 9], -- track 1
   [9, 1, 9, 3], -- track 2
   [9, 0, 3, 9], -- track upper
   [1, 9, 9, 2], -- track lower
   [3, 2, 9, 9], -- track left
   [9, 9, 1, 0]] -- track right

/-- The table `_pick_track_table`. -/
def _pick_track_table : List Nat := [1, 3, 2, 2, 0, 0]

/-- The comparison of the candidate `i` with the best track so far in the
original pathfinding: true for the label `good`, false for `bad`.  `random` is
the value that the call of `Random()` returns. -/
def ChooseTrainTrack.better (fd : TrainTrackFollowerData) (i best_track : Nat)
    (best_bird_dist best_track_dist train_dir random : Nat) : Bool :=
  if best_track ≠ 4294967295 then
    let tie : Bool :=
      -- if we reach this position, there's two paths of equal value so far.
      -- pick one randomly.
      let r : Int := ((random % 256 : Nat) : Int)
      let r := if _pick_track_table.getD i 0 = train_dir then r + 80 else r
      let r := if _pick_track_table.getD best_track 0 = train_dir then r - 80 else r
      if r ≤ 127 then false else true
    if best_track_dist = 4294967295 then
      if fd.best_track_dist = 4294967295 then
        -- neither reached the destination, pick the one with the smallest bird dist
        if fd.best_bird_dist > best_bird_dist then false
        else if fd.best_bird_dist < best_bird_dist then true
        else tie
      else
        -- we found the destination for the first time
        true
    else
      if fd.best_track_dist = 4294967295 then
        -- didn't find destination, but we've found the destination previously
        false
      else
        -- both old & new reached the destination, compare track length
        if fd.best_track_dist > best_track_dist then false
        else if fd.best_track_dist < best_track_dist then true
        else tie
  else true

/-- Does the comparison of the candidate `i` reach the call of `Random()`. -/
def ChooseTrainTrack.draws (fd : TrainTrackFollowerData)
    (best_track best_bird_dist best_track_dist : Nat) : Bool :=
  decide (best_track ≠ 4294967295) &&
    (if best_track_dist = 4294967295 then
      decide (fd.best_track_dist = 4294967295 ∧ fd.best_bird_dist = best_bird_dist)
    else decide (fd.best_track_dist ≠ 4294967295 ∧ fd.best_track_dist = best_track_dist))

/-- The loop `do ... while (bits != 0)` of the original pathfinding.  `rnd k`
is the value of the `k`-th call of `Random()`; the loop returns the local
`best_track`. -/
def ChooseTrainTrack.loop (penv : PathEnv) (m : Map) (tile enterdir train_dir : Nat)
    (rnd : Nat → Nat) :
    Nat → Nat → TrainTrackFollowerData → Nat → Nat → Nat → Nat → Option Nat
  | 0, _, _, _, _, _, _ => none
  | fuel + 1, bits, fd, best_track, best_bird_dist, best_track_dist, k =>
    let i := FIND_FIRST_BIT bits
    let bits := KILL_FIRST_BIT bits
    let fd := { fd with best_bird_dist := 4294967295, best_track_dist := 4294967295 }
    let fd := penv.NewTrainPathfind m tile ((_search_directions.getD i []).getD enterdir 0)
      (TrainTrackFollower penv m) fd
    let good := ChooseTrainTrack.better fd i best_track best_bird_dist best_track_dist
      train_dir (rnd k)
    let k := if ChooseTrainTrack.draws fd best_track best_bird_dist best_track_dist then k + 1
      else k
    let best_track := if good then i else best_track
    let best_bird_dist := if good then fd.best_bird_dist else best_bird_dist
    let best_track_dist := if good then fd.best_track_dist else best_track_dist
    if bits ≠ 0 then
      ChooseTrainTrack.loop penv m tile enterdir train_dir rnd fuel bits fd best_track
        best_bird_dist best_track_dist k
    else some best_track

/-- `ChooseTrainTrack(v, tile, enterdir, trackbits)`: choose a track.  The
three assertions fail into `none`; `rnd` gives the values of the successive
calls of `Random()`. -/
def ChooseTrainTrack (penv : PathEnv) (m : Map) (w : World) (rnd : Nat → Nat)
    (v tile enterdir trackbits : Nat) (fuel : Nat) : Option Nat :=
  let bits := trackbits % 256
  if bits / 64 ≠ 0 then none
  -- quick return in case only one possible track is available
  else if KILL_FIRST_BIT bits = 0 then some (FIND_FIRST_BIT bits)
  else if penv.new_pathfinding_all then
    -- Use a new pathfinding for everything
    -- The enterdir for the new tile, is the exitdir for the old tile
    let trackdir := penv.GetVehicleTrackdir w v
    if trackdir = 0xff then none
    else
      let best_trackdir := penv.NPFRouteToStationOrTile m w v
        (tileAdd tile (- penv.TileOffsByDir enterdir)) trackdir
      if best_trackdir = 0xff then
        -- We are already at our target. Just do something
        some (FIND_FIRST_BIT bits)
      else
        -- Discard enterdir information, making it a normal track
        some (best_trackdir &&& 7)
  else
    let fd := FillWithStationData penv {} (w v)
    if penv.new_pathfinding then
      -- New train pathfinding
      let fd := { fd with best_bird_dist := 4294967295, best_track_dist := 4294967295, best_track := 0xFF }
      let fd := penv.NewTrainPathfind m (tileAdd tile (- penv.TileOffsByDir enterdir)) enterdir
        (TrainTrackFollower penv m) fd
      if fd.best_track = 0xff then some (FIND_FIRST_BIT bits)
      else some (fd.best_track &&& 7)
    else
      -- Original pathfinding
      let train_dir := (w v).direction &&& 3
      match ChooseTrainTrack.loop penv m tile enterdir train_dir rnd fuel bits fd 4294967295 0 0 0 with
      | none => none
      | some best_track => if best_track = 4294967295 then none else some (best_track % 256)

/-- The number of candidate tracks in a bitset of the six track bits. -/
def trackCount (bits : Nat) : Nat := ((List.range 6).filter (fun i => bits.testBit i)).length

/-- The pathfinder names a candidate: under the new pathfinding for
everything the train has a track direction and the route search reports no
direction (0xff) or one whose low three bits are a candidate track; under the
new train pathfinding the search leaves 0xff or such a track in the data
record.  The original pathfinding needs nothing. -/
def PathfinderNamesCandidate (penv : PathEnv) (m : Map) (w : World)
    (v tile enterdir bits : Nat) : Prop :=
  (penv.new_pathfinding_all = true →
    penv.GetVehicleTrackdir w v ≠ 0xff ∧
    (penv.NPFRouteToStationOrTile m w v (tileAdd tile (- penv.TileOffsByDir enterdir))
        (penv.GetVehicleTrackdir w v) = 0xff ∨
      bits.testBit (penv.NPFRouteToStationOrTile m w v
        (tileAdd tile (- penv.TileOffsByDir enterdir))
        (penv.GetVehicleTrackdir w v) &&& 7) = true)) ∧
  (penv.new_pathfinding_all = false → penv.new_pathfinding = true →
    ((penv.NewTrainPathfind m (tileAdd tile (- penv.TileOffsByDir enterdir)) enterdir
        (TrainTrackFollower penv m)
        { FillWithStationData penv {} (w v) with best_bird_dist := 4294967295, best_track_dist := 4294967295, best_track := 0xFF }).best_track = 0xff ∨
      bits.testBit ((penv.NewTrainPathfind m (tileAdd tile (- penv.TileOffsByDir enterdir))
        enterdir (TrainTrackFollower penv m)
        { FillWithStationData penv {} (w v) with best_bird_dist := 4294967295, best_track_dist := 4294967295, best_track := 0xFF }).best_track &&& 7) = true))

/-- A concrete track choice environment: the original pathfinding, whose
search finds nothing (it hands the data record back unchanged). -/
def exPathEnv : PathEnv where
  new_pathfinding_all := false
  new_pathfinding := false
  forbid_90_deg := false
  INVALID_STATION := 65535
  OT_GOTO_STATION := 1
  _signal_along_trackdir := fun _ => 0
  _signal_against_trackdir := fun _ => 0
  DistanceManhattan := fun a b => if a ≤ b then b - a else a - b
  TileOffsByDir := fun d => if d = 0 then -1 else if d = 1 then 256 else if d = 2 then 1 else -256
  GetVehicleTrackdir := fun _ _ => 0
  NPFRouteToStationOrTile := fun _ _ _ _ _ => 0xff
  NewTrainPathfind := fun _ _ _ _ fd => fd

/-- The new pathfinding for everything with a route search that always
reports the track direction 5. -/
def exPathEnvNPF : PathEnv :=
  { exPathEnv with new_pathfinding_all := true, NPFRouteToStationOrTile := fun _ _ _ _ _ => 5 }

/-! ### Acceleration -/

/-- What the acceleration model takes from other translation units: the
setting `_patches.new_nonstop`, the order flag `OF_NON_STOP`, the tile offset
of a direction and the station tile test of station.h. -/
structure AccelEnv where
  new_nonstop : Bool
  OF_NON_STOP : Nat
  TileOffsByDir : Nat → Int
  IsCompatibleTrainStationTile : Map → Nat → Nat → Bool

/-- The value `AM_ACCEL` of `enum AccelType`, as the `bool` argument `mode`. -/
def AM_ACCEL : Bool := false

/-- The value `AM_BRAKE` of `enum AccelType`, as the `bool` argument `mode`. -/
def AM_BRAKE : Bool := true

/-- The table `_curve_neighbours45`. -/
def _curve_neighbours45 : List (List Nat) :=
  [[7, 1], [0, 2], [1, 3], [2, 4], [3, 5], [4, 6], [5, 7], [6, 0]]

/-- The table `_curve_neighbours90`. -/
def _curve_neighbours90 : List (List Nat) :=
  [[6, 2], [7, 3], [0, 4], [1, 5], [2, 6], [3, 7], [4, 0], [5, 1]]

/-- An entry of one of the two neighbour tables; a direction outside the
table gives 256, which no direction byte equals. -/
def curveNeighbour (table : List (List Nat)) (dir i : Nat) : Nat :=
  (table.getD dir []).getD i 256

/-- The inline `clamp(a, min, max)` on `int`. -/
def clamp_int (a lo hi : Int) : Int :=
  if a ≤ lo then lo else if a ≥ hi then hi else a

/-- A division of `int` by a divisor that is not a constant: truncating, and
without result when the divisor is 0. -/
def idiv (a b : Int) : Option Int := if b = 0 then none else some (a.tdiv b)

/-- A `uint32` value converted to `int`. -/
def toInt32 (n : Nat) : Int :=
  if n % 4294967296 < 2147483648 then ((n % 4294967296 : Nat) : Int)
  else ((n % 4294967296 : Nat) : Int) - 4294967296

/-- `TrainShouldStop(v, tile)`; the two assertions fail into `none`. -/
def TrainShouldStop (env : Env) (aenv : AccelEnv) (m : Map) (x : Vehicle) (tile : Nat) :
    Option Bool :=
  let o := x.current_order
  if x.type ≠ env.VEH_Train then none
  else if m.GetTileType x.tile ≠ TileType.MP_STATION then none
  -- When does a train drive through a station
  -- first we deal with the "new nonstop handling"
  else if aenv.new_nonstop = true ∧ (o.flags &&& aenv.OF_NON_STOP) ≠ 0 ∧
      m.map2 tile = o.station then some false
  else if x.last_station_visited = m.map2 tile then some false
  else if m.map2 tile ≠ o.station ∧
      ((o.flags &&& aenv.OF_NON_STOP) ≠ 0 ∨ aenv.new_nonstop = true) then some false
  else some true

/-- The locals of the curve scan of `GetTrainAcceleration`. -/
structure CurveScan where
  pos : Int := 0
  lastpos : Int := -1
  curvecount0 : Int := 0
  curvecount1 : Int := 0
  sum : Int := 0
  numcurve : Int := 0
  max_speed : Int := 2000
deriving DecidableEq, Repr

/-- One round of the loop `for (i = 0; i < 2; i++)` of the curve scan. -/
def GetTrainAcceleration.curve45 (dir ndir i : Nat) (s : CurveScan) : CurveScan :=
  if curveNeighbour _curve_neighbours45 dir i = ndir then
    let s := if i = 0 then { s with curvecount0 := s.curvecount0 + 1 } else { s with curvecount1 := s.curvecount1 + 1 }
    let s :=
      if s.lastpos ≠ -1 then
        let s := { s with numcurve := s.numcurve + 1, sum := s.sum + (s.pos - s.lastpos) }
        if s.pos - s.lastpos = 1 then { s with max_speed := 88 } else s
      else s
    { s with lastpos := s.pos }
  else s

/-- The body of the curve scan for a unit of direction `dir` followed by a
unit of direction `ndir`, with the step `pos++` of the loop. -/
def GetTrainAcceleration.curveStep (dir ndir : Nat) (s : CurveScan) : CurveScan :=
  let s := GetTrainAcceleration.curve45 dir ndir 0 s
  let s := GetTrainAcceleration.curve45 dir ndir 1 s
  -- if we have a 90 degree turn, fix the speed limit to 60
  let s :=
    if curveNeighbour _curve_neighbours90 dir 0 = ndir ∨
        curveNeighbour _curve_neighbours90 dir 1 = ndir then { s with max_speed := 61 }
    else s
  { s with pos := s.pos + 1 }

/-- The loop `for (u = v; u->next != NULL; u = u->next, pos++)`. -/
def GetTrainAcceleration.curveLoop (w : World) : Nat → Nat → CurveScan → Option CurveScan
  | 0, _, _ => none
  | fuel + 1, u, s =>
    match (w u).next with
    | none => some s
    | some n =>
      GetTrainAcceleration.curveLoop w fuel n
        (GetTrainAcceleration.curveStep (w u).direction (w n).direction s)

/-- The curve speed limit of `GetTrainAcceleration`: the local `max_speed`
before the track type enters. -/
def GetTrainAcceleration.curveCap (w : World) (v : Nat) (fuel : Nat) : Option Int :=
  -- first find the curve speed limit
  match GetTrainAcceleration.curveLoop w fuel v {} with
  | none => none
  | some s =>
    match (if s.numcurve > 0 then idiv s.sum s.numcurve else some s.sum) with
    | none => none
    | some sum =>
      if (s.curvecount0 ≠ 0 ∨ s.curvecount1 ≠ 0) ∧ s.max_speed > 88 then
        let total := s.curvecount0 + s.curvecount1
        if s.curvecount0 = 1 ∧ s.curvecount1 = 1 then some 0xFFFF
        else if total > 1 then
          some (232 - (13 - clamp_int sum 1 12) * (13 - clamp_int sum 1 12))
        else some s.max_speed
      else some s.max_speed

/-- The loop `do ... while (IsCompatibleTrainStationTile(tile, v->tile))`:
returns `station_length`. -/
def GetTrainAcceleration.stationLength (aenv : AccelEnv) (m : Map) (x : Vehicle) :
    Nat → Nat → Int → Option Int
  | 0, _, _ => none
  | fuel + 1, tile, station_length =>
    let station_length := station_length + 1
    let tile := tileAdd tile (aenv.TileOffsByDir (x.direction / 2))
    if aenv.IsCompatibleTrainStationTile m tile x.tile then
      GetTrainAcceleration.stationLength aenv m x fuel tile station_length
    else some station_length

/-- The local `max_speed` of `GetTrainAcceleration` after the track type
factor and the station approach, before the cached maximum speed enters. -/
def GetTrainAcceleration.speedCap (env : Env) (aenv : AccelEnv) (m : Map) (w : World)
    (v : Nat) (fuel : Nat) : Option Int :=
  match GetTrainAcceleration.curveCap w v fuel with
  | none => none
  | some max_speed =>
    let max_speed := max_speed + (max_speed.tdiv 2) * (w v).rail.railtype
    if m.GetTileType (w v).tile = TileType.MP_STATION ∧
        (w v).subtype = env.TS_Front_Engine then
      match TrainShouldStop env aenv m (w v) (w v).tile with
      | none => none
      | some false => some max_speed
      | some true =>
        match GetTrainAcceleration.stationLength aenv m (w v) fuel (w v).tile 0 with
        | none => none
        | some station_length =>
          let max_speed : Int := 120
          match idiv (w v).cur_speed (station_length + 1) with
          | none => none
          | some delta_v =>
            let max_speed :=
              if ((w v).max_speed : Int) > ((w v).cur_speed : Int) - delta_v then
                ((w v).cur_speed : Int) - delta_v.tdiv 10
              else max_speed
            some (max max_speed (25 * station_length))
    else some max_speed

/-- The locals that the loop `for (u = v; u != NULL; u = u->next)` of
`GetTrainAcceleration` updates. -/
structure UnitScan where
  num : Int := 0
  drag_coeff : Int := 20
  max_speed : Int
  incl : Int := 0
deriving DecidableEq, Repr

/-- The body of that loop for the unit record `x`. -/
def GetTrainAcceleration.unitStep (env : Env) (x : Vehicle) (s : UnitScan) : UnitScan :=
  let s := { s with num := s.num + 1, drag_coeff := s.drag_coeff + 3 }
  let s := if x.rail.track = 0x80 then { s with max_speed := min 61 s.max_speed } else s
  if HASBIT x.rail.flags env.VRF_GOINGUP then
    -- 3% slope, quite a bit actually
    { s with incl := s.incl + (x.rail.cached_veh_weight : Int) * 60 }
  else if HASBIT x.rail.flags env.VRF_GOINGDOWN then
    { s with incl := s.incl - (x.rail.cached_veh_weight : Int) * 60 }
  else s

/-- The loop `for (u = v; u != NULL; u = u->next)` of `GetTrainAcceleration`. -/
def GetTrainAcceleration.unitLoop (env : Env) (w : World) : Nat → Option Nat → UnitScan →
    Option UnitScan
  | _, none, s => some s
  | 0, some _, _ => none
  | fuel + 1, some u, s =>
    GetTrainAcceleration.unitLoop env w fuel (w u).next
      (GetTrainAcceleration.unitStep env (w u) s)

/-- The local `resistance` of `GetTrainAcceleration` at its final value. -/
def GetTrainAcceleration.resistance (railtype : Nat) (mass speed : Int) (s : UnitScan) : Int :=
  let area : Int := 120
  let friction : Int := 35
  let resistance : Int :=
    if railtype ≠ 2 then
      let resistance := (13 * mass).tdiv 10
      let resistance := resistance + 60 * s.num
      let resistance := resistance + (friction * mass * speed).tdiv 1000
      resistance + (area * s.drag_coeff * speed * speed).tdiv 10000
    else (area * (s.drag_coeff.tdiv 2) * speed * speed).tdiv 10000
  let resistance := resistance + s.incl
  resistance * 4

/-- The local `force` of `GetTrainAcceleration` at its final value. -/
def GetTrainAcceleration.force (railtype : Nat) (mass power speed resistance : Int) :
    Option Int :=
  let force : Option Int :=
    if speed > 0 then
      if railtype = 0 ∨ railtype = 1 then
        match idiv power speed with
        | none => none
        | some force => some ((force * 22).tdiv 10)
      else if railtype = 2 then some (power.tdiv 25)
      else some 0x3FFFFFFF
    else
      -- "kickoff" acceleration
      some (resistance * 10)
  match force with
  | none => none
  | some force =>
    let force := if force ≤ 0 then 10000 else force
    some (if railtype ≠ 2 then min force (mass * 10 * 200) else force)

/-- The two speed and unit scans of `GetTrainAcceleration`: the locals after
the loop over the units, with `max_speed` started at the minimum of the speed
cap and the cached maximum speed. -/
def GetTrainAcceleration.scan (env : Env) (aenv : AccelEnv) (m : Map) (w : World)
    (v : Nat) (fuel : Nat) : Option UnitScan :=
  match GetTrainAcceleration.speedCap env aenv m w v fuel with
  | none => none
  | some max_speed =>
    let max_speed := min max_speed (w v).rail.cached_max_speed
    GetTrainAcceleration.unitLoop env w fuel (some v) { max_speed := max_speed }

/-- `GetTrainAcceleration(v, mode)`: returns the pool, in which the head has
its new `max_speed`, and the acceleration.  A division by zero has no
result. -/
def GetTrainAcceleration (env : Env) (aenv : AccelEnv) (m : Map) (w : World) (v : Nat)
    (mode : Bool) (fuel : Nat) : Option (World × Int) :=
  let speed : Int := (w v).cur_speed
  let speed := speed * 10
  let speed := speed.tdiv 16
  match GetTrainAcceleration.scan env aenv m w v fuel with
  | none => none
  | some s =>
    let mass : Int := (w v).rail.cached_weight
    let power : Int := toInt32 ((w v).rail.cached_power * 746)
    let w1 := w.set v { w v with max_speed := (s.max_speed % 65536).toNat }
    let resistance := GetTrainAcceleration.resistance (w v).rail.railtype mass speed s
    match GetTrainAcceleration.force (w v).rail.railtype mass power speed resistance with
    | none => none
    | some force =>
      if mode = AM_ACCEL then
        match idiv (force - resistance) (mass * 4) with
        | none => none
        | some a => some (w1, a)
      else
        match idiv (-force - resistance) (mass * 4), idiv 10000 (mass * 4) with
        | some a, some b => some (w1, min a b)
        | _, _ => none

/-- The total resistance that `GetTrainAcceleration(v, mode)` computes. -/
def GetTrainAcceleration.totalResistance (env : Env) (aenv : AccelEnv) (m : Map) (w : World)
    (v : Nat) (fuel : Nat) : Option Int :=
  (GetTrainAcceleration.scan env aenv m w v fuel).map
    (GetTrainAcceleration.resistance (w v).rail.railtype (w v).rail.cached_weight
      ((((w v).cur_speed : Int) * 10).tdiv 16))

/-- The final driving force that `GetTrainAcceleration(v, mode)` computes. -/
def GetTrainAcceleration.finalForce (env : Env) (aenv : AccelEnv) (m : Map) (w : World)
    (v : Nat) (fuel : Nat) : Option Int :=
  (GetTrainAcceleration.totalResistance env aenv m w v fuel).bind
    (GetTrainAcceleration.force (w v).rail.railtype (w v).rail.cached_weight
      (toInt32 ((w v).rail.cached_power * 746)) ((((w v).cur_speed : Int) * 10).tdiv 16))

/-- The tile reached from the tile of `x` by `n` steps in its direction of
travel. -/
def GetTrainAcceleration.platformTile (aenv : AccelEnv) (x : Vehicle) (tile : Nat) : Nat → Nat
  | 0 => tile
  | n + 1 =>
    GetTrainAcceleration.platformTile aenv x (tileAdd tile (aenv.TileOffsByDir (x.direction / 2))) n

/-- The platform ahead of a front engine that stands on a station tile ends
within `fuel` tiles: one of the next `fuel` tiles in its direction of travel
is not a compatible station tile. -/
def StationWalkEnds (env : Env) (aenv : AccelEnv) (m : Map) (w : World) (v : Nat)
    (fuel : Nat) : Prop :=
  m.GetTileType (w v).tile = TileType.MP_STATION → (w v).subtype = env.TS_Front_Engine →
    ∃ k, k < fuel ∧ aenv.IsCompatibleTrainStationTile m
      (GetTrainAcceleration.platformTile aenv (w v) (w v).tile (k + 1)) (w v).tile = false

/-- A concrete acceleration environment: platforms are made of the tiles
whose `_map2` entry is that of the first tile. -/
def exAccelEnv : AccelEnv where
  new_nonstop := false
  OF_NON_STOP := 8
  TileOffsByDir := fun d => if d = 0 then -1 else if d = 1 then 256 else if d = 2 then 1 else -256
  IsCompatibleTrainStationTile := fun m t o =>
    decide (m.GetTileType t = TileType.MP_STATION) && (m.map2 t == m.map2 o)

/-- A map with a two-tile platform of station 7 on the tiles 10 and 11; every
other tile is plain railway. -/
def exStationMap : Map where
  GetTileType := fun t => if t = 10 ∨ t = 11 then TileType.MP_STATION else TileType.MP_RAILWAY
  map5 := fun _ => 0
  map3_lo := fun _ => 0
  map3_hi := fun _ => 0
  map_owner := fun _ => 0
  GetTileSlope := fun _ => (0, 0)
  CorrectZ := fun _ => false
  map2 := fun t => if t = 10 ∨ t = 11 then 7 else 0

/-- A running train of two units heading for station 7 and standing on its
platform tile 10: weight 80, power 1000, cached maximum speed 100, speed 160;
the head still carries the speed limit 200. -/
def exRunning : World := fun i =>
  if i = 0 then { type := 16, subtype := 0, next := some 1, tile := 10, direction := 4,
                  cur_speed := 160, max_speed := 200, current_order := { station := 7 },
                  rail := { track := 1, cached_weight := 80, cached_power := 1000,
                            cached_max_speed := 100 } }
  else if i = 1 then { type := 16, subtype := 2, next := none, tile := 9, direction := 4,
                       rail := { track := 1 } }
  else {}

/-- The same train on plain track with its wagon still inside a depot. -/
def exLeavingDepot : World := fun i =>
  if i = 0 then { type := 16, subtype := 0, next := some 1, tile := 20, direction := 4,
                  cur_speed := 160, max_speed := 200,
                  rail := { track := 1, cached_weight := 80, cached_power := 1000,
                            cached_max_speed := 100 } }
  else if i = 1 then { type := 16, subtype := 2, next := none, tile := 19, direction := 4,
                       rail := { track := 0x80 } }
  else {}

/-- The same train on plain track with a cached weight of 0. -/
def exWeightless : World := fun i =>
  if i = 0 then { type := 16, subtype := 0, next := some 1, tile := 20, direction := 4,
                  cur_speed := 160, max_speed := 200,
                  rail := { track := 1, cached_weight := 0, cached_power := 1000,
                            cached_max_speed := 100 } }
  else if i = 1 then { type := 16, subtype := 2, next := none, tile := 19, direction := 4,
                       rail := { track := 1 } }
  else {}

/-! ### Movement -/

/-- The record `GetNewVehiclePosResult` of vehicle.h. -/
structure GetNewVehiclePosResult where
  x : Int := 0
  y : Int := 0
  old_tile : Nat := 0
  new_tile : Nat := 0
deriving DecidableEq, Repr

/-- What the movement code takes from other translation units: three
settings of `_patches`, named constants of vehicle.h and order.h, the tile
coordinates of map.h, the table `_track_crosses_tracks`, the bit scan
`FindFirstBit2x64`, the position step `GetNewVehiclePos` (the result record
and the flag "stays in the old tile"), the value that `VehicleEnterTile`
returns (its writes to the pool are the hook of `Hooks`), the track status of
a tile for rail transport, the height query `GetSlopeZ` (with the hint
`_get_z_hint` as last argument), the signal update of a block, the cargo
exchange `LoadUnloadVehicle`, the value that `UpdateSignalsOnSegment`
returns, and the depot service of vehicle.c. -/
structure MoveEnv where
  realistic_acceleration : Bool
  wait_oneway_signal : Nat
  wait_twoway_signal : Nat
  VS_TRAIN_SLOWING : Nat
  OT_NOTHING : Nat
  OT_LOADING : Nat
  OT_LEAVESTATION : Nat
  OF_UNLOAD : Nat
  OF_FULL_LOAD : Nat
  TileX : Nat → Nat
  TileY : Nat → Nat
  _track_crosses_tracks : Nat → Nat
  FindFirstBit2x64 : Nat → Nat
  GetNewVehiclePos : World → Nat → GetNewVehiclePosResult × Bool
  VehicleEnterTileResult : World → Nat → Nat → Int → Int → Nat
  GetTileTrackStatus : Map → Nat → Nat
  GetSlopeZ : Map → Int → Int → Nat → Nat
  UpdateSignalsOnSegment : Map → Nat → Nat → Map
  LoadUnloadVehicle : World → Nat → World × Int
  UpdateSignalsOnSegmentResult : Map → Nat → Nat → Bool
  VehicleServiceInDepot : World → Nat → World

/-- The table `_state_dir_table`.  In the model a read outside one of the
constant tables gives 0. -/
def _state_dir_table : List Nat := [0x20, 8, 0x10, 4]

/-- The table `_initial_tile_subcoord`. -/
def _initial_tile_subcoord : List (List (List Nat)) :=
  [[[15, 8, 1], [0, 0, 0], [0, 8, 5], [0, 0, 0]],
   [[0, 0, 0], [8, 0, 3], [0, 0, 0], [8, 15, 7]],
   [[0, 0, 0], [7, 0, 2], [0, 7, 6], [0, 0, 0]],
   [[15, 8, 2], [0, 0, 0], [0, 0, 0], [8, 15, 6]],
   [[15, 7, 0], [8, 0, 4], [0, 0, 0], [0, 0, 0]],
   [[0, 0, 0], [0, 0, 0], [0, 8, 4], [7, 15, 0]]]

/-- The table `_reachable_tracks`. -/
def _reachable_tracks : List Nat := [0x10091009, 0x00160016, 0x05200520, 0x2A002A00]

/-- The table `_new_vehicle_direction_table`. -/
def _new_vehicle_direction_table : List Nat := [0, 7, 6, 0, 1, 0, 5, 0, 2, 3, 4]

/-- The table `_railtype_slowdown`: small turn, large turn, z up, z down. -/
def _railtype_slowdown : List (Nat × Nat × Nat × Nat) :=
  [(256 / 4, 256 / 2, 256 / 4, 2), -- normal
   (256 / 4, 256 / 2, 256 / 4, 2), -- monorail
   (0, 256 / 2, 256 / 4, 2)] -- maglev

/-- The table `_otherside_signal_directions`. -/
def _otherside_signal_directions : List Nat := [1, 3, 1, 3, 5, 3, 0, 0, 5, 7, 7, 5, 7, 1]

/-- The table `_breakdown_speeds`. -/
def _breakdown_speeds : List Nat :=
  [225, 210, 195, 180, 165, 150, 135, 120, 105, 90, 75, 60, 45, 30, 15, 15]

/-- The table `_matching_tracks` of `TrainController`. -/
def _matching_tracks : List Nat := [0x30, 1, 0xC, 2, 0x30, 1, 0xC, 2]

/-- An `int` value converted to `uint`. -/
def toUint (e : Int) : Nat := (e % 4294967296).toNat

/-- `GetNewVehicleDirectionByTile(new_tile, old_tile)`; the assertion fails
into `none`. -/
def GetNewVehicleDirectionByTile (menv : MoveEnv) (new_tile old_tile : Nat) : Option Nat :=
  let offs := toUint (((menv.TileY new_tile : Int) - menv.TileY old_tile + 1) * 4 +
    menv.TileX new_tile - menv.TileX old_tile + 1)
  if offs < 11 then some (_new_vehicle_direction_table.getD offs 0) else none

/-- `GetNewVehicleDirection(v, x, y)`; the assertion fails into `none`. -/
def GetNewVehicleDirection (x : Vehicle) (gx gy : Int) : Option Nat :=
  let offs := toUint ((gy - x.y_pos + 1) * 4 + (gx - x.x_pos + 1))
  if offs < 11 then some (_new_vehicle_direction_table.getD offs 0) else none

/-- `GetDirectionToVehicle(v, x, y)`; the assertion fails into `none`. -/
def GetDirectionToVehicle (v : Vehicle) (x y : Int) : Option Nat :=
  let x := x - v.x_pos
  let offs : Nat :=
    if x ≥ 0 then (if x > 2 then 0 else 1)
    else (if x < -2 then 2 else 1)
  let y := y - v.y_pos
  let offs : Nat :=
    if y ≥ 0 then offs + (if y > 2 then 0 else 1) * 4
    else offs + (if y < -2 then 2 else 1) * 4
  if offs < 11 then some (_new_vehicle_direction_table.getD offs 0) else none

/-- `AffectSpeedByDirChange(v, new_dir)`: modify the speed of the vehicle due
to a turn. -/
def AffectSpeedByDirChange (menv : MoveEnv) (w : World) (v : Nat) (new_dir : Nat) : World :=
  let diff := ((((w v).direction : Int) - new_dir) % 8).toNat
  if menv.realistic_acceleration = true ∨ diff = 0 then w
  else
    let rsp := _railtype_slowdown.getD (w v).rail.railtype (0, 0, 0, 0)
    let turn := if diff = 1 ∨ diff = 7 then rsp.1 else rsp.2.1
    w.set v { w v with cur_speed := toUint (((w v).cur_speed : Int) - ((turn * (w v).cur_speed) >>> 8 : Nat)) % 65536 }

/-- `AffectSpeedByZChange(v, old_z)`: modify the speed of the vehicle due to
a change in altitude. -/
def AffectSpeedByZChange (menv : MoveEnv) (w : World) (v : Nat) (old_z : Nat) : World :=
  if old_z = (w v).z_pos ∨ menv.realistic_acceleration = true then w
  else
    let rsp := _railtype_slowdown.getD (w v).rail.railtype (0, 0, 0, 0)
    if old_z < (w v).z_pos then
      w.set v { w v with cur_speed := toUint (((w v).cur_speed : Int) - (((w v).cur_speed * rsp.2.2.1) >>> 8 : Nat)) % 65536 }
    else
      let spd := ((w v).cur_speed + rsp.2.2.2) % 65536
      if spd ≤ (w v).max_speed then w.set v { w v with cur_speed := spd } else w

/-- `TrainMovedChangeSignals(tile, dir)`: on a rail tile with signals, update
the signals of the block on the other side. -/
def TrainMovedChangeSignals (menv : MoveEnv) (m : Map) (tile dir : Nat) : Map :=
  if m.GetTileType tile = TileType.MP_RAILWAY ∧ (m.map5 tile &&& 0xC0) = 0x40 then
    let i := menv.FindFirstBit2x64
      ((m.map5 tile + (m.map5 tile <<< 8)) &&& _reachable_tracks.getD dir 0)
    menv.UpdateSignalsOnSegment m tile (_otherside_signal_directions.getD i 0)
  else m

/-- `AfterSetTrainPos(v, new_tile)`: returns the pool and `old_z`.  The end of
the vehicle move writes viewport fields only, which the record does not
have. -/
def AfterSetTrainPos (env : Env) (hooks : Hooks) (menv : MoveEnv) (m : Map) (w : World)
    (v : Nat) (new_tile : Bool) : World × Nat :=
  -- need this hint so it returns the right z coordinate on bridges.
  let new_z := menv.GetSlopeZ m (w v).x_pos (w v).y_pos (w v).z_pos % 256
  let old_z := (w v).z_pos
  let w1 := w.set v { w v with z_pos := new_z }
  let w2 :=
    if new_tile then
      let fl := CLRBIT (CLRBIT (w1 v).rail.flags env.VRF_GOINGUP) env.VRF_GOINGDOWN
      let fl :=
        if new_z ≠ old_z then
          let tile := env.TILE_FROM_XY (w1 v).x_pos (w1 v).y_pos
          -- XXX workaround, whole UP/DOWN detection needs overhaul
          if m.GetTileType tile ≠ TileType.MP_TUNNELBRIDGE ∨ (m.map5 tile &&& 0x80) ≠ 0 then
            SETBIT fl (if new_z > old_z then env.VRF_GOINGUP else env.VRF_GOINGDOWN)
          else fl
        else fl
      w1.set v { w1 v with rail := { (w1 v).rail with flags := fl } }
    else w1
  (hooks.VehiclePositionChanged w2 v, old_z)

/-- The record `VehicleAtSignalData`. -/
structure VehicleAtSignalData where
  tile : Nat
  direction : Nat
deriving DecidableEq, Repr

/-- `CheckVehicleAtSignal(v, data)`: the front engine `v` if it waits on the
tile of `data` facing the signal, else `NULL`. -/
def CheckVehicleAtSignal (env : Env) (w : World) (v : Nat) (vasd : VehicleAtSignalData) :
    Option Nat :=
  if (w v).type = env.VEH_Train ∧ (w v).subtype = env.TS_Front_Engine ∧
      (w v).tile = vasd.tile then
    let diff := ((((w v).direction : Int) - vasd.direction + 2) % 8).toNat
    if diff = 2 ∨ ((w v).cur_speed ≤ 5 ∧ diff ≤ 4) then some v else none
  else none

/-- `MarkTrainDirty(v)`: refresh the image of every unit from `v` on; the
viewport marking is outside the pool. -/
def MarkTrainDirty (hooks : Hooks) : Nat → Nat → World → Option World
  | 0, _, _ => none
  | fuel + 1, v, w =>
    let w1 := w.set v { w v with cur_image := hooks.GetTrainImage w v (w v).direction }
    match (w1 v).next with
    | none => some w1
    | some n => MarkTrainDirty hooks fuel n w1

/-- `TrainEnterStation(v, station)`.  The station record and the news item
are outside the pool. -/
def TrainEnterStation (env : Env) (hooks : Hooks) (penv : PathEnv) (aenv : AccelEnv)
    (menv : MoveEnv) (w : World) (v station : Nat) (fuel : Nat) : Option World :=
  let w1 := w.set v { w v with last_station_visited := station }
  let o := (w1 v).current_order
  -- Did we reach the final destination?
  let o : Order :=
    if o.type = penv.OT_GOTO_STATION ∧ o.station = station then
      -- Yeah, keep the load/unload flags
      -- Non Stop now means if the order should be increased.
      { o with type := menv.OT_LOADING, flags := ((o.flags &&& (menv.OF_FULL_LOAD ||| menv.OF_UNLOAD)) ||| aenv.OF_NON_STOP) % 256 }
    else
      -- No, just do a simple load
      { o with type := menv.OT_LOADING, flags := 0 }
  let o := { o with station := 0 }
  let w2 := w1.set v { w1 v with current_order := o }
  let r := menv.LoadUnloadVehicle w2 v
  if r.2 ≠ 0 then
    match MarkTrainDirty hooks fuel v r.1 with
    | none => none
    | some w3 =>
      match TrainCargoChanged env w3 v fuel with
      | none => none
      | some w4 => UpdateTrainAcceleration env w4 v
  else some r.1

/-! ### Reversal on the tile grid -/

/-- `TestTrainOnCrossing(v, data)`: check if the vehicle is a train and is on
the tile we are testing. -/
def TestTrainOnCrossing (env : Env) (w : World) (tile : Nat) (v : Nat) : Option Nat :=
  if (w v).tile ≠ tile ∨ (w v).type ≠ env.VEH_Train then none else some v

/-- `DisableTrainCrossing(tile)`: switch the light of a rail/road crossing
off when no train is on it. -/
def DisableTrainCrossing (env : Env) (w : World) (m : Map) (tile : Nat) : Map :=
  -- Test if we have a rail/road-crossing
  if m.GetTileType tile = TileType.MP_STREET ∧ (m.map5 tile &&& 0xF0) = 0x10 then
    -- Check if there is a train on the tile itself
    if env.VehicleFromPos w tile (TestTrainOnCrossing env w tile) = none then
      -- If light is on, switch light off
      if (m.map5 tile &&& 4) ≠ 0 then
        { m with map5 := fun t => if t = tile then m.map5 tile &&& (255 ^^^ 4) else m.map5 t }
      else m
    else m
  else m

/-- The call `TrainController(first)` repeated `n` times on the pool and the
tile grid.  Here `ctrl` stands for `TrainController` together with the grid
that it reads and writes: `ctrl w m first` is the pool and the grid after the
call on the pool `w` and the grid `m`. -/
def repeatController.onGrid (ctrl : World → Map → Nat → Option (World × Map)) (first : Nat) :
    Nat → World → Map → Option (World × Map)
  | 0, w, m => some (w, m)
  | n + 1, w, m =>
    match ctrl w m first with
    | none => none
    | some (w1, m1) => repeatController.onGrid ctrl first n w1 m1

/-- The loop `while (length > 2)` of `AdvanceWagons` on the pool and the tile
grid. -/
def AdvanceWagons.loopOnGrid (ctrl : World → Map → Nat → Option (World × Map))
    (before : Bool) : Nat → Nat → Option Nat → Nat → World → Map → Option (World × Map)
  | 0, _, _, length, w, m => if length > 2 then none else some (w, m)
  | fuel + 1, base, first, length, w, m =>
    if length > 2 then
      match first with
      | none => none
      | some fst =>
        -- find pairwise matching wagon
        match nthNext w (length - 3) fst with
        | none => none
        | some last =>
          let differential : Int :=
            ((w last).rail.cached_veh_length : Int) - ((w base).rail.cached_veh_length : Int)
          let differential := if before then differential * (-1) else differential
          let moved : Option (World × Map) :=
            if differential > 0 then
              -- disconnect last car to make sure only this subset moves
              let tempnext := (w last).next
              let w1 := w.set last { w last with next := none }
              match repeatController.onGrid ctrl fst differential.toNat w1 m with
              | none => none
              | some (w2, m2) => some (w2.set last { w2 last with next := tempnext }, m2)
            else some (w, m)
          match moved with
          | none => none
          | some (w3, m3) =>
            AdvanceWagons.loopOnGrid ctrl before fuel fst (w3 fst).next (length - 2) w3 m3
    else some (w, m)

/-- `AdvanceWagons(v, before)` on the pool and the tile grid. -/
def AdvanceWagons.onGrid (ctrl : World → Map → Nat → Option (World × Map)) (m : Map)
    (w : World) (v : Nat) (before : Bool) (fuel : Nat) : Option (World × Map) :=
  match CountVehiclesInChain w fuel v with
  | none => none
  | some length => AdvanceWagons.loopOnGrid ctrl before fuel v (w v).next length w m

/-- `ReverseTrainDirection(v)` on the pool and the tile grid: the light of
the crossing ahead is switched off, then the consist is reversed in place.
The calls of `TrainController` inside the length compensation may change the
grid as well as the pool. -/
def ReverseTrainDirection.onGrid (env : Env) (hooks : Hooks) (penv : PathEnv)
    (ctrl : World → Map → Nat → Option (World × Map)) (m : Map) (w : World) (v : Nat)
    (fuel : Nat) : Option (World × Map) :=
  -- Check if we were approaching a rail/road-crossing
  -- Determine the diagonal direction in which we will exit this tile
  let t := (w v).direction >>> 1
  let t :=
    if ((w v).direction &&& 1) = 0 ∧ (w v).rail.track ≠ _state_dir_table.getD t 0 then
      (((t : Int) - 1) % 4).toNat
    else t
  -- Calculate next tile
  let tile := tileAdd (w v).tile (penv.TileOffsByDir t)
  -- Check if the train left a rail/road-crossing
  let m1 := DisableTrainCrossing env w m tile
  -- count number of vehicles
  match ReverseTrainDirection.count w fuel v (-1) with
  | none => none
  | some r =>
    match AdvanceWagons.onGrid ctrl m1 w v true fuel with
    | none => none
    | some (w1, m2) =>
      -- swap start<>end, start+1<>end-1, ...
      match ReverseTrainDirection.swaps env hooks v fuel 0 r w1 with
      | none => none
      | some w2 =>
        match AdvanceWagons.onGrid ctrl m2 w2 v false fuel with
        | none => none
        | some (w3, m3) =>
          some (w3.set v { w3 v with rail := { (w3 v).rail with
            flags := CLRBIT (w3 v).rail.flags env.VRF_REVERSING } }, m3)

/-- The local `x` of `TrainCheckIfLineEnds` after the `switch` over the
direction, in `uint` arithmetic; `-x - 1` is `~x`. -/
def TrainCheckIfLineEnds.distance (direction : Nat) (x y : Int) : Nat :=
  match direction with
  | 0 => toUint ((-x - 1) + (-y - 1) + 24)
  | 7 => toUint ((-y - 1) + 16)
  | 1 => toUint ((-x - 1) + 16)
  | 2 => toUint ((-x - 1) + y + 8)
  | 3 => toUint y
  | 4 => toUint (x + y - 8)
  | 6 => toUint ((-y - 1) + x + 8)
  | _ => toUint x

/-- The end of `TrainCheckIfLineEnds` under the comment `slow down`. -/
def TrainCheckIfLineEnds.slowDown (menv : MoveEnv) (w : World) (v : Nat) (x : Nat) : World :=
  let w1 := w.set v { w v with vehstatus := ((w v).vehstatus ||| menv.VS_TRAIN_SLOWING) % 256 }
  let t := _breakdown_speeds.getD (x &&& 0xF) 0
  let t := if ((w1 v).direction &&& 1) = 0 then t >>> 1 else t
  if t < (w1 v).cur_speed then w1.set v { w1 v with cur_speed := t } else w1

/-- `TrainCheckIfLineEnds(v)`: returns the pool, the tile grid and the
result.  `ctrl` stands for `TrainController` inside the reversal. -/
def TrainCheckIfLineEnds (env : Env) (hooks : Hooks) (penv : PathEnv) (menv : MoveEnv)
    (ctrl : World → Map → Nat → Option (World × Map)) (m : Map) (w : World) (v : Nat)
    (fuel : Nat) :
    Option (World × Map × Bool) :=
  let t : Int := (w v).breakdown_ctr
  let w1 :=
    if toUint t > 1 then
      let w1 := w.set v { w v with vehstatus := ((w v).vehstatus ||| menv.VS_TRAIN_SLOWING) % 256 }
      let t := _breakdown_speeds.getD (((-t - 1) / 16) % 16).toNat 0
      if t ≤ (w1 v).cur_speed then w1.set v { w1 v with cur_speed := t } else w1
    else
      w.set v { w v with vehstatus := (w v).vehstatus &&& (255 ^^^ (menv.VS_TRAIN_SLOWING % 256)) }
  -- exit if inside a tunnel
  if ((w1 v).rail.track &&& 0x40) ≠ 0 then some (w1, m, true)
  else
    let tile := (w1 v).tile
    -- tunnel entrance?
    if m.GetTileType tile = TileType.MP_TUNNELBRIDGE ∧ (m.map5 tile &&& 0xF0) = 0 ∧
        ((m.map5 tile &&& 3) * 2 + 1) % 256 = (w1 v).direction then some (w1, m, true)
    else
      -- Determine the non-diagonal direction in which we will exit this tile
      let t := (w1 v).direction >>> 1
      let t :=
        if ((w1 v).direction &&& 1) = 0 ∧ (w1 v).rail.track ≠ _state_dir_table.getD t 0 then
          (((t : Int) - 1) % 4).toNat
        else t
      -- Calculate next tile
      let tile := tileAdd tile (penv.TileOffsByDir t)
      -- determine the track status on the next tile.
      let ts := menv.GetTileTrackStatus m tile &&& _reachable_tracks.getD t 0
      -- Calc position within the current tile ??
      let x := TrainCheckIfLineEnds.distance (w1 v).direction ((w1 v).x_pos % 16)
        ((w1 v).y_pos % 16)
      let reverse : Option (World × Map × Bool) :=
        let w2 := w1.set v { w1 v with cur_speed := 0 }
        (ReverseTrainDirection.onGrid env hooks penv ctrl m w2 v fuel).map
          (fun r => (r.1, r.2, false))
      if ts % 65536 ≠ 0 then
        -- If we approach a rail-piece which we can't enter, don't enter it!
        if (x + 4) % 4294967296 > 15 ∧ CheckCompatibleRail env m (w1 v) tile = false then reverse
        else if (ts &&& (ts >>> 16)) = 0 then
          -- make a rail/road crossing red
          if m.GetTileType tile = TileType.MP_STREET ∧ (m.map5 tile &&& 0xF0) = 0x10 ∧
              (m.map5 tile &&& 4) = 0 then
            some (w1, { m with map5 := fun t => if t = tile then m.map5 tile ||| 4 else m.map5 t }, true)
          else some (w1, m, true)
        else some (TrainCheckIfLineEnds.slowDown menv w1 v x, m, true)
      else if (x + 4) % 4294967296 > 15 then reverse
      else some (TrainCheckIfLineEnds.slowDown menv w1 v x, m, true)

/-- How the body of the loop of `TrainController` ends for one unit: the loop
goes on with the next unit, the function returns, or the fatal error
`error("!Disconnecting train")` ends the program; each with the pool and the
tile grid of that moment. -/
inductive Outcome where
  | next (w : World) (m : Map)
  | done (w : World) (m : Map)
  | disconnect (w : World) (m : Map)

/-- The code of `TrainController` from the label `common` to the end of the
loop body: update image of train, as well as delta XY, and the Z position. -/
def TrainController.common (env : Env) (hooks : Hooks) (menv : MoveEnv) (m : Map)
    (w : World) (prev : Option Nat) (v : Nat) (gp : GetNewVehiclePosResult) : Option Outcome :=
  match GetNewVehicleDirection (w v) gp.x gp.y with
  | none => none
  | some newdir =>
    let w1 := UpdateTrainDeltaXY w v newdir
    let w2 := w1.set v { w1 v with cur_image := hooks.GetTrainImage w1 v newdir }
    let w3 := w2.set v { w2 v with x_pos := gp.x, y_pos := gp.y }
    -- update the Z position of the vehicle
    let r := AfterSetTrainPos env hooks menv m w3 v (gp.new_tile != gp.old_tile)
    -- This is the first vehicle in the train
    let w4 := if prev = none then AffectSpeedByZChange menv r.1 v r.2 else r.1
    some (Outcome.next w4 m)

/-- The code of `TrainController` at the label `reverse_train_direction`:
the wait counter, the speed and the sub-speed of `v` are set to 0 and the
consist is reversed.  `ctrl` stands for the calls of `TrainController` inside
the reversal. -/
def TrainController.reverse_train_direction (env : Env) (hooks : Hooks) (penv : PathEnv)
    (ctrl : World → Map → Nat → Option (World × Map)) (m : Map) (w : World) (v : Nat)
    (fuel : Nat) : Option Outcome :=
  let w1 := w.set v { w v with load_unload_time_rem := 0, cur_speed := 0, subspeed := 0 }
  (ReverseTrainDirection.onGrid env hooks penv ctrl m w1 v fuel).map
    (fun r => Outcome.done r.1 r.2)

/-- The code of `TrainController` at the label `invalid_rail`. -/
def TrainController.invalid_rail (env : Env) (hooks : Hooks) (penv : PathEnv)
    (ctrl : World → Map → Nat → Option (World × Map)) (m : Map) (w : World)
    (prev : Option Nat) (v : Nat) (fuel : Nat) : Option Outcome :=
  -- We've reached end of line??
  if prev ≠ none then some (Outcome.disconnect w m)
  else TrainController.reverse_train_direction env hooks penv ctrl m w v fuel

/-- The scan `VehicleFromPos(o_tile, &vasd, CheckVehicleAtSignal)` for a train
that waits on the other side of the signal of the tile `new_tile`, which is
entered through `enterdir` in the direction `dir`. -/
def TrainController.opposingTrain (env : Env) (penv : PathEnv) (w : World)
    (new_tile enterdir dir : Nat) : Option Nat :=
  let o_tile := tileAdd new_tile (penv.TileOffsByDir enterdir)
  let vasd : VehicleAtSignalData := { tile := o_tile, direction := (dir ^^^ 4) % 256 }
  env.VehicleFromPos w o_tile (fun u => CheckVehicleAtSignal env w u vasd)

/-- The code of `TrainController` at the label `red_light`.  In front of a
red signal the speed and the sub-speed of `v` are set to 0, `progress` to the
given value, and the wait counter `load_unload_time_rem`, a 16-bit field, is
incremented. -/
def TrainController.red_light (env : Env) (hooks : Hooks) (penv : PathEnv) (menv : MoveEnv)
    (ctrl : World → Map → Nat → Option (World × Map)) (m : Map) (w : World) (v : Nat)
    (gp : GetNewVehiclePosResult) (ts enterdir dir : Nat) (fuel : Nat) : Option Outcome :=
  -- find the first set bit in ts
  let i := menv.FindFirstBit2x64 ts
  if (m.map3_lo gp.new_tile &&& penv._signal_against_trackdir i) = 0 then
    let w1 := w.set v { w v with cur_speed := 0, subspeed := 0, progress := 255 - 100, load_unload_time_rem := ((w v).load_unload_time_rem + 1) % 65536 }
    if (w1 v).load_unload_time_rem < menv.wait_oneway_signal * 20 then some (Outcome.done w1 m)
    else TrainController.reverse_train_direction env hooks penv ctrl m w1 v fuel
  else if (m.map3_lo gp.new_tile &&& penv._signal_along_trackdir i) ≠ 0 then
    let w1 := w.set v { w v with cur_speed := 0, subspeed := 0, progress := 255 - 10, load_unload_time_rem := ((w v).load_unload_time_rem + 1) % 65536 }
    if (w1 v).load_unload_time_rem < menv.wait_twoway_signal * 73 then
      -- check if a train is waiting on the other side
      match TrainController.opposingTrain env penv w1 gp.new_tile enterdir dir with
      | none => some (Outcome.done w1 m)
      | some _ => TrainController.reverse_train_direction env hooks penv ctrl m w1 v fuel
    else TrainController.reverse_train_direction env hooks penv ctrl m w1 v fuel
  else TrainController.reverse_train_direction env hooks penv ctrl m w v fuel

/-- The stores of `TrainController` after a tile entry with the result `r`:
a front engine gets the wait counter 0, and unless bit 2 of `r` is set the
unit gets the new tile and the chosen track. -/
def TrainController.moved (env : Env) (w : World) (v r new_tile chosen_track : Nat) : World :=
  let w2 :=
    if (w v).subtype = env.TS_Front_Engine then w.set v { w v with load_unload_time_rem := 0 }
    else w
  if (r &&& 0x4) = 0 then
    w2.set v { w2 v with tile := new_tile, rail := { (w2 v).rail with track := chosen_track } }
  else w2

/-- The code of `TrainController` for a new tile from the assertion on
`chosen_track` to the end of the branch; `(x & ~0xF) | b` is `x - x % 16 + b`
for a table entry `b` below 16. -/
def TrainController.enter (env : Env) (hooks : Hooks) (penv : PathEnv) (menv : MoveEnv)
    (ctrl : World → Map → Nat → Option (World × Map)) (m : Map) (w : World)
    (prev : Option Nat) (v : Nat) (gp : GetNewVehiclePosResult) (enterdir chosen_track : Nat)
    (fuel : Nat) : Option Outcome :=
  -- make sure chosen track is a valid track
  if ¬ (chosen_track = 1 ∨ chosen_track = 2 ∨ chosen_track = 4 ∨ chosen_track = 8 ∨
      chosen_track = 16 ∨ chosen_track = 32) then none
  else
    -- Update XY to reflect the entrance to the new tile, and select the direction to use
    let b := (_initial_tile_subcoord.getD (FIND_FIRST_BIT chosen_track) []).getD enterdir []
    let gp := { gp with x := gp.x - gp.x % 16 + (b.getD 0 0 : Nat), y := gp.y - gp.y % 16 + (b.getD 1 0 : Nat) }
    let chosen_dir := b.getD 2 0
    -- Call the landscape function and tell it that the vehicle entered the tile
    let r := menv.VehicleEnterTileResult w v gp.new_tile gp.x gp.y
    let w1 := hooks.VehicleEnterTile w v gp.new_tile gp.x gp.y
    if (r &&& 0x8) ≠ 0 then TrainController.invalid_rail env hooks penv ctrl m w1 prev v fuel
    else
      let w3 := TrainController.moved env w1 v r gp.new_tile chosen_track
      let m1 :=
        if (w3 v).subtype = env.TS_Front_Engine then
          TrainMovedChangeSignals menv m gp.new_tile enterdir
        else m
      -- Signals can only change when the first (above) or the last vehicle moves.
      let m2 :=
        if (w3 v).next = none then TrainMovedChangeSignals menv m1 gp.old_tile (enterdir ^^^ 2)
        else m1
      let w4 := if prev = none then AffectSpeedByDirChange menv w3 v chosen_dir else w3
      let w5 := w4.set v { w4 v with direction := chosen_dir }
      TrainController.common env hooks menv m2 w5 prev v gp

/-- The locals `ts`, `tracks` and `bits` of `TrainController` for the tile
about to be entered from `enterdir`; `prev` is the unit before `v` in the
loop. -/
def TrainController.trackBits (penv : PathEnv) (menv : MoveEnv) (m : Map) (w : World)
    (prev : Option Nat) (v : Nat) (new_tile enterdir : Nat) : Nat × Nat × Nat :=
  -- Get the status of the tracks in the new tile and mask
  -- away the bits that aren't reachable.
  let ts := menv.GetTileTrackStatus m new_tile &&& _reachable_tracks.getD enterdir 0
  -- Combine the from & to directions.
  let tracks := ts ||| (ts >>> 8)
  let bits := tracks &&& 0xFF
  let bits :=
    if penv.new_pathfinding_all = true ∧ penv.forbid_90_deg = true ∧ prev = none then
      -- We allow wagons to make 90 deg turns
      bits &&& (255 ^^^ (menv._track_crosses_tracks (FIND_FIRST_BIT (w v).rail.track) % 256))
    else bits
  (ts, tracks, bits)

/-- The branch of `TrainController` for a unit that is about to enter a new
tile.  The assertions fail into `none`; `rnd` is the random source of
`ChooseTrainTrack`. -/
def TrainController.newTile (env : Env) (hooks : Hooks) (penv : PathEnv) (menv : MoveEnv)
    (ctrl : World → Map → Nat → Option (World × Map)) (rnd : Nat → Nat) (m : Map) (w : World)
    (prev : Option Nat) (v : Nat) (gp : GetNewVehiclePosResult) (fuel : Nat) : Option Outcome :=
  -- Determine what direction we're entering the new tile from
  match GetNewVehicleDirectionByTile menv gp.new_tile gp.old_tile with
  | none => none
  | some dir =>
    let enterdir := dir >>> 1
    if ¬ (enterdir = 0 ∨ enterdir = 1 ∨ enterdir = 2 ∨ enterdir = 3) then none
    else
      let tb := TrainController.trackBits penv menv m w prev v gp.new_tile enterdir
      let ts := tb.1
      let tracks := tb.2.1
      let bits := tb.2.2
      if bits = 0 then TrainController.invalid_rail env hooks penv ctrl m w prev v fuel
      -- Check if the new tile contrains tracks that are compatible
      -- with the current train, if not, bail out.
      else if CheckCompatibleRail env m (w v) gp.new_tile = false then
        TrainController.invalid_rail env hooks penv ctrl m w prev v fuel
      else
        match prev with
        | none =>
          -- Currently the locomotive is active. Determine which one of the
          -- available tracks to choose
          match ChooseTrainTrack penv m w rnd v gp.new_tile enterdir bits fuel with
          | none => none
          | some track =>
            let chosen_track := (1 <<< track) % 256
            if (chosen_track &&& tracks) = 0 then none
            -- Check if it's a red signal and that force proceed is not clicked.
            else if ((tracks >>> 16) &&& chosen_track) ≠ 0 ∧ (w v).force_proceed = 0 then
              TrainController.red_light env hooks penv menv ctrl m w v gp ts enterdir dir fuel
            else
              TrainController.enter env hooks penv menv ctrl m w prev v gp enterdir chosen_track
                fuel
        | some p =>
          -- The wagon is active, simply follow the prev vehicle.
          match GetDirectionToVehicle (w p) gp.x gp.y with
          | none => none
          | some d =>
            let chosen_track := (_matching_tracks.getD d 0 &&& bits) % 256
            TrainController.enter env hooks penv menv ctrl m w prev v gp enterdir chosen_track fuel

/-- The branch of `TrainController` for a unit that stays in the old tile. -/
def TrainController.oldTile (env : Env) (hooks : Hooks) (penv : PathEnv) (aenv : AccelEnv)
    (menv : MoveEnv) (ctrl : World → Map → Nat → Option (World × Map)) (m : Map) (w : World)
    (prev : Option Nat) (v : Nat) (gp : GetNewVehiclePosResult) (fuel : Nat) : Option Outcome :=
  if (w v).rail.track = 0x80 then
    -- inside depot
    let gp := { gp with x := (w v).x_pos, y := (w v).y_pos }
    TrainController.common env hooks menv m w prev v gp
  else
    -- is not inside depot
    match TrainCheckIfLineEnds env hooks penv menv ctrl m w v fuel with
    | none => none
    | some (w1, m1, false) => some (Outcome.done w1 m1)
    | some (w1, m1, true) =>
      let r := menv.VehicleEnterTileResult w1 v gp.new_tile gp.x gp.y
      let w2 := hooks.VehicleEnterTile w1 v gp.new_tile gp.x gp.y
      if (r &&& 0x8) ≠ 0 then TrainController.invalid_rail env hooks penv ctrl m1 w2 prev v fuel
      else if (r &&& 0x2) ≠ 0 then
        (TrainEnterStation env hooks penv aenv menv w2 v ((r >>> 8) % 65536) fuel).map
          (fun w3 => Outcome.done w3 m1)
      else
        let w3 :=
          if (w2 v).current_order.type = menv.OT_LEAVESTATION then
            w2.set v { w2 v with current_order := { (w2 v).current_order with type := menv.OT_NOTHING, flags := 0 } }
          else w2
        TrainController.common env hooks menv m1 w3 prev v gp

/-- The branch of `TrainController` for a unit inside a tunnel. -/
def TrainController.inTunnel (env : Env) (hooks : Hooks) (menv : MoveEnv) (m : Map) (w : World)
    (prev : Option Nat) (v : Nat) : Option Outcome :=
  let gp := (menv.GetNewVehiclePos w v).1
  let move (w : World) : Option Outcome :=
    let w1 := w.set v { w v with x_pos := gp.x, y_pos := gp.y }
    some (Outcome.next (hooks.VehiclePositionChanged w1 v) m)
  if m.GetTileType gp.new_tile = TileType.MP_TUNNELBRIDGE ∧ (m.map5 gp.new_tile &&& 0xF0) = 0 then
    let r := menv.VehicleEnterTileResult w v gp.new_tile gp.x gp.y
    let w1 := hooks.VehicleEnterTile w v gp.new_tile gp.x gp.y
    if (r &&& 0x4) ≠ 0 then TrainController.common env hooks menv m w1 prev v gp
    else move w1
  else move w

/-- The body of the loop of `TrainController` for the unit `v` that comes
after `prev`.  The begin of the vehicle move writes viewport fields only,
which the record does not have. -/
def TrainController.step (env : Env) (hooks : Hooks) (penv : PathEnv) (aenv : AccelEnv)
    (menv : MoveEnv) (ctrl : World → Map → Nat → Option (World × Map)) (rnd : Nat → Nat) (m : Map)
    (w : World) (prev : Option Nat) (v : Nat) (fuel : Nat) : Option Outcome :=
  if (w v).rail.track ≠ 0x40 then
    -- Not inside tunnel
    let r := menv.GetNewVehiclePos w v
    if r.2 = true then
      -- Staying in the old tile
      TrainController.oldTile env hooks penv aenv menv ctrl m w prev v r.1 fuel
    else
      -- A new tile is about to be entered.
      TrainController.newTile env hooks penv menv ctrl rnd m w prev v r.1 fuel
  else
    -- in tunnel
    TrainController.inTunnel env hooks menv m w prev v

/-- The loop `for (; v != NULL; prev = v, v = v->next)` of `TrainController`. -/
def TrainController.loop (env : Env) (hooks : Hooks) (penv : PathEnv) (aenv : AccelEnv)
    (menv : MoveEnv) (ctrl : World → Map → Nat → Option (World × Map)) (rnd : Nat → Nat) (fuel : Nat) :
    Nat → Option Nat → Option Nat → World → Map → Option Outcome
  | _, _, none, w, m => some (Outcome.done w m)
  | 0, _, some _, _, _ => none
  | n + 1, prev, some v, w, m =>
    match TrainController.step env hooks penv aenv menv ctrl rnd m w prev v fuel with
    | some (Outcome.next w1 m1) =>
      TrainController.loop env hooks penv aenv menv ctrl rnd fuel n (some v) (w1 v).next w1 m1
    | r => r

/-- `TrainController(v)`: move every unit from `v` on by one step.  The
result is `done` at a return of the function and `disconnect` at the fatal
error. -/
def TrainController (env : Env) (hooks : Hooks) (penv : PathEnv) (aenv : AccelEnv)
    (menv : MoveEnv) (ctrl : World → Map → Nat → Option (World × Map)) (rnd : Nat → Nat) (m : Map)
    (w : World) (v : Nat) (fuel : Nat) : Option Outcome :=
  TrainController.loop env hooks penv aenv menv ctrl rnd fuel fuel none (some v) w m

/-- The pool of an outcome. -/
def Outcome.pool : Outcome → World
  | Outcome.next w _ => w
  | Outcome.done w _ => w
  | Outcome.disconnect w _ => w

/-- The tile grid of an outcome. -/
def Outcome.grid : Outcome → Map
  | Outcome.next _ m => m
  | Outcome.done _ m => m
  | Outcome.disconnect _ m => m

/-- The kind of an outcome: 0 for the next unit, 1 for a return, 2 for the
fatal error. -/
def Outcome.kind : Outcome → Nat
  | Outcome.next _ _ => 0
  | Outcome.done _ _ => 1
  | Outcome.disconnect _ _ => 2

/-- Two records agree in speed, sub-speed and wait counter. -/
def Vehicle.sameHalt (x y : Vehicle) : Prop :=
  x.cur_speed = y.cur_speed ∧ x.subspeed = y.subspeed ∧
    x.load_unload_time_rem = y.load_unload_time_rem

/-- Two pools agree in the speed, the sub-speed and the wait counter of every
unit. -/
def SameHalt (w w1 : World) : Prop := ∀ j, (w1 j).sameHalt (w j)

/-- The hooks leave the speed, the sub-speed and the wait counter of every
unit as they are. -/
def Hooks.KeepHalt (hooks : Hooks) : Prop :=
  (∀ w u j, (hooks.VehiclePositionChanged w u j).sameHalt (w j)) ∧
  (∀ w u t x y j, (hooks.VehicleEnterTile w u t x y j).sameHalt (w j))

/-- The tile-entry handler leaves the link and the subtype of the entering
unit alone. -/
def Hooks.EnterKeepsLinks (hooks : Hooks) : Prop :=
  ∀ (w : World) (v tile : Nat) (x y : Int),
    ((hooks.VehicleEnterTile w v tile x y) v).next = (w v).next ∧
    ((hooks.VehicleEnterTile w v tile x y) v).subtype = (w v).subtype

/-- The tile grid after the signal updates of a tile transition from
`old_tile` to `new_tile` through `enterdir`: `TrainMovedChangeSignals` for
the entered tile if `head`, then for the left tile if `last`. -/
def signalsAfterTransition (menv : MoveEnv) (m : Map) (new_tile old_tile enterdir : Nat)
    (head last : Bool) : Map :=
  let m1 := if head then TrainMovedChangeSignals menv m new_tile enterdir else m
  if last then TrainMovedChangeSignals menv m1 old_tile (enterdir ^^^ 2) else m1

/-- The head `v` is about to enter a new tile in the direction `dir`, the
tile offers track bits and is compatible, `ChooseTrainTrack` returns a track
of the tile whose signal bit is set in the upper half of `tracks` (a red
signal), force-proceed is 0, and the tile carries a signal against and a
signal along the track direction found (a two-way signal). -/
def RedTwoWaySignalAhead (env : Env) (penv : PathEnv) (menv : MoveEnv) (rnd : Nat → Nat)
    (m : Map) (w : World) (v : Nat) (fuel dir : Nat) : Prop :=
  let gp := (menv.GetNewVehiclePos w v).1
  let tb := TrainController.trackBits penv menv m w none v gp.new_tile (dir >>> 1)
  (w v).rail.track ≠ 0x40 ∧ (menv.GetNewVehiclePos w v).2 = false ∧
  GetNewVehicleDirectionByTile menv gp.new_tile gp.old_tile = some dir ∧
  tb.2.2 ≠ 0 ∧ CheckCompatibleRail env m (w v) gp.new_tile = true ∧
  (∃ track, ChooseTrainTrack penv m w rnd v gp.new_tile (dir >>> 1) tb.2.2 fuel = some track ∧
    (((1 <<< track) % 256) &&& tb.2.1) ≠ 0 ∧
    ((tb.2.1 >>> 16) &&& ((1 <<< track) % 256)) ≠ 0) ∧
  (w v).force_proceed = 0 ∧
  (m.map3_lo gp.new_tile &&& penv._signal_against_trackdir (menv.FindFirstBit2x64 tb.1)) ≠ 0 ∧
  (m.map3_lo gp.new_tile &&& penv._signal_along_trackdir (menv.FindFirstBit2x64 tb.1)) ≠ 0

/-- A concrete movement environment on a grid of 256 columns: a step moves a
unit by one in x; the track status of a tile is made of the track bits in
`_map5` (both directions) and of red signal bits taken from `_map3_hi`; the
tile-entry handler returns 0; a signal update writes 100 plus the direction
into `_map2` of the tile. -/
def exMoveEnv : MoveEnv where
  realistic_acceleration := true
  wait_oneway_signal := 15
  wait_twoway_signal := 41
  VS_TRAIN_SLOWING := 16
  OT_NOTHING := 0
  OT_LOADING := 3
  OT_LEAVESTATION := 4
  OF_UNLOAD := 1
  OF_FULL_LOAD := 4
  TileX := fun t => t % 256
  TileY := fun t => t / 256
  _track_crosses_tracks := fun i => [2, 1, 0x30, 0x30, 0xC, 0xC].getD i 0
  FindFirstBit2x64 := fun x =>
    if (x &&& 0x3F) ≠ 0 then FIND_FIRST_BIT (x &&& 0x3F) else 8 + FIND_FIRST_BIT ((x >>> 8) &&& 0x3F)
  GetNewVehiclePos := fun w v =>
    let nt := ((w v).y_pos / 16).toNat * 256 + (((w v).x_pos + 1) / 16).toNat
    ({ x := (w v).x_pos + 1, y := (w v).y_pos, old_tile := (w v).tile, new_tile := nt },
      (w v).tile == nt)
  VehicleEnterTileResult := fun _ _ _ _ _ => 0
  GetTileTrackStatus := fun m t =>
    let b := m.map5 t &&& 0x3F
    let r := m.map3_hi t &&& 0x3F
    (b ||| (b <<< 8)) ||| ((r ||| (r <<< 8)) <<< 16)
  GetSlopeZ := fun _ _ _ _ => 0
  UpdateSignalsOnSegment := fun m tile dir =>
    { m with map2 := fun t => if t = tile then 100 + dir else m.map2 t }
  LoadUnloadVehicle := fun w _ => (w, 0)
  UpdateSignalsOnSegmentResult := fun m tile _ => decide (m.map3_hi tile ≠ 0)
  VehicleServiceInDepot := fun w v => w.set v { w v with breakdown_ctr := 0 }

/-- The track choice environment `exPathEnv` with the two signal tables. -/
def exSignalEnv : PathEnv :=
  { exPathEnv with _signal_along_trackdir := fun i => [0x80, 0x80, 0x80, 0x20, 0x40, 0x10, 0, 0, 0x40, 0x40, 0x40, 0x10, 0x80, 0x20].getD i 0, _signal_against_trackdir := fun i => [0x40, 0x40, 0x40, 0x10, 0x80, 0x20, 0, 0, 0x80, 0x80, 0x80, 0x20, 0x40, 0x10].getD i 0 }

/-- A line of rail tiles with the track in x direction and signals on it,
except that tile 11 has no track and that tile 31 carries a two-way signal
that is red for a train coming from tile 30. -/
def exRailMap : Map where
  GetTileType := fun _ => TileType.MP_RAILWAY
  map5 := fun t => if t = 11 then 0 else 0x41
  map3_lo := fun t => if t = 31 then 0xC0 else 0
  map3_hi := fun t => if t = 31 then 1 else 0
  map_owner := fun _ => 0
  GetTileSlope := fun _ => (0, 0)
  CorrectZ := fun _ => false

/-- Four trains on the line of `exRailMap`, all heading in direction 5 and at
the last position of their tile.  Units 0 and 1: a train whose head is about
to enter tile 11.  Units 2 and 3: a train whose wagon is about to enter tile
11.  Unit 4: a single engine about to enter tile 21.  Unit 6: a single engine
in front of the red signal of tile 31 with the wait counter 7; unit 7: the
same with the wait counter 2992. -/
def exTracks : World := fun i =>
  if i = 0 then { type := 16, subtype := 0, next := some 1, tile := 10, x_pos := 175, y_pos := 8,
                  direction := 5, cur_speed := 40, subspeed := 3, load_unload_time_rem := 9,
                  rail := { track := 1, cached_veh_length := 8 } }
  else if i = 1 then { type := 16, subtype := 2, next := none, tile := 10, x_pos := 167,
                       y_pos := 8, direction := 5, rail := { track := 1, cached_veh_length := 8 } }
  else if i = 2 then { type := 16, subtype := 0, next := some 3, tile := 11, x_pos := 183,
                       y_pos := 8, direction := 5, rail := { track := 1 } }
  else if i = 3 then { type := 16, subtype := 2, next := none, tile := 10, x_pos := 175,
                       y_pos := 8, direction := 5, rail := { track := 1 } }
  else if i = 4 then { type := 16, subtype := 0, next := none, tile := 20, x_pos := 335,
                       y_pos := 8, direction := 5, cur_speed := 40, rail := { track := 1 } }
  else if i = 6 then { type := 16, subtype := 0, next := none, tile := 30, x_pos := 495,
                       y_pos := 8, direction := 5, cur_speed := 40, subspeed := 3,
                       load_unload_time_rem := 7, rail := { track := 1, cached_veh_length := 8 } }
  else if i = 7 then { type := 16, subtype := 0, next := none, tile := 30, x_pos := 495,
                       y_pos := 8, direction := 5, cur_speed := 40, subspeed := 3,
                       load_unload_time_rem := 2992,
                       rail := { track := 1, cached_veh_length := 8 } }
  else {}

/-- The line of `exRailMap` with a rail/road crossing whose light is on at
the tiles 11 and 21. -/
def exCrossingMap : Map :=
  { exRailMap with GetTileType := fun t => if t = 11 ∨ t = 21 then TileType.MP_STREET else TileType.MP_RAILWAY, map5 := fun t => if t = 11 ∨ t = 21 then 0x14 else 0x41 }

/-- The pool `exTracks` with one more train: the front engine 8 on tile 32,
heading in direction 1 towards the signal of tile 31. -/
def exOpposing : World := fun i =>
  if i = 8 then { type := 16, subtype := 0, next := none, tile := 32, x_pos := 520, y_pos := 8,
                  direction := 1, rail := { track := 1 } }
  else exTracks i

/-! ### Third part: flags, depot, commands -/

/-- The length code `L` of the unit `u` in the words of the specification:
the result of the length callback when that callback is enabled and did not
fail, otherwise the `shorten_factor` of the engine. -/
def vehLengthCode (env : Env) (w : World) (u : Nat) : Nat :=
  let rvi_u := env.RailVehInfo (w u).engine_type
  let result := env.GetCallBackResult env.CBID_VEH_LENGTH (w u).engine_type w u % 65536
  if HASBIT rvi_u.callbackmask env.CBM_VEH_LENGTH = true ∧ result ≠ env.CALLBACK_FAILED then
    result
  else rvi_u.shorten_factor

/-- The two queries of new graphics do not look at the caches that the
recalculator writes. -/
def Env.CacheBlind (env : Env) : Prop :=
  ∀ (w w1 : World), SameUpToCaches w w1 →
    (∀ u, env.UsesWagonOverride w1 u = env.UsesWagonOverride w u) ∧
    (∀ c e u, env.GetCallBackResult c e w1 u = env.GetCallBackResult c e w u)

/-- The searches of the original pathfinding of `ChooseTrainTrack` in the
order of its loop: each candidate track of `bits` with the data record that
`NewTrainPathfind` leaves for it. -/
def ChooseTrainTrack.searches (penv : PathEnv) (m : Map) (tile enterdir : Nat) :
    Nat → Nat → TrainTrackFollowerData → List (Nat × TrainTrackFollowerData)
  | 0, _, _ => []
  | fuel + 1, bits, fd =>
    let i := FIND_FIRST_BIT bits
    let bits := KILL_FIRST_BIT bits
    let fd := { fd with best_bird_dist := 4294967295, best_track_dist := 4294967295 }
    let fd := penv.NewTrainPathfind m tile ((_search_directions.getD i []).getD enterdir 0)
      (TrainTrackFollower penv m) fd
    (i, fd) :: (if bits ≠ 0 then ChooseTrainTrack.searches penv m tile enterdir fuel bits fd
      else [])

/-- The track `t`, with the distances `bb` and `bt` of its search, is a best
one of the searches `s`: if some search reached the destination (its track
distance is not the initial value), `t` reached it with the least track
distance of those that did; if none did, `t` has the least bird distance. -/
def ChooseTrainTrack.BestOf (s : List (Nat × TrainTrackFollowerData)) (t bb bt : Nat) : Prop :=
  ∃ fdt, (t, fdt) ∈ s ∧ fdt.best_bird_dist = bb ∧ fdt.best_track_dist = bt ∧
    ((∃ p ∈ s, p.2.best_track_dist ≠ 4294967295) →
      bt ≠ 4294967295 ∧ ∀ p ∈ s, p.2.best_track_dist ≠ 4294967295 → bt ≤ p.2.best_track_dist) ∧
    ((∀ p ∈ s, p.2.best_track_dist = 4294967295) → ∀ p ∈ s, bb ≤ p.2.best_bird_dist)

/-- A track choice environment with the original pathfinding whose search
reaches the destination on track 1 only, after 30 steps; elsewhere it gets
as near as the bird distance 4. -/
def exPathEnvSearch : PathEnv :=
  { exPathEnv with NewTrainPathfind := fun _ _ dir _ fd => if dir = 1 then { fd with best_bird_dist := 0, best_track_dist := 30 } else { fd with best_bird_dist := 4 } }

/-! ### Leaving the depot -/

/-- The loop at the head of `CheckTrainStayInDepot`: false as soon as a unit
is off the depot track or off the given tile, true at the end of the chain. -/
def CheckTrainStayInDepot.allInDepot (w : World) (tile : Nat) : Nat → Option Nat → Option Bool
  | _, none => some true
  | 0, some _ => none
  | fuel + 1, some u =>
    if (w u).rail.track ≠ 0x80 ∨ (w u).tile ≠ tile then some false
    else CheckTrainStayInDepot.allInDepot w tile fuel (w u).next

/-- The pool at the end of `CheckTrainStayInDepot` after
`VehiclePositionChanged(v)`: the train has been serviced, put on the track,
shown, stopped and redrawn.  The sound and the window updates are outside
the pool. -/
def CheckTrainStayInDepot.leaveWorld (env : Env) (hooks : Hooks) (menv : MoveEnv) (w : World)
    (v : Nat) : World :=
  let w1 := menv.VehicleServiceInDepot w v
  let w2 := w1.set v { w1 v with rail := { (w1 v).rail with track := 1 } }
  let w3 :=
    if ((w2 v).direction &&& 2) ≠ 0 then
      w2.set v { w2 v with rail := { (w2 v).rail with track := 2 } }
    else w2
  let w4 := w3.set v { w3 v with vehstatus := (w3 v).vehstatus &&& (255 ^^^ (env.VS_HIDDEN % 256)) }
  let w5 := w4.set v { w4 v with cur_speed := 0 }
  let w6 := UpdateTrainDeltaXY w5 v (w5 v).direction
  let w7 := w6.set v { w6 v with cur_image := hooks.GetTrainImage w6 v (w6 v).direction }
  hooks.VehiclePositionChanged w7 v

/-- The end of `CheckTrainStayInDepot`, from `VehicleServiceInDepot(v)` on:
the train leaves. -/
def CheckTrainStayInDepot.leave (env : Env) (hooks : Hooks) (menv : MoveEnv) (m : Map)
    (w : World) (v : Nat) : Option (World × Map × Bool) :=
  let w8 := CheckTrainStayInDepot.leaveWorld env hooks menv w v
  let m1 := menv.UpdateSignalsOnSegment m (w8 v).tile (w8 v).direction
  match UpdateTrainAcceleration env w8 v with
  | none => none
  | some w9 => some (w9, m1, false)

/-- `CheckTrainStayInDepot(v)`: returns the pool, the tile grid and the
result; the wait counter `load_unload_time_rem` is a 16-bit field. -/
def CheckTrainStayInDepot (env : Env) (hooks : Hooks) (menv : MoveEnv) (m : Map) (w : World)
    (v : Nat) (fuel : Nat) : Option (World × Map × Bool) :=
  -- bail out if not all wagons are in the same depot or not in a depot at all
  match CheckTrainStayInDepot.allInDepot w (w v).tile fuel (some v) with
  | none => none
  | some false => some (w, m, false)
  | some true =>
    if (w v).force_proceed = 0 then
      let w1 := w.set v { w v with load_unload_time_rem := ((w v).load_unload_time_rem + 1) % 65536 }
      if (w1 v).load_unload_time_rem < 37 then some (w1, m, true)
      else
        let w2 := w1.set v { w1 v with load_unload_time_rem := 0 }
        let m1 := menv.UpdateSignalsOnSegment m (w2 v).tile (w2 v).direction
        if menv.UpdateSignalsOnSegmentResult m (w2 v).tile (w2 v).direction = true then
          some (w2, m1, true)
        else CheckTrainStayInDepot.leave env hooks menv m1 w2 v
    else CheckTrainStayInDepot.leave env hooks menv m w v

/-- A routine of another translation unit that leaves the direction, the
subtype, the status byte, the speed and the train part of the unit it is
called for alone. -/
def KeepsUnit (f : World → Nat → World) : Prop :=
  ∀ (w : World) (u : Nat), ((f w u) u).direction = (w u).direction ∧
    ((f w u) u).subtype = (w u).subtype ∧ ((f w u) u).vehstatus = (w u).vehstatus ∧
    ((f w u) u).cur_speed = (w u).cur_speed ∧ ((f w u) u).rail = (w u).rail

/-- Two trains on the depot tile 5, heading in direction 2 and hidden: the
units 0 and 1 wait with the counter 5; the units 2 and 3 have force-proceed
set.  Both heads have the cached weight 80. -/
def exInDepot : World := fun i =>
  if i = 0 then { type := 16, subtype := 0, next := some 1, tile := 5, direction := 2,
                  vehstatus := 1, load_unload_time_rem := 5, cur_speed := 3,
                  rail := { track := 128, cached_weight := 80, cached_power := 1000,
                            cached_max_speed := 100 } }
  else if i = 1 then { type := 16, subtype := 2, next := none, tile := 5, direction := 2,
                       vehstatus := 1, rail := { track := 128 } }
  else if i = 2 then { type := 16, subtype := 0, next := some 3, tile := 5, direction := 2,
                       vehstatus := 1, force_proceed := 1, cur_speed := 3,
                       rail := { track := 128, cached_weight := 80, cached_power := 1000,
                                 cached_max_speed := 100 } }
  else if i = 3 then { type := 16, subtype := 2, next := none, tile := 5, direction := 2,
                       vehstatus := 1, rail := { track := 128 } }
  else {}

/-! ### Selling, refitting and reversing a train -/

/-- What the sell and refit commands take from other translation units: the
vehicle disposal of vehicle.c, the command dispatcher called for
`CMD_MOVE_RAIL_VEHICLE` (with the tile, `p1`, `p2` and the flags), the refit
mask test, the price of a rail vehicle, and six constants. -/
structure TradeEnv where
  DeleteVehicle : World → Nat → World
  DoCommandByTile : World → Nat → Nat → Nat → Nat → World
  CanRefitTo : World → Nat → Nat → Bool
  build_railvehicle : Int
  RVI_MULTIHEAD : Nat
  CBM_REFIT_CAP : Nat
  CBID_REFIT_CAP : Nat
  CT_MAIL : Nat
  CT_GOODS : Nat
  NUM_CARGO : Nat

/-- The value of an `int32` expression: the integer wrapped into
`[-2^31, 2^31)`. -/
def int32 (x : Int) : Int := (x + 2147483648) % 4294967296 - 2147483648

/-- The loop of `GetRearEngine` with its counter `en_count`. -/
def GetRearEngine.loop (cenv : CmdEnv) (w : World) (engine : Nat) :
    Nat → Option Nat → Int → Option (Option Nat)
  | _, none, _ => some none
  | 0, some _, _ => none
  | fuel + 1, some u, en_count =>
    if (w u).engine_type = engine then
      -- find matching engine
      let en_count := en_count + (if IS_FIRSTHEAD_SPRITE cenv (w u).spritenum then 1 else -1)
      if en_count = 0 then some (some u)
      else GetRearEngine.loop cenv w engine fuel (w u).next en_count
    else GetRearEngine.loop cenv w engine fuel (w u).next en_count

/-- `GetRearEngine(v, engine)`: the rear engine that belongs to the
multiheaded engine `v`, or `NULL`. -/
def GetRearEngine (cenv : CmdEnv) (w : World) (v engine : Nat) (fuel : Nat) :
    Option (Option Nat) :=
  GetRearEngine.loop cenv w engine fuel (w v).next 1

/-- Step 1 of the cases 0 and 2 of `CmdSellRailWagon`: the rear engine of a
dualheaded engine is charged and, with `DC_EXEC`, unlinked and deleted.
Returns the pool, the new value of `v` and the cost. -/
def CmdSellRailWagon.rear (env : Env) (cenv : CmdEnv) (tenv : TradeEnv) (w : World)
    (flags : Nat) (v : Nat) (fuel : Nat) : Option (World × Option Nat × Int) :=
  let rear : Option (Option Nat) :=
    if ((env.RailVehInfo (w v).engine_type).flags &&& tenv.RVI_MULTIHEAD) ≠ 0 then
      GetRearEngine cenv w v (w v).engine_type fuel
    else some none
  match rear with
  | none => none
  | some none => some (w, some v, 0)
  | some (some r) =>
    let cost := int32 (0 - (w v).value)
    if (flags &&& cenv.DC_EXEC) ≠ 0 then
      match UnlinkWagon env w r v fuel with
      | none => none
      | some (w1, v1) => some (tenv.DeleteVehicle w1 r, v1, cost)
    else some (w, some v, cost)

/-- Step 2 of the cases 0 and 2 of `CmdSellRailWagon`, taken with `DC_EXEC`
when the first engine is sold: the `first` cache of the chain is cleared and
a second unit that is an engine takes over the unit number and the orders.
Returns the pool and `switch_engine`. -/
def CmdSellRailWagon.promote (env : Env) (cenv : CmdEnv) (w : World) (first : Nat)
    (fuel : Nat) : Option (World × Bool) :=
  let new_f := (w first).next
  -- 2.1 If the first wagon is sold, update the first-> pointers to NULL
  match clearFirst w fuel (some first) with
  | none => none
  | some w1 =>
    -- 2.2 If there are wagons present after the deleted front engine, check
    -- if the second wagon (which will be first) is an engine.
    match new_f with
    | none => some (w1, false)
    | some nf =>
      if ((env.RailVehInfo (w1 nf).engine_type).flags &&& env.RVI_WAGON) = 0 ∧
          IS_FIRSTHEAD_SPRITE cenv (w1 nf).spritenum = true then
        -- Copy important data from the front engine
        let w2 := w1.set nf { w1 nf with
          unitnumber := (w1 first).unitnumber
          current_order := (w1 first).current_order
          cur_order_index := (w1 first).cur_order_index
          orders := (w1 first).orders
          num_orders := (w1 first).num_orders }
        some (w2.set first { w2 first with orders := none }, true)
      else some (w1, false)

/-- Step 6 of the cases 0 and 2 of `CmdSellRailWagon`: every unit left is
sent to a line of its own through the move command. -/
def CmdSellRailWagon.lineUp (env : Env) (cenv : CmdEnv) (tenv : TradeEnv) :
    Nat → Option Nat → World → Option World
  | _, none, w => some w
  | 0, some _, _ => none
  | fuel + 1, some v, w =>
    let tmp := (w v).next
    CmdSellRailWagon.lineUp env cenv tenv fuel tmp
      (tenv.DoCommandByTile w (w v).tile ((v ||| (env.INVALID_VEHICLE <<< 16)) % 4294967296) 0
        cenv.DC_EXEC)

/-- The steps 3 to 6 of the cases 0 and 2 of `CmdSellRailWagon` with
`DC_EXEC`: the wagon is unlinked and deleted, and the train that is left is
recalculated. -/
def CmdSellRailWagon.remove (env : Env) (cenv : CmdEnv) (tenv : TradeEnv) (w : World)
    (p2 : Nat) (v first : Nat) (switch_engine : Bool) (ori_subtype : Nat) (fuel : Nat) :
    Option World :=
  match UnlinkWagon env w v first fuel with
  | none => none
  | some (w1, first) =>
    let w2 := tenv.DeleteVehicle w1 v
    -- 4 If the second wagon was an engine, update it to front_engine
    let w3 : Option World :=
      if switch_engine then
        match first with
        | none => none
        | some f => some (w2.set f { w2 f with subtype := env.TS_Front_Engine })
      else some w2
    match w3 with
    | none => none
    | some w3 =>
      -- 5. If the train still exists, update its acceleration, window, etc.
      match CmdMoveRailVehicle.refresh env w3 first fuel with
      | none => none
      | some w4 =>
        if p2 = 2 ∧ ori_subtype = env.TS_Front_Engine then
          CmdSellRailWagon.lineUp env cenv tenv fuel first w4
        else some w4

/-- The cases 0 and 2 of the switch of `CmdSellRailWagon`: delete the given
wagon. -/
def CmdSellRailWagon.single (env : Env) (cenv : CmdEnv) (tenv : TradeEnv) (w : World)
    (flags p2 : Nat) (v first : Nat) (fuel : Nat) : Option (World × Int) :=
  -- backup subtype of deleted wagon in case DeleteVehicle() changes
  let ori_subtype := (w v).subtype
  match CmdSellRailWagon.rear env cenv tenv w flags v fuel with
  | none => none
  | some (w1, v, cost) =>
    let stage2 : Option (World × Bool) :=
      if (flags &&& cenv.DC_EXEC) ≠ 0 ∧ v = some first then
        CmdSellRailWagon.promote env cenv w1 first fuel
      else some (w1, false)
    match stage2, v with
    | none, _ => none
    | some _, none => none
    | some (w2, switch_engine), some v =>
      -- 3. Delete the requested wagon
      let cost := int32 (cost - (w2 v).value)
      if (flags &&& cenv.DC_EXEC) ≠ 0 then
        match CmdSellRailWagon.remove env cenv tenv w2 p2 v first switch_engine ori_subtype
            fuel with
        | none => none
        | some w3 => some (w3, cost)
      else some (w2, cost)

/-- The counting loop of case 1 of `CmdSellRailWagon`: the numbers of first
and of rear engines of dualheads in the chain. -/
def CmdSellRailWagon.countHeads (env : Env) (cenv : CmdEnv) (tenv : TradeEnv) (w : World) :
    Nat → Option Nat → Int → Int → Option (Int × Int)
  | _, none, enf_count, enr_count => some (enf_count, enr_count)
  | 0, some _, _, _ => none
  | fuel + 1, some tmp, enf_count, enr_count =>
    if ((env.RailVehInfo (w tmp).engine_type).flags &&& tenv.RVI_MULTIHEAD) ≠ 0 then
      if IS_FIRSTHEAD_SPRITE cenv (w tmp).spritenum then
        CmdSellRailWagon.countHeads env cenv tenv w fuel (w tmp).next (enf_count + 1) enr_count
      else
        CmdSellRailWagon.countHeads env cenv tenv w fuel (w tmp).next enf_count (enr_count + 1)
    else CmdSellRailWagon.countHeads env cenv tenv w fuel (w tmp).next enf_count enr_count

/-- The end of the body of the deletion loop of case 1: the unit `v` is
charged and, with `DC_EXEC`, unlinked and deleted.  Returns the pool, the
new value of `first` and the cost. -/
def CmdSellRailWagon.sellOne (env : Env) (cenv : CmdEnv) (tenv : TradeEnv) (flags : Nat)
    (fuel0 : Nat) (w : World) (v : Nat) (first : Option Nat) (cost : Int) :
    Option (World × Option Nat × Int) :=
  let cost := int32 (cost - (w v).value)
  if (flags &&& cenv.DC_EXEC) ≠ 0 then
    match first with
    | none => none
    | some f =>
      match UnlinkWagon env w v f fuel0 with
      | none => none
      | some (w1, first) => some (tenv.DeleteVehicle w1 v, first, cost)
  else some (w, first, cost)

/-- The deletion loop of case 1 of `CmdSellRailWagon`: every vehicle from
the selected one on is sold, but for a rear engine that matches a front
engine earlier in the chain. -/
def CmdSellRailWagon.sellRest (env : Env) (cenv : CmdEnv) (tenv : TradeEnv) (flags : Nat)
    (fuel0 : Nat) :
    Nat → Option Nat → World → Option Nat → Int → Int → Int →
      Option (World × Option Nat × Int)
  | _, none, w, first, _, _, cost => some (w, first, cost)
  | 0, some _, _, _, _, _, _ => none
  | fuel + 1, some v, w, first, enf_count, enr_count, cost =>
    let tmp := (w v).next
    if ((env.RailVehInfo (w v).engine_type).flags &&& tenv.RVI_MULTIHEAD) ≠ 0 then
      -- Always delete newly encountered front-engines
      if IS_FIRSTHEAD_SPRITE cenv (w v).spritenum then
        match CmdSellRailWagon.sellOne env cenv tenv flags fuel0 w v first cost with
        | none => none
        | some (w1, first, cost) =>
          CmdSellRailWagon.sellRest env cenv tenv flags fuel0 fuel tmp w1 first
            (enf_count - 1) enr_count cost
      -- If we have more rear engines than front engines, this one belongs to none
      else if enr_count > enf_count then
        match CmdSellRailWagon.sellOne env cenv tenv flags fuel0 w v first cost with
        | none => none
        | some (w1, first, cost) =>
          CmdSellRailWagon.sellRest env cenv tenv flags fuel0 fuel tmp w1 first
            enf_count (enr_count - 1) cost
      -- Otherwise leave it alone
      else
        CmdSellRailWagon.sellRest env cenv tenv flags fuel0 fuel tmp w first enf_count
          enr_count cost
    else
      match CmdSellRailWagon.sellOne env cenv tenv flags fuel0 w v first cost with
      | none => none
      | some (w1, first, cost) =>
        CmdSellRailWagon.sellRest env cenv tenv flags fuel0 fuel tmp w1 first enf_count
          enr_count cost

/-- Case 1 of the switch of `CmdSellRailWagon`: delete the wagon and all
wagons after it. -/
def CmdSellRailWagon.chain (env : Env) (cenv : CmdEnv) (tenv : TradeEnv) (w : World)
    (flags : Nat) (v first : Nat) (fuel : Nat) : Option (World × Int) :=
  -- 1. Count the number for first and rear engines for dualheads
  match CmdSellRailWagon.countHeads env cenv tenv w fuel (some first) 0 0 with
  | none => none
  | some (enf_count, enr_count) =>
    -- 2. Start deleting every vehicle after the selected one
    match CmdSellRailWagon.sellRest env cenv tenv flags fuel fuel (some v) w (some first)
        enf_count enr_count 0 with
    | none => none
    | some (w1, first, cost) =>
      -- 3. If it is still a valid train after selling, update its cached values
      if (flags &&& cenv.DC_EXEC) ≠ 0 then
        match CmdMoveRailVehicle.refresh env w1 first fuel with
        | none => none
        | some w2 => some (w2, cost)
      else some (w1, cost)

/-- `CmdSellRailWagon(x, y, flags, p1, p2)`: sell a (single) train
wagon/engine.  Returns the pool after the call and the return value. -/
def CmdSellRailWagon (env : Env) (cenv : CmdEnv) (tenv : TradeEnv) (w : World)
    (flags p1 p2 : Nat) (fuel : Nat) : Option (World × Int) :=
  if cenv.IsVehicleIndex w p1 = false ∨ p2 > 2 then some (w, cenv.CMD_ERROR)
  else
    let v := p1
    if (w v).type ≠ env.VEH_Train ∨ cenv.CheckOwnership (w v).owner = false then
      some (w, cenv.CMD_ERROR)
    else
      let first := env.GetFirstVehicleInChain w v
      let wr := env.afterFirstRead w v
      -- make sure the vehicle is stopped in the depot
      match CheckTrainStoppedInDepot env cenv wr first fuel with
      | none => none
      | some n =>
        if n < 0 then some (wr, cenv.CMD_ERROR)
        else if p2 = 1 then CmdSellRailWagon.chain env cenv tenv wr flags v first fuel
        else CmdSellRailWagon.single env cenv tenv wr flags p2 v first fuel

/-- The capacity that `CmdRefitRailVehicle` gives the unit `v` for the cargo
`new_cid`: the result of the refit capacity callback, which runs with the
new cargo type stored in the unit, or the default derived from the capacity
of the engine.  Returns the pool after the cargo type has been stored back,
and the amount, a `uint16`. -/
def CmdRefitRailVehicle.amount (env : Env) (tenv : TradeEnv) (w : World) (v : Nat)
    (new_cid : Nat) : World × Nat :=
  let rvi := env.RailVehInfo (w v).engine_type
  let rb : World × Nat :=
    if HASBIT rvi.callbackmask tenv.CBM_REFIT_CAP then
      -- Check the 'refit capacity' callback
      let temp_cid := (w v).cargo_type
      let w1 := w.set v { w v with cargo_type := new_cid }
      let amount := env.GetCallBackResult tenv.CBID_REFIT_CAP (w1 v).engine_type w1 v % 65536
      (w1.set v { w1 v with cargo_type := temp_cid }, amount)
    else (w, env.CALLBACK_FAILED)
  if rb.2 = env.CALLBACK_FAILED then
    -- callback failed or not used, use default
    let old_cid := rvi.cargo_type
    let amount := rvi.capacity % 65536
    let amount :=
      if old_cid = env.CT_PASSENGERS then amount
      else if old_cid = tenv.CT_MAIL ∨ old_cid = tenv.CT_GOODS then (amount <<< 1) % 65536
      else (((amount <<< 1) % 65536) <<< 1) % 65536
    let amount :=
      if new_cid = env.CT_PASSENGERS then amount
      else if new_cid = tenv.CT_MAIL ∨ new_cid = tenv.CT_GOODS then amount >>> 1
      else (amount >>> 1) >>> 1
    (rb.1, amount)
  else rb

/-- The body of the loop of `CmdRefitRailVehicle` for the unit `v`: returns
the pool, the cost and the refitted amount `num`. -/
def CmdRefitRailVehicle.body (env : Env) (cenv : CmdEnv) (tenv : TradeEnv) (flags : Nat)
    (new_cid : Nat) (SkipStoppedInDepotCheck : Bool) (w : World) (v : Nat) (cost : Int)
    (num : Nat) : World × Int × Nat :=
  if tenv.CanRefitTo w v new_cid = false then (w, cost, num)
  else if (w v).cargo_cap ≠ 0 then
    let wa := CmdRefitRailVehicle.amount env tenv w v new_cid
    let w1 := wa.1
    let amount := wa.2
    if amount ≠ 0 then
      let cost :=
        if new_cid ≠ (w1 v).cargo_type then int32 (cost + (tenv.build_railvehicle >>> 8))
        else cost
      let num := (num + amount) % 4294967296
      if (flags &&& cenv.DC_EXEC) ≠ 0 then
        -- autorefitted train cars wants to keep the cargo
        let w2 :=
          if SkipStoppedInDepotCheck = false then w1.set v { w1 v with cargo_count := 0 }
          else w1
        let w3 := w2.set v { w2 v with cargo_type := new_cid }
        (w3.set v { w3 v with cargo_cap := amount }, cost, num)
      else (w1, cost, num)
    else (w1, cost, num)
  else (w, cost, num)

/-- The loop `do ... while ((v = v->next) != NULL || SkipStoppedInDepotCheck)`
of `CmdRefitRailVehicle`.  The body reads the record behind `v`, so an
iteration entered with `NULL` does not return. -/
def CmdRefitRailVehicle.loop (env : Env) (cenv : CmdEnv) (tenv : TradeEnv) (flags : Nat)
    (new_cid : Nat) (SkipStoppedInDepotCheck : Bool) :
    Nat → Option Nat → World → Int → Nat → Option (World × Int × Nat)
  | 0, _, _, _, _ => none
  | _ + 1, none, _, _, _ => none
  | fuel + 1, some v, w, cost, num =>
    match CmdRefitRailVehicle.body env cenv tenv flags new_cid SkipStoppedInDepotCheck w v cost
        num with
    | (w1, cost, num) =>
      let v := (w1 v).next
      if v ≠ none ∨ SkipStoppedInDepotCheck = true then
        CmdRefitRailVehicle.loop env cenv tenv flags new_cid SkipStoppedInDepotCheck fuel v w1
          cost num
      else some (w1, cost, num)

/-- `CmdRefitRailVehicle(x, y, flags, p1, p2)`: refit a train to the cargo
type `p2 & 0xFF`.  Returns the pool after the call and the return value;
the refitted amount goes to a global that is not part of the pool. -/
def CmdRefitRailVehicle (env : Env) (cenv : CmdEnv) (tenv : TradeEnv) (w : World)
    (flags p1 p2 : Nat) (fuel : Nat) : Option (World × Int) :=
  -- gets the cargo number
  let new_cid := p2 &&& 0xFF
  let SkipStoppedInDepotCheck := HASBIT p2 8
  if cenv.IsVehicleIndex w p1 = false then some (w, cenv.CMD_ERROR)
  else
    let v := p1
    if (w v).type ≠ env.VEH_Train ∨ cenv.CheckOwnership (w v).owner = false then
      some (w, cenv.CMD_ERROR)
    else
      let stopped : Option Bool :=
        if SkipStoppedInDepotCheck = false then
          (CheckTrainStoppedInDepot env cenv w v fuel).map (fun n => decide (n < 0))
        else some false
      match stopped with
      | none => none
      | some true => some (w, cenv.CMD_ERROR)
      | some false =>
        -- Check cargo
        if new_cid > tenv.NUM_CARGO then some (w, cenv.CMD_ERROR)
        else
          match CmdRefitRailVehicle.loop env cenv tenv flags new_cid SkipStoppedInDepotCheck
              fuel (some v) w 0 0 with
          | none => none
          | some (w1, cost, _) => some (w1, cost)

/-- The macro `TOGGLEBIT(x, y)` on a byte. -/
def TOGGLEBIT (x y : Nat) : Nat := (x ^^^ (1 <<< y)) % 256

/-- `SetLastSpeed(v, spd)`; the window update is outside the pool. -/
def SetLastSpeed (w : World) (v : Nat) (spd : Nat) : World :=
  let old := (w v).last_speed
  if spd ≠ old then w.set v { w v with last_speed := spd } else w

/-- `CmdReverseTrainDirection(x, y, flags, p1, p2)`: reverse a train.
`ctrl` stands for `TrainController` and `realistic_acceleration` for the
setting of that name.  Returns the pool and the tile grid after the call and
the return value. -/
def CmdReverseTrainDirection (env : Env) (cenv : CmdEnv) (hooks : Hooks) (penv : PathEnv)
    (ctrl : World → Map → Nat → Option (World × Map)) (realistic_acceleration : Bool)
    (m : Map) (w : World) (flags p1 : Nat) (fuel : Nat) : Option (World × Map × Int) :=
  if cenv.IsVehicleIndex w p1 = false then some (w, m, cenv.CMD_ERROR)
  else
    let v := p1
    if (w v).type ≠ env.VEH_Train ∨ cenv.CheckOwnership (w v).owner = false then
      some (w, m, cenv.CMD_ERROR)
    else if (w v).rail.crash_anim_pos ≠ 0 ∨ (w v).breakdown_ctr ≠ 0 then
      some (w, m, cenv.CMD_ERROR)
    else if (flags &&& cenv.DC_EXEC) ≠ 0 then
      if realistic_acceleration = true ∧ (w v).cur_speed ≠ 0 then
        some (w.set v { w v with rail := { (w v).rail with
          flags := TOGGLEBIT (w v).rail.flags env.VRF_REVERSING } }, m, 0)
      else
        let w1 := w.set v { w v with cur_speed := 0 }
        let w2 := SetLastSpeed w1 v 0
        match ReverseTrainDirection.onGrid env hooks penv ctrl m w2 v fuel with
        | none => none
        | some (w3, m3) => some (w3, m3, 0)
    else some (w, m, 0)

/-- The pool `w1` is the pool `w` but for `first` caches that have been
cleared. -/
def FirstCleared (w w1 : World) : Prop :=
  ∀ u, w1 u = w u ∨ w1 u = { w u with first := none }

/-- The pool `w1` is the pool `w` but for the `first` caches: every other
field of every record is the same. -/
def SameButFirst (w w1 : World) : Prop :=
  ∀ u, { w1 u with first := (w u).first } = w u

/-- The deletion hook leaves the `value` field of every record as it is. -/
def TradeEnv.DeleteKeepsValues (tenv : TradeEnv) : Prop :=
  ∀ (w : World) (u x : Nat), ((tenv.DeleteVehicle w u) x).value = (w x).value

/-- A concrete trade environment: deleting a vehicle clears its type, the
dispatcher does nothing, every cargo fits, a rail vehicle costs 25600. -/
def exTradeEnv : TradeEnv where
  DeleteVehicle := fun w u => w.set u { w u with type := 0 }
  DoCommandByTile := fun w _ _ _ _ => w
  CanRefitTo := fun _ _ _ => true
  build_railvehicle := 25600
  RVI_MULTIHEAD := 1
  CBM_REFIT_CAP := 3
  CBID_REFIT_CAP := 21
  CT_MAIL := 2
  CT_GOODS := 5
  NUM_CARGO := 12

/-- A running train of an engine and a wagon (units 0 and 1) outside a
depot, with the `first` cache of both units filled in; the wagon counts
down to a breakdown. -/
def exCached : World := fun i =>
  if i = 0 then { type := 16, subtype := 0, engine_type := 0, next := some 1,
                  first := some 0, tile := 10, cur_speed := 20, unitnumber := 1,
                  value := 5000, cargo_cap := 0, rail := { track := 1 } }
  else if i = 1 then { type := 16, subtype := 2, engine_type := 1, next := none,
                       first := some 0, tile := 10, value := 700, cargo_cap := 30,
                       breakdown_ctr := 1, rail := { track := 1 } }
  else {}

/-- The train of `exCached` with the `first` cache of both units empty. -/
def exUncached : World := fun i => { exCached i with first := none }

/-! ### Length compensation, pair by pair -/

/-- The controller leaves the links and the cached lengths of all units as
they are. -/
def CtrlKeepsLinks (ctrl : World → Nat → Option World) : Prop :=
  ∀ (w : World) (u : Nat) (w1 : World), ctrl w u = some w1 →
    ∀ x, (w1 x).next = (w x).next ∧
      (w1 x).rail.cached_veh_length = (w x).rail.cached_veh_length

/-- The number of steps that one round of `AdvanceWagons` takes for a base
unit of cached length `lenBase` and a matching unit of cached length
`lenLast`: the difference by which the matching unit is longer, or with
`before` the difference by which it is shorter; 0 if it is not. -/
def AdvanceWagons.stepsFor (before : Bool) (lenBase lenLast : Nat) : Nat :=
  if before then lenBase - lenLast else lenLast - lenBase

/-- `AdvanceWagons` told pair by pair on the list `l` of the units of the
chain, from the ends inward: in round `k` the units from position `k + 1` to
position `n - 2 - k`, the ones between the positions `k` and `n - 1 - k`, are
moved `stepsFor` the cached lengths of the units at the positions `k` and
`n - 2 - k`, with the unit at position `n - 2 - k` cut off from the rest of
the chain while they move. -/
def AdvanceWagons.inward (ctrl : World → Nat → Option World) (before : Bool) (l : List Nat) :
    Nat → Nat → World → Option World
  | 0, _, w => some w
  | rounds + 1, k, w =>
    let base := l.getD k 0
    let first := l.getD (k + 1) 0
    let last := l.getD (l.length - 2 - k) 0
    let n := AdvanceWagons.stepsFor before (w base).rail.cached_veh_length
      (w last).rail.cached_veh_length
    if n > 0 then
      match repeatController ctrl first n (w.set last { w last with next := none }) with
      | none => none
      | some w2 =>
        AdvanceWagons.inward ctrl before l rounds (k + 1)
          (w2.set last { w2 last with next := (w last).next })
    else AdvanceWagons.inward ctrl before l rounds (k + 1) w

/-- A controller that only counts its calls, in the `progress` field of the
unit it is called for. -/
def exStepCounter : World → Nat → Option World :=
  fun w u => some (w.set u { w u with progress := (w u).progress + 1 })

/-- A train of three units with the cached lengths 8, 5 and 8. -/
def exUneven : World := fun i =>
  if i = 0 then { type := 16, subtype := 0, next := some 1,
                  rail := { track := 1, cached_veh_length := 8 } }
  else if i = 1 then { type := 16, subtype := 2, next := some 2,
                       rail := { track := 1, cached_veh_length := 5 } }
  else if i = 2 then { type := 16, subtype := 2, next := none,
                       rail := { track := 1, cached_veh_length := 8 } }
  else {}

/-- A train of five units with the cached lengths 8, 5, 6, 7 and 3. -/
def exFive : World := fun i =>
  if i = 0 then { type := 16, subtype := 0, next := some 1,
                  rail := { track := 1, cached_veh_length := 8 } }
  else if i = 1 then { type := 16, subtype := 2, next := some 2,
                       rail := { track := 1, cached_veh_length := 5 } }
  else if i = 2 then { type := 16, subtype := 2, next := some 3,
                       rail := { track := 1, cached_veh_length := 6 } }
  else if i = 3 then { type := 16, subtype := 2, next := some 4,
                       rail := { track := 1, cached_veh_length := 7 } }
  else if i = 4 then { type := 16, subtype := 2, next := none,
                       rail := { track := 1, cached_veh_length := 3 } }
  else {}

/-! ### Curves of a consist -/

/-- The unit of direction `ndir` follows a unit of direction `dir` through
a 45 degree curve: `ndir` is one of the two entries of `_curve_neighbours45`
for `dir`. -/
def isCurve45 (dir ndir : Nat) : Bool :=
  decide (curveNeighbour _curve_neighbours45 dir 0 = ndir) ||
    decide (curveNeighbour _curve_neighbours45 dir 1 = ndir)

/-- The unit of direction `ndir` follows a unit of direction `dir` through
a 90 degree turn: `ndir` is one of the two entries of `_curve_neighbours90`
for `dir`. -/
def isCurve90 (dir ndir : Nat) : Bool :=
  decide (curveNeighbour _curve_neighbours90 dir 0 = ndir) ||
    decide (curveNeighbour _curve_neighbours90 dir 1 = ndir)

/-- The directions of the pairs of consecutive units of the chain `l`. -/
def unitPairs (w : World) (l : List Nat) : List (Nat × Nat) :=
  (l.map (fun u => (w u).direction)).zip (l.map (fun u => (w u).direction)).tail

/-- The positions of the 45 degree curves among the pairs `ps`, the first of
which has the position `pos`. -/
def curvesFrom : Int → List (Nat × Nat) → List Int
  | _, [] => []
  | pos, p :: ps =>
    if isCurve45 p.1 p.2 then pos :: curvesFrom (pos + 1) ps else curvesFrom (pos + 1) ps

/-- The gaps between successive positions of a list. -/
def gapsOf : List Int → List Int
  | a :: b :: r => (b - a) :: gapsOf (b :: r)
  | _ => []

/-- The truncated average of the gaps between successive positions. -/
def averageGap (positions : List Int) : Int :=
  (gapsOf positions).sum.tdiv (gapsOf positions).length

/-- The curve speed limit for an average gap `g`. -/
def curveCapFormula (g : Int) : Int :=
  232 - (13 - clamp_int g 1 12) * (13 - clamp_int g 1 12)

/-- A train of eight units that runs through three 45 degree curves, behind
the units 0, 3 and 5. -/
def exCurvy : World := fun i =>
  if i = 0 then { type := 16, subtype := 0, next := some 1, direction := 1 }
  else if i = 1 then { type := 16, subtype := 2, next := some 2, direction := 2 }
  else if i = 2 then { type := 16, subtype := 2, next := some 3, direction := 2 }
  else if i = 3 then { type := 16, subtype := 2, next := some 4, direction := 2 }
  else if i = 4 then { type := 16, subtype := 2, next := some 5, direction := 3 }
  else if i = 5 then { type := 16, subtype := 2, next := some 6, direction := 3 }
  else if i = 6 then { type := 16, subtype := 2, next := some 7, direction := 4 }
  else if i = 7 then { type := 16, subtype := 2, next := none, direction := 4 }
  else {}

/-- A train of five units with the directions 0, 2, 2, 3 and 4: a 90 degree
turn behind the head and two 45 degree curves at adjacent positions further
back. -/
def exRightAngle : World := fun i =>
  if i = 0 then { type := 16, subtype := 0, next := some 1, direction := 0 }
  else if i = 1 then { type := 16, subtype := 2, next := some 2, direction := 2 }
  else if i = 2 then { type := 16, subtype := 2, next := some 3, direction := 2 }
  else if i = 3 then { type := 16, subtype := 2, next := some 4, direction := 3 }
  else if i = 4 then { type := 16, subtype := 2, next := none, direction := 4 }
  else {}

/-- The train of `exRightAngle` in the opposite order of its curves: the
directions 4, 3, 2, 2 and 0, with the 90 degree turn behind the two adjacent
45 degree curves. -/
def exRightAngleLast : World := fun i =>
  if i = 0 then { type := 16, subtype := 0, next := some 1, direction := 4 }
  else if i = 1 then { type := 16, subtype := 2, next := some 2, direction := 3 }
  else if i = 2 then { type := 16, subtype := 2, next := some 3, direction := 2 }
  else if i = 3 then { type := 16, subtype := 2, next := some 4, direction := 2 }
  else if i = 4 then { type := 16, subtype := 2, next := none, direction := 0 }
  else {}

/-! ### Refitting in a depot -/

/-- The environment `exEnv` with wagons of the engine type 1 that carry 30
units of the cargo 1. -/
def exRefitEnv : Env :=
  { exEnv with
    RailVehInfo := fun e =>
      if e = 1 then { flags := 2, weight := 20, capacity := 30, cargo_type := 1 }
      else exRailVehInfo e }

/-- A stopped train in the depot on tile 5: an engine (unit 0) and two
wagons (units 1 and 2) that carry the cargo 1. -/
def exRefit : World := fun i =>
  if i = 0 then { type := 16, subtype := 0, engine_type := 0, next := some 1, tile := 5,
                  vehstatus := 2, unitnumber := 1, rail := { track := 128 } }
  else if i = 1 then { type := 16, subtype := 2, engine_type := 1, next := some 2, tile := 5,
                       cargo_type := 1, cargo_cap := 30, cargo_count := 4,
                       rail := { track := 128 } }
  else if i = 2 then { type := 16, subtype := 2, engine_type := 1, next := none, tile := 5,
                       cargo_type := 1, cargo_cap := 30, cargo_count := 7,
                       rail := { track := 128 } }
  else {}

/-! ### Matching the rear engine -/

/-- The counter of the engines of type `engine` after the units `us`, started
at `c`: plus one for each unit of that type that shows a front-head sprite,
minus one for each other unit of that type; units of other types do not
count. -/
def rearCounter (cenv : CmdEnv) (w : World) (engine : Nat) : Int → List Nat → Int
  | c, [] => c
  | c, u :: us =>
    rearCounter cenv w engine
      (if (w u).engine_type = engine then
        (if IS_FIRSTHEAD_SPRITE cenv (w u).spritenum = true then c + 1 else c - 1)
       else c) us

/-- A train of dualheaded engines of type 3 around a wagon: the front heads
0 and 2 (even sprites), the wagon 1 and the rear heads 3 and 4 (odd
sprites). -/
def exDualHead : World := fun i =>
  if i = 0 then { type := 16, subtype := 0, engine_type := 3, spritenum := 0, next := some 1 }
  else if i = 1 then { type := 16, subtype := 2, engine_type := 1, spritenum := 0,
                       next := some 2 }
  else if i = 2 then { type := 16, subtype := 2, engine_type := 3, spritenum := 0,
                       next := some 3 }
  else if i = 3 then { type := 16, subtype := 2, engine_type := 3, spritenum := 1,
                       next := some 4 }
  else if i = 4 then { type := 16, subtype := 2, engine_type := 3, spritenum := 1,
                       next := none }
  else {}

/-! ### Clearing a crashed train -/

/-- What the clearing of a crashed train takes from other translation units:
the signal update around a tile, the tunnel query and the constant
`INVALID_TILE`. -/
structure WreckEnv where
  SetSignalsOnBothDir : Map → Nat → Nat → Map
  CheckTunnelBusy : World → Map → Nat → Nat
  INVALID_TILE : Nat

/-- The loop `for (; v->next != NULL; v = v->next) u = v` of
`DeleteLastWagon`: returns the one-before-last wagon `u` and the last one
`v`. -/
def DeleteLastWagon.walk (w : World) : Nat → Nat → Nat → Option (Nat × Nat)
  | 0, _, _ => none
  | fuel + 1, u, v =>
    match (w v).next with
    | none => some (u, v)
    | some n => DeleteLastWagon.walk w fuel v n

/-- `DeleteLastWagon(v)`: deletes the last wagon of a crashed train and
recalculates the signals around it.  Returns the pool and the tile grid; the
window and viewport updates are outside both. -/
def DeleteLastWagon (env : Env) (tenv : TradeEnv) (xenv : WreckEnv) (m : Map) (w : World)
    (v : Nat) (fuel : Nat) : Option (World × Map) :=
  -- Go to the last wagon and delete the link pointing there
  match DeleteLastWagon.walk w fuel v v with
  | none => none
  | some (u, v) =>
    let w1 := w.set u { w u with next := none }
    let w2 := tenv.DeleteVehicle w1 v
    let m1 :=
      if ((w2 v).rail.track &&& 0xC0) = 0 then
        xenv.SetSignalsOnBothDir m (w2 v).tile (FIND_FIRST_BIT (w2 v).rail.track)
      else m
    -- Check if the wagon was on a road/rail-crossing and disable it if no
    -- others are on it
    let m2 := DisableTrainCrossing env w2 m1 (w2 v).tile
    if (w2 v).rail.track = 0x40 then
      -- inside a tunnel
      let endtile := xenv.CheckTunnelBusy w2 m2 (w2 v).tile
      -- tunnel is busy (error returned)
      if endtile = xenv.INVALID_TILE then some (w2, m2)
      else if (w2 v).direction = 1 ∨ (w2 v).direction = 5 then
        let m3 := xenv.SetSignalsOnBothDir m2 (w2 v).tile 0
        some (w2, xenv.SetSignalsOnBothDir m3 endtile 0)
      else if (w2 v).direction = 3 ∨ (w2 v).direction = 7 then
        let m3 := xenv.SetSignalsOnBothDir m2 (w2 v).tile 1
        some (w2, xenv.SetSignalsOnBothDir m3 endtile 1)
      else some (w2, m2)
    else some (w2, m2)

/-- `DeleteLastWagon(v)` called `k` times in a row. -/
def DeleteLastWagon.times (env : Env) (tenv : TradeEnv) (xenv : WreckEnv) (v : Nat)
    (fuel : Nat) : Nat → World → Map → Option (World × Map)
  | 0, w, m => some (w, m)
  | k + 1, w, m =>
    match DeleteLastWagon env tenv xenv m w v fuel with
    | none => none
    | some (w1, m1) => DeleteLastWagon.times env tenv xenv v fuel k w1 m1

/-- The deletion hook leaves the links of all records as they are. -/
def TradeEnv.DeleteKeepsNext (tenv : TradeEnv) : Prop :=
  ∀ (w : World) (u x : Nat), ((tenv.DeleteVehicle w u) x).next = (w x).next

/-- A concrete wreck environment: the signal updates leave the grid alone and
no tunnel is busy. -/
def exWreckEnv : WreckEnv where
  SetSignalsOnBothDir := fun m _ _ => m
  CheckTunnelBusy := fun _ _ t => t + 1
  INVALID_TILE := 4294967295

/-! ### Speed update -/

/-- The part of `UpdateTrainSpeed` after the choice of `accel`, a `uint`:
the new `subspeed`, `cur_speed` and `progress` of the head, and the return
value. -/
def UpdateTrainSpeed.apply (w : World) (v : Nat) (accel : Nat) : World × Int :=
  let spd := ((w v).subspeed + accel * 2) % 4294967296
  let w1 := w.set v { w v with subspeed := spd % 256 }
  let tempmax : Int := (w1 v).max_speed
  let tempmax : Int :=
    if (w1 v).cur_speed > (w1 v).max_speed then
      ((w1 v).cur_speed : Int) - (((w1 v).cur_speed / 10 : Nat) : Int) - 1
    else tempmax
  let c := clamp_int (((w1 v).cur_speed : Int) + (toInt32 spd >>> 8)) 0 tempmax
  let w2 := w1.set v { w1 v with cur_speed := (c % 65536).toNat }
  let spd := toUint c
  let spd := if ((w2 v).direction &&& 1) = 0 then ((spd * 3) % 4294967296) >>> 2 else spd
  let spd := (spd + (w2 v).progress) % 4294967296
  let w3 := w2.set v { w2 v with progress := spd % 256 }
  (w3, toInt32 (spd >>> 8))

/-- What `RegisterScript` reads of a `ScriptInfo`: the results of
`GetVersion()`, `GetShortName()` and `GetMainScript()`.  A C string is the
list of its bytes. -/
structure ScriptInfo where
  version : Int := 0
  short_name : List Nat := []
  main_script : List Nat := []
deriving DecidableEq, Repr

/-- A `ScriptInfoList`, the `std::map` from names to scripts, as the list of
its entries; the order of the entries is not part of the model. -/
abbrev ScriptInfoList := List (List Nat × ScriptInfo)

/-- The lookup `list.find(key)`: the script stored under the key, if any. -/
def ScriptInfoList.find : ScriptInfoList → List Nat → Option ScriptInfo
  | [], _ => none
  | (k, v) :: r, key => if k = key then some v else ScriptInfoList.find r key

/-- The assignment `list[key] = info`, also used for `iter->second = info`:
the entry of the key is replaced, or added when there is none. -/
def ScriptInfoList.assign : ScriptInfoList → List Nat → ScriptInfo → ScriptInfoList
  | [], key, info => [(key, info)]
  | (k, v) :: r, key, info =>
    if k = key then (k, info) :: r else (k, v) :: ScriptInfoList.assign r key info

/-- What `RegisterScript` takes from other translation units: the lower-case
conversion of the string class, the text that `"%d"` prints for a version,
and the setting `gui.ai_developer_tools`. -/
structure ScanEnv where
  tolower : List Nat → List Nat
  fmt_d : Int → List Nat
  ai_developer_tools : Bool

/-- The two lists of a `ScriptScanner`. -/
structure ScriptScanner where
  info_list : ScriptInfoList := []
  info_single_list : ScriptInfoList := []

/-- The buffer `script_name` of `RegisterScript` after `copy (name)` and
`tolower()`; the buffer `sstring<1024>` holds up to 1023 bytes, and a text
that does not fit is cut off. -/
def ScriptScanner.lowerName (env : ScanEnv) (name : List Nat) : List Nat :=
  env.tolower (name.take 1023)

/-- The buffer `script_name` after `append_fmt (".%d", info->GetVersion())`:
the key of the script in `info_list`. -/
def ScriptScanner.versionKey (env : ScanEnv) (name : List Nat) (version : Int) : List Nat :=
  (ScriptScanner.lowerName env name ++ 46 :: env.fmt_d version).take 1023

/-- The buffer `script_name` after `truncate (original_length)`: the key of
the script in `info_single_list`. -/
def ScriptScanner.nameKey (env : ScanEnv) (name : List Nat) (version : Int) : List Nat :=
  (ScriptScanner.versionKey env name version).take (ScriptScanner.lowerName env name).length

/-- `ScriptScanner::RegisterScript (info, name, dev_only)`.  The debug output
and the deletion of a script that is not kept are outside the model. -/
def ScriptScanner.RegisterScript (env : ScanEnv) (st : ScriptScanner) (info : ScriptInfo)
    (name : List Nat) (dev_only : Bool) : ScriptScanner :=
  let script_name := ScriptScanner.versionKey env name info.version
  -- Check if GetShortName follows the rules
  if info.short_name.length ≠ 4 then st
  else
    match st.info_list.find script_name with
    | some _ =>
      -- This script was already registered
      st
    | none =>
      let st1 := { st with info_list := st.info_list.assign script_name info }
      let script_name := ScriptScanner.nameKey env name info.version
      if dev_only = false ∨ env.ai_developer_tools = true then
        -- Add the script to the 'unique' script list, where only the highest version
        -- of the script is registered.
        match st1.info_single_list.find script_name with
        | none =>
          { st1 with info_single_list := st1.info_single_list.assign script_name info }
        | some old =>
          if old.version < info.version then
            { st1 with info_single_list := st1.info_single_list.assign script_name info }
          else st1
      else st1

/-- One call of `RegisterScript`: the script, the name and `dev_only`. -/
structure ScriptCall where
  info : ScriptInfo
  name : List Nat
  dev_only : Bool := false
deriving DecidableEq, Repr

/-- A sequence of `RegisterScript` calls on the scanner `st`. -/
def ScriptScanner.registerAll (env : ScanEnv) (st : ScriptScanner) (calls : List ScriptCall) :
    ScriptScanner :=
  calls.foldl (fun st c => ScriptScanner.RegisterScript env st c.info c.name c.dev_only) st

/-- The call `c` on the scanner `st` reaches the update of the unique list:
the short name has four bytes, the key is not in `info_list` yet, and the
script is not for developers only or the developer tools are on. -/
def ScriptScanner.accepts (env : ScanEnv) (st : ScriptScanner) (c : ScriptCall) : Bool :=
  decide (c.info.short_name.length = 4) &&
    (st.info_list.find (ScriptScanner.versionKey env c.name c.info.version)).isNone &&
    (!c.dev_only || env.ai_developer_tools)

/-- The scripts of the calls `calls`, made one after the other on the scanner
`st`, that reach the update of the unique list under the key `n`. -/
def ScriptScanner.accepted (env : ScanEnv) (n : List Nat) :
    ScriptScanner → List ScriptCall → List ScriptInfo
  | _, [] => []
  | st, c :: cs =>
    (if ScriptScanner.accepts env st c = true ∧
        ScriptScanner.nameKey env c.name c.info.version = n then [c.info] else []) ++
      ScriptScanner.accepted env n (ScriptScanner.RegisterScript env st c.info c.name c.dev_only)
        cs

/-- A concrete scanner environment: ASCII upper-case letters are lowered,
versions 0 to 9 print as one digit and every other version as `?`, and the
developer tools are off. -/
def exScanEnv : ScanEnv where
  tolower := fun s => s.map (fun c => if 65 ≤ c ∧ c ≤ 90 then c + 32 else c)
  fmt_d := fun v => if 0 ≤ v ∧ v ≤ 9 then [48 + v.toNat] else [63]
  ai_developer_tools := false

/-- Five registrations: `Ab` in version 2, `AB` in version 3, `ab` in version
2 again (from another main script), `ab` in version 1, and a script with a
short name of three bytes. -/
def exCalls : List ScriptCall :=
  [{ info := { version := 2, short_name := [65, 66, 67, 68], main_script := [1] },
     name := [65, 98] },
   { info := { version := 3, short_name := [65, 66, 67, 68], main_script := [2] },
     name := [65, 66] },
   { info := { version := 2, short_name := [65, 66, 67, 68], main_script := [3] },
     name := [97, 98] },
   { info := { version := 1, short_name := [65, 66, 67, 68], main_script := [4] },
     name := [97, 98] },
   { info := { version := 7, short_name := [65, 66, 67], main_script := [5] },
     name := [120] }]

/-! ## Theorems -/

@[simp] theorem World.set_same (w : World) (i : Nat) (x : Vehicle) : (w.set i x) i = x := by
  simp [World.set]

theorem World.set_other (w : World) (i j : Nat) (x : Vehicle) (h : j ≠ i) :
    (w.set i x) j = w j := by
  simp [World.set, h]

theorem HASBIT_eq_testBit (x y : Nat) : HASBIT x y = x.testBit y := by
  unfold HASBIT
  rw [Nat.one_shiftLeft, Nat.and_two_pow]
  cases h : x.testBit y <;> simp [Nat.pos_iff_ne_zero.mp (Nat.two_pow_pos y)]

theorem HASBIT_SETBIT (x y : Nat) (hy : y < 8) : HASBIT (SETBIT x y) y = true := by
  rw [HASBIT_eq_testBit]
  unfold SETBIT
  rw [show (256 : Nat) = 2 ^ 8 from rfl, Nat.testBit_mod_two_pow, Nat.testBit_lor,
    Nat.one_shiftLeft, Nat.testBit_two_pow_self]
  simp [hy]

theorem HASBIT_CLRBIT (x y : Nat) (hy : y < 8) : HASBIT (CLRBIT x y) y = false := by
  rw [HASBIT_eq_testBit]
  unfold CLRBIT
  rw [Nat.testBit_land, Nat.testBit_xor, Nat.one_shiftLeft,
    show (256 : Nat) = 2 ^ 8 from rfl, Nat.testBit_mod_two_pow, Nat.testBit_two_pow_self,
    show (255 : Nat) = 2 ^ 8 - 1 from rfl, Nat.testBit_two_pow_sub_one]
  simp [hy]

theorem IsSeg.congr {w w1 : World} : ∀ (l : List Nat) (h t : Option Nat),
    (∀ j ∈ l, (w1 j).next = (w j).next) → (IsSeg w1 h l t ↔ IsSeg w h l t)
  | [], h, t, _ => by simp [IsSeg]
  | j :: l, h, t, hn => by
    simp only [IsSeg]
    rw [hn j (List.mem_cons_self _ _),
      IsSeg.congr l _ t (fun k hk => hn k (List.mem_cons_of_mem _ hk))]

theorem IsSeg.append {w : World} : ∀ (l1 l2 : List Nat) (h t : Option Nat),
    IsSeg w h (l1 ++ l2) t ↔ ∃ m, IsSeg w h l1 m ∧ IsSeg w m l2 t
  | [], l2, h, t => by simp [IsSeg]
  | j :: l1, l2, h, t => by
    show h = some j ∧ IsSeg w (w j).next (l1 ++ l2) t ↔
      ∃ m, (h = some j ∧ IsSeg w (w j).next l1 m) ∧ IsSeg w m l2 t
    rw [IsSeg.append l1 l2]
    constructor
    · rintro ⟨h1, m, h2, h3⟩
      exact ⟨m, ⟨h1, h2⟩, h3⟩
    · rintro ⟨m, ⟨h1, h2⟩, h3⟩
      exact ⟨h1, m, h2, h3⟩

/-- A walk that ends in `NULL` is determined by its starting pointer. -/
theorem IsChain.unique {w : World} : ∀ (l1 l2 : List Nat) (h : Option Nat),
    IsChain w h l1 → IsChain w h l2 → l1 = l2
  | [], [], _, _, _ => rfl
  | [], _ :: _, h, h1, h2 => by
    simp only [IsChain, IsSeg] at h1 h2
    rw [h1] at h2
    exact absurd h2.1 (by simp)
  | _ :: _, [], h, h1, h2 => by
    simp only [IsChain, IsSeg] at h1 h2
    rw [h2] at h1
    exact absurd h1.1 (by simp)
  | a :: l1, b :: l2, h, h1, h2 => by
    simp only [IsChain, IsSeg] at h1 h2
    have hab : a = b := by
      have := h1.1.symm.trans h2.1
      simpa using this
    subst hab
    rw [IsChain.unique l1 l2 _ h1.2 h2.2]

/-- A chain that ends in `NULL` visits no unit twice. -/
theorem IsChain.nodup {w : World} : ∀ (l : List Nat) (h : Option Nat),
    IsChain w h l → l.Nodup
  | [], _, _ => List.nodup_nil
  | a :: l, h, hc => by
    have hc2 : IsChain w (w a).next l := hc.2
    refine List.nodup_cons.mpr ⟨?_, IsChain.nodup l _ hc2⟩
    intro hmem
    obtain ⟨l1, l2, rfl⟩ := List.append_of_mem hmem
    have h3 : IsSeg w (w a).next (l1 ++ a :: l2) none := hc2
    rw [IsSeg.append] at h3
    obtain ⟨m, _, h5⟩ := h3
    have h6 : IsChain w (w a).next l2 := h5.2
    have := IsChain.unique _ _ _ hc2 h6
    have hlen := congrArg List.length this
    simp at hlen
    omega

theorem World.set_set (w : World) (i : Nat) (x y : Vehicle) :
    (w.set i x).set i y = w.set i y := by
  funext j
  by_cases h : j = i <;> simp [World.set, h]

theorem TrainConsistChanged.testWorld_eq (env : Env) (v fe u : Nat) (w : World) :
    TrainConsistChanged.testWorld env v fe u w =
      w.set u { w u with rail := { (w u).rail with
        first_engine := if v = u then env.INVALID_VEHICLE else fe,
        flags := CLRBIT (w u).rail.flags env.VRF_POWEREDWAGON } } := by
  simp only [TrainConsistChanged.testWorld, World.set_same, World.set_set]

theorem TrainConsistChanged.bodyWorld_eq (env : Env) (rvi_v : RailVehicleInfo)
    (v fe u : Nat) (w : World) (hb : env.VRF_POWEREDWAGON < 8) :
    ∃ fl len, TrainConsistChanged.bodyWorld env rvi_v v fe u w =
      w.set u { w u with rail := { (w u).rail with
        first_engine := if v = u then env.INVALID_VEHICLE else fe,
        flags := fl, cached_veh_length := len } } ∧
      HASBIT fl env.VRF_POWEREDWAGON =
        TrainConsistChanged.powered env rvi_v (env.RailVehInfo (w u).engine_type)
          (TrainConsistChanged.testWorld env v fe u w) u := by
  simp only [TrainConsistChanged.bodyWorld]
  by_cases hp : TrainConsistChanged.powered env rvi_v (env.RailVehInfo (w u).engine_type)
      (TrainConsistChanged.testWorld env v fe u w) u = true
  · rw [if_pos hp]
    simp only [TrainConsistChanged.testWorld_eq, World.set_same, World.set_set]
    refine ⟨_, _, rfl, ?_⟩
    rw [HASBIT_SETBIT _ _ hb]
    simpa [TrainConsistChanged.testWorld_eq] using hp.symm
  · rw [if_neg hp]
    simp only [TrainConsistChanged.testWorld_eq, World.set_same, World.set_set]
    refine ⟨_, _, rfl, ?_⟩
    rw [HASBIT_CLRBIT _ _ hb]
    simpa [TrainConsistChanged.testWorld_eq] using hp

theorem SameUpToCaches.rfl_caches (w : World) : SameUpToCaches w w := fun _ => rfl

theorem SameUpToCaches.trans_caches {w w1 w2 : World} (h1 : SameUpToCaches w w1)
    (h2 : SameUpToCaches w1 w2) : SameUpToCaches w w2 :=
  fun j => (h2 j).trans (h1 j)

theorem SameUpToCaches.next {w w1 : World} (h : SameUpToCaches w w1) (j : Nat) :
    (w1 j).next = (w j).next := by
  have := congrArg Vehicle.next (h j)
  simpa [Vehicle.eraseCaches] using this

theorem SameUpToCaches.engine_type {w w1 : World} (h : SameUpToCaches w w1) (j : Nat) :
    (w1 j).engine_type = (w j).engine_type := by
  have := congrArg Vehicle.engine_type (h j)
  simpa [Vehicle.eraseCaches] using this

theorem SameUpToCaches.type {w w1 : World} (h : SameUpToCaches w w1) (j : Nat) :
    (w1 j).type = (w j).type := by
  have := congrArg Vehicle.type (h j)
  simpa [Vehicle.eraseCaches] using this

theorem SameUpToCaches.subtype {w w1 : World} (h : SameUpToCaches w w1) (j : Nat) :
    (w1 j).subtype = (w j).subtype := by
  have := congrArg Vehicle.subtype (h j)
  simpa [Vehicle.eraseCaches] using this

theorem SameUpToCaches.cargo_type {w w1 : World} (h : SameUpToCaches w w1) (j : Nat) :
    (w1 j).cargo_type = (w j).cargo_type := by
  have := congrArg Vehicle.cargo_type (h j)
  simpa [Vehicle.eraseCaches] using this

theorem SameUpToCaches.cargo_count {w w1 : World} (h : SameUpToCaches w w1) (j : Nat) :
    (w1 j).cargo_count = (w j).cargo_count := by
  have := congrArg Vehicle.cargo_count (h j)
  simpa [Vehicle.eraseCaches] using this

theorem SameUpToCaches.isSeg {w w1 : World} (h : SameUpToCaches w w1) (l : List Nat)
    (a t : Option Nat) : IsSeg w1 a l t ↔ IsSeg w a l t :=
  IsSeg.congr l a t (fun j _ => h.next j)

theorem SameUpToCaches.set_rail (w : World) (u : Nat) (r : VehicleRail)
    (hr : r.track = (w u).rail.track ∧ r.railtype = (w u).rail.railtype ∧
      r.crash_anim_pos = (w u).rail.crash_anim_pos) :
    SameUpToCaches w (w.set u { w u with rail := r }) := by
  intro j
  by_cases hj : j = u
  · subst hj
    obtain ⟨h1, h2, h3⟩ := hr
    simp [Vehicle.eraseCaches, h1, h2, h3]
  · rw [World.set_other _ _ _ _ hj]

theorem TrainConsistChanged.body_spec (env : Env) (rvi_v : RailVehicleInfo)
    (v fe u p m : Nat) (w : World) :
    ∃ w1 p1 m1, TrainConsistChanged.body env rvi_v v fe u p m w = (w1, p1, m1) ∧
      (∀ j, j ≠ u → w1 j = w j) ∧ SameUpToCaches w w1 ∧
      p1 < 4294967296 ∧
      (env.VRF_POWEREDWAGON < 8 → p1 = (p + (unitPower env w u +
        if HASBIT (w1 u).rail.flags env.VRF_POWEREDWAGON = true
        then rvi_v.pow_wag_power else 0)) % 4294967296) ∧
      m1 = (if unitMaxSpeed env w u ≠ 0 then (min (unitMaxSpeed env w u) m) % 65536 else m) := by
  have hw : ∃ r, TrainConsistChanged.bodyWorld env rvi_v v fe u w =
      w.set u { w u with rail := r } ∧ r.track = (w u).rail.track ∧
      r.railtype = (w u).rail.railtype ∧ r.crash_anim_pos = (w u).rail.crash_anim_pos := by
    simp only [TrainConsistChanged.bodyWorld]
    split_ifs <;>
      simp only [TrainConsistChanged.testWorld_eq, World.set_same, World.set_set] <;>
      exact ⟨_, rfl, rfl, rfl, rfl⟩
  obtain ⟨r, hw, hr⟩ := hw
  refine ⟨_, _, _, rfl, ?_, ?_, ?_, ?_, rfl⟩
  · intro j hj
    rw [hw, World.set_other _ _ _ _ hj]
  · rw [hw]
    exact SameUpToCaches.set_rail w u _ hr
  · show (if _ then _ else _) < _
    split_ifs <;> exact Nat.mod_lt _ (by norm_num)
  · intro hb
    obtain ⟨fl, len, hw2, hfl⟩ := TrainConsistChanged.bodyWorld_eq env rvi_v v fe u w hb
    show (if _ then _ else _) = _
    rw [hw2, World.set_same]
    simp only [hfl, unitPower]
    split_ifs <;> simp only [Nat.mod_add_mod, Nat.add_assoc, Nat.add_zero]

theorem SameUpToCaches.unitMaxSpeed {w w1 : World} (h : SameUpToCaches w w1) (env : Env) :
    unitMaxSpeed env w1 = unitMaxSpeed env w := by
  funext u
  simp only [OpenTTD.unitMaxSpeed, h.engine_type u]

theorem SameUpToCaches.unitPower {w w1 : World} (h : SameUpToCaches w w1) (env : Env) :
    unitPower env w1 = unitPower env w := by
  funext u
  simp only [OpenTTD.unitPower, h.engine_type u]

theorem TrainConsistChanged.consist_loop_spec (env : Env) (rvi_v : RailVehicleInfo) (v fe : Nat) :
    ∀ (l : List Nat) (fuel : Nat) (h : Option Nat) (p m : Nat) (w : World),
      IsChain w h l → l.Nodup → l.length ≤ fuel → p < 4294967296 →
      ∃ w1 p1 m1, TrainConsistChanged.loop env rvi_v v fe fuel h p m w = some (w1, p1, m1) ∧
        (∀ j, j ∉ l → w1 j = w j) ∧ SameUpToCaches w w1 ∧
        p1 < 4294967296 ∧
        (env.VRF_POWEREDWAGON < 8 → p1 = (p + (l.map (fun u => unitPower env w u +
          if HASBIT (w1 u).rail.flags env.VRF_POWEREDWAGON = true
          then rvi_v.pow_wag_power else 0)).sum) % 4294967296) ∧
        m1 = l.foldl (fun m u => if unitMaxSpeed env w u ≠ 0
          then (min (unitMaxSpeed env w u) m) % 65536 else m) m
  | [], fuel, h, p, m, w, hc, _, _, hp => by
    have hh : h = none := hc
    subst hh
    refine ⟨w, p, m, ?_, fun _ _ => rfl, SameUpToCaches.rfl_caches w, hp, ?_, rfl⟩
    · cases fuel <;> rfl
    · intro _
      simp only [List.map_nil, List.sum_nil, Nat.add_zero]
      exact (Nat.mod_eq_of_lt hp).symm
  | a :: l, 0, h, p, m, w, _, _, hf, _ => by simp at hf
  | a :: l, fuel + 1, h, p, m, w, hc, hnd, hf, _ => by
    have hh : h = some a := hc.1
    subst hh
    have hc2 : IsChain w (w a).next l := hc.2
    obtain ⟨wb, pb, mb, hbody, hfr, hsame, hpb2, hpb, hmb⟩ :=
      TrainConsistChanged.body_spec env rvi_v v fe a p m w
    have hal : a ∉ l := (List.nodup_cons.mp hnd).1
    have hc3 : IsChain wb (wb a).next l := by
      rw [hsame.next a]
      exact (hsame.isSeg l _ none).mpr hc2
    obtain ⟨w1, p1, m1, hloop, hfr1, hsame1, hp1lt, hp1, hm1⟩ :=
      TrainConsistChanged.consist_loop_spec env rvi_v v fe l fuel _ pb mb wb hc3
        (List.nodup_cons.mp hnd).2 (by simpa using hf) hpb2
    refine ⟨w1, p1, m1, ?_, ?_, hsame.trans_caches hsame1, hp1lt, ?_, ?_⟩
    · simp only [TrainConsistChanged.loop, hbody]
      exact hloop
    · intro j hj
      rw [List.mem_cons, not_or] at hj
      rw [hfr1 j hj.2, hfr j hj.1]
    · intro hb
      rw [hp1 hb, hpb hb, hsame.unitPower env, ← hfr1 a hal]
      simp only [List.map_cons, List.sum_cons, Nat.mod_add_mod, Nat.add_assoc]
    · rw [hm1, hmb, hsame.unitMaxSpeed env]
      rfl

theorem SameUpToWeights.rfl_weights (w : World) : SameUpToWeights w w := fun _ => rfl

theorem SameUpToWeights.trans_weights {w w1 w2 : World} (h1 : SameUpToWeights w w1)
    (h2 : SameUpToWeights w1 w2) : SameUpToWeights w w2 :=
  fun j => (h2 j).trans (h1 j)

theorem SameUpToWeights.toCaches {w w1 : World} (h : SameUpToWeights w w1) :
    SameUpToCaches w w1 := by
  intro j
  have := congrArg Vehicle.eraseCaches (h j)
  simpa [Vehicle.eraseCaches, Vehicle.eraseWeights] using this

theorem SameUpToWeights.flags {w w1 : World} (h : SameUpToWeights w w1) (j : Nat) :
    (w1 j).rail.flags = (w j).rail.flags := by
  have := congrArg (fun x => x.rail.flags) (h j)
  simpa [Vehicle.eraseWeights] using this

theorem SameUpToWeights.cached_power {w w1 : World} (h : SameUpToWeights w w1) (j : Nat) :
    (w1 j).rail.cached_power = (w j).rail.cached_power := by
  have := congrArg (fun x => x.rail.cached_power) (h j)
  simpa [Vehicle.eraseWeights] using this

theorem SameUpToWeights.cached_max_speed {w w1 : World} (h : SameUpToWeights w w1) (j : Nat) :
    (w1 j).rail.cached_max_speed = (w j).rail.cached_max_speed := by
  have := congrArg (fun x => x.rail.cached_max_speed) (h j)
  simpa [Vehicle.eraseWeights] using this

theorem SameUpToWeights.set_veh_weight (w : World) (u x : Nat) :
    SameUpToWeights w (w.set u { w u with rail := { (w u).rail with cached_veh_weight := x } }) := by
  intro j
  by_cases hj : j = u
  · subst hj
    simp [Vehicle.eraseWeights]
  · rw [World.set_other _ _ _ _ hj]

theorem SameUpToWeights.set_weight (w : World) (u x : Nat) :
    SameUpToWeights w (w.set u { w u with rail := { (w u).rail with cached_weight := x } }) := by
  intro j
  by_cases hj : j = u
  · subst hj
    simp [Vehicle.eraseWeights]
  · rw [World.set_other _ _ _ _ hj]

theorem SameUpToWeights.vehWeight {w w1 : World} (h : SameUpToWeights w w1) (env : Env)
    (v : Nat) : vehWeight env w1 v = vehWeight env w v := by
  funext u
  simp only [OpenTTD.vehWeight, h.toCaches.engine_type, h.toCaches.cargo_type,
    h.toCaches.cargo_count, h.flags]

theorem vehWeight_eq (env : Env) (w : World) (v u : Nat) :
    vehWeight env w v u =
      ((env.RailVehInfo (w u).engine_type).weight +
        (env.cargo_weights (w u).cargo_type * (w u).cargo_count) / 16 +
        if HASBIT (w u).rail.flags env.VRF_POWEREDWAGON = true
        then (env.RailVehInfo (w v).engine_type).pow_wag_weight else 0) % 65536 := by
  simp only [vehWeight]
  split_ifs <;> simp only [Nat.mod_add_mod, Nat.zero_add, Nat.add_zero, Nat.mod_mod]

theorem TrainCargoChanged.cargo_loop_spec (env : Env) (v : Nat) :
    ∀ (l : List Nat) (fuel : Nat) (h : Option Nat) (wt : Nat) (w : World),
      IsChain w h l → l.Nodup → l.length ≤ fuel → wt < 65536 →
      ∃ w1 wt1, TrainCargoChanged.loop env v fuel h wt w = some (w1, wt1) ∧
        (∀ j, j ∉ l → w1 j = w j) ∧ SameUpToWeights w w1 ∧
        (∀ u ∈ l, (w1 u).rail.cached_veh_weight = vehWeight env w v u) ∧
        (∀ j, (w1 j).rail.cached_weight = (w j).rail.cached_weight) ∧
        wt1 = (wt + (l.map (vehWeight env w v)).sum) % 65536
  | [], fuel, h, wt, w, hc, _, _, hwt => by
    have hh : h = none := hc
    subst hh
    refine ⟨w, wt, ?_, fun _ _ => rfl, SameUpToWeights.rfl_weights w, ?_, fun _ => rfl, ?_⟩
    · cases fuel <;> rfl
    · intro u hu
      simp at hu
    · simp only [List.map_nil, List.sum_nil, Nat.add_zero]
      exact (Nat.mod_eq_of_lt hwt).symm
  | a :: l, 0, h, wt, w, _, _, hf, _ => by simp at hf
  | a :: l, fuel + 1, h, wt, w, hc, hnd, hf, _ => by
    have hh : h = some a := hc.1
    subst hh
    have hc2 : IsChain w (w a).next l := hc.2
    have hal : a ∉ l := (List.nodup_cons.mp hnd).1
    have hsame := SameUpToWeights.set_veh_weight w a (vehWeight env w v a)
    generalize hwb : w.set a { w a with rail := { (w a).rail with
      cached_veh_weight := vehWeight env w v a } } = wb at hsame
    have hc3 : IsChain wb (wb a).next l := by
      rw [hsame.toCaches.next a]
      exact (hsame.toCaches.isSeg l _ none).mpr hc2
    obtain ⟨w1, wt1, hloop, hfr1, hsame1, hvw, hcw, hwt1⟩ :=
      TrainCargoChanged.cargo_loop_spec env v l fuel _ ((wt + vehWeight env w v a) % 65536) wb hc3
        (List.nodup_cons.mp hnd).2 (by simpa using hf) (Nat.mod_lt _ (by norm_num))
    refine ⟨w1, wt1, ?_, ?_, hsame.trans_weights hsame1, ?_, ?_, ?_⟩
    · simp only [TrainCargoChanged.loop, hwb]
      exact hloop
    · intro j hj
      rw [List.mem_cons, not_or] at hj
      rw [hfr1 j hj.2, ← hwb, World.set_other _ _ _ _ hj.1]
    · intro u hu
      rcases List.mem_cons.mp hu with rfl | hu
      · rw [hfr1 u hal, ← hwb, World.set_same]
      · rw [hvw u hu, hsame.vehWeight]
    · intro j
      rw [hcw j, ← hwb]
      by_cases hj : j = a
      · subst hj
        rw [World.set_same]
      · rw [World.set_other _ _ _ _ hj]
    · rw [hwt1, hsame.vehWeight]
      simp only [List.map_cons, List.sum_cons, Nat.mod_add_mod, Nat.add_assoc]

/-- `TrainCargoChanged` on a chain: it returns, touches the weight caches only,
stores the truncated unit weight in every unit and the truncated sum in the head. -/
theorem TrainCargoChanged.cargo_spec (env : Env) (w : World) (v : Nat) (l : List Nat) (fuel : Nat)
    (hc : IsChain w (some v) l) (hf : l.length ≤ fuel) :
    ∃ w2, TrainCargoChanged env w v fuel = some w2 ∧ SameUpToWeights w w2 ∧
      (∀ u ∈ l, (w2 u).rail.cached_veh_weight = vehWeight env w v u) ∧
      (w2 v).rail.cached_weight = ((l.map (vehWeight env w v)).sum) % 65536 := by
  obtain ⟨w1, wt1, hloop, _, hsame, hvw, _, hwt1⟩ :=
    TrainCargoChanged.cargo_loop_spec env v l fuel (some v) 0 w hc (IsChain.nodup l _ hc) hf
      (by norm_num)
  refine ⟨_, ?_, hsame.trans_weights (SameUpToWeights.set_weight w1 v wt1), ?_, ?_⟩
  · simp only [TrainCargoChanged, hloop]
  · intro u hu
    rw [← hvw u hu]
    by_cases huv : u = v
    · subst huv
      rw [World.set_same]
    · rw [World.set_other _ _ _ _ huv]
  · rw [World.set_same, hwt1, Nat.zero_add]

/-- `TrainConsistChanged` on the chain of a head: it returns, touches caches
only, and leaves the folded speed limit, the truncated power sum and the
truncated weights behind. -/
theorem TrainConsistChanged.consist_spec (env : Env) (w : World) (v : Nat) (l : List Nat) (fuel : Nat)
    (htype : (w v).type = env.VEH_Train)
    (hsub : (w v).subtype = env.TS_Front_Engine ∨ (w v).subtype = env.TS_Free_Car)
    (hc : IsChain w (some v) l) (hf : l.length ≤ fuel) :
    ∃ w4, TrainConsistChanged env w v fuel = some w4 ∧ SameUpToCaches w w4 ∧
      (w4 v).rail.cached_max_speed = l.foldl (fun m u => if unitMaxSpeed env w u ≠ 0
          then (min (unitMaxSpeed env w u) m) % 65536 else m) 65535 ∧
      (env.VRF_POWEREDWAGON < 8 → (w4 v).rail.cached_power =
        ((l.map (fun u => unitPower env w u +
          if HASBIT (w4 u).rail.flags env.VRF_POWEREDWAGON = true
          then (env.RailVehInfo (w v).engine_type).pow_wag_power else 0)).sum) % 4294967296) ∧
      (∀ u ∈ l, (w4 u).rail.cached_veh_weight = vehWeight env w4 v u) ∧
      (w4 v).rail.cached_weight = ((l.map (vehWeight env w4 v)).sum) % 65536 := by
  obtain ⟨w1, p1, m1, hloop, _, hsame1, _, hp1, hm1⟩ :=
    TrainConsistChanged.consist_loop_spec env (env.RailVehInfo (w v).engine_type) v
      (if (w v).subtype = env.TS_Front_Engine then (w v).engine_type else env.INVALID_VEHICLE)
      l fuel (some v) 0 65535 w hc (IsChain.nodup l _ hc) hf (by norm_num)
  have h12 := SameUpToCaches.set_rail w1 v
    { (w1 v).rail with cached_max_speed := m1 } ⟨rfl, rfl, rfl⟩
  generalize hw2 : w1.set v { w1 v with rail := { (w1 v).rail with cached_max_speed := m1 } }
    = w2 at h12
  have h23 := SameUpToCaches.set_rail w2 v
    { (w2 v).rail with cached_power := p1 } ⟨rfl, rfl, rfl⟩
  generalize hw3 : w2.set v { w2 v with rail := { (w2 v).rail with cached_power := p1 } }
    = w3 at h23
  have hs3 : SameUpToCaches w w3 := (hsame1.trans_caches h12).trans_caches h23
  have hc3 : IsChain w3 (some v) l := (hs3.isSeg l _ none).mpr hc
  obtain ⟨w4, hcargo, hsame4, hvw, hcw⟩ := TrainCargoChanged.cargo_spec env w3 v l fuel hc3 hf
  have hflags : ∀ u, (w4 u).rail.flags = (w1 u).rail.flags := by
    intro u
    rw [hsame4.flags u, ← hw3, ← hw2]
    by_cases hu : u = v
    · subst hu
      simp only [World.set_same]
    · simp only [World.set_other _ _ _ _ hu]
  refine ⟨w4, ?_, hs3.trans_caches hsame4.toCaches, ?_, ?_, ?_, ?_⟩
  · simp only [TrainConsistChanged, htype, hsub, hloop, hw2, hw3, hcargo]
    simp
  · rw [hsame4.cached_max_speed v, ← hw3, ← hw2]
    simp only [World.set_same]
    exact hm1
  · intro hb
    rw [hsame4.cached_power v, ← hw3]
    simp only [World.set_same]
    rw [hp1 hb, Nat.zero_add]
    simp only [hflags]
  · intro u hu
    rw [hvw u hu, hsame4.vehWeight]
  · rw [hcw, hsame4.vehWeight]

theorem speedFold_spec (f : Nat → Nat) (hf : ∀ u, f u < 65536) :
    ∀ (l : List Nat) (m : Nat), m < 65536 →
      l.foldl (fun m u => if f u ≠ 0 then (min (f u) m) % 65536 else m) m ≤ m ∧
      (∀ u ∈ l, f u ≠ 0 →
        l.foldl (fun m u => if f u ≠ 0 then (min (f u) m) % 65536 else m) m ≤ f u) ∧
      (l.foldl (fun m u => if f u ≠ 0 then (min (f u) m) % 65536 else m) m = m ∨
        ∃ u ∈ l, f u ≠ 0 ∧
          l.foldl (fun m u => if f u ≠ 0 then (min (f u) m) % 65536 else m) m = f u)
  | [], m, _ => by simp
  | a :: l, m, hm => by
    simp only [List.foldl_cons]
    have hfa := hf a
    by_cases ha : f a = 0
    · obtain ⟨h1, h2, h3⟩ := speedFold_spec f hf l m hm
      simp only [ha, ne_eq, not_true_eq_false, if_false]
      refine ⟨h1, ?_, ?_⟩
      · intro u hu hu0
        rcases List.mem_cons.mp hu with rfl | hu
        · exact absurd ha hu0
        · exact h2 u hu hu0
      · rcases h3 with h3 | ⟨u, hu, hu0, h3⟩
        · exact Or.inl h3
        · exact Or.inr ⟨u, List.mem_cons_of_mem _ hu, hu0, h3⟩
    · have hmin : (min (f a) m) % 65536 = min (f a) m :=
        Nat.mod_eq_of_lt (lt_of_le_of_lt (Nat.min_le_left _ _) hfa)
      have hlt : min (f a) m < 65536 := lt_of_le_of_lt (Nat.min_le_left _ _) hfa
      obtain ⟨h1, h2, h3⟩ := speedFold_spec f hf l (min (f a) m) hlt
      simp only [ne_eq, ha, not_false_eq_true, if_true, hmin]
      refine ⟨le_trans h1 (Nat.min_le_right _ _), ?_, ?_⟩
      · intro u hu hu0
        rcases List.mem_cons.mp hu with rfl | hu
        · exact le_trans h1 (Nat.min_le_left _ _)
        · exact h2 u hu hu0
      · rcases h3 with h3 | ⟨u, hu, hu0, h3⟩
        · rcases Nat.le_total (f a) m with hle | hle
          · right
            exact ⟨a, List.mem_cons_self _ _, ha, by rw [h3, Nat.min_eq_left hle]⟩
          · left
            rw [h3, Nat.min_eq_right hle]
        · exact Or.inr ⟨u, List.mem_cons_of_mem _ hu, hu0, h3⟩

/-- C1: after `TrainConsistChanged(head)` the cached maximum speed of the head is
the minimum of the engine-info speed limits of the units of the chain whose limit is
non-zero (it is one of these limits and below all of them), and it is the initial
value 0xFFFF when every unit has limit 0. -/
theorem C1_cached_max_speed_is_min (env : Env) (w : World) (v : Nat) (l : List Nat)
    (fuel : Nat) (hty : env.WellTyped)
    (htype : (w v).type = env.VEH_Train)
    (hsub : (w v).subtype = env.TS_Front_Engine ∨ (w v).subtype = env.TS_Free_Car)
    (hc : IsChain w (some v) l) (hf : l.length ≤ fuel) :
    ∃ w1, TrainConsistChanged env w v fuel = some w1 ∧
      ((∀ u ∈ l, unitMaxSpeed env w u = 0) → (w1 v).rail.cached_max_speed = 65535) ∧
      (∀ u ∈ l, unitMaxSpeed env w u ≠ 0 →
        (w1 v).rail.cached_max_speed ≤ unitMaxSpeed env w u) ∧
      ((∃ u ∈ l, unitMaxSpeed env w u ≠ 0) →
        ∃ u ∈ l, unitMaxSpeed env w u ≠ 0 ∧
          (w1 v).rail.cached_max_speed = unitMaxSpeed env w u) := by
  obtain ⟨w1, hrun, _, hms, _⟩ := TrainConsistChanged.consist_spec env w v l fuel htype hsub hc hf
  obtain ⟨h1, h2, h3⟩ := speedFold_spec (unitMaxSpeed env w) (fun u => (hty _).1) l 65535
    (by norm_num)
  rw [← hms] at h1 h2 h3
  refine ⟨w1, hrun, ?_, h2, ?_⟩
  · intro hall
    rcases h3 with h3 | ⟨u, hu, hu0, _⟩
    · exact h3
    · exact absurd (hall u hu) hu0
  · rintro ⟨u, hu, hu0⟩
    rcases h3 with h3 | h3
    · refine ⟨u, hu, hu0, ?_⟩
      have hle := h2 u hu hu0
      have hlt := (hty (w u).engine_type).1
      simp only [unitMaxSpeed] at hle hlt ⊢
      omega
    · exact h3

theorem exEnv_wellTyped : exEnv.WellTyped := by
  intro e
  simp only [exEnv, exRailVehInfo]
  split_ifs <;> simp

/-- Witness of C1: on the three-unit train, whose limits are 100, 0 and 80. -/
theorem C1_cached_max_speed_is_min_witness :
    (exTrain 0).type = exEnv.VEH_Train ∧ IsChain exTrain (some 0) [0, 1, 2] ∧
    ∃ w1, TrainConsistChanged exEnv exTrain 0 3 = some w1 ∧
      ((∀ u ∈ [0, 1, 2], unitMaxSpeed exEnv exTrain u = 0) →
        (w1 0).rail.cached_max_speed = 65535) ∧
      (∀ u ∈ [0, 1, 2], unitMaxSpeed exEnv exTrain u ≠ 0 →
        (w1 0).rail.cached_max_speed ≤ unitMaxSpeed exEnv exTrain u) ∧
      ((∃ u ∈ [0, 1, 2], unitMaxSpeed exEnv exTrain u ≠ 0) →
        ∃ u ∈ [0, 1, 2], unitMaxSpeed exEnv exTrain u ≠ 0 ∧
          (w1 0).rail.cached_max_speed = unitMaxSpeed exEnv exTrain u) :=
  ⟨by decide, by decide,
    C1_cached_max_speed_is_min exEnv exTrain 0 [0, 1, 2] 3 exEnv_wellTyped
      (by decide) (Or.inl (by decide)) (by decide) (by decide)⟩

theorem sum_add_ite (a : Nat → Nat) (c : Nat → Bool) (k : Nat) :
    ∀ l : List Nat, (l.map (fun u => a u + if c u = true then k else 0)).sum =
      (l.map a).sum + k * (l.filter c).length
  | [] => by simp
  | x :: l => by
    simp only [List.map_cons, List.sum_cons, sum_add_ite a c k l, List.filter_cons]
    cases hx : c x
    · simp
      omega
    · simp [Nat.mul_add]
      omega

theorem sum_le_length_mul (f : Nat → Nat) (b : Nat) (hf : ∀ u, f u ≤ b) :
    ∀ l : List Nat, (l.map f).sum ≤ l.length * b
  | [] => by simp
  | x :: l => by
    have := sum_le_length_mul f b hf l
    have := hf x
    simp only [List.map_cons, List.sum_cons, List.length_cons, Nat.add_mul, Nat.one_mul]
    omega

/-- C2: after `TrainConsistChanged(head)` the cached power of the head is the sum of
the engine-info power of every unit of the chain plus the head engine's
`pow_wag_power` once for every unit that carries the powered-wagon flag after the
pass.  The engine-info fields are 16 bits wide and the chain has at most 32768
units, so that the 32-bit accumulator cannot wrap. -/
theorem C2_cached_power_is_sum (env : Env) (w : World) (v : Nat) (l : List Nat)
    (fuel : Nat) (hty : env.WellTyped) (hb : env.VRF_POWEREDWAGON < 8)
    (hlen : l.length ≤ 32768)
    (htype : (w v).type = env.VEH_Train)
    (hsub : (w v).subtype = env.TS_Front_Engine ∨ (w v).subtype = env.TS_Free_Car)
    (hc : IsChain w (some v) l) (hf : l.length ≤ fuel) :
    ∃ w1, TrainConsistChanged env w v fuel = some w1 ∧
      (w1 v).rail.cached_power =
        (l.map (fun u => (env.RailVehInfo (w u).engine_type).power)).sum +
        (env.RailVehInfo (w v).engine_type).pow_wag_power *
          (l.filter (fun u => HASBIT (w1 u).rail.flags env.VRF_POWEREDWAGON)).length := by
  obtain ⟨w1, hrun, _, _, hpw, _⟩ := TrainConsistChanged.consist_spec env w v l fuel htype hsub hc hf
  refine ⟨w1, hrun, ?_⟩
  rw [hpw hb]
  have hsplit := sum_add_ite (unitPower env w)
    (fun u => HASBIT (w1 u).rail.flags env.VRF_POWEREDWAGON)
    (env.RailVehInfo (w v).engine_type).pow_wag_power l
  rw [show (l.map (fun u => (env.RailVehInfo (w u).engine_type).power)) =
    l.map (unitPower env w) from rfl, ← hsplit]
  apply Nat.mod_eq_of_lt
  have hbound := sum_le_length_mul (fun u => unitPower env w u +
      if HASBIT (w1 u).rail.flags env.VRF_POWEREDWAGON = true
      then (env.RailVehInfo (w v).engine_type).pow_wag_power else 0) 131070
    (by
      intro u
      have h1 := (hty (w u).engine_type).2.1
      have h2 := (hty (w v).engine_type).2.2
      simp only [unitPower]
      split_ifs <;> omega) l
  have : l.length * 131070 ≤ 32768 * 131070 := Nat.mul_le_mul_right _ hlen
  omega

/-- Witness of C2: on the two-unit train with one powered wagon. -/
theorem C2_cached_power_is_sum_witness :
    exEnv.VRF_POWEREDWAGON < 8 ∧ (exPowered 0).type = exEnv.VEH_Train ∧
    IsChain exPowered (some 0) [0, 1] ∧
    ∃ w1, TrainConsistChanged exEnv exPowered 0 2 = some w1 ∧
      (w1 0).rail.cached_power =
        ([0, 1].map (fun u => (exEnv.RailVehInfo (exPowered u).engine_type).power)).sum +
        (exEnv.RailVehInfo (exPowered 0).engine_type).pow_wag_power *
          ([0, 1].filter (fun u =>
            HASBIT (w1 u).rail.flags exEnv.VRF_POWEREDWAGON)).length :=
  ⟨by decide, by decide, by decide,
    C2_cached_power_is_sum exEnv exPowered 0 [0, 1] 2 exEnv_wellTyped (by decide)
      (by decide) (by decide) (Or.inl (by decide)) (by decide) (by decide)⟩

/-- The powered-wagon train evaluates to cached power 2000 + 300. -/
theorem exPowered_cached_power :
    (TrainConsistChanged exEnv exPowered 0 2).map (fun w => (w 0).rail.cached_power) =
      some 2300 := by decide

/-- C3, as the code has it: after `TrainCargoChanged(head)`, and after
`TrainConsistChanged(head)`, the cached weight of every unit is its engine weight
plus (cargo weight times cargo count) / 16 plus the head engine's `pow_wag_weight`
if the unit carries the powered-wagon flag, reduced modulo 2^16, and the cached
weight of the head is the sum of the cached unit weights, reduced modulo 2^16. -/
theorem C3_cached_weights_mod (env : Env) (w : World) (v : Nat) (l : List Nat)
    (fuel : Nat)
    (htype : (w v).type = env.VEH_Train)
    (hsub : (w v).subtype = env.TS_Front_Engine ∨ (w v).subtype = env.TS_Free_Car)
    (hc : IsChain w (some v) l) (hf : l.length ≤ fuel) :
    (∃ w1, TrainCargoChanged env w v fuel = some w1 ∧ WeightCachesMod env w1 v l) ∧
    (∃ w1, TrainConsistChanged env w v fuel = some w1 ∧ WeightCachesMod env w1 v l) := by
  constructor
  · obtain ⟨w1, hrun, hsame, hvw, hcw⟩ := TrainCargoChanged.cargo_spec env w v l fuel hc hf
    have hvw1 : ∀ u ∈ l, (w1 u).rail.cached_veh_weight = vehWeight env w1 v u := by
      intro u hu
      rw [hvw u hu, hsame.vehWeight]
    refine ⟨w1, hrun, ?_, ?_⟩
    · intro u hu
      rw [hvw1 u hu, vehWeight_eq]
      rfl
    · rw [hcw, ← hsame.vehWeight]
      congr 2
      exact List.map_congr_left (fun u hu => (hvw1 u hu).symm)
  · obtain ⟨w1, hrun, _, _, _, hvw1, hcw⟩ :=
      TrainConsistChanged.consist_spec env w v l fuel htype hsub hc hf
    refine ⟨w1, hrun, ?_, ?_⟩
    · intro u hu
      rw [hvw1 u hu, vehWeight_eq]
      rfl
    · rw [hcw]
      congr 2
      exact List.map_congr_left (fun u hu => (hvw1 u hu).symm)

/-- Witness of C3: on the three-unit train of 40, 20 and 20 tons. -/
theorem C3_cached_weights_mod_witness :
    (exTrain 0).type = exEnv.VEH_Train ∧ IsChain exTrain (some 0) [0, 1, 2] ∧
    (∃ w1, TrainCargoChanged exEnv exTrain 0 3 = some w1 ∧
      WeightCachesMod exEnv w1 0 [0, 1, 2]) ∧
    (∃ w1, TrainConsistChanged exEnv exTrain 0 3 = some w1 ∧
      WeightCachesMod exEnv w1 0 [0, 1, 2]) :=
  ⟨by decide, by decide,
    C3_cached_weights_mod exEnv exTrain 0 [0, 1, 2] 3 (by decide) (Or.inl (by decide))
      (by decide) (by decide)⟩

/-- The scenario of the specification: units of 40, 20 and 20 tons without cargo
and without powered wagons give the aggregate weight 80 and the power 1000. -/
theorem exTrain_weight_power :
    (TrainConsistChanged exEnv exTrain 0 3).map
      (fun w => ((w 0).rail.cached_weight, (w 0).rail.cached_power)) = some (80, 1000) := by
  decide

/-- Counterexample to C3 as stated: an engine of 40 t whose cargo counter holds
65535 units of a cargo of weight 16 gets the cached unit weight 39, not 65575. -/
theorem C3_counterexample :
    (TrainCargoChanged exEnv exHeavy 0 1).map (fun w => (w 0).rail.cached_veh_weight) =
      some 39 ∧
    unitWeightExact exEnv exHeavy 0 0 = 65575 ∧
    ¬ ∃ w1, TrainCargoChanged exEnv exHeavy 0 1 = some w1 ∧
      WeightCachesExact exEnv w1 0 [0] := by
  refine ⟨by decide, by decide, ?_⟩
  rintro ⟨w1, hrun, hex, _⟩
  have h1 : (TrainCargoChanged exEnv exHeavy 0 1).map
      (fun w => ((w 0).rail.cached_veh_weight, unitWeightExact exEnv w 0 0)) =
      some (39, 65575) := by decide
  rw [hrun] at h1
  have h2 := hex 0 (List.mem_singleton.mpr rfl)
  simp only [Option.map_some', Option.some.injEq, Prod.mk.injEq] at h1
  omega

theorem myabs_eq_abs (x : Int) : myabs x = |x| := by
  unfold myabs
  split_ifs with h
  · exact (abs_of_neg h).symm
  · exact (abs_of_nonneg (not_lt.mp h)).symm

/-- C10: `FindTrainCollideEnum` returns the candidate `u` for the checked unit `c`
(with its next unit as the skipped one) if and only if `u` is a train, `u` is neither
`c` nor the next unit of `c`, `u` is not inside a depot (track different from 0x80),
the heights differ by at most 6 and the x and y positions by less than 6; otherwise
it returns `NULL`. -/
theorem C10_collide_enum_iff (env : Env) (w : World) (u c : Nat) :
    (FindTrainCollideEnum env w u { v := c, v_skip := (w c).next } = some u ↔
      ((w u).type = env.VEH_Train ∧ u ≠ c ∧ (w c).next ≠ some u ∧
        (w u).rail.track ≠ 0x80 ∧
        |((w u).z_pos : Int) - ((w c).z_pos : Int)| ≤ 6 ∧
        |(w u).x_pos - (w c).x_pos| < 6 ∧ |(w u).y_pos - (w c).y_pos| < 6)) ∧
    (FindTrainCollideEnum env w u { v := c, v_skip := (w c).next } ≠ some u →
      FindTrainCollideEnum env w u { v := c, v_skip := (w c).next } = none) := by
  unfold FindTrainCollideEnum
  simp only [myabs_eq_abs]
  constructor
  · constructor
    · intro h
      split_ifs at h with hc
      obtain ⟨h1, h2, h3, h4, h5, h6, h7⟩ := hc
      exact ⟨h3, h1, fun h8 => h2 h8.symm, h4, h5, h6, h7⟩
    · rintro ⟨h3, h1, h2, h4, h5, h6, h7⟩
      rw [if_pos ⟨h1, fun h8 => h2 h8.symm, h3, h4, h5, h6, h7⟩]
  · intro h
    split_ifs at h ⊢ with hc
    · exact absurd rfl h
    · rfl

theorem or_mod_and_self (x m : Nat) (hm : m < 256) : ((x ||| m) % 256) &&& m = m := by
  apply Nat.eq_of_testBit_eq
  intro i
  rw [Nat.testBit_land, show (256 : Nat) = 2 ^ 8 from rfl, Nat.testBit_mod_two_pow,
    Nat.testBit_lor]
  by_cases hi : i < 8
  · cases m.testBit i <;> simp [hi]
  · have : m.testBit i = false := by
      apply Nat.testBit_lt_two_pow
      calc m < 2 ^ 8 := hm
        _ ≤ 2 ^ i := Nat.pow_le_pow_right (by norm_num) (not_lt.mp hi)
    simp [this]

theorem isCrashed_set (env : Env) (x : Vehicle) (hm : 0 < env.VS_CRASHED ∧ env.VS_CRASHED < 256) :
    isCrashed env { x with vehstatus := (x.vehstatus ||| env.VS_CRASHED) % 256 } := by
  unfold isCrashed
  show ((x.vehstatus ||| env.VS_CRASHED) % 256) &&& env.VS_CRASHED ≠ 0
  rw [or_mod_and_self _ _ hm.2]
  exact Nat.pos_iff_ne_zero.mp hm.1

/-- The flagging loop on a chain: it returns, flags every unit of the chain,
clears no flag and changes no other field. -/
theorem SetVehicleCrashed.crash_loop_spec (env : Env)
    (hm : 0 < env.VS_CRASHED ∧ env.VS_CRASHED < 256) :
    ∀ (l : List Nat) (a : Nat) (fuel : Nat) (w : World),
      IsChain w (some a) (a :: l) → (a :: l).length ≤ fuel →
      ∃ w1, SetVehicleCrashed.loop env fuel a w = some w1 ∧
        (∀ u ∈ a :: l, isCrashed env (w1 u)) ∧
        (∀ j, isCrashed env (w j) → isCrashed env (w1 j)) ∧
        (∀ j, { w1 j with vehstatus := 0 } = { w j with vehstatus := 0 })
  | l, a, 0, w, _, hf => by simp at hf
  | [], a, fuel + 1, w, hc, _ => by
    have hn : (w a).next = none := hc.2
    have hn1 : ((w.set a { w a with
        vehstatus := ((w a).vehstatus ||| env.VS_CRASHED) % 256 }) a).next = none := by
      rw [World.set_same]
      exact hn
    refine ⟨w.set a { w a with
        vehstatus := ((w a).vehstatus ||| env.VS_CRASHED) % 256 }, ?_, ?_, ?_, ?_⟩
    · simp only [SetVehicleCrashed.loop, hn1]
    · intro u hu
      rw [List.mem_singleton] at hu
      subst hu
      rw [World.set_same]
      exact isCrashed_set env _ hm
    · intro j hj
      by_cases hja : j = a
      · subst hja
        rw [World.set_same]
        exact isCrashed_set env _ hm
      · rw [World.set_other _ _ _ _ hja]
        exact hj
    · intro j
      by_cases hja : j = a
      · subst hja
        rw [World.set_same]
      · rw [World.set_other _ _ _ _ hja]
  | b :: l, a, fuel + 1, w, hc, hf => by
    have hn : (w a).next = some b := hc.2.1
    have hc2 : IsChain w (some b) (b :: l) := ⟨rfl, hc.2.2⟩
    have hnd : a ∉ b :: l := (List.nodup_cons.mp (IsChain.nodup _ _ hc)).1
    generalize hwb : w.set a { w a with
      vehstatus := ((w a).vehstatus ||| env.VS_CRASHED) % 256 } = wb
    have hn1 : (wb a).next = some b := by
      rw [← hwb, World.set_same]
      exact hn
    have hnext : ∀ j, (wb j).next = (w j).next := by
      intro j
      rw [← hwb]
      by_cases hja : j = a
      · subst hja
        rw [World.set_same]
      · rw [World.set_other _ _ _ _ hja]
    have hc3 : IsChain wb (some b) (b :: l) :=
      (IsSeg.congr (b :: l) _ none (fun j _ => hnext j)).mpr hc2
    obtain ⟨w1, hloop, hall, hmono, hsame⟩ :=
      SetVehicleCrashed.crash_loop_spec env hm l b fuel wb hc3 (by simpa using hf)
    have hwa : isCrashed env (wb a) := by
      rw [← hwb, World.set_same]
      exact isCrashed_set env _ hm
    refine ⟨w1, ?_, ?_, ?_, ?_⟩
    · simp only [SetVehicleCrashed.loop, hwb, hn1]
      exact hloop
    · intro u hu
      rcases List.mem_cons.mp hu with rfl | hu
      · exact hmono u hwa
      · exact hall u hu
    · intro j hj
      apply hmono
      by_cases hja : j = a
      · subst hja
        exact hwa
      · rw [← hwb, World.set_other _ _ _ _ hja]
        exact hj
    · intro j
      rw [hsame j, ← hwb]
      by_cases hja : j = a
      · subst hja
        rw [World.set_same]
      · rw [World.set_other _ _ _ _ hja]

theorem IsChain.head_cons {w : World} {v : Nat} {l : List Nat} (hc : IsChain w (some v) l) :
    ∃ t, l = v :: t := by
  cases l with
  | nil => exact absurd hc (by simp [IsChain, IsSeg])
  | cons a t =>
    have : some v = some a := hc.1
    simp at this
    exact ⟨t, by rw [this]⟩

/-- `SetVehicleCrashed` on the chain of a head whose crash animation has not
started: it returns, flags every unit, clears no flag, starts the animation and
leaves the links, the subtypes and the train part of every other unit alone. -/
theorem SetVehicleCrashed.crash_spec (env : Env)
    (hm : 0 < env.VS_CRASHED ∧ env.VS_CRASHED < 256)
    (w : World) (v : Nat) (l : List Nat) (fuel : Nat)
    (hc : IsChain w (some v) l) (hf : l.length ≤ fuel)
    (h0 : (w v).rail.crash_anim_pos = 0) :
    ∃ w1, SetVehicleCrashed env w v fuel = some w1 ∧
      (∀ u ∈ l, isCrashed env (w1 u)) ∧
      (∀ j, isCrashed env (w j) → isCrashed env (w1 j)) ∧
      (∀ j, (w1 j).next = (w j).next ∧ (w1 j).subtype = (w j).subtype) ∧
      (∀ j, j ≠ v → (w1 j).rail = (w j).rail) ∧
      (w1 v).rail.crash_anim_pos = 1 := by
  obtain ⟨t, rfl⟩ := hc.head_cons
  generalize hwa : w.set v { w v with rail := { (w v).rail with
      crash_anim_pos := ((w v).rail.crash_anim_pos + 1) % 65536 } } = wa
  have hwa_other : ∀ j, j ≠ v → wa j = w j := by
    intro j hj
    rw [← hwa, World.set_other _ _ _ _ hj]
  have hwa_next : ∀ j, (wa j).next = (w j).next ∧ (wa j).subtype = (w j).subtype ∧
      (wa j).vehstatus = (w j).vehstatus := by
    intro j
    by_cases hj : j = v
    · subst hj
      rw [← hwa, World.set_same]
      exact ⟨rfl, rfl, rfl⟩
    · rw [hwa_other j hj]
      exact ⟨rfl, rfl, rfl⟩
  have hca : IsChain wa (some v) (v :: t) :=
    (IsSeg.congr (v :: t) _ none (fun j _ => (hwa_next j).1)).mpr hc
  obtain ⟨w1, hloop, hall, hmono, hsame⟩ :=
    SetVehicleCrashed.crash_loop_spec env hm t v fuel wa hca hf
  have hfield : ∀ j, (w1 j).next = (wa j).next ∧ (w1 j).subtype = (wa j).subtype ∧
      (w1 j).rail = (wa j).rail := by
    intro j
    have h := hsame j
    refine ⟨?_, ?_, ?_⟩
    · have := congrArg Vehicle.next h
      simpa using this
    · have := congrArg Vehicle.subtype h
      simpa using this
    · have := congrArg Vehicle.rail h
      simpa using this
  refine ⟨w1, ?_, hall, ?_, ?_, ?_, ?_⟩
  · unfold SetVehicleCrashed
    rw [if_neg (not_not.mpr h0)]
    simp only [hwa]
    exact hloop
  · intro j hj
    apply hmono
    unfold isCrashed at hj ⊢
    rw [(hwa_next j).2.2]
    exact hj
  · intro j
    exact ⟨(hfield j).1.trans (hwa_next j).1, (hfield j).2.1.trans (hwa_next j).2.1⟩
  · intro j hj
    rw [(hfield j).2.2, hwa_other j hj]
  · rw [(hfield v).2.2, ← hwa, World.set_same, h0]

/-- The counting loop on a chain: it returns the accumulator plus the
passengers of the chain. -/
theorem CountPassengersInTrain.count_loop_spec (env : Env) (w : World) :
    ∀ (l : List Nat) (a : Nat) (fuel num : Nat),
      IsChain w (some a) (a :: l) → (a :: l).length ≤ fuel →
      CountPassengersInTrain.loop env w fuel a num = some (num + passengers env w (a :: l))
  | l, a, 0, num, _, hf => by simp at hf
  | [], a, fuel + 1, num, hc, _ => by
    have hn : (w a).next = none := hc.2
    simp only [CountPassengersInTrain.loop, hn, passengers, List.map_cons, List.map_nil,
      List.sum_cons, List.sum_nil, Nat.add_zero]
    split_ifs <;> rfl
  | b :: l, a, fuel + 1, num, hc, hf => by
    have hn : (w a).next = some b := hc.2.1
    have hc2 : IsChain w (some b) (b :: l) := ⟨rfl, hc.2.2⟩
    simp only [CountPassengersInTrain.loop, hn]
    rw [CountPassengersInTrain.count_loop_spec env w l b fuel _ hc2 (by simpa using hf)]
    simp only [passengers, List.map_cons, List.sum_cons]
    split_ifs <;> simp only [Nat.add_assoc, Nat.zero_add]

theorem CountPassengersInTrain.count_spec (env : Env) (w : World) (v : Nat) (l : List Nat)
    (fuel : Nat) (hc : IsChain w (some v) l) (hf : l.length ≤ fuel) :
    CountPassengersInTrain env w v fuel = some (passengers env w l) := by
  obtain ⟨t, rfl⟩ := hc.head_cons
  unfold CountPassengersInTrain
  rw [CountPassengersInTrain.count_loop_spec env w t v fuel 0 hc hf, Nat.zero_add]

/-- `SetVehicleCrashed` on any chain: it returns, clears no flag, keeps links
and subtypes, and flags every unit when the crash animation had not started. -/
theorem SetVehicleCrashed.crash_total (env : Env)
    (hm : 0 < env.VS_CRASHED ∧ env.VS_CRASHED < 256)
    (w : World) (v : Nat) (l : List Nat) (fuel : Nat)
    (hc : IsChain w (some v) l) (hf : l.length ≤ fuel) :
    ∃ w1, SetVehicleCrashed env w v fuel = some w1 ∧
      (∀ j, isCrashed env (w j) → isCrashed env (w1 j)) ∧
      (∀ j, (w1 j).next = (w j).next ∧ (w1 j).subtype = (w j).subtype) ∧
      (∀ j, j ≠ v → (w1 j).rail = (w j).rail) ∧
      ((w v).rail.crash_anim_pos = 0 → ∀ u ∈ l, isCrashed env (w1 u)) := by
  by_cases h0 : (w v).rail.crash_anim_pos = 0
  · obtain ⟨w1, hrun, hall, hmono, hfld, hrail, _⟩ :=
      SetVehicleCrashed.crash_spec env hm w v l fuel hc hf h0
    exact ⟨w1, hrun, hmono, hfld, hrail, fun _ => hall⟩
  · refine ⟨w, ?_, fun _ h => h, fun _ => ⟨rfl, rfl⟩, fun _ _ => rfl, fun h => absurd h h0⟩
    unfold SetVehicleCrashed
    rw [if_pos h0]

/-- What `CheckTrainCollision` does on a hit outside the tunnel exemption: it
reports 2 plus the passengers of the checked consist, plus 2 plus those of the
struck consist if its head did not carry the crashed flag, flags the checked
consist if its crash animation had not started, and the struck consist if its head
is a front engine whose crash animation had not started. -/
theorem CheckTrainCollision.struck_spec (env : Env)
    (hm : 0 < env.VS_CRASHED ∧ env.VS_CRASHED < 256)
    (w : World) (v realcoll coll : Nat) (lv lc : List Nat) (fuel : Nat)
    (h4 : coll ≠ v) (hex : ¬ TunnelExempt w v realcoll)
    (hlv : IsChain w (some v) lv) (hlc : IsChain w (some coll) lc)
    (hf : lv.length ≤ fuel ∧ lc.length ≤ fuel) :
    ∃ w2, CheckTrainCollision.struck env w v realcoll coll fuel =
        some (w2, some (2 + passengers env w lv +
          (if isCrashed env (w coll) then 0 else 2 + passengers env w lc))) ∧
      ((w v).rail.crash_anim_pos = 0 → ∀ u ∈ lv, isCrashed env (w2 u)) ∧
      ((w coll).subtype = env.TS_Front_Engine → (w coll).rail.crash_anim_pos = 0 →
        ∀ u ∈ lc, isCrashed env (w2 u)) := by
  have hpv := CountPassengersInTrain.count_spec env w v lv fuel hlv hf.1
  have hpc := CountPassengersInTrain.count_spec env w coll lc fuel hlc hf.2
  obtain ⟨w1, hrun1, hmono1, hfld1, hrail1, hall1⟩ :=
    SetVehicleCrashed.crash_total env hm w v lv fuel hlv hf.1
  have hlc1 : IsChain w1 (some coll) lc :=
    (IsSeg.congr lc _ none (fun j _ => (hfld1 j).1)).mpr hlc
  obtain ⟨w2, hrun2, hmono2, _, _, hall2⟩ :=
    SetVehicleCrashed.crash_total env hm w1 coll lc fuel hlc1 hf.2
  have hguard : ¬ (v = coll ∨ (((w v).rail.track &&& 0x40) ≠ 0 ∧
      ((w v).direction &&& 2) ≠ ((w realcoll).direction &&& 2))) := by
    rintro (h | h)
    · exact h4 h.symm
    · exact hex h
  have hunf : CheckTrainCollision.struck env w v realcoll coll fuel =
      (if (w1 coll).subtype = env.TS_Front_Engine then
        some (w2, some (2 + passengers env w lv +
          (if isCrashed env (w coll) then 0 else 2 + passengers env w lc)))
      else some (w1, some (2 + passengers env w lv +
          (if isCrashed env (w coll) then 0 else 2 + passengers env w lc)))) := by
    unfold CheckTrainCollision.struck
    simp only [if_neg hguard, hpv, hpc, hrun1, hrun2]
    unfold isCrashed
    by_cases hcr : ((w coll).vehstatus &&& env.VS_CRASHED) = 0
    · simp only [hcr, if_true, ne_eq, not_true_eq_false, if_false]
    · simp only [hcr, if_false, ne_eq, not_false_eq_true, if_true, Nat.add_zero]
  rw [hunf]
  by_cases hfe : (w coll).subtype = env.TS_Front_Engine
  · rw [if_pos ((hfld1 coll).2.trans hfe)]
    refine ⟨w2, rfl, ?_, ?_⟩
    · intro h0 u hu
      exact hmono2 u (hall1 h0 u hu)
    · intro _ hc0 u hu
      apply hall2 _ u hu
      rw [hrail1 coll (fun h => h4 h)]
      exact hc0
  · rw [if_neg (fun h => hfe ((hfld1 coll).2.symm.trans h))]
    refine ⟨w1, rfl, ?_, fun h => absurd h hfe⟩
    intro h0 u hu
    exact hall1 h0 u hu

theorem CheckTrainCollision.hit_spec (env : Env)
    (hm : 0 < env.VS_CRASHED ∧ env.VS_CRASHED < 256)
    (w : World) (v realcoll : Nat) (lv lc : List Nat) (fuel : Nat)
    (hscan : ScanHit env w v realcoll) (hex : ¬ TunnelExempt w v realcoll)
    (hlv : IsChain w (some v) lv)
    (hlc : IsChain w (some (env.GetFirstVehicleInChain w realcoll)) lc)
    (hf : lv.length ≤ fuel ∧ lc.length ≤ fuel) :
    ∃ w2, CheckTrainCollision env w v fuel = some (w2, some (2 + passengers env w lv +
        (if isCrashed env (w (env.GetFirstVehicleInChain w realcoll)) then 0
         else 2 + passengers env w lc))) ∧
      ((w v).rail.crash_anim_pos = 0 → ∀ u ∈ lv, isCrashed env (w2 u)) ∧
      ((w (env.GetFirstVehicleInChain w realcoll)).subtype = env.TS_Front_Engine →
        (w (env.GetFirstVehicleInChain w realcoll)).rail.crash_anim_pos = 0 →
        ∀ u ∈ lc, isCrashed env (w2 u)) := by
  obtain ⟨h1, h2, h3, h4⟩ := hscan
  have hunf : CheckTrainCollision env w v fuel =
      CheckTrainCollision.struck env (env.afterFirstRead w realcoll) v realcoll
        (env.GetFirstVehicleInChain w realcoll) fuel := by
    unfold CheckTrainCollision
    rw [if_neg h1, if_neg (not_not.mpr h2)]
    simp only [h3]
  rw [hunf]
  have hn : ∀ j, ((env.afterFirstRead w realcoll) j).next = (w j).next := fun _ => rfl
  exact CheckTrainCollision.struck_spec env hm (env.afterFirstRead w realcoll) v realcoll
    (env.GetFirstVehicleInChain w realcoll) lv lc fuel h4 hex
    ((IsSeg.congr lv _ none (fun j _ => hn j)).mpr hlv)
    ((IsSeg.congr lc _ none (fun j _ => hn j)).mpr hlc) hf

/-- C8, as the code has it: when `CheckTrainCollision(v)` runs for a head `v` whose
crash animation has not started and that is not in a depot, the position scan returns
a unit of a different consist whose crash animation has not started either, and the
tunnel exemption does not apply, then afterwards every unit of the consist of `v`
carries the crashed flag, and every unit of the other consist does when its head is a
front engine. -/
theorem C8_collision_crashes_consists (env : Env)
    (hm : 0 < env.VS_CRASHED ∧ env.VS_CRASHED < 256)
    (w : World) (v realcoll : Nat) (lv lc : List Nat) (fuel : Nat)
    (hscan : ScanHit env w v realcoll) (hex : ¬ TunnelExempt w v realcoll)
    (hv0 : (w v).rail.crash_anim_pos = 0)
    (hc0 : (w (env.GetFirstVehicleInChain w realcoll)).rail.crash_anim_pos = 0)
    (hlv : IsChain w (some v) lv)
    (hlc : IsChain w (some (env.GetFirstVehicleInChain w realcoll)) lc)
    (hf : lv.length ≤ fuel ∧ lc.length ≤ fuel) :
    ∃ w2 num, CheckTrainCollision env w v fuel = some (w2, some num) ∧
      (∀ u ∈ lv, isCrashed env (w2 u)) ∧
      ((w (env.GetFirstVehicleInChain w realcoll)).subtype = env.TS_Front_Engine →
        ∀ u ∈ lc, isCrashed env (w2 u)) := by
  obtain ⟨w2, hrun, hv, hc⟩ :=
    CheckTrainCollision.hit_spec env hm w v realcoll lv lc fuel hscan hex hlv hlc hf
  exact ⟨w2, _, hrun, hv hv0, fun hfe => hc hfe hc0⟩

/-- Witness of C8: train A of `exCollide` runs into the head of train B. -/
theorem C8_collision_crashes_consists_witness :
    ScanHit exEnv exCollide 0 2 ∧ ¬ TunnelExempt exCollide 0 2 ∧
    (exCollide 0).rail.crash_anim_pos = 0 ∧
    (exCollide (exEnv.GetFirstVehicleInChain exCollide 2)).rail.crash_anim_pos = 0 ∧
    IsChain exCollide (some 0) [0, 1] ∧
    IsChain exCollide (some (exEnv.GetFirstVehicleInChain exCollide 2)) [2, 3] ∧
    (exCollide (exEnv.GetFirstVehicleInChain exCollide 2)).subtype = exEnv.TS_Front_Engine ∧
    ∃ w2 num, CheckTrainCollision exEnv exCollide 0 4 = some (w2, some num) ∧
      (∀ u ∈ [0, 1], isCrashed exEnv (w2 u)) ∧
      ((exCollide (exEnv.GetFirstVehicleInChain exCollide 2)).subtype =
          exEnv.TS_Front_Engine →
        ∀ u ∈ [2, 3], isCrashed exEnv (w2 u)) :=
  ⟨by decide, by decide, by decide, by decide, by decide, by decide, by decide,
    C8_collision_crashes_consists exEnv (by decide) exCollide 0 2 [0, 1] [2, 3] 4
      (by decide) (by decide) (by decide) (by decide) (by decide) (by decide) (by decide)⟩

/-- Counterexample to C8 as stated: two single front engines inside crossing
tunnels, both without crash animation and outside depots, at the same position; the
scan for unit 0 returns unit 2, and after the call neither carries the crashed
flag. -/
theorem C8_counterexample :
    ScanHit exEnv exTunnel 0 2 ∧
    (exTunnel 0).rail.crash_anim_pos = 0 ∧ (exTunnel 2).rail.crash_anim_pos = 0 ∧
    (exTunnel 2).rail.track ≠ 0x80 ∧ (exTunnel 2).subtype = exEnv.TS_Front_Engine ∧
    (CheckTrainCollision exEnv exTunnel 0 4).map
      (fun r => (r.2, decide (isCrashed exEnv (r.1 0)), decide (isCrashed exEnv (r.1 2)))) =
      some (none, false, false) := by
  decide

/-- C9, as the code has it: on a hit the casualty number reported by
`CheckTrainCollision(v)` is 2 plus the passengers of the consist of `v`, plus 2 plus
the passengers of the struck consist if the head of the struck consist did not carry
the crashed flag before the call. -/
theorem C9_casualty_number (env : Env)
    (hm : 0 < env.VS_CRASHED ∧ env.VS_CRASHED < 256)
    (w : World) (v realcoll : Nat) (lv lc : List Nat) (fuel : Nat)
    (hscan : ScanHit env w v realcoll) (hex : ¬ TunnelExempt w v realcoll)
    (hlv : IsChain w (some v) lv)
    (hlc : IsChain w (some (env.GetFirstVehicleInChain w realcoll)) lc)
    (hf : lv.length ≤ fuel ∧ lc.length ≤ fuel) :
    ∃ w2, CheckTrainCollision env w v fuel = some (w2, some (2 + passengers env w lv +
        (if isCrashed env (w (env.GetFirstVehicleInChain w realcoll)) then 0
         else 2 + passengers env w lc))) := by
  obtain ⟨w2, hrun, _⟩ :=
    CheckTrainCollision.hit_spec env hm w v realcoll lv lc fuel hscan hex hlv hlc hf
  exact ⟨w2, hrun⟩

/-- Witness of C9: train A of `exCollide` with 10 passengers runs into train B
with 5 passengers, neither crashed before. -/
theorem C9_casualty_number_witness :
    ScanHit exEnv exCollide 0 2 ∧ ¬ TunnelExempt exCollide 0 2 ∧
    IsChain exCollide (some 0) [0, 1] ∧
    IsChain exCollide (some (exEnv.GetFirstVehicleInChain exCollide 2)) [2, 3] ∧
    ∃ w2, CheckTrainCollision exEnv exCollide 0 4 =
      some (w2, some (2 + passengers exEnv exCollide [0, 1] +
        (if isCrashed exEnv (exCollide (exEnv.GetFirstVehicleInChain exCollide 2)) then 0
         else 2 + passengers exEnv exCollide [2, 3]))) :=
  ⟨by decide, by decide, by decide, by decide,
    C9_casualty_number exEnv (by decide) exCollide 0 2 [0, 1] [2, 3] 4
      (by decide) (by decide) (by decide) (by decide) (by decide)⟩

/-- The collision of `exCollide` reports 2 + 10 + 2 + 5 casualties. -/
theorem exCollide_casualties :
    (CheckTrainCollision exEnv exCollide 0 4).map (fun r => r.2) = some (some 19) := by
  decide

/-- Counterexample to C9 as stated: train A already carries the crashed flag
before the call, yet its two drivers and 10 passengers are counted again: the
code reports 19 where the specification's wording gives 7. -/
theorem C9_counterexample :
    ScanHit exEnv exCrashedHit 0 2 ∧ ¬ TunnelExempt exCrashedHit 0 2 ∧
    IsChain exCrashedHit (some 0) [0, 1] ∧ IsChain exCrashedHit (some 2) [2, 3] ∧
    isCrashed exEnv (exCrashedHit 0) ∧ isCrashed exEnv (exCrashedHit 1) ∧
    (exCrashedHit 0).rail.crash_anim_pos ≠ 0 ∧
    (CheckTrainCollision exEnv exCrashedHit 0 4).map (fun r => r.2) = some (some 19) ∧
    casualtiesClaimed exEnv exCrashedHit [0, 1] [2, 3] 0 2 = 7 := by
  decide

theorem SameKeys.rfl_keys (w : World) : SameKeys w w := fun _ => ⟨rfl, rfl, rfl⟩

theorem SameKeys.trans_keys {w w1 w2 : World} (h1 : SameKeys w w1) (h2 : SameKeys w1 w2) :
    SameKeys w w2 := fun j =>
  ⟨(h2 j).1.trans (h1 j).1, (h2 j).2.1.trans (h1 j).2.1, (h2 j).2.2.trans (h1 j).2.2⟩

theorem SameKeys.set_key (w : World) (u : Nat) (x : Vehicle) (hx : x.sameKey (w u)) :
    SameKeys w (w.set u x) := by
  intro j
  by_cases hj : j = u
  · subst hj
    rw [World.set_same]
    exact hx
  · rw [World.set_other _ _ _ _ hj]
    exact ⟨rfl, rfl, rfl⟩

theorem SameKeys.isSeg_keys {w w1 : World} (h : SameKeys w w1) (l : List Nat)
    (a t : Option Nat) : IsSeg w1 a l t ↔ IsSeg w a l t :=
  IsSeg.congr l a t (fun j _ => (h j).1)

theorem UpdateVarsAfterSwap.keeps (hooks : Hooks) (hk : hooks.KeepPlaces) (w : World) (v : Nat) :
    SameKeys w (UpdateVarsAfterSwap hooks w v) := by
  unfold UpdateVarsAfterSwap
  have h1 : SameKeys w (UpdateTrainDeltaXY w v (w v).direction) :=
    SameKeys.set_key w v _ ⟨rfl, rfl, rfl⟩
  generalize UpdateTrainDeltaXY w v (w v).direction = w1 at h1
  have h2 : SameKeys w1 (w1.set v { w1 v with
      cur_image := hooks.GetTrainImage w1 v (w1 v).direction }) :=
    SameKeys.set_key w1 v _ ⟨rfl, rfl, rfl⟩
  exact (h1.trans_keys h2).trans_keys (fun j => hk.1 _ v j)

theorem toggleDirection_twice (t d : Nat) : toggleDirection t (toggleDirection t d) = d := by
  unfold toggleDirection
  split_ifs
  · rw [Nat.xor_assoc, Nat.xor_self, Nat.xor_zero]
  · rfl

theorem flipPlace_twice (p : Place) : flipPlace (flipPlace p) = p := by
  cases p
  simp [flipPlace, toggleDirection_twice]

/-- One call of `ReverseTrainSwapVeh` on the units `a` and `b` found at the two
positions: each takes the flipped place of the other, nothing else moves. -/
theorem ReverseTrainSwapVeh.swap_spec (env : Env) (hooks : Hooks) (hk : hooks.KeepPlaces)
    (w : World) (v l r a b : Nat)
    (ha : nthNext w l v = some a) (hb : nthNext w r v = some b) :
    ∃ w1, ReverseTrainSwapVeh env hooks w v l r = some w1 ∧
      (∀ j, (w1 j).next = (w j).next ∧
        (w1 j).rail.cached_veh_length = (w j).rail.cached_veh_length) ∧
      (w1 a).place = flipPlace (w b).place ∧ (w1 b).place = flipPlace (w a).place ∧
      (∀ j, j ≠ a → j ≠ b → (w1 j).place = (w j).place) := by
  unfold ReverseTrainSwapVeh
  simp only [ha, hb]
  by_cases hab : a = b
  · subst hab
    rw [if_neg (not_not.mpr rfl)]
    generalize hw1 : w.set a { w a with
      direction := toggleDirection (w a).rail.track (w a).direction } = w1
    have h12 := UpdateVarsAfterSwap.keeps hooks hk w1 a
    generalize UpdateVarsAfterSwap hooks w1 a = w2 at h12
    have h23 : SameKeys w2 (hooks.VehicleEnterTile w2 a (w2 a).tile (w2 a).x_pos (w2 a).y_pos) :=
      fun j => hk.2 _ _ _ _ _ j
    generalize hooks.VehicleEnterTile w2 a (w2 a).tile (w2 a).x_pos (w2 a).y_pos = w3 at h23
    have h13 := h12.trans_keys h23
    have h1a : (w1 a).place = flipPlace (w a).place := by
      rw [← hw1, World.set_same]
      rfl
    have h1o : ∀ j, j ≠ a → w1 j = w j := by
      intro j hj
      rw [← hw1, World.set_other _ _ _ _ hj]
    have h1k : ∀ j, (w1 j).next = (w j).next ∧
        (w1 j).rail.cached_veh_length = (w j).rail.cached_veh_length := by
      intro j
      by_cases hj : j = a
      · subst hj
        rw [← hw1, World.set_same]
        exact ⟨rfl, rfl⟩
      · rw [h1o j hj]
        exact ⟨rfl, rfl⟩
    refine ⟨w3, rfl, ?_, ?_, ?_, ?_⟩
    · intro j
      exact ⟨(h13 j).1.trans (h1k j).1, (h13 j).2.2.trans (h1k j).2⟩
    · rw [(h13 a).2.1, h1a]
    · rw [(h13 a).2.1, h1a]
    · intro j hj _
      rw [(h13 j).2.1, h1o j hj]
  · rw [if_pos hab]
    generalize hw1 : (w.set a (swappedRecord env (w a) (w b)
        (SwapTrainFlags env (w a).rail.flags (w b).rail.flags).1)).set b
        (swappedRecord env (w b) (w a)
          (SwapTrainFlags env (w a).rail.flags (w b).rail.flags).2) = w1
    have h12 := UpdateVarsAfterSwap.keeps hooks hk w1 a
    generalize UpdateVarsAfterSwap hooks w1 a = w2 at h12
    have h23 := UpdateVarsAfterSwap.keeps hooks hk w2 b
    generalize UpdateVarsAfterSwap hooks w2 b = w3 at h23
    have h34 : SameKeys w3 (hooks.VehicleEnterTile w3 a (w3 a).tile (w3 a).x_pos (w3 a).y_pos) :=
      fun j => hk.2 _ _ _ _ _ j
    generalize hooks.VehicleEnterTile w3 a (w3 a).tile (w3 a).x_pos (w3 a).y_pos = w4 at h34
    have h45 : SameKeys w4 (hooks.VehicleEnterTile w4 b (w4 b).tile (w4 b).x_pos (w4 b).y_pos) :=
      fun j => hk.2 _ _ _ _ _ j
    generalize hooks.VehicleEnterTile w4 b (w4 b).tile (w4 b).x_pos (w4 b).y_pos = w5 at h45
    have h15 := ((h12.trans_keys h23).trans_keys h34).trans_keys h45
    have h1a : w1 a = swappedRecord env (w a) (w b)
        (SwapTrainFlags env (w a).rail.flags (w b).rail.flags).1 := by
      rw [← hw1, World.set_other _ _ _ _ hab, World.set_same]
    have h1b : w1 b = swappedRecord env (w b) (w a)
        (SwapTrainFlags env (w a).rail.flags (w b).rail.flags).2 := by
      rw [← hw1, World.set_same]
    have h1o : ∀ j, j ≠ a → j ≠ b → w1 j = w j := by
      intro j hja hjb
      rw [← hw1, World.set_other _ _ _ _ hjb, World.set_other _ _ _ _ hja]
    have h1k : ∀ j, (w1 j).next = (w j).next ∧
        (w1 j).rail.cached_veh_length = (w j).rail.cached_veh_length := by
      intro j
      by_cases hja : j = a
      · subst hja
        rw [h1a]
        exact ⟨rfl, rfl⟩
      · by_cases hjb : j = b
        · subst hjb
          rw [h1b]
          exact ⟨rfl, rfl⟩
        · rw [h1o j hja hjb]
          exact ⟨rfl, rfl⟩
    refine ⟨w5, rfl, ?_, ?_, ?_, ?_⟩
    · intro j
      exact ⟨(h15 j).1.trans (h1k j).1, (h15 j).2.2.trans (h1k j).2⟩
    · rw [(h15 a).2.1, h1a]
      rfl
    · rw [(h15 b).2.1, h1b]
      rfl
    · intro j hja hjb
      rw [(h15 j).2.1, h1o j hja hjb]

theorem nthNext_chain {w : World} : ∀ (c : List Nat) (i v : Nat) (t : Option Nat),
    IsSeg w (some v) c t → i < c.length → nthNext w i v = some (c.getD i 0)
  | [], i, v, t, _, hi => by simp at hi
  | a :: c, 0, v, t, hc, _ => by
    have : some v = some a := hc.1
    simp only [Option.some.injEq] at this
    simp [nthNext, this]
  | a :: c, i + 1, v, t, hc, hi => by
    have hva : some v = some a := hc.1
    simp only [Option.some.injEq] at hva
    subst hva
    have hc2 : IsSeg w (w v).next c t := hc.2
    have hi2 : i < c.length := by simpa using hi
    cases hn : (w v).next with
    | none =>
      rw [hn] at hc2
      cases c with
      | nil => simp at hi2
      | cons b c => exact absurd hc2.1 (by simp)
    | some n =>
      rw [hn] at hc2
      simp only [nthNext, hn, List.getD_cons_succ]
      exact nthNext_chain c i n t hc2 hi2

theorem ReverseTrainDirection.walk_count_spec (w : World) :
    ∀ (c : List Nat) (a : Nat) (fuel : Nat) (r : Int),
      IsChain w (some a) (a :: c) → (a :: c).length ≤ fuel →
      ReverseTrainDirection.count w fuel a r = some (r + ((a :: c).length : Nat))
  | c, a, 0, r, _, hf => by simp at hf
  | [], a, fuel + 1, r, hc, _ => by
    have hn : (w a).next = none := hc.2
    simp [ReverseTrainDirection.count, hn]
  | b :: c, a, fuel + 1, r, hc, hf => by
    have hn : (w a).next = some b := hc.2.1
    have hc2 : IsChain w (some b) (b :: c) := ⟨rfl, hc.2.2⟩
    simp only [ReverseTrainDirection.count, hn]
    rw [ReverseTrainDirection.walk_count_spec w c b fuel _ hc2 (by simpa using hf)]
    simp only [List.length_cons, Nat.cast_add, Nat.cast_one]
    congr 1
    ring

theorem CountVehiclesInChain.count_chain (w : World) :
    ∀ (c : List Nat) (a : Nat) (fuel : Nat),
      IsChain w (some a) (a :: c) → (a :: c).length ≤ fuel →
      CountVehiclesInChain w fuel a = some (a :: c).length
  | c, a, 0, _, hf => by simp at hf
  | [], a, fuel + 1, hc, _ => by
    have hn : (w a).next = none := hc.2
    simp [CountVehiclesInChain, hn]
  | b :: c, a, fuel + 1, hc, hf => by
    have hn : (w a).next = some b := hc.2.1
    have hc2 : IsChain w (some b) (b :: c) := ⟨rfl, hc.2.2⟩
    simp only [CountVehiclesInChain, hn]
    rw [CountVehiclesInChain.count_chain w c b fuel hc2 (by simpa using hf)]
    simp

/-- On a chain whose units all have the same cached length the loop of
`AdvanceWagons` never calls the controller and returns the pool as it is. -/
theorem AdvanceWagons.loop_equal_lengths (ctrl : World → Nat → Option World) (before : Bool)
    (w : World) (len : Nat) :
    ∀ (fuel : Nat) (c : List Nat) (base : Nat) (length : Nat),
      IsChain w (some base) (base :: c) →
      (∀ u ∈ base :: c, (w u).rail.cached_veh_length = len) →
      length ≤ c.length + 1 → length ≤ fuel + 2 →
      AdvanceWagons.loop ctrl before fuel base (w base).next length w = some w
  | 0, c, base, length, _, _, _, hf => by
    simp only [AdvanceWagons.loop]
    rw [if_neg (by omega)]
  | fuel + 1, c, base, length, hc, hlen, hl, hf => by
    simp only [AdvanceWagons.loop]
    by_cases hgt : length > 2
    · rw [if_pos hgt]
      cases c with
      | nil => simp at hl; omega
      | cons b c =>
        have hn : (w base).next = some b := hc.2.1
        have hc2 : IsChain w (some b) (b :: c) := ⟨rfl, hc.2.2⟩
        have hl2 : length - 3 < (b :: c).length := by
          simp only [List.length_cons] at hl ⊢
          omega
        have hlast := nthNext_chain (b :: c) (length - 3) b none hc2 hl2
        have hmem : (b :: c).getD (length - 3) 0 ∈ base :: b :: c := by
          apply List.mem_cons_of_mem
          rw [List.getD_eq_getElem _ _ hl2]
          exact List.getElem_mem _
        have hd : ((w ((b :: c).getD (length - 3) 0)).rail.cached_veh_length : Int) -
            ((w base).rail.cached_veh_length : Int) = 0 := by
          rw [hlen _ hmem, hlen base (List.mem_cons_self _ _)]
          simp
        simp only [hn, hlast, hd]
        have hnot : ¬ ((if before = true then (0 : Int) * (-1) else 0) > 0) := by
          split_ifs <;> simp
        rw [if_neg hnot]
        simp only
        exact AdvanceWagons.loop_equal_lengths ctrl before w len fuel c b (length - 2) hc2
          (fun u hu => hlen u (List.mem_cons_of_mem _ hu))
          (by simp only [List.length_cons] at hl; omega) (by omega)
    · rw [if_neg hgt]

theorem AdvanceWagons.equal_lengths (ctrl : World → Nat → Option World) (before : Bool)
    (w : World) (v : Nat) (c : List Nat) (fuel : Nat)
    (hc : IsChain w (some v) c)
    (hlen : ∀ u ∈ c, (w u).rail.cached_veh_length = (w v).rail.cached_veh_length)
    (hf : c.length ≤ fuel) :
    AdvanceWagons ctrl w v before fuel = some w := by
  obtain ⟨t, rfl⟩ := hc.head_cons
  unfold AdvanceWagons
  rw [CountVehiclesInChain.count_chain w t v fuel hc hf]
  simp only
  exact AdvanceWagons.loop_equal_lengths ctrl before w _ fuel t v _ hc hlen
    (by simp) (by simp only [List.length_cons] at hf ⊢; omega)

theorem getD_inj_of_nodup {c : List Nat} (hnd : c.Nodup) {i j : Nat} (hi : i < c.length)
    (hj : j < c.length) (h : c.getD i 0 = c.getD j 0) : i = j := by
  rw [List.getD_eq_getElem _ _ hi, List.getD_eq_getElem _ _ hj] at h
  exact (List.Nodup.getElem_inj_iff hnd).mp h

/-- The swap loop of `ReverseTrainDirection`, started with the positions below
`l` and above `r` already exchanged: it ends with every unit of the chain in the
flipped place of its mirror unit. -/
theorem ReverseTrainDirection.swaps_spec (env : Env) (hooks : Hooks) (hk : hooks.KeepPlaces)
    (v : Nat) (c : List Nat) (w0 : World) (hc : IsChain w0 (some v) c) :
    ∀ (fuel l r : Nat) (w : World),
      l + r + 1 = c.length → l ≤ r → r + 1 ≤ fuel + l →
      (∀ j, (w j).next = (w0 j).next ∧
        (w j).rail.cached_veh_length = (w0 j).rail.cached_veh_length) →
      (∀ i, i < c.length → (w (c.getD i 0)).place =
        if i < l ∨ r < i then flipPlace (w0 (c.getD (c.length - 1 - i) 0)).place
        else (w0 (c.getD i 0)).place) →
      ∃ w1, ReverseTrainDirection.swaps env hooks v fuel (l : Int) (r : Int) w = some w1 ∧
        (∀ j, (w1 j).next = (w0 j).next ∧
          (w1 j).rail.cached_veh_length = (w0 j).rail.cached_veh_length) ∧
        (∀ i, i < c.length →
          (w1 (c.getD i 0)).place = flipPlace (w0 (c.getD (c.length - 1 - i) 0)).place)
  | 0, l, r, w, _, hlr, hf, _, _ => by omega
  | fuel + 1, l, r, w, hn, hlr, hf, hkeep, hinv => by
    have hnd : c.Nodup := IsChain.nodup c _ hc
    have hcw : IsChain w (some v) c :=
      (IsSeg.congr c _ none (fun j _ => (hkeep j).1)).mpr hc
    have hl : l < c.length := by omega
    have hr : r < c.length := by omega
    have ha := nthNext_chain c l v none hcw hl
    have hb := nthNext_chain c r v none hcw hr
    obtain ⟨w1, hswap, hk1, hpa, hpb, hpo⟩ :=
      ReverseTrainSwapVeh.swap_spec env hooks hk w v l r _ _ ha hb
    have hkeep1 : ∀ j, (w1 j).next = (w0 j).next ∧
        (w1 j).rail.cached_veh_length = (w0 j).rail.cached_veh_length :=
      fun j => ⟨(hk1 j).1.trans (hkeep j).1, (hk1 j).2.trans (hkeep j).2⟩
    have hinv1 : ∀ i, i < c.length → (w1 (c.getD i 0)).place =
        if i < l + 1 ∨ r < i + 1 then flipPlace (w0 (c.getD (c.length - 1 - i) 0)).place
        else (w0 (c.getD i 0)).place := by
      intro i hi
      by_cases hil : i = l
      · subst hil
        rw [if_pos (Or.inl (Nat.lt_succ_self _)), hpa, hinv r hr,
          if_neg (by omega), show c.length - 1 - i = r by omega]
      · by_cases hir : i = r
        · subst hir
          rw [if_pos (Or.inr (Nat.lt_succ_self _)), hpb, hinv l hl,
            if_neg (by omega), show c.length - 1 - i = l by omega]
        · have h1 : c.getD i 0 ≠ c.getD l 0 := fun h => hil (getD_inj_of_nodup hnd hi hl h)
          have h2 : c.getD i 0 ≠ c.getD r 0 := fun h => hir (getD_inj_of_nodup hnd hi hr h)
          rw [hpo _ h1 h2, hinv i hi]
          by_cases hcond : i < l ∨ r < i
          · rw [if_pos hcond, if_pos (by omega)]
          · rw [if_neg hcond, if_neg (by omega)]
    simp only [ReverseTrainDirection.swaps, Int.toNat_ofNat, hswap]
    by_cases hmore : l + 2 ≤ r
    · rw [if_pos (by omega)]
      have e1 : ((l : Int) + 1) = ((l + 1 : Nat) : Int) := by push_cast; ring
      have e2 : ((r : Int) - 1) = ((r - 1 : Nat) : Int) := by omega
      rw [e1, e2]
      apply ReverseTrainDirection.swaps_spec env hooks hk v c w0 hc fuel (l + 1) (r - 1) w1
        (by omega) (by omega) (by omega) hkeep1
      intro i hi
      rw [hinv1 i hi]
      by_cases hcond : i < l + 1 ∨ r < i + 1
      · rw [if_pos hcond, if_pos (by omega)]
      · rw [if_neg hcond, if_neg (by omega)]
    · rw [if_neg (by omega)]
      refine ⟨w1, rfl, hkeep1, ?_⟩
      intro i hi
      rw [hinv1 i hi, if_pos (by omega)]

/-- One reversal of a chain of units of equal cached length, with hooks that keep
the places: it returns and puts every unit in the flipped place of its mirror
unit, leaving links and cached lengths alone. -/
theorem ReverseTrainDirection.reverse_spec (env : Env) (hooks : Hooks)
    (ctrl : World → Nat → Option World) (hk : hooks.KeepPlaces)
    (w : World) (v : Nat) (c : List Nat) (fuel : Nat)
    (hc : IsChain w (some v) c)
    (hlen : ∀ u ∈ c, (w u).rail.cached_veh_length = (w v).rail.cached_veh_length)
    (hf : c.length ≤ fuel) :
    ∃ w1, ReverseTrainDirection env hooks ctrl w v fuel = some w1 ∧
      (∀ j, (w1 j).next = (w j).next ∧
        (w1 j).rail.cached_veh_length = (w j).rail.cached_veh_length) ∧
      (∀ i, i < c.length →
        (w1 (c.getD i 0)).place = flipPlace (w (c.getD (c.length - 1 - i) 0)).place) := by
  obtain ⟨t, ht⟩ := hc.head_cons
  have hpos : 0 < c.length := by rw [ht]; simp
  have hcount : ReverseTrainDirection.count w fuel v (-1) = some ((c.length - 1 : Nat) : Int) := by
    subst ht
    rw [ReverseTrainDirection.walk_count_spec w t v fuel (-1) hc hf]
    congr 1
    simp
  have hadv := AdvanceWagons.equal_lengths ctrl true w v c fuel hc hlen hf
  obtain ⟨w2, hswaps, hkeep2, hplace2⟩ :=
    ReverseTrainDirection.swaps_spec env hooks hk v c w hc fuel 0 (c.length - 1) w
      (by omega) (by omega) (by omega) (fun _ => ⟨rfl, rfl⟩)
      (by
        intro i hi
        rw [if_neg (by omega)])
  have hc2 : IsChain w2 (some v) c :=
    (IsSeg.congr c _ none (fun j _ => (hkeep2 j).1)).mpr hc
  have hlen2 : ∀ u ∈ c, (w2 u).rail.cached_veh_length = (w2 v).rail.cached_veh_length := by
    intro u hu
    rw [(hkeep2 u).2, (hkeep2 v).2]
    exact hlen u hu
  have hadv2 := AdvanceWagons.equal_lengths ctrl false w2 v c fuel hc2 hlen2 hf
  have hfin : SameKeys w2 (w2.set v { w2 v with rail := { (w2 v).rail with
      flags := CLRBIT (w2 v).rail.flags env.VRF_REVERSING } }) :=
    SameKeys.set_key w2 v _ ⟨rfl, rfl, rfl⟩
  refine ⟨w2.set v { w2 v with rail := { (w2 v).rail with
      flags := CLRBIT (w2 v).rail.flags env.VRF_REVERSING } }, ?_, ?_, ?_⟩
  · unfold ReverseTrainDirection
    simp only [hcount, hadv, Nat.cast_zero] at hswaps ⊢
    simp only [hswaps, hadv2]
  · intro j
    exact ⟨(hfin j).1.trans (hkeep2 j).1, (hfin j).2.2.trans (hkeep2 j).2⟩
  · intro i hi
    rw [(hfin _).2.1]
    exact hplace2 i hi

/-- C6: for a chain whose units all have the same cached length, with tile-entry and
image hooks that do not touch links, places and cached lengths, applying
`ReverseTrainDirection` twice in succession returns both times and restores the x, y
and z position, the tile, the direction and the occupied-track value of every unit. -/
theorem C6_reverse_twice_restores_places (env : Env) (hooks : Hooks)
    (ctrl : World → Nat → Option World) (hk : hooks.KeepPlaces)
    (w : World) (v : Nat) (c : List Nat) (fuel : Nat)
    (hc : IsChain w (some v) c)
    (hlen : ∀ u ∈ c, (w u).rail.cached_veh_length = (w v).rail.cached_veh_length)
    (hf : c.length ≤ fuel) :
    ∃ w1 w2, ReverseTrainDirection env hooks ctrl w v fuel = some w1 ∧
      ReverseTrainDirection env hooks ctrl w1 v fuel = some w2 ∧
      ∀ u ∈ c, (w2 u).x_pos = (w u).x_pos ∧ (w2 u).y_pos = (w u).y_pos ∧
        (w2 u).z_pos = (w u).z_pos ∧ (w2 u).tile = (w u).tile ∧
        (w2 u).direction = (w u).direction ∧ (w2 u).rail.track = (w u).rail.track := by
  obtain ⟨w1, hrun1, hkeep1, hplace1⟩ :=
    ReverseTrainDirection.reverse_spec env hooks ctrl hk w v c fuel hc hlen hf
  have hc1 : IsChain w1 (some v) c :=
    (IsSeg.congr c _ none (fun j _ => (hkeep1 j).1)).mpr hc
  have hlen1 : ∀ u ∈ c, (w1 u).rail.cached_veh_length = (w1 v).rail.cached_veh_length := by
    intro u hu
    rw [(hkeep1 u).2, (hkeep1 v).2]
    exact hlen u hu
  obtain ⟨w2, hrun2, _, hplace2⟩ :=
    ReverseTrainDirection.reverse_spec env hooks ctrl hk w1 v c fuel hc1 hlen1 hf
  refine ⟨w1, w2, hrun1, hrun2, ?_⟩
  intro u hu
  obtain ⟨i, hi, rfl⟩ := List.getElem_of_mem hu
  have hpl : (w2 (c.getD i 0)).place = (w (c.getD i 0)).place := by
    rw [hplace2 i hi, hplace1 (c.length - 1 - i) (by omega),
      show c.length - 1 - (c.length - 1 - i) = i by omega, flipPlace_twice]
  rw [List.getD_eq_getElem _ _ hi] at hpl
  have h1 := congrArg Place.x_pos hpl
  have h2 := congrArg Place.y_pos hpl
  have h3 := congrArg Place.z_pos hpl
  have h4 := congrArg Place.tile hpl
  have h5 := congrArg Place.direction hpl
  have h6 := congrArg Place.track hpl
  exact ⟨h1, h2, h3, h4, h5, h6⟩

theorem exHooks_keepPlaces : exHooks.KeepPlaces :=
  ⟨fun _ _ _ => ⟨rfl, rfl, rfl⟩, fun _ _ _ _ _ _ => ⟨rfl, rfl, rfl⟩⟩

/-- Witness of C6: the three-unit train of `exLine`. -/
theorem C6_reverse_twice_restores_places_witness :
    IsChain exLine (some 0) [0, 1, 2] ∧
    (∀ u ∈ [0, 1, 2], (exLine u).rail.cached_veh_length = (exLine 0).rail.cached_veh_length) ∧
    ∃ w1 w2, ReverseTrainDirection exEnv exHooks (fun _ _ => none) exLine 0 3 = some w1 ∧
      ReverseTrainDirection exEnv exHooks (fun _ _ => none) w1 0 3 = some w2 ∧
      ∀ u ∈ [0, 1, 2], (w2 u).x_pos = (exLine u).x_pos ∧ (w2 u).y_pos = (exLine u).y_pos ∧
        (w2 u).z_pos = (exLine u).z_pos ∧ (w2 u).tile = (exLine u).tile ∧
        (w2 u).direction = (exLine u).direction ∧
        (w2 u).rail.track = (exLine u).rail.track :=
  ⟨by decide, by decide,
    C6_reverse_twice_restores_places exEnv exHooks (fun _ _ => none) exHooks_keepPlaces
      exLine 0 [0, 1, 2] 3 (by decide) (by decide) (by decide)⟩

/-- One reversal of `exLine` exchanges the end positions and turns every unit
from direction 1 to direction 5. -/
theorem exLine_reversed :
    (ReverseTrainDirection exEnv exHooks (fun _ _ => none) exLine 0 3).map
      (fun w => ((w 0).x_pos, (w 0).direction, (w 2).x_pos, (w 2).direction)) =
      some (32, 5, 48, 5) := by
  decide

theorem IsSeg.set_frame {w : World} {h t : Option Nat} {l : List Nat} (hs : IsSeg w h l t)
    (i : Nat) (x : Vehicle) (hi : i ∉ l) : IsSeg (w.set i x) h l t :=
  (IsSeg.congr l h t (fun j hj => by
    have hji : j ≠ i := fun hji => hi (by rw [← hji]; exact hj)
    rw [World.set_other _ _ _ _ hji])).mpr hs

theorem IsSeg.set_same_next {w : World} {h t : Option Nat} {l : List Nat} (hs : IsSeg w h l t)
    (i : Nat) (x : Vehicle) (hx : x.next = (w i).next) : IsSeg (w.set i x) h l t :=
  (IsSeg.congr l h t (fun j _ => by
    by_cases hji : j = i
    · subst hji
      rw [World.set_same, hx]
    · rw [World.set_other _ _ _ _ hji])).mpr hs

theorem IsSeg.singleton_iff {w : World} {h t : Option Nat} {p : Nat} :
    IsSeg w h [p] t ↔ h = some p ∧ (w p).next = t := Iff.rfl

/-- Redirecting the link of the last unit of a segment redirects the segment. -/
theorem IsSeg.set_last {w : World} {h t : Option Nat} {A : List Nat} {p : Nat}
    (hs : IsSeg w h (A ++ [p]) t) (hp : p ∉ A) (t2 : Option Nat) :
    IsSeg (w.set p { w p with next := t2 }) h (A ++ [p]) t2 := by
  rw [IsSeg.append] at hs ⊢
  obtain ⟨m, h1, h2⟩ := hs
  refine ⟨m, h1.set_frame p _ hp, ?_⟩
  rw [IsSeg.singleton_iff] at h2 ⊢
  exact ⟨h2.1, by rw [World.set_same]⟩

theorem IsChain.split_at {w : World} {h : Option Nat} {A B : List Nat} {s : Nat}
    (hc : IsChain w h (A ++ s :: B)) :
    IsSeg w h A (some s) ∧ IsChain w (some s) (s :: B) ∧ IsChain w (w s).next B := by
  unfold IsChain at hc
  rw [IsSeg.append] at hc
  obtain ⟨m, h1, h2⟩ := hc
  have hm : m = some s := h2.1
  subst hm
  exact ⟨h1, h2, h2.2⟩

theorem findPrev_last {w : World} {v : Nat} : ∀ (fuel : Nat) (A : List Nat) (u p : Nat),
    A ≠ [] → IsSeg w (some u) A (some v) → v ∉ A → findPrev w v fuel u = some p →
    ∃ A1, A = A1 ++ [p]
  | 0, _, _, _, _, _, _, hf => by simp [findPrev] at hf
  | fuel + 1, [], _, _, hne, _, _, _ => absurd rfl hne
  | fuel + 1, [a], u, p, _, hs, _, hf => by
    have hu : some u = some a := hs.1
    simp only [Option.some.injEq] at hu
    subst hu
    have hn : (w u).next = some v := hs.2
    simp only [findPrev, hn, if_true, Option.some.injEq] at hf
    exact ⟨[], by simp [hf]⟩
  | fuel + 1, a :: b :: A2, u, p, _, hs, hv, hf => by
    have hu : some u = some a := hs.1
    simp only [Option.some.injEq] at hu
    subst hu
    have hn : (w u).next = some b := hs.2.1
    have hbv : b ≠ v := fun h => hv (by simp [h])
    simp only [findPrev, hn, if_neg hbv] at hf
    have hs2 : IsSeg w (some b) (b :: A2) (some v) := ⟨rfl, hs.2.2⟩
    obtain ⟨A1, hA1⟩ := findPrev_last fuel (b :: A2) b p (by simp) hs2
      (fun h => hv (List.mem_cons_of_mem _ h)) hf
    exact ⟨u :: A1, by rw [hA1]; rfl⟩

theorem findLast_last {w : World} : ∀ (fuel : Nat) (M : List Nat) (u m : Nat),
    IsChain w (some u) M → findLast w fuel u = some m → ∃ M1, M = M1 ++ [m]
  | 0, _, _, _, _, hf => by simp [findLast] at hf
  | fuel + 1, [], _, _, hc, _ => absurd hc (by simp [IsChain, IsSeg])
  | fuel + 1, [a], u, m, hc, hf => by
    have hu : some u = some a := hc.1
    simp only [Option.some.injEq] at hu
    subst hu
    have hn : (w u).next = none := hc.2
    simp only [findLast, hn, Option.some.injEq] at hf
    exact ⟨[], by simp [hf]⟩
  | fuel + 1, a :: b :: M2, u, m, hc, hf => by
    have hu : some u = some a := hc.1
    simp only [Option.some.injEq] at hu
    subst hu
    have hn : (w u).next = some b := hc.2.1
    simp only [findLast, hn] at hf
    have hc2 : IsChain w (some b) (b :: M2) := ⟨rfl, hc.2.2⟩
    obtain ⟨M1, hM1⟩ := findLast_last fuel (b :: M2) b m hc2 hf
    exact ⟨u :: M1, by rw [hM1]; rfl⟩

theorem IsChain.head_eq_of_mem_head {w : World} {sH src : Nat} {A B : List Nat}
    (hc : IsChain w (some sH) (A ++ src :: B)) (h : src = sH) : A = [] := by
  cases A with
  | nil => rfl
  | cons a A1 =>
    exfalso
    have hnd := IsChain.nodup _ _ hc
    have ha : some sH = some a := hc.1
    simp only [Option.some.injEq] at ha
    rw [← ha, ← h] at hnd
    simp at hnd

theorem IsChain.nil_of_none {w : World} {B : List Nat} (hc : IsChain w none B) : B = [] := by
  cases B with
  | nil => rfl
  | cons b B1 => exact absurd hc.1 (by simp)

theorem IsChain.cons_of_some {w : World} {n : Nat} {B : List Nat} (hc : IsChain w (some n) B) :
    ∃ B1, B = n :: B1 := hc.head_cons

theorem IsChain.singleton_of_next_none {w : World} {s : Nat} (h : (w s).next = none) :
    IsChain w (some s) [s] := ⟨rfl, h⟩

/-- The unlinking half of the move on the chain `A ++ src :: B` of `src_head`:
afterwards the moved part (`src :: B` when all wagons move, `[src]` otherwise) is
a chain from `src`, the rest is a chain from the new `src_head`, and nothing
outside the chain has changed. -/
theorem CmdMoveRailVehicle.unlink_spec (env : Env) (w : World) (p2 src sH : Nat)
    (dh : Option Nat) (fuel : Nat) (w1 : World) (sh1 dh1 : Option Nat) (A B : List Nat)
    (hc : IsChain w (some sH) (A ++ src :: B))
    (hun : CmdMoveRailVehicle.unlink env w p2 src sH dh fuel = some (w1, sh1, dh1)) :
    IsChain w1 (some src) (if HASBIT p2 0 = true then src :: B else [src]) ∧
    IsChain w1 sh1 (if HASBIT p2 0 = true then A else A ++ B) ∧
    (∀ j, j ∉ A ++ src :: B → w1 j = w j) ∧
    (∀ j, (w1 j).type = (w j).type) ∧
    (∀ j, (w1 j).subtype = (w j).subtype ∨
      (sh1 = some j ∧ j ∈ B ∧ (w1 j).subtype = env.TS_Free_Car)) ∧
    dh1 = (if HASBIT p2 0 = false ∧ some sH = dh then none else dh) ∧
    (HASBIT p2 0 = false → A = [] → ∀ n B1, B = n :: B1 →
      (w1 n).subtype = env.TS_Free_Car) := by
  have hnd := IsChain.nodup _ _ hc
  obtain ⟨hsegA, hcM, hcB⟩ := hc.split_at
  have hsrcA : src ∉ A := by
    intro h
    have := (List.nodup_append.mp hnd).2.2
    exact this h (List.mem_cons_self _ _)
  have hsrcB : src ∉ B := (List.nodup_cons.mp (List.nodup_append.mp hnd).2.1).1
  have hAB : ∀ x, x ∈ A → x ∉ src :: B := fun x hx hx2 =>
    (List.nodup_append.mp hnd).2.2 hx hx2
  unfold CmdMoveRailVehicle.unlink at hun
  by_cases hbit : HASBIT p2 0 = true
  · simp only [hbit, if_true] at hun ⊢
    simp only [Bool.true_eq_false, false_and, if_false]
    by_cases hsh : src = sH
    · have hA := hc.head_eq_of_mem_head hsh
      subst hA
      rw [if_neg (not_not.mpr hsh)] at hun
      simp only [Option.some.injEq, Prod.mk.injEq] at hun
      obtain ⟨rfl, rfl, rfl⟩ := hun
      exact ⟨hcM, rfl, fun _ _ => rfl, fun _ => rfl, fun _ => Or.inl rfl, rfl,
        fun h => h.elim⟩
    · rw [if_pos hsh] at hun
      cases hfp : findPrev w src fuel sH with
      | none => simp [hfp] at hun
      | some v =>
        simp only [hfp, Option.some.injEq, Prod.mk.injEq] at hun
        obtain ⟨rfl, rfl, rfl⟩ := hun
        have hAne : A ≠ [] := by
          rintro rfl
          have : some sH = some src := hc.1
          simp only [Option.some.injEq] at this
          exact hsh this.symm
        obtain ⟨A1, rfl⟩ := findPrev_last fuel A sH v hAne hsegA hsrcA hfp
        have hvA1 : v ∉ A1 := by
          have := (List.nodup_append.mp (List.nodup_append.mp hnd).1).2.2
          intro h
          exact this h (List.mem_singleton.mpr rfl)
        have hvM : v ∉ src :: B := hAB v (by simp)
        refine ⟨hcM.set_frame v _ hvM, hsegA.set_last hvA1 none, ?_, ?_, ?_, rfl,
          fun h => h.elim⟩
        · intro j hj
          rw [World.set_other]
          rintro rfl
          exact hj (by simp)
        · intro j
          by_cases hjv : j = v
          · subst hjv
            rw [World.set_same]
          · rw [World.set_other _ _ _ _ hjv]
        · intro j
          left
          by_cases hjv : j = v
          · subst hjv
            rw [World.set_same]
          · rw [World.set_other _ _ _ _ hjv]
  · have hbit2 : HASBIT p2 0 = false := by simpa using hbit
    simp only [hbit2, Bool.false_eq_true, if_false, true_and] at hun ⊢
    unfold UnlinkWagon at hun
    by_cases hsh : src = sH
    · have hA := hc.head_eq_of_mem_head hsh
      subst hA
      rw [if_pos hsh] at hun
      cases hn : (w src).next with
      | none =>
        rw [hn] at hcB
        have hB := hcB.nil_of_none
        subst hB
        simp only [hn, Option.some.injEq, Prod.mk.injEq] at hun
        obtain ⟨rfl, rfl, rfl⟩ := hun
        refine ⟨IsChain.singleton_of_next_none (by rw [World.set_same]), rfl, ?_, ?_, ?_, rfl,
          fun _ _ n B1 hB => absurd hB (by simp)⟩
        · intro j hj
          rw [World.set_other]
          rintro rfl
          exact hj (by simp)
        · intro j
          by_cases hjv : j = src
          · subst hjv
            rw [World.set_same]
          · rw [World.set_other _ _ _ _ hjv]
        · intro j
          left
          by_cases hjv : j = src
          · subst hjv
            rw [World.set_same]
          · rw [World.set_other _ _ _ _ hjv]
      | some n =>
        rw [hn] at hcB
        obtain ⟨B1, rfl⟩ := hcB.cons_of_some
        simp only [hn, Option.some.injEq, Prod.mk.injEq] at hun
        obtain ⟨rfl, rfl, rfl⟩ := hun
        have hns : n ≠ src := fun h => hsrcB (by simp [h])
        refine ⟨IsChain.singleton_of_next_none (by rw [World.set_same]), ?_, ?_, ?_, ?_, rfl,
          ?_⟩
        rotate_right
        · intro _ _ n2 B2 hB
          simp only [List.cons.injEq] at hB
          rw [← hB.1, World.set_other _ _ _ _ hns, World.set_same]
        · simp only [List.nil_append]
          apply IsSeg.set_frame _ _ _ hsrcB
          apply IsSeg.set_same_next hcB
          rfl
        · intro j hj
          have hjs : j ≠ src := by rintro rfl; exact hj (by simp)
          have hjn : j ≠ n := by rintro rfl; exact hj (by simp)
          rw [World.set_other _ _ _ _ hjs, World.set_other _ _ _ _ hjn]
        · intro j
          by_cases hjs : j = src
          · subst hjs
            rw [World.set_same, World.set_other _ _ _ _ hns.symm]
          · rw [World.set_other _ _ _ _ hjs]
            by_cases hjn : j = n
            · subst hjn
              rw [World.set_same]
            · rw [World.set_other _ _ _ _ hjn]
        · intro j
          by_cases hjs : j = src
          · subst hjs
            left
            rw [World.set_same, World.set_other _ _ _ _ hns.symm]
          · rw [World.set_other _ _ _ _ hjs]
            by_cases hjn : j = n
            · subst hjn
              right
              rw [World.set_same]
              exact ⟨rfl, by simp, rfl⟩
            · left
              rw [World.set_other _ _ _ _ hjn]
    · rw [if_neg hsh] at hun
      cases hfp : findPrev w src fuel sH with
      | none => simp [hfp] at hun
      | some u =>
        simp only [hfp, Option.some.injEq, Prod.mk.injEq] at hun
        obtain ⟨rfl, rfl, rfl⟩ := hun
        have hAne : A ≠ [] := by
          rintro rfl
          have : some sH = some src := hc.1
          simp only [Option.some.injEq] at this
          exact hsh this.symm
        obtain ⟨A1, rfl⟩ := findPrev_last fuel A sH u hAne hsegA hsrcA hfp
        have huA1 : u ∉ A1 := by
          have := (List.nodup_append.mp (List.nodup_append.mp hnd).1).2.2
          intro h
          exact this h (List.mem_singleton.mpr rfl)
        have huM : u ∉ src :: B := hAB u (by simp)
        have hus : u ≠ src := fun h => huM (by simp [h])
        have huB : u ∉ B := fun h => huM (List.mem_cons_of_mem _ h)
        have hR : IsChain (w.set u { w u with next := (w src).next }) (some sH)
            ((A1 ++ [u]) ++ B) := by
          unfold IsChain
          rw [IsSeg.append]
          exact ⟨_, hsegA.set_last huA1 _, hcB.set_frame u _ huB⟩
        have hsrcR : src ∉ (A1 ++ [u]) ++ B := by
          intro h
          rcases List.mem_append.mp h with h | h
          · exact hsrcA h
          · exact hsrcB h
        refine ⟨IsChain.singleton_of_next_none (by rw [World.set_same]),
          hR.set_frame src _ hsrcR, ?_, ?_, ?_, rfl, ?_⟩
        rotate_right
        · intro _ hA
          exact absurd hA (by simp)
        · intro j hj
          have hjs : j ≠ src := by rintro rfl; exact hj (by simp)
          have hju : j ≠ u := by rintro rfl; exact hj (by simp)
          rw [World.set_other _ _ _ _ hjs, World.set_other _ _ _ _ hju]
        · intro j
          by_cases hjs : j = src
          · subst hjs
            rw [World.set_same, World.set_other _ _ _ _ hus.symm]
          · rw [World.set_other _ _ _ _ hjs]
            by_cases hju : j = u
            · subst hju
              rw [World.set_same]
            · rw [World.set_other _ _ _ _ hju]
        · intro j
          left
          by_cases hjs : j = src
          · subst hjs
            rw [World.set_same, World.set_other _ _ _ _ hus.symm]
          · rw [World.set_other _ _ _ _ hjs]
            by_cases hju : j = u
            · subst hju
              rw [World.set_same]
            · rw [World.set_other _ _ _ _ hju]

theorem SameLinks.rfl_links (w : World) : SameLinks w w := fun _ => ⟨rfl, rfl, rfl⟩

theorem SameLinks.trans_links {w w1 w2 : World} (h1 : SameLinks w w1) (h2 : SameLinks w1 w2) :
    SameLinks w w2 := fun j =>
  ⟨(h2 j).1.trans (h1 j).1, (h2 j).2.1.trans (h1 j).2.1, (h2 j).2.2.trans (h1 j).2.2⟩

theorem SameLinks.set_links (w : World) (u : Nat) (x : Vehicle)
    (hx : x.next = (w u).next ∧ x.type = (w u).type ∧ x.subtype = (w u).subtype) :
    SameLinks w (w.set u x) := by
  intro j
  by_cases hj : j = u
  · subst hj
    rw [World.set_same]
    exact hx
  · rw [World.set_other _ _ _ _ hj]
    exact ⟨rfl, rfl, rfl⟩

theorem SameLinks.isSeg_links {w w1 : World} (h : SameLinks w w1) (l : List Nat)
    (a t : Option Nat) : IsSeg w1 a l t ↔ IsSeg w a l t :=
  IsSeg.congr l a t (fun j _ => (h j).1)

theorem SameUpToCaches.toLinks {w w1 : World} (h : SameUpToCaches w w1) : SameLinks w w1 :=
  fun j => ⟨h.next j, h.type j, h.subtype j⟩

/-- The linking half of the move onto an empty line: only the subtype and the
order count of `src` change, and `src` becomes a head. -/
theorem CmdMoveRailVehicle.link_none_spec (env : Env) (cenv : CmdEnv) (w : World) (src : Nat)
    (dh : Option Nat) (is_loco : Bool) (fuel : Nat) (w2 : World) (dh2 : Option Nat)
    (hl : CmdMoveRailVehicle.link env cenv w src none dh is_loco fuel = some (w2, dh2)) :
    dh2 = some src ∧ (∀ j, j ≠ src → w2 j = w j) ∧
    (∀ j, (w2 j).next = (w j).next ∧ (w2 j).type = (w j).type) ∧
    ((w2 src).subtype = env.TS_Front_Engine ∨ (w2 src).subtype = env.TS_Free_Car) := by
  unfold CmdMoveRailVehicle.link at hl
  simp only at hl
  have key : ∀ x : Vehicle, x.next = (w src).next → x.type = (w src).type →
      (∀ j, j ≠ src → (w.set src x) j = w j) ∧
      (∀ j, ((w.set src x) j).next = (w j).next ∧ ((w.set src x) j).type = (w j).type) := by
    intro x hx1 hx2
    refine ⟨fun j hj => World.set_other _ _ _ _ hj, fun j => ?_⟩
    by_cases hj : j = src
    · subst hj
      rw [World.set_same]
      exact ⟨hx1, hx2⟩
    · rw [World.set_other _ _ _ _ hj]
      exact ⟨rfl, rfl⟩
  by_cases hloco : is_loco = true
  · rw [if_pos hloco] at hl
    by_cases hfe : (w src).subtype = env.TS_Front_Engine
    · rw [if_neg (not_not.mpr hfe)] at hl
      simp only [Option.some.injEq, Prod.mk.injEq] at hl
      obtain ⟨rfl, rfl⟩ := hl
      exact ⟨rfl, fun _ _ => rfl, fun _ => ⟨rfl, rfl⟩, Or.inl hfe⟩
    · rw [if_pos hfe] at hl
      by_cases ho : (w src).orders = none
      · rw [if_neg (not_not.mpr ho)] at hl
        simp only [Option.some.injEq, Prod.mk.injEq] at hl
        obtain ⟨rfl, rfl⟩ := hl
        obtain ⟨k1, k2⟩ := key { w src with subtype := env.TS_Front_Engine, num_orders := 0 }
          rfl rfl
        exact ⟨rfl, k1, k2, Or.inl (by rw [World.set_same])⟩
      · rw [if_pos ho] at hl
        exact absurd hl (by simp)
  · rw [if_neg hloco] at hl
    simp only [Option.some.injEq, Prod.mk.injEq] at hl
    obtain ⟨rfl, rfl⟩ := hl
    obtain ⟨k1, k2⟩ := key { w src with subtype := env.TS_Free_Car } rfl rfl
    exact ⟨rfl, k1, k2, Or.inr (by rw [World.set_same])⟩

/-- The linking half of the move behind the unit `d`: the moved chain `M` is
spliced into the chain `D1 ++ d :: D2` right after `d`. -/
theorem CmdMoveRailVehicle.link_some_spec (env : Env) (cenv : CmdEnv)
    (hdel : cenv.DeleteKeepsLinks) (w : World) (src d : Nat)
    (dh : Option Nat) (is_loco : Bool) (fuel : Nat) (w4 : World) (dh2 : Option Nat)
    (M D1 D2 : List Nat) (hd : Option Nat)
    (hM : IsChain w (some src) M) (hD : IsChain w hd (D1 ++ d :: D2))
    (hdisj : ∀ x ∈ M, x ∉ D1 ++ d :: D2)
    (hl : CmdMoveRailVehicle.link env cenv w src (some d) dh is_loco fuel = some (w4, dh2)) :
    IsChain w4 hd (D1 ++ d :: (M ++ D2)) ∧ dh2 = dh ∧
    (∀ j, j ∉ M → j ∉ D1 ++ d :: D2 → (w4 j).next = (w j).next) ∧
    (∀ j, (w4 j).type = (w j).type) ∧
    (∀ j, j ≠ src → (w4 j).subtype = (w j).subtype) ∧
    (w4 src).subtype = env.TS_Not_First := by
  unfold CmdMoveRailVehicle.link at hl
  simp only at hl
  have h01 : SameLinks w (if (w src).subtype = env.TS_Front_Engine
      then cenv.DeleteVehicleOrders w src else w) := by
    split_ifs
    · exact hdel w src
    · exact SameLinks.rfl_links w
  generalize (if (w src).subtype = env.TS_Front_Engine
      then cenv.DeleteVehicleOrders w src else w) = w1 at hl h01
  have h12 : ∀ j, ((w1.set src { w1 src with subtype := env.TS_Not_First, unitnumber := 0 }) j).next
      = (w1 j).next ∧
      ((w1.set src { w1 src with subtype := env.TS_Not_First, unitnumber := 0 }) j).type
      = (w1 j).type := by
    intro j
    by_cases hj : j = src
    · subst hj
      rw [World.set_same]
      exact ⟨rfl, rfl⟩
    · rw [World.set_other _ _ _ _ hj]
      exact ⟨rfl, rfl⟩
  have h12s : ∀ j, j ≠ src →
      ((w1.set src { w1 src with subtype := env.TS_Not_First, unitnumber := 0 }) j).subtype
      = (w1 j).subtype := fun j hj => by rw [World.set_other _ _ _ _ hj]
  have h2src : ((w1.set src { w1 src with subtype := env.TS_Not_First, unitnumber := 0 })
      src).subtype = env.TS_Not_First := by rw [World.set_same]
  generalize w1.set src { w1 src with subtype := env.TS_Not_First, unitnumber := 0 } = w2
    at hl h12 h12s h2src
  have hnx : ∀ j, (w2 j).next = (w j).next := fun j => (h12 j).1.trans (h01 j).1
  have hM2 : IsChain w2 (some src) M := (IsSeg.congr M _ none (fun j _ => hnx j)).mpr hM
  have hD2 : IsChain w2 hd (D1 ++ d :: D2) :=
    (IsSeg.congr _ _ none (fun j _ => hnx j)).mpr hD
  cases hfl : findLast w2 fuel src with
  | none => simp [hfl] at hl
  | some v =>
    simp only [hfl, Option.some.injEq, Prod.mk.injEq] at hl
    obtain ⟨rfl, rfl⟩ := hl
    obtain ⟨M1, rfl⟩ := findLast_last fuel M src v hM2 hfl
    have hndM := IsChain.nodup _ _ hM2
    have hndD := IsChain.nodup _ _ hD2
    have hvM1 : v ∉ M1 := by
      intro h
      exact (List.nodup_append.mp hndM).2.2 h (List.mem_singleton.mpr rfl)
    have hvD : v ∉ D1 ++ d :: D2 := hdisj v (by simp)
    have hvd : v ≠ d := fun h => hvD (by simp [h])
    have hdM : d ∉ M1 ++ [v] := fun h => hdisj d h (by simp)
    have hdD1 : d ∉ D1 := by
      intro h
      exact (List.nodup_append.mp hndD).2.2 h (List.mem_cons_self _ _)
    have hdD2 : d ∉ D2 := (List.nodup_cons.mp (List.nodup_append.mp hndD).2.1).1
    obtain ⟨hsegD1, _, hcD2⟩ := hD2.split_at
    -- the pool after `v->next = dst->next`
    have hM3 := IsSeg.set_last hM2 hvM1 (w2 d).next
    have hD1_3 := hsegD1.set_frame v { w2 v with next := (w2 d).next }
      (fun h => hvD (List.mem_append_left _ h))
    have hD2_3 := hcD2.set_frame v { w2 v with next := (w2 d).next }
      (fun h => hvD (List.mem_append_right _ (List.mem_cons_of_mem _ h)))
    generalize hw3 : w2.set v { w2 v with next := (w2 d).next } = w3 at hM3 hD1_3 hD2_3
    have h3d : (w3 d).next = (w2 d).next := by
      rw [← hw3, World.set_other _ _ _ _ hvd.symm]
    -- the pool after `dst->next = src`
    have hD1d : IsSeg w3 hd (D1 ++ [d]) (w3 d).next := by
      rw [IsSeg.append]
      exact ⟨some d, hD1_3, rfl, rfl⟩
    have hD1_4 := IsSeg.set_last hD1d hdD1 (some src)
    have hM4 := hM3.set_frame d { w3 d with next := some src } hdM
    have hD2_4 := hD2_3.set_frame d { w3 d with next := some src } hdD2
    refine ⟨?_, rfl, ?_, ?_, ?_, ?_⟩
    · have : D1 ++ d :: (M1 ++ [v] ++ D2) = (D1 ++ [d]) ++ ((M1 ++ [v]) ++ D2) := by simp
      rw [this]
      unfold IsChain
      rw [IsSeg.append]
      refine ⟨some src, hD1_4, ?_⟩
      rw [IsSeg.append]
      exact ⟨(w2 d).next, hM4, hD2_4⟩
    · intro j hjM hjD
      have hjd : j ≠ d := by rintro rfl; exact hjD (by simp)
      have hjv : j ≠ v := by rintro rfl; exact hjM (by simp)
      rw [World.set_other _ _ _ _ hjd, ← hw3, World.set_other _ _ _ _ hjv]
      exact hnx j
    · intro j
      have e1 : ∀ (wx : World) (i : Nat) (nx : Option Nat),
          ((wx.set i { wx i with next := nx }) j).type = (wx j).type := by
        intro wx i nx
        by_cases hji : j = i
        · subst hji
          rw [World.set_same]
        · rw [World.set_other _ _ _ _ hji]
      rw [e1, ← hw3, e1]
      exact (h12 j).2.trans (h01 j).2.1
    · intro j hj
      have e1 : ∀ (wx : World) (i : Nat) (nx : Option Nat),
          ((wx.set i { wx i with next := nx }) j).subtype = (wx j).subtype := by
        intro wx i nx
        by_cases hji : j = i
        · subst hji
          rw [World.set_same]
        · rw [World.set_other _ _ _ _ hji]
      rw [e1, ← hw3, e1, h12s j hj]
      exact (h01 j).2.2
    · have e1 : ∀ (wx : World) (i : Nat) (nx : Option Nat),
          ((wx.set i { wx i with next := nx }) src).subtype = (wx src).subtype := by
        intro wx i nx
        by_cases hji : src = i
        · subst hji
          rw [World.set_same]
        · rw [World.set_other _ _ _ _ hji]
      rw [e1, ← hw3, e1]
      exact h2src

theorem TrainCargoChanged.cargo_loop_keeps (env : Env) (v : Nat) :
    ∀ (fuel : Nat) (h : Option Nat) (wt : Nat) (w w1 : World) (wt1 : Nat),
      TrainCargoChanged.loop env v fuel h wt w = some (w1, wt1) → SameUpToWeights w w1
  | fuel, none, wt, w, w1, wt1, hl => by
    cases fuel <;>
      · simp only [TrainCargoChanged.loop, Option.some.injEq, Prod.mk.injEq] at hl
        rw [← hl.1]
        exact SameUpToWeights.rfl_weights w
  | 0, some u, wt, w, w1, wt1, hl => by simp [TrainCargoChanged.loop] at hl
  | fuel + 1, some u, wt, w, w1, wt1, hl => by
    simp only [TrainCargoChanged.loop] at hl
    exact (SameUpToWeights.set_veh_weight w u _).trans_weights
      (TrainCargoChanged.cargo_loop_keeps env v fuel _ _ _ w1 wt1 hl)

theorem TrainCargoChanged.cargo_keeps (env : Env) (w : World) (v fuel : Nat) (w1 : World)
    (h : TrainCargoChanged env w v fuel = some w1) : SameUpToWeights w w1 := by
  unfold TrainCargoChanged at h
  cases hl : TrainCargoChanged.loop env v fuel (some v) 0 w with
  | none => simp [hl] at h
  | some r =>
    obtain ⟨wa, wt⟩ := r
    simp only [hl, Option.some.injEq] at h
    rw [← h]
    exact (TrainCargoChanged.cargo_loop_keeps env v fuel _ _ _ _ _ hl).trans_weights
      (SameUpToWeights.set_weight wa v wt)

theorem TrainConsistChanged.consist_loop_keeps (env : Env) (rvi_v : RailVehicleInfo)
    (v fe : Nat) :
    ∀ (fuel : Nat) (h : Option Nat) (p m : Nat) (w w1 : World) (p1 m1 : Nat),
      TrainConsistChanged.loop env rvi_v v fe fuel h p m w = some (w1, p1, m1) →
      SameUpToCaches w w1
  | fuel, none, p, m, w, w1, p1, m1, hl => by
    cases fuel <;>
      · simp only [TrainConsistChanged.loop, Option.some.injEq, Prod.mk.injEq] at hl
        rw [← hl.1]
        exact SameUpToCaches.rfl_caches w
  | 0, some u, p, m, w, w1, p1, m1, hl => by simp [TrainConsistChanged.loop] at hl
  | fuel + 1, some u, p, m, w, w1, p1, m1, hl => by
    obtain ⟨wb, pb, mb, hbody, _, hsame, _⟩ :=
      TrainConsistChanged.body_spec env rvi_v v fe u p m w
    simp only [TrainConsistChanged.loop, hbody] at hl
    exact hsame.trans_caches
      (TrainConsistChanged.consist_loop_keeps env rvi_v v fe fuel _ _ _ _ w1 p1 m1 hl)

/-- Whenever `TrainConsistChanged` returns, the pool differs in recalculator
caches only. -/
theorem TrainConsistChanged.consist_keeps (env : Env) (w : World) (v fuel : Nat) (w4 : World)
    (h : TrainConsistChanged env w v fuel = some w4) : SameUpToCaches w w4 := by
  unfold TrainConsistChanged at h
  by_cases h1 : (w v).type ≠ env.VEH_Train
  · rw [if_pos h1] at h
    exact absurd h (by simp)
  rw [if_neg h1] at h
  by_cases h2 : ¬ ((w v).subtype = env.TS_Front_Engine ∨ (w v).subtype = env.TS_Free_Car)
  · rw [if_pos h2] at h
    exact absurd h (by simp)
  rw [if_neg h2] at h
  simp only at h
  generalize (if (w v).subtype = env.TS_Front_Engine then (w v).engine_type
        else env.INVALID_VEHICLE) = fe at h
  cases hl : TrainConsistChanged.loop env (env.RailVehInfo (w v).engine_type) v fe fuel
      (some v) 0 65535 w with
  | none => simp [hl] at h
  | some r =>
    obtain ⟨w1, p1, m1⟩ := r
    simp only [hl] at h
    have h01 := TrainConsistChanged.consist_loop_keeps env _ v _ fuel _ _ _ _ _ _ _ hl
    have h12 := SameUpToCaches.set_rail w1 v
      { (w1 v).rail with cached_max_speed := m1 } ⟨rfl, rfl, rfl⟩
    generalize w1.set v { w1 v with rail := { (w1 v).rail with cached_max_speed := m1 } }
      = w2 at h h12
    have h23 := SameUpToCaches.set_rail w2 v
      { (w2 v).rail with cached_power := p1 } ⟨rfl, rfl, rfl⟩
    generalize w2.set v { w2 v with rail := { (w2 v).rail with cached_power := p1 } }
      = w3 at h h23
    exact ((h01.trans_caches h12).trans_caches h23).trans_caches
      (TrainCargoChanged.cargo_keeps env w3 v fuel w4 h).toCaches

theorem SameLinks.set_max_speed (w : World) (v a : Nat) :
    SameLinks w (w.set v { w v with max_speed := a }) :=
  SameLinks.set_links w v _ ⟨rfl, rfl, rfl⟩

theorem SameLinks.set_acceleration (w : World) (v a : Nat) :
    SameLinks w (w.set v { w v with acceleration := a }) :=
  SameLinks.set_links w v _ ⟨rfl, rfl, rfl⟩

theorem UpdateTrainAcceleration.accel_keeps (env : Env) (w : World) (v : Nat) (w1 : World)
    (h : UpdateTrainAcceleration env w v = some w1) : SameLinks w w1 := by
  unfold UpdateTrainAcceleration at h
  by_cases h1 : (w v).subtype ≠ env.TS_Front_Engine
  · rw [if_pos h1] at h
    exact absurd h (by simp)
  rw [if_neg h1] at h
  simp only at h
  by_cases h2 : (w v).rail.cached_weight = 0
  · rw [if_pos h2] at h
    exact absurd h (by simp)
  rw [if_neg h2, Option.some.injEq] at h
  rw [← h]
  exact (SameLinks.set_max_speed w v _).trans_links (SameLinks.set_acceleration _ v _)

theorem CmdMoveRailVehicle.refresh_keeps (env : Env) (w : World) (head : Option Nat)
    (fuel : Nat) (w1 : World)
    (h : CmdMoveRailVehicle.refresh env w head fuel = some w1) : SameLinks w w1 := by
  unfold CmdMoveRailVehicle.refresh at h
  cases head with
  | none =>
    simp only [Option.some.injEq] at h
    rw [← h]
    exact SameLinks.rfl_links w
  | some hd =>
    simp only at h
    cases ht : TrainConsistChanged env w hd fuel with
    | none => simp [ht] at h
    | some wa =>
      simp only [ht] at h
      have h1 := (TrainConsistChanged.consist_keeps env w hd fuel wa ht).toLinks
      split_ifs at h
      · exact h1.trans_links (UpdateTrainAcceleration.accel_keeps env wa hd w1 h)
      · simp only [Option.some.injEq] at h
        rw [← h]
        exact h1

theorem HeadOK.nil (env : Env) (w : World) : HeadOK env w [] := by
  intro h t hc
  simp at hc

theorem HeadOK.cons_intro {env : Env} {w : World} {a : Nat} {t : List Nat}
    (h1 : (w a).subtype = env.TS_Front_Engine ∨ (w a).subtype = env.TS_Free_Car)
    (h2 : ∀ u ∈ t, (w u).subtype = env.TS_Not_First) : HeadOK env w (a :: t) := by
  intro h t2 e
  simp only [List.cons.injEq] at e
  obtain ⟨rfl, rfl⟩ := e
  exact ⟨h1, h2⟩

theorem IsChain.head?_of {w : World} {h : Option Nat} {c : List Nat} (hc : IsChain w h c) :
    IsChain w c.head? c := by
  cases c with
  | nil => exact rfl
  | cons a t =>
    have : h = some a := hc.1
    subst this
    exact hc

/-- The `DC_EXEC` block of the move onto an empty line, on the chain
`A ++ src :: B` of `src_head`. -/
theorem CmdMoveRailVehicle.exec_none_spec (env : Env) (cenv : CmdEnv) (w : World)
    (p2 src sH : Nat) (dh : Option Nat) (is_loco : Bool) (fuel : Nat) (w4 : World)
    (A B : List Nat)
    (hc : IsChain w (some sH) (A ++ src :: B))
    (hex : CmdMoveRailVehicle.exec env cenv w p2 src none sH dh is_loco fuel = some w4) :
    IsChain w4 (some src) (if HASBIT p2 0 = true then src :: B else [src]) ∧
    (∃ sh1, IsChain w4 sh1 (if HASBIT p2 0 = true then A else A ++ B)) ∧
    (∀ j, j ∉ A ++ src :: B → (w4 j).next = (w j).next ∧ (w4 j).subtype = (w j).subtype) ∧
    (∀ j, (w4 j).type = (w j).type) ∧
    (HeadOK env w (A ++ src :: B) →
      HeadOK env w4 (if HASBIT p2 0 = true then src :: B else [src]) ∧
      HeadOK env w4 (if HASBIT p2 0 = true then A else A ++ B)) := by
  unfold CmdMoveRailVehicle.exec at hex
  cases hun : CmdMoveRailVehicle.unlink env w p2 src sH dh fuel with
  | none => simp [hun] at hex
  | some r1 =>
    obtain ⟨w1, sh1, dh1⟩ := r1
    simp only [hun] at hex
    cases hli : CmdMoveRailVehicle.link env cenv w1 src none dh1 is_loco fuel with
    | none => simp [hli] at hex
    | some r2 =>
      obtain ⟨w2, dh2⟩ := r2
      simp only [hli] at hex
      cases hr1 : CmdMoveRailVehicle.refresh env w2 sh1 fuel with
      | none => simp [hr1] at hex
      | some w3 =>
        simp only [hr1] at hex
        have k3 := CmdMoveRailVehicle.refresh_keeps env w2 sh1 fuel w3 hr1
        have k4 := CmdMoveRailVehicle.refresh_keeps env w3 dh2 fuel w4 hex
        have k34 := k3.trans_links k4
        obtain ⟨hM1, hR1, hfr1, hty1, hsub1, _, hnew1⟩ :=
          CmdMoveRailVehicle.unlink_spec env w p2 src sH dh fuel w1 sh1 dh1 A B hc hun
        obtain ⟨_, hfr2, hnt2, hsub2⟩ :=
          CmdMoveRailVehicle.link_none_spec env cenv w1 src dh1 is_loco fuel w2 dh2 hli
        have hnx : ∀ j, (w4 j).next = (w1 j).next := fun j => (k34 j).1.trans (hnt2 j).1
        have hnd := IsChain.nodup _ _ hc
        have hsrcA : src ∉ A := fun h =>
          (List.nodup_append.mp hnd).2.2 h (List.mem_cons_self _ _)
        have hsrcB : src ∉ B := (List.nodup_cons.mp (List.nodup_append.mp hnd).2.1).1
        have hndB : B.Nodup := (List.nodup_cons.mp (List.nodup_append.mp hnd).2.1).2
        have notB : ∀ u, u ∈ A → u ∉ B := fun u hu hu2 =>
          (List.nodup_append.mp hnd).2.2 hu (List.mem_cons_of_mem _ hu2)
        have hsubj : ∀ j, j ≠ src → (w4 j).subtype = (w1 j).subtype := fun j hj => by
          rw [(k34 j).2.2, hfr2 j hj]
        have hsrc4 : (w4 src).subtype = env.TS_Front_Engine ∨
            (w4 src).subtype = env.TS_Free_Car := by
          rw [(k34 src).2.2]
          exact hsub2
        refine ⟨(IsSeg.congr _ _ none (fun j _ => hnx j)).mpr hM1,
          ⟨sh1, (IsSeg.congr _ _ none (fun j _ => hnx j)).mpr hR1⟩, ?_, ?_, ?_⟩
        · intro j hj
          have hjs : j ≠ src := by rintro rfl; exact hj (by simp)
          refine ⟨?_, ?_⟩
          · rw [hnx j, hfr1 j hj]
          · rw [hsubj j hjs, hfr1 j hj]
        · intro j
          rw [(k34 j).2.1, (hnt2 j).2, hty1 j]
        · intro hok
          have hBnf : ∀ u ∈ B, (w u).subtype = env.TS_Not_First := by
            cases A with
            | nil => exact (hok src B rfl).2
            | cons a A1 =>
              intro u hu
              exact (hok a (A1 ++ src :: B) rfl).2 u (by simp [hu])
          have hAok : HeadOK env w A := by
            intro a A1 hA
            subst hA
            obtain ⟨h1, h2⟩ := hok a (A1 ++ src :: B) rfl
            exact ⟨h1, fun u hu => h2 u (List.mem_append_left _ hu)⟩
          have hkeep : ∀ j, j ≠ src → (w4 j).subtype = (w j).subtype ∨
              (sh1 = some j ∧ j ∈ B ∧ (w4 j).subtype = env.TS_Free_Car) := by
            intro j hj
            rcases hsub1 j with h | ⟨h1, h2, h3⟩
            · left
              rw [hsubj j hj, h]
            · right
              exact ⟨h1, h2, by rw [hsubj j hj, h3]⟩
          have hkeepA : ∀ u ∈ A, (w4 u).subtype = (w u).subtype := by
            intro u hu
            have hus : u ≠ src := by rintro rfl; exact hsrcA hu
            rcases hkeep u hus with hk | ⟨_, hk2, _⟩
            · exact hk
            · exact absurd hk2 (notB u hu)
          have hA4 : HeadOK env w4 A := by
            intro a A1 hA
            obtain ⟨g1, g2⟩ := hAok a A1 hA
            have haA : a ∈ A := by rw [hA]; simp
            refine ⟨by rw [hkeepA a haA]; exact g1, fun u hu => ?_⟩
            have huA : u ∈ A := by rw [hA]; simp [hu]
            rw [hkeepA u huA]
            exact g2 u hu
          by_cases hbit : HASBIT p2 0 = true
          · simp only [hbit, if_true] at hR1 ⊢
            refine ⟨HeadOK.cons_intro hsrc4 (fun u hu => ?_), hA4⟩
            have hus : u ≠ src := by rintro rfl; exact hsrcB hu
            rcases hkeep u hus with hk | ⟨hk1, _, _⟩
            · rw [hk]
              exact hBnf u hu
            · exfalso
              rw [hk1] at hR1
              obtain ⟨t2, ht2⟩ := hR1.head_cons
              have : u ∈ A := by rw [ht2]; simp
              exact notB u this hu
          · have hbit2 : HASBIT p2 0 = false := by simpa using hbit
            simp only [hbit2, Bool.false_eq_true, if_false] at hR1 ⊢
            refine ⟨HeadOK.cons_intro hsrc4 (fun u hu => by simp at hu), ?_⟩
            cases A with
            | nil =>
              simp only [List.nil_append] at hR1 ⊢
              cases B with
              | nil => exact HeadOK.nil env w4
              | cons n B1 =>
                have hns : n ≠ src := by rintro rfl; exact hsrcB (by simp)
                have hsh : sh1 = some n := hR1.1
                refine HeadOK.cons_intro (Or.inr ?_) (fun u hu => ?_)
                · rw [hsubj n hns]
                  exact hnew1 hbit2 rfl n B1 rfl
                · have huB : u ∈ n :: B1 := List.mem_cons_of_mem _ hu
                  have hus : u ≠ src := by rintro rfl; exact hsrcB huB
                  rcases hkeep u hus with hk | ⟨hk1, _, _⟩
                  · rw [hk]
                    exact hBnf u huB
                  · exfalso
                    rw [hsh] at hk1
                    simp only [Option.some.injEq] at hk1
                    rw [← hk1] at hu
                    exact (List.nodup_cons.mp hndB).1 hu
            | cons a A1 =>
              have hsh : sh1 = some a := hR1.1
              obtain ⟨g1, g2⟩ := hAok a A1 rfl
              refine HeadOK.cons_intro ?_ (fun u hu => ?_)
              · rw [hkeepA a (by simp)]
                exact g1
              · rcases List.mem_append.mp hu with huA | huB
                · rw [hkeepA u (List.mem_cons_of_mem _ huA)]
                  exact g2 u huA
                · have hus : u ≠ src := by rintro rfl; exact hsrcB huB
                  rcases hkeep u hus with hk | ⟨hk1, _, _⟩
                  · rw [hk]
                    exact hBnf u huB
                  · exfalso
                    rw [hsh] at hk1
                    simp only [Option.some.injEq] at hk1
                    exact notB u (by rw [← hk1]; simp) huB

theorem HeadOK.congr_subtype {env : Env} {w w1 : World} {c : List Nat}
    (h : ∀ u ∈ c, (w1 u).subtype = (w u).subtype) (hok : HeadOK env w c) :
    HeadOK env w1 c := by
  intro a t hc
  obtain ⟨g1, g2⟩ := hok a t hc
  have ha : a ∈ c := by rw [hc]; simp
  refine ⟨by rw [h a ha]; exact g1, fun u hu => ?_⟩
  have huc : u ∈ c := by rw [hc]; simp [hu]
  rw [h u huc]
  exact g2 u hu

theorem HeadOK.insert_after {env : Env} {w : World} {D1 D2 M : List Nat} {d : Nat}
    (hok : HeadOK env w (D1 ++ d :: D2))
    (hM : ∀ u ∈ M, (w u).subtype = env.TS_Not_First) :
    HeadOK env w (D1 ++ d :: (M ++ D2)) := by
  cases D1 with
  | nil =>
    obtain ⟨g1, g2⟩ := hok d D2 rfl
    refine HeadOK.cons_intro g1 (fun u hu => ?_)
    rcases List.mem_append.mp hu with h | h
    · exact hM u h
    · exact g2 u h
  | cons a D1 =>
    obtain ⟨g1, g2⟩ := hok a (D1 ++ d :: D2) rfl
    refine HeadOK.cons_intro g1 (fun u hu => ?_)
    rcases List.mem_append.mp hu with h | h
    · exact g2 u (List.mem_append_left _ h)
    · rcases List.mem_cons.mp h with h | h
      · exact g2 u (by simp [h])
      · rcases List.mem_append.mp h with h | h
        · exact hM u h
        · exact g2 u (by simp [h])

/-- The unlinking half of the move keeps the head invariant on the rest of
the source chain, and the units that follow `src` stay not-first. -/
theorem CmdMoveRailVehicle.unlink_headOK (env : Env) (w : World) (p2 src sH : Nat)
    (dh : Option Nat) (fuel : Nat) (w1 : World) (sh1 dh1 : Option Nat) (A B : List Nat)
    (hc : IsChain w (some sH) (A ++ src :: B))
    (hun : CmdMoveRailVehicle.unlink env w p2 src sH dh fuel = some (w1, sh1, dh1))
    (hok : HeadOK env w (A ++ src :: B)) :
    HeadOK env w1 (if HASBIT p2 0 = true then A else A ++ B) ∧
    (HASBIT p2 0 = true → ∀ u ∈ B, (w1 u).subtype = env.TS_Not_First) := by
  obtain ⟨_, hR1, _, _, hsub1, _, hnew1⟩ :=
    CmdMoveRailVehicle.unlink_spec env w p2 src sH dh fuel w1 sh1 dh1 A B hc hun
  have hnd := IsChain.nodup _ _ hc
  have hndB : B.Nodup := (List.nodup_cons.mp (List.nodup_append.mp hnd).2.1).2
  have notB : ∀ u, u ∈ A → u ∉ B := fun u hu hu2 =>
    (List.nodup_append.mp hnd).2.2 hu (List.mem_cons_of_mem _ hu2)
  have hBnf : ∀ u ∈ B, (w u).subtype = env.TS_Not_First := by
    cases A with
    | nil => exact (hok src B rfl).2
    | cons a A1 =>
      intro u hu
      exact (hok a (A1 ++ src :: B) rfl).2 u (by simp [hu])
  have hAok : HeadOK env w A := by
    intro a A1 hA
    subst hA
    obtain ⟨h1, h2⟩ := hok a (A1 ++ src :: B) rfl
    exact ⟨h1, fun u hu => h2 u (List.mem_append_left _ hu)⟩
  have hkeepA : ∀ u ∈ A, (w1 u).subtype = (w u).subtype := by
    intro u hu
    rcases hsub1 u with hk | ⟨_, hk2, _⟩
    · exact hk
    · exact absurd hk2 (notB u hu)
  have hA1 : HeadOK env w1 A := HeadOK.congr_subtype hkeepA hAok
  by_cases hbit : HASBIT p2 0 = true
  · simp only [hbit, if_true] at hR1 ⊢
    refine ⟨hA1, fun _ u hu => ?_⟩
    rcases hsub1 u with hk | ⟨hk1, _, _⟩
    · rw [hk]
      exact hBnf u hu
    · exfalso
      rw [hk1] at hR1
      obtain ⟨t2, ht2⟩ := hR1.head_cons
      exact notB u (by rw [ht2]; simp) hu
  · have hbit2 : HASBIT p2 0 = false := by simpa using hbit
    simp only [hbit2, Bool.false_eq_true, if_false] at hR1 ⊢
    refine ⟨?_, fun h => h.elim⟩
    cases A with
    | nil =>
      simp only [List.nil_append] at hR1 ⊢
      cases B with
      | nil => exact HeadOK.nil env w1
      | cons n B1 =>
        have hsh : sh1 = some n := hR1.1
        refine HeadOK.cons_intro (Or.inr (hnew1 hbit2 rfl n B1 rfl)) (fun u hu => ?_)
        have huB : u ∈ n :: B1 := List.mem_cons_of_mem _ hu
        rcases hsub1 u with hk | ⟨hk1, _, _⟩
        · rw [hk]
          exact hBnf u huB
        · exfalso
          rw [hsh] at hk1
          simp only [Option.some.injEq] at hk1
          rw [← hk1] at hu
          exact (List.nodup_cons.mp hndB).1 hu
    | cons a A1 =>
      have hsh : sh1 = some a := hR1.1
      obtain ⟨g1, g2⟩ := hAok a A1 rfl
      refine HeadOK.cons_intro ?_ (fun u hu => ?_)
      · rw [hkeepA a (by simp)]
        exact g1
      · rcases List.mem_append.mp hu with huA | huB
        · rw [hkeepA u (List.mem_cons_of_mem _ huA)]
          exact g2 u huA
        · rcases hsub1 u with hk | ⟨hk1, _, _⟩
          · rw [hk]
            exact hBnf u huB
          · exfalso
            rw [hsh] at hk1
            simp only [Option.some.injEq] at hk1
            exact notB u (by rw [← hk1]; simp) huB

/-- The `DC_EXEC` block of a single-wagon move behind a unit `d` of the same
chain: `src` leaves its position and is spliced in right after `d`. -/
theorem CmdMoveRailVehicle.exec_same_spec (env : Env) (cenv : CmdEnv)
    (hdel : cenv.DeleteKeepsLinks) (w : World)
    (p2 src sH d : Nat) (is_loco : Bool) (fuel : Nat) (w4 : World)
    (A B D1 D2 : List Nat)
    (hc : IsChain w (some sH) (A ++ src :: B))
    (hbit : HASBIT p2 0 = false)
    (hd : A ++ B = D1 ++ d :: D2)
    (hex : CmdMoveRailVehicle.exec env cenv w p2 src (some d) sH (some sH) is_loco fuel
      = some w4) :
    (∃ sh1, IsChain w4 sh1 (D1 ++ d :: src :: D2)) ∧
    (∀ j, j ∉ A ++ src :: B → (w4 j).next = (w j).next ∧ (w4 j).subtype = (w j).subtype) ∧
    (∀ j, (w4 j).type = (w j).type) ∧
    (HeadOK env w (A ++ src :: B) → HeadOK env w4 (D1 ++ d :: src :: D2)) := by
  unfold CmdMoveRailVehicle.exec at hex
  cases hun : CmdMoveRailVehicle.unlink env w p2 src sH (some sH) fuel with
  | none => simp [hun] at hex
  | some r1 =>
    obtain ⟨w1, sh1, dh1⟩ := r1
    simp only [hun] at hex
    cases hli : CmdMoveRailVehicle.link env cenv w1 src (some d) dh1 is_loco fuel with
    | none => simp [hli] at hex
    | some r2 =>
      obtain ⟨w2, dh2⟩ := r2
      simp only [hli] at hex
      cases hr1 : CmdMoveRailVehicle.refresh env w2 sh1 fuel with
      | none => simp [hr1] at hex
      | some w3 =>
        simp only [hr1] at hex
        have k34 := (CmdMoveRailVehicle.refresh_keeps env w2 sh1 fuel w3 hr1).trans_links
          (CmdMoveRailVehicle.refresh_keeps env w3 dh2 fuel w4 hex)
        obtain ⟨hM1, hR1, hfr1, hty1, _, _, _⟩ :=
          CmdMoveRailVehicle.unlink_spec env w p2 src sH (some sH) fuel w1 sh1 dh1 A B hc hun
        simp only [hbit, Bool.false_eq_true, if_false] at hM1 hR1
        rw [hd] at hR1
        have hnd := IsChain.nodup _ _ hc
        have hsrcA : src ∉ A := fun h =>
          (List.nodup_append.mp hnd).2.2 h (List.mem_cons_self _ _)
        have hsrcB : src ∉ B := (List.nodup_cons.mp (List.nodup_append.mp hnd).2.1).1
        have hsrcD : src ∉ D1 ++ d :: D2 := by
          rw [← hd]
          intro h
          rcases List.mem_append.mp h with h | h
          · exact hsrcA h
          · exact hsrcB h
        have hdisj : ∀ x ∈ [src], x ∉ D1 ++ d :: D2 := by
          intro x hx
          rw [List.mem_singleton] at hx
          rw [hx]
          exact hsrcD
        obtain ⟨hN2, _, hfr2, hty2, hsub2, hsrc2⟩ :=
          CmdMoveRailVehicle.link_some_spec env cenv hdel w1 src d dh1 is_loco fuel w2 dh2
            [src] D1 D2 sh1 hM1 hR1 hdisj hli
        have hmemD : ∀ j, j ∈ D1 ++ d :: D2 → j ∈ A ++ src :: B := by
          intro j hj
          rw [← hd] at hj
          rcases List.mem_append.mp hj with h | h
          · exact List.mem_append_left _ h
          · exact List.mem_append_right _ (List.mem_cons_of_mem _ h)
        refine ⟨⟨sh1, (IsSeg.congr _ _ none (fun j _ => (k34 j).1)).mpr hN2⟩, ?_, ?_, ?_⟩
        · intro j hj
          have hjs : j ≠ src := by rintro rfl; exact hj (by simp)
          have hjD : j ∉ D1 ++ d :: D2 := fun h => hj (hmemD j h)
          refine ⟨?_, ?_⟩
          · rw [(k34 j).1, hfr2 j (by simpa using hjs) hjD, hfr1 j hj]
          · rw [(k34 j).2.2, hsub2 j hjs, hfr1 j hj]
        · intro j
          rw [(k34 j).2.1, hty2 j, hty1 j]
        · intro hok
          obtain ⟨hRok, _⟩ :=
            CmdMoveRailVehicle.unlink_headOK env w p2 src sH (some sH) fuel w1 sh1 dh1 A B
              hc hun hok
          simp only [hbit, Bool.false_eq_true, if_false] at hRok
          rw [hd] at hRok
          have hR4 : HeadOK env w4 (D1 ++ d :: D2) := by
            apply HeadOK.congr_subtype _ hRok
            intro u hu
            have hus : u ≠ src := by rintro rfl; exact hsrcD hu
            rw [(k34 u).2.2, hsub2 u hus]
          have := HeadOK.insert_after (M := [src]) hR4 (by
            intro u hu
            rw [List.mem_singleton] at hu
            rw [hu, (k34 src).2.2]
            exact hsrc2)
          simpa using this

/-- The `DC_EXEC` block of a move behind a unit `d` of another chain
`D1 ++ d :: D2`: the moved part is spliced in right after `d`, the rest of the
source chain stays a chain. -/
theorem CmdMoveRailVehicle.exec_other_spec (env : Env) (cenv : CmdEnv)
    (hdel : cenv.DeleteKeepsLinks) (w : World)
    (p2 src sH d dH : Nat) (is_loco : Bool) (fuel : Nat) (w4 : World)
    (A B D1 D2 : List Nat)
    (hc : IsChain w (some sH) (A ++ src :: B))
    (hcD : IsChain w (some dH) (D1 ++ d :: D2))
    (hdisj : ∀ x ∈ A ++ src :: B, x ∉ D1 ++ d :: D2)
    (hex : CmdMoveRailVehicle.exec env cenv w p2 src (some d) sH (some dH) is_loco fuel
      = some w4) :
    (∃ sh1, IsChain w4 sh1 (if HASBIT p2 0 = true then A else A ++ B)) ∧
    IsChain w4 (some dH)
      (D1 ++ d :: ((if HASBIT p2 0 = true then src :: B else [src]) ++ D2)) ∧
    (∀ j, j ∉ A ++ src :: B → j ∉ D1 ++ d :: D2 →
      (w4 j).next = (w j).next ∧ (w4 j).subtype = (w j).subtype) ∧
    (∀ j, (w4 j).type = (w j).type) ∧
    (HeadOK env w (A ++ src :: B) → HeadOK env w (D1 ++ d :: D2) →
      HeadOK env w4 (if HASBIT p2 0 = true then A else A ++ B) ∧
      HeadOK env w4
        (D1 ++ d :: ((if HASBIT p2 0 = true then src :: B else [src]) ++ D2))) := by
  unfold CmdMoveRailVehicle.exec at hex
  cases hun : CmdMoveRailVehicle.unlink env w p2 src sH (some dH) fuel with
  | none => simp [hun] at hex
  | some r1 =>
    obtain ⟨w1, sh1, dh1⟩ := r1
    simp only [hun] at hex
    cases hli : CmdMoveRailVehicle.link env cenv w1 src (some d) dh1 is_loco fuel with
    | none => simp [hli] at hex
    | some r2 =>
      obtain ⟨w2, dh2⟩ := r2
      simp only [hli] at hex
      cases hr1 : CmdMoveRailVehicle.refresh env w2 sh1 fuel with
      | none => simp [hr1] at hex
      | some w3 =>
        simp only [hr1] at hex
        have k34 := (CmdMoveRailVehicle.refresh_keeps env w2 sh1 fuel w3 hr1).trans_links
          (CmdMoveRailVehicle.refresh_keeps env w3 dh2 fuel w4 hex)
        obtain ⟨hM1, hR1, hfr1, hty1, _, _, _⟩ :=
          CmdMoveRailVehicle.unlink_spec env w p2 src sH (some dH) fuel w1 sh1 dh1 A B hc hun
        have hnd := IsChain.nodup _ _ hc
        have hsrcA : src ∉ A := fun h =>
          (List.nodup_append.mp hnd).2.2 h (List.mem_cons_self _ _)
        have hsrcB : src ∉ B := (List.nodup_cons.mp (List.nodup_append.mp hnd).2.1).1
        have notB : ∀ u, u ∈ A → u ∉ B := fun u hu hu2 =>
          (List.nodup_append.mp hnd).2.2 hu (List.mem_cons_of_mem _ hu2)
        have hcD1 : IsChain w1 (some dH) (D1 ++ d :: D2) :=
          (IsSeg.congr _ _ none (fun j hj => by
            rw [hfr1 j (fun h => hdisj j h hj)])).mpr hcD
        generalize hMdef : (if HASBIT p2 0 = true then src :: B else [src]) = M at hM1 ⊢
        generalize hRdef : (if HASBIT p2 0 = true then A else A ++ B) = R at hR1 ⊢
        have hMsub : ∀ x ∈ M, x ∈ A ++ src :: B := by
          intro x hx
          rw [← hMdef] at hx
          split_ifs at hx
          · exact List.mem_append_right _ hx
          · rw [List.mem_singleton] at hx
            rw [hx]
            simp
        have hRsub : ∀ x ∈ R, x ∈ A ++ src :: B := by
          intro x hx
          rw [← hRdef] at hx
          split_ifs at hx
          · exact List.mem_append_left _ hx
          · rcases List.mem_append.mp hx with h | h
            · exact List.mem_append_left _ h
            · exact List.mem_append_right _ (List.mem_cons_of_mem _ h)
        have hRM : ∀ x ∈ R, x ∉ M := by
          intro x hx hxM
          rw [← hRdef] at hx
          rw [← hMdef] at hxM
          split_ifs at hx hxM
          · rcases List.mem_cons.mp hxM with h | h
            · exact hsrcA (h ▸ hx)
            · exact notB x hx h
          · rw [List.mem_singleton] at hxM
            rcases List.mem_append.mp hx with h | h
            · exact hsrcA (hxM ▸ h)
            · exact hsrcB (hxM ▸ h)
        have hsrcR : src ∉ R := by
          intro h
          rw [← hRdef] at h
          split_ifs at h
          · exact hsrcA h
          · rcases List.mem_append.mp h with h | h
            · exact hsrcA h
            · exact hsrcB h
        obtain ⟨hN2, _, hfr2, hty2, hsub2, hsrc2⟩ :=
          CmdMoveRailVehicle.link_some_spec env cenv hdel w1 src d dh1 is_loco fuel w2 dh2
            M D1 D2 (some dH) hM1 hcD1 (fun x hx => hdisj x (hMsub x hx)) hli
        have hR2 : IsChain w2 sh1 R :=
          (IsSeg.congr _ _ none (fun j hj => hfr2 j (hRM j hj)
            (hdisj j (hRsub j hj)))).mpr hR1
        refine ⟨⟨sh1, (IsSeg.congr _ _ none (fun j _ => (k34 j).1)).mpr hR2⟩,
          (IsSeg.congr _ _ none (fun j _ => (k34 j).1)).mpr hN2, ?_, ?_, ?_⟩
        · intro j hj hjD
          have hjs : j ≠ src := by rintro rfl; exact hj (by simp)
          have hjM : j ∉ M := fun h => hj (hMsub j h)
          refine ⟨?_, ?_⟩
          · rw [(k34 j).1, hfr2 j hjM hjD, hfr1 j hj]
          · rw [(k34 j).2.2, hsub2 j hjs, hfr1 j hj]
        · intro j
          rw [(k34 j).2.1, hty2 j, hty1 j]
        · intro hok hokD
          obtain ⟨hRok, hBnf⟩ :=
            CmdMoveRailVehicle.unlink_headOK env w p2 src sH (some dH) fuel w1 sh1 dh1 A B
              hc hun hok
          rw [hRdef] at hRok
          have hsub4 : ∀ u, u ≠ src → (w4 u).subtype = (w1 u).subtype := fun u hu => by
            rw [(k34 u).2.2, hsub2 u hu]
          constructor
          · apply HeadOK.congr_subtype _ hRok
            intro u hu
            exact hsub4 u (by rintro rfl; exact hsrcR hu)
          · apply HeadOK.insert_after
            · apply HeadOK.congr_subtype _ hokD
              intro u hu
              have hus : u ≠ src := by rintro rfl; exact hdisj u (by simp) hu
              rw [hsub4 u hus, hfr1 u (fun h => hdisj u h hu)]
            · intro u hu
              rw [← hMdef] at hu
              by_cases hus : u = src
              · rw [hus, (k34 src).2.2]
                exact hsrc2
              · rw [hsub4 u hus]
                split_ifs at hu with hb
                · rcases List.mem_cons.mp hu with h | h
                  · exact absurd h hus
                  · exact hBnf hb u h
                · rw [List.mem_singleton] at hu
                  exact absurd hu hus

/-! ### The move command on the list of chains -/

theorem clearFirst_keeps : ∀ (fuel : Nat) (h : Option Nat) (w w1 : World),
    clearFirst w fuel h = some w1 → SameLinks w w1 := by
  intro fuel
  induction fuel with
  | zero =>
    intro h w w1 hc
    cases h with
    | none =>
      simp only [clearFirst, Option.some.injEq] at hc
      rw [← hc]
      exact SameLinks.rfl_links w
    | some u => simp [clearFirst] at hc
  | succ n ih =>
    intro h w w1 hc
    cases h with
    | none =>
      simp only [clearFirst, Option.some.injEq] at hc
      rw [← hc]
      exact SameLinks.rfl_links w
    | some u =>
      simp only [clearFirst] at hc
      have h1 : SameLinks w (w.set u { w u with first := none }) := by
        apply SameLinks.set_links
        exact ⟨rfl, rfl, rfl⟩
      exact h1.trans_links (ih _ _ _ hc)

theorem dragToFirstHead_spec (cenv : CmdEnv) (w : World) (src : Nat) (c : List Nat)
    (hp : ∀ u ∈ c, ∀ v, cenv.GetPrevVehicleInChain w u = some v → v ∈ c) :
    ∀ (fuel d d1 : Nat), d ≠ src → d ∈ c →
      dragToFirstHead cenv w src fuel d = some d1 → d1 ≠ src ∧ d1 ∈ c := by
  intro fuel
  induction fuel with
  | zero =>
    intro d d1 _ _ h
    simp [dragToFirstHead] at h
  | succ n ih =>
    intro d d1 hd hdc h
    simp only [dragToFirstHead] at h
    split_ifs at h with hcond
    · cases hpv : cenv.GetPrevVehicleInChain w d with
      | none =>
        simp only [hpv, Option.some.injEq] at h
        rw [← h]
        exact ⟨hd, hdc⟩
      | some v =>
        simp only [hpv] at h
        split_ifs at h with hsv
        · simp only [Option.some.injEq] at h
          rw [← h]
          exact ⟨hd, hdc⟩
        · exact ih v d1 (fun e => hsv e.symm) (hp d hdc v hpv) h
    · simp only [Option.some.injEq] at h
      rw [← h]
      exact ⟨hd, hdc⟩

theorem FindGoodVehiclePos.scan_spec (env : Env) (w : World) (src fuel : Nat) :
    ∀ (l : List Nat) (d : Nat), FindGoodVehiclePos.scan env w src fuel l = some (some d) →
      d ∈ l ∧ (w d).type = env.VEH_Train := by
  intro l
  induction l with
  | nil =>
    intro d h
    simp [FindGoodVehiclePos.scan] at h
  | cons a rest ih =>
    intro d h
    simp only [FindGoodVehiclePos.scan] at h
    split_ifs at h with hcond
    · cases hse : FindGoodVehiclePos.sameEngine w (w src).engine_type fuel a with
      | none => simp [hse] at h
      | some b =>
        cases b with
        | true =>
          simp only [hse, Option.some.injEq] at h
          rw [← h]
          exact ⟨List.mem_cons_self _ _, hcond.1⟩
        | false =>
          simp only [hse] at h
          exact ⟨List.mem_cons_of_mem _ (ih d h).1, (ih d h).2⟩
    · exact ⟨List.mem_cons_of_mem _ (ih d h).1, (ih d h).2⟩

/-- A pool that keeps every link and subtype leaves the chains as they are. -/
theorem Rearranged.of_sameLinks (env : Env) {w w1 : World} (cs : List (List Nat))
    (h : SameLinks w w1) : Rearranged env w w1 cs [] [] cs := by
  refine ⟨by simp, by simp, by simp, fun j _ => ⟨(h j).1, (h j).2.2⟩, fun j => (h j).2.1, ?_⟩
  intro _ c hc
  simp at hc

/-- Chains rearranged over the same units leave a well-formed state. -/
theorem Rearranged.wellFormed {env : Env} {w w1 : World} {cs old new rest : List (List Nat)}
    (hr : Rearranged env w w1 cs old new rest) (hwf : WellFormedChains w cs) :
    WellFormedChains w1 (new ++ rest) ∧ (new ++ rest).flatten.Perm cs.flatten := by
  obtain ⟨hperm, hnew, hfl, hfr, _, _⟩ := hr
  have hpf : cs.flatten.Perm (old.flatten ++ rest.flatten) := by
    have := List.Perm.flatten hperm
    rwa [List.flatten_append] at this
  have hnd : (old.flatten ++ rest.flatten).Nodup := hpf.nodup_iff.mp hwf.2
  have hperm2 : (new ++ rest).flatten.Perm cs.flatten := by
    rw [List.flatten_append]
    exact (hfl.append_right _).trans hpf.symm
  refine ⟨⟨?_, hperm2.nodup_iff.mpr hwf.2⟩, hperm2⟩
  intro c hc
  rcases List.mem_append.mp hc with h | h
  · exact hnew c h
  · have hcs : c ∈ cs := hperm.mem_iff.mpr (List.mem_append_right _ h)
    apply (IsSeg.congr c _ none _).mpr (hwf.1 c hcs)
    intro j hj
    apply (hfr j _).1
    intro hjo
    exact (List.nodup_append.mp hnd).2.2 hjo (List.mem_flatten.mpr ⟨c, h, hj⟩)

/-- Chains rearranged with the head invariant on the new chains keep the head
invariant of the state. -/
theorem Rearranged.headInvariant {env : Env} {w w1 : World}
    {cs old new rest : List (List Nat)}
    (hr : Rearranged env w w1 cs old new rest) (hwf : WellFormedChains w cs)
    (hi : HeadInvariant env w cs) : HeadInvariant env w1 (new ++ rest) := by
  obtain ⟨hperm, _, _, hfr, _, hok⟩ := hr
  have hpf : cs.flatten.Perm (old.flatten ++ rest.flatten) := by
    have := List.Perm.flatten hperm
    rwa [List.flatten_append] at this
  have hnd : (old.flatten ++ rest.flatten).Nodup := hpf.nodup_iff.mp hwf.2
  intro c hc
  rcases List.mem_append.mp hc with h | h
  · exact hok (fun c1 hc1 => hi c1 (hperm.mem_iff.mpr (List.mem_append_left _ hc1))) c h
  · have hcs : c ∈ cs := hperm.mem_iff.mpr (List.mem_append_right _ h)
    apply HeadOK.congr_subtype _ (hi c hcs)
    intro j hj
    apply (hfr j _).2
    intro hjo
    exact (List.nodup_append.mp hnd).2.2 hjo (List.mem_flatten.mpr ⟨c, h, hj⟩)

theorem perm_of_count {l1 l2 : List Nat} (h : ∀ a, l1.count a = l2.count a) : l1.Perm l2 :=
  List.perm_iff_count.mpr h

/-- The `DC_EXEC` block on a well-formed state: the chain of `src` and, if
there is one, the chain of the destination are rearranged over their units. -/
theorem CmdMoveRailVehicle.exec_chains (env : Env) (cenv : CmdEnv)
    (hdel : cenv.DeleteKeepsLinks) (w : World) (cs : List (List Nat))
    (hwf : WellFormedChains w cs)
    (p2 src sH : Nat) (dst dh : Option Nat) (is_loco : Bool) (fuel : Nat) (w4 : World)
    (cS : List Nat) (hcS : cS ∈ cs) (hsrc : src ∈ cS) (hsH : cS.head? = some sH)
    (hdst : ∀ d, dst = some d → d ≠ src ∧ ∃ cD ∈ cs, d ∈ cD ∧ dh = cD.head?)
    (hnot : ¬ (HASBIT p2 0 = true ∧ some sH = dh))
    (hex : CmdMoveRailVehicle.exec env cenv w p2 src dst sH dh is_loco fuel = some w4) :
    ∃ old new rest, Rearranged env w w4 cs old new rest := by
  obtain ⟨A, B, rfl⟩ := List.append_of_mem hsrc
  have hc : IsChain w (some sH) (A ++ src :: B) := by
    have := hwf.1 _ hcS
    rwa [hsH] at this
  obtain ⟨rest1, hperm1⟩ : ∃ rest1, cs.Perm ((A ++ src :: B) :: rest1) :=
    ⟨_, List.perm_cons_erase hcS⟩
  cases dst with
  | none =>
    obtain ⟨hM, ⟨sh1, hR⟩, hfr, hty, hok⟩ :=
      CmdMoveRailVehicle.exec_none_spec env cenv w p2 src sH dh is_loco fuel w4 A B hc hex
    refine ⟨[A ++ src :: B],
      [if HASBIT p2 0 = true then src :: B else [src], if HASBIT p2 0 = true then A else A ++ B],
      rest1, hperm1, ?_, ?_, ?_, hty, ?_⟩
    · intro c hcm
      simp only [List.mem_cons, List.mem_singleton, List.not_mem_nil, or_false] at hcm
      rcases hcm with rfl | rfl
      · exact hM.head?_of
      · exact hR.head?_of
    · apply perm_of_count
      intro a
      cases HASBIT p2 0 with
      | true =>
        simp only [if_true, List.flatten_cons, List.flatten_nil, List.append_nil,
          List.count_append, List.count_cons]
        omega
      | false =>
        simp only [Bool.false_eq_true, if_false, List.flatten_cons, List.flatten_nil,
          List.append_nil, List.count_append, List.count_cons, List.count_nil]
        omega
    · intro j hj
      apply hfr j
      simpa using hj
    · intro hold c hcm
      have h2 := hok (hold _ (List.mem_singleton_self _))
      simp only [List.mem_cons, List.mem_singleton, List.not_mem_nil, or_false] at hcm
      rcases hcm with rfl | rfl
      · exact h2.1
      · exact h2.2
  | some d =>
    obtain ⟨hds, cD, hcD, hdD, hdh⟩ := hdst d rfl
    by_cases hsame : cD = A ++ src :: B
    · subst hsame
      rw [hsH] at hdh
      subst hdh
      have hbit : HASBIT p2 0 = false := by
        cases hb : HASBIT p2 0 with
        | false => rfl
        | true => exact absurd ⟨hb, rfl⟩ hnot
      have hdAB : d ∈ A ++ B := by
        rcases List.mem_append.mp hdD with h | h
        · exact List.mem_append_left _ h
        · rcases List.mem_cons.mp h with h | h
          · exact absurd h hds
          · exact List.mem_append_right _ h
      obtain ⟨D1, D2, hD⟩ := List.append_of_mem hdAB
      obtain ⟨⟨sh1, hN⟩, hfr, hty, hok⟩ :=
        CmdMoveRailVehicle.exec_same_spec env cenv hdel w p2 src sH d is_loco fuel w4
          A B D1 D2 hc hbit hD hex
      refine ⟨[A ++ src :: B], [D1 ++ d :: src :: D2], rest1, hperm1,
        ?_, ?_, ?_, hty, ?_⟩
      · intro c hcm
        rw [List.mem_singleton] at hcm
        rw [hcm]
        exact hN.head?_of
      · apply perm_of_count
        intro a
        have hcnt := congrArg (List.count a) hD
        simp only [List.count_append, List.count_cons] at hcnt
        simp only [List.flatten_cons, List.flatten_nil, List.append_nil,
          List.count_append, List.count_cons]
        omega
      · intro j hj
        apply hfr j
        simpa using hj
      · intro hold c hcm
        rw [List.mem_singleton] at hcm
        rw [hcm]
        exact hok (hold _ (List.mem_singleton_self _))
    · have hcD2 : cD ∈ rest1 := by
        rcases List.mem_cons.mp (hperm1.mem_iff.mp hcD) with h | h
        · exact absurd h hsame
        · exact h
      obtain ⟨rest2, hperm2⟩ : ∃ rest2, cs.Perm ((A ++ src :: B) :: cD :: rest2) :=
        ⟨_, hperm1.trans ((List.perm_cons_erase hcD2).cons _)⟩
      have hnd : ((A ++ src :: B) ++ (cD ++ rest2.flatten)).Nodup := by
        have := (List.Perm.flatten hperm2).nodup_iff.mp hwf.2
        simpa only [List.flatten_cons] using this
      have hdisj : ∀ x ∈ A ++ src :: B, x ∉ cD := fun x hx hxD =>
        (List.nodup_append.mp hnd).2.2 hx (List.mem_append_left _ hxD)
      obtain ⟨D1, D2, rfl⟩ := List.append_of_mem hdD
      obtain ⟨dH, hdH⟩ : ∃ dH, (D1 ++ d :: D2).head? = some dH := by
        cases D1 with
        | nil => exact ⟨d, rfl⟩
        | cons a t => exact ⟨a, rfl⟩
      rw [hdH] at hdh
      subst hdh
      have hcDch : IsChain w (some dH) (D1 ++ d :: D2) := by
        have := hwf.1 _ hcD
        rwa [hdH] at this
      obtain ⟨⟨sh1, hR⟩, hN, hfr, hty, hok⟩ :=
        CmdMoveRailVehicle.exec_other_spec env cenv hdel w p2 src sH d dH is_loco fuel w4
          A B D1 D2 hc hcDch hdisj hex
      refine ⟨[A ++ src :: B, D1 ++ d :: D2],
        [if HASBIT p2 0 = true then A else A ++ B,
          D1 ++ d :: ((if HASBIT p2 0 = true then src :: B else [src]) ++ D2)],
        rest2, hperm2, ?_, ?_, ?_, hty, ?_⟩
      · intro c hcm
        simp only [List.mem_cons, List.mem_singleton, List.not_mem_nil, or_false] at hcm
        rcases hcm with rfl | rfl
        · exact hR.head?_of
        · exact hN.head?_of
      · apply perm_of_count
        intro a
        cases HASBIT p2 0 with
        | true =>
          simp only [if_true, List.flatten_cons, List.flatten_nil, List.append_nil,
            List.count_append, List.count_cons]
          omega
        | false =>
          simp only [Bool.false_eq_true, if_false, List.flatten_cons, List.flatten_nil,
            List.append_nil, List.count_append, List.count_cons, List.count_nil]
          omega
      · intro j hj
        exact hfr j (fun h => hj (List.mem_flatten.mpr ⟨_, List.mem_cons_self _ _, h⟩))
          (fun h => hj (List.mem_flatten.mpr
            ⟨_, List.mem_cons_of_mem _ (List.mem_singleton_self _), h⟩))
      · intro hold c hcm
        have h2 := hok (hold _ (List.mem_cons_self _ _))
          (hold _ (List.mem_cons_of_mem _ (List.mem_singleton_self _)))
        simp only [List.mem_cons, List.mem_singleton, List.not_mem_nil, or_false] at hcm
        rcases hcm with rfl | rfl
        · exact h2.1
        · exact h2.2

theorem CmdMoveRailVehicle.checkDst_some (env : Env) (cenv : CmdEnv) (w : World)
    (src sH d dh fuel : Nat) (dst1 : Option Nat)
    (h : CmdMoveRailVehicle.checkDst env cenv w src sH (some d) (some dh) fuel
      = some (Sum.inl dst1)) :
    ∃ d1, dst1 = some d1 ∧ dragToFirstHead cenv w src fuel d = some d1 := by
  simp only [CmdMoveRailVehicle.checkDst] at h
  cases hc : CheckTrainStoppedInDepot env cenv w dh fuel with
  | none => simp [hc] at h
  | some num =>
    simp only [hc] at h
    by_cases g1 : num < 0
    · rw [if_pos g1] at h
      simp at h
    rw [if_neg g1] at h
    by_cases g2 : num > (if cenv.mammoth_trains = true then 100 else 9) ∧
        (w dh).subtype = env.TS_Front_Engine
    · rw [if_pos g2] at h
      simp at h
    rw [if_neg g2] at h
    cases hd : dragToFirstHead cenv w src fuel d with
    | none => simp [hd] at h
    | some d1 =>
      simp only [hd] at h
      by_cases g3 : (w dh).tile ≠ (w sH).tile
      · rw [if_pos g3] at h
        simp at h
      rw [if_neg g3] at h
      simp only [Option.some.injEq, Sum.inl.injEq] at h
      exact ⟨d1, h.symm, rfl⟩

theorem CmdMoveRailVehicle.checkDst_none (env : Env) (cenv : CmdEnv) (w : World)
    (src sH fuel : Nat) (dh dst1 : Option Nat)
    (h : CmdMoveRailVehicle.checkDst env cenv w src sH none dh fuel = some (Sum.inl dst1)) :
    dst1 = none := by
  simp only [CmdMoveRailVehicle.checkDst, Option.some.injEq, Sum.inl.injEq] at h
  exact h.symm

theorem Rearranged.of_links_left {env : Env} {w w3 w4 : World}
    {cs old new rest : List (List Nat)} (hl : SameLinks w w3)
    (hr : Rearranged env w3 w4 cs old new rest) : Rearranged env w w4 cs old new rest := by
  obtain ⟨hperm, hnew, hfl, hfr, hty, hok⟩ := hr
  refine ⟨hperm, hnew, hfl, ?_, ?_, ?_⟩
  · intro j hj
    exact ⟨(hfr j hj).1.trans (hl j).1, (hfr j hj).2.trans (hl j).2.2⟩
  · intro j
    exact (hty j).trans (hl j).2.1
  · intro hold
    exact hok (fun c hc => HeadOK.congr_subtype (fun u _ => (hl u).2.2) (hold c hc))

theorem WellFormedChains.congr_links {w w1 : World} {cs : List (List Nat)}
    (hl : SameLinks w w1) (hwf : WellFormedChains w cs) : WellFormedChains w1 cs :=
  ⟨fun c hc => (hl.isSeg_links c _ none).mpr (hwf.1 c hc), hwf.2⟩

theorem CmdMoveRailVehicle.cmd_chains (env : Env) (cenv : CmdEnv)
    (hdel : cenv.DeleteKeepsLinks) (w : World) (cs : List (List Nat))
    (hwf : WellFormedChains w cs) (hfirst : env.FirstIsHead w cs)
    (hprev : cenv.PrevInChain w cs)
    (flags p1 p2 fuel : Nat) (hcov : CoversCall env cenv w cs p1)
    (w1 : World) (r : Int)
    (hres : CmdMoveRailVehicle env cenv w flags p1 p2 fuel = some (w1, r)) :
    ∃ old new rest, Rearranged env w w1 cs old new rest := by
  obtain ⟨hcsrc, hcdst, hcall⟩ := hcov
  have noop : ∀ (wx : World) (rx : Int), SameLinks w wx → some (wx, rx) = some (w1, r) →
      ∃ old new rest, Rearranged env w w1 cs old new rest := by
    intro wx rx hl he
    simp only [Option.some.injEq, Prod.mk.injEq] at he
    rw [← he.1]
    exact ⟨[], [], cs, Rearranged.of_sameLinks env cs hl⟩
  unfold CmdMoveRailVehicle at hres
  dsimp only at hres
  generalize hsrc : p1 &&& 0xFFFF = src at hres hcsrc
  by_cases h1 : cenv.IsVehicleIndex w src = false
  · rw [if_pos h1] at hres
    exact noop _ _ (SameLinks.rfl_links w) hres
  rw [if_neg h1] at hres
  by_cases h2 : (w src).type ≠ env.VEH_Train
  · rw [if_pos h2] at hres
    exact noop _ _ (SameLinks.rfl_links w) hres
  rw [if_neg h2] at hres
  have hsrcmem : src ∈ cs.flatten :=
    hcsrc (by simpa using h1) (by simpa using h2)
  split at hres
  · simp at hres
  rename_i dst hdo
  have hdstmem : ∀ d, dst = some d → d ∈ cs.flatten := by
    intro d hd
    subst hd
    split_ifs at hdo with g1 g2 g3
    · simp at hdo
    · obtain ⟨hm, ht⟩ := FindGoodVehiclePos.scan_spec env w src fuel _ d hdo
      exact hcall d hm ht
    · simp only [Option.some.injEq] at hdo
      rw [← hdo]
      exact hcdst g3
  clear hdo
  generalize (decide ((env.RailVehInfo (w src).engine_type).flags &&& env.RVI_WAGON = 0) &&
    IS_FIRSTHEAD_SPRITE cenv (w src).spritenum) = is_loco at hres
  by_cases h3 : some src = dst
  · rw [if_pos h3] at hres
    exact noop _ _ (SameLinks.rfl_links w) hres
  rw [if_neg h3] at hres
  split at hres
  · exact noop _ _ (SameLinks.rfl_links w) hres
  generalize hwr : (match dst with
    | none => env.afterFirstRead w src
    | some d => env.afterFirstRead (env.afterFirstRead w src) d) = wr at hres
  have hlr : SameLinks w wr := by
    rw [← hwr]
    cases dst <;> exact fun _ => ⟨rfl, rfl, rfl⟩
  cases hwa : clearFirst wr fuel (some (env.GetFirstVehicleInChain w src)) with
  | none => simp [hwa] at hres
  | some wa =>
  simp only [hwa] at hres
  cases hwb : clearFirst wa fuel (Option.map (env.GetFirstVehicleInChain w) dst) with
  | none => simp [hwb] at hres
  | some wb =>
  simp only [hwb] at hres
  have hlb : SameLinks w wb :=
    (hlr.trans_links (clearFirst_keeps _ _ _ _ hwa)).trans_links (clearFirst_keeps _ _ _ _ hwb)
  cases hn : CheckTrainStoppedInDepot env cenv wb (env.GetFirstVehicleInChain w src) fuel with
  | none => simp [hn] at hres
  | some n =>
  simp only [hn] at hres
  by_cases h5 : n < 0
  · rw [if_pos h5] at hres
    exact noop _ _ hlb hres
  rw [if_neg h5] at hres
  clear hn h5
  cases hchk : CmdMoveRailVehicle.checkDst env cenv wb src (env.GetFirstVehicleInChain w src)
      dst (Option.map (env.GetFirstVehicleInChain w) dst) fuel with
  | none => simp [hchk] at hres
  | some res =>
  cases res with
  | inr rr =>
    simp only [hchk] at hres
    exact noop _ _ hlb hres
  | inl dst1 =>
  simp only [hchk] at hres
  by_cases h6 : HASBIT p2 0 = true ∧
      some (env.GetFirstVehicleInChain w src) = Option.map (env.GetFirstVehicleInChain w) dst
  · rw [if_pos h6] at hres
    exact noop _ _ hlb hres
  rw [if_neg h6] at hres
  obtain ⟨cS, hcS, hsrcS⟩ := List.mem_flatten.mp hsrcmem
  have hsH : cS.head? = some (env.GetFirstVehicleInChain w src) :=
    (hfirst cS hcS src hsrcS).symm
  have hdst : ∀ d1, dst1 = some d1 → d1 ≠ src ∧
      ∃ cD ∈ cs, d1 ∈ cD ∧ Option.map (env.GetFirstVehicleInChain w) dst = cD.head? := by
    intro d1 hd1
    cases dst with
    | none =>
      have := CmdMoveRailVehicle.checkDst_none env cenv wb src _ fuel _ dst1 hchk
      rw [this] at hd1
      simp at hd1
    | some d =>
      obtain ⟨d2, hd2, hdrag⟩ :=
        CmdMoveRailVehicle.checkDst_some env cenv wb src _ d _ fuel dst1 hchk
      rw [hd1, Option.some.injEq] at hd2
      subst hd2
      obtain ⟨cD, hcD, hdD⟩ := List.mem_flatten.mp (hdstmem d rfl)
      have hds : d ≠ src := fun e => h3 (by rw [e])
      obtain ⟨g1, g2⟩ := dragToFirstHead_spec cenv wb src cD
        (fun u hu v hv => (hprev wb hlb cD hcD u hu v hv).1) fuel d d1 hds hdD hdrag
      exact ⟨g1, cD, hcD, g2, hfirst cD hcD d hdD⟩
  clear hchk
  generalize decide (dst1 = none ∧ (wb src).subtype ≠ env.TS_Front_Engine ∧ is_loco = true)
    = newLoco at hres
  by_cases h7 : newLoco = true ∧ cenv.GetFreeUnitNumber wb > cenv.max_trains
  · rw [if_pos h7] at hres
    exact noop _ _ hlb hres
  rw [if_neg h7] at hres
  obtain ⟨w3, hl3, hres⟩ : ∃ w3, SameLinks wb w3 ∧
      (if flags &&& cenv.DC_EXEC ≠ 0 then
        match CmdMoveRailVehicle.exec env cenv w3 p2 src dst1
          (env.GetFirstVehicleInChain w src) (Option.map (env.GetFirstVehicleInChain w) dst)
          is_loco fuel with
        | none => none
        | some w4 => some (w4, (0 : Int))
      else some (w3, 0)) = some (w1, r) := by
    refine ⟨_, ?_, hres⟩
    split_ifs
    · apply SameLinks.set_links
      exact ⟨rfl, rfl, rfl⟩
    · exact SameLinks.rfl_links wb
  have hl : SameLinks w w3 := hlb.trans_links hl3
  by_cases h8 : flags &&& cenv.DC_EXEC ≠ 0
  · rw [if_pos h8] at hres
    cases hex : CmdMoveRailVehicle.exec env cenv w3 p2 src dst1
        (env.GetFirstVehicleInChain w src) (Option.map (env.GetFirstVehicleInChain w) dst)
        is_loco fuel with
    | none => simp [hex] at hres
    | some w4 =>
      simp only [hex, Option.some.injEq, Prod.mk.injEq] at hres
      rw [← hres.1]
      obtain ⟨old, new, rest, hr⟩ :=
        CmdMoveRailVehicle.exec_chains env cenv hdel w3 cs (hwf.congr_links hl) p2 src _
          dst1 _ is_loco fuel w4 cS hcS hsrcS hsH hdst h6 hex
      exact ⟨old, new, rest, hr.of_links_left hl⟩
  · rw [if_neg h8] at hres
    exact noop _ _ hl hres

/-! ### Independence of the fuel

A run that returns with some fuel returns the same with every fuel that is at
least the length of the chain walked. -/

theorem clearFirst_fuel : ∀ (l : List Nat) (f1 f2 : Nat) (h : Option Nat) (w w1 : World),
    IsChain w h l → l.length ≤ f2 → clearFirst w f1 h = some w1 →
    clearFirst w f2 h = some w1
  | [], f1, f2, h, w, w1, hc, _, hr => by
    have hh : h = none := hc
    subst hh
    cases f1 <;> cases f2 <;> simpa [clearFirst] using hr
  | u :: l, 0, _, h, w, w1, hc, _, hr => by
    have hh : h = some u := hc.1
    subst hh
    simp [clearFirst] at hr
  | u :: l, _ + 1, 0, h, w, w1, _, hf, _ => by simp at hf
  | u :: l, f1 + 1, f2 + 1, h, w, w1, hc, hf, hr => by
    have hh : h = some u := hc.1
    subst hh
    simp only [clearFirst] at hr ⊢
    have hc2 : IsChain (w.set u { w u with first := none }) (w u).next l :=
      IsSeg.set_same_next hc.2 u _ rfl
    exact clearFirst_fuel l f1 f2 _ _ w1 hc2 (by simpa using hf) hr

theorem CheckTrainStoppedInDepot.stopped_loop_fuel (env : Env) (cenv : CmdEnv) (w : World)
    (tile : Nat) : ∀ (l : List Nat) (f1 f2 : Nat) (h : Option Nat) (count r : Int),
    IsChain w h l → l.length ≤ f2 →
    CheckTrainStoppedInDepot.loop env cenv w tile f1 h count = some r →
    CheckTrainStoppedInDepot.loop env cenv w tile f2 h count = some r
  | [], f1, f2, h, count, r, hc, _, hr => by
    have hh : h = none := hc
    subst hh
    cases f1 <;> cases f2 <;> simpa [CheckTrainStoppedInDepot.loop] using hr
  | u :: l, 0, _, h, count, r, hc, _, hr => by
    have hh : h = some u := hc.1
    subst hh
    simp [CheckTrainStoppedInDepot.loop] at hr
  | u :: l, _ + 1, 0, h, count, r, _, hf, _ => by simp at hf
  | u :: l, f1 + 1, f2 + 1, h, count, r, hc, hf, hr => by
    have hh : h = some u := hc.1
    subst hh
    simp only [CheckTrainStoppedInDepot.loop] at hr ⊢
    split_ifs at hr ⊢ with hcond
    · exact hr
    · exact CheckTrainStoppedInDepot.stopped_loop_fuel env cenv w tile l f1 f2 _ _ r hc.2
        (by simpa using hf) hr

theorem CheckTrainStoppedInDepot.stopped_fuel (env : Env) (cenv : CmdEnv) (w : World)
    (v : Nat) (l : List Nat) (f1 f2 : Nat) (r : Int)
    (hc : IsChain w (some v) l) (hf : l.length ≤ f2)
    (hr : CheckTrainStoppedInDepot env cenv w v f1 = some r) :
    CheckTrainStoppedInDepot env cenv w v f2 = some r := by
  unfold CheckTrainStoppedInDepot at hr ⊢
  simp only at hr ⊢
  split_ifs at hr ⊢ with hcond
  · exact hr
  · exact CheckTrainStoppedInDepot.stopped_loop_fuel env cenv w _ l f1 f2 _ _ r hc hf hr

theorem findPrev_fuel {w : World} {v : Nat} : ∀ (l : List Nat) (f1 f2 u p : Nat),
    IsChain w (some u) l → l.length ≤ f2 → findPrev w v f1 u = some p →
    findPrev w v f2 u = some p
  | [], _, _, u, p, hc, _, _ => absurd hc (by simp [IsChain, IsSeg])
  | a :: l, 0, _, u, p, _, _, hr => by simp [findPrev] at hr
  | a :: l, _ + 1, 0, u, p, _, hf, _ => by simp at hf
  | a :: l, f1 + 1, f2 + 1, u, p, hc, hf, hr => by
    have hu : some u = some a := hc.1
    simp only [Option.some.injEq] at hu
    subst hu
    simp only [findPrev] at hr ⊢
    cases hn : (w u).next with
    | none => simp [hn] at hr
    | some n =>
      simp only [hn] at hr ⊢
      split_ifs at hr ⊢ with hnv
      · exact hr
      · have hc2 : IsChain w (some n) l := by
          have := hc.2
          rwa [hn] at this
        exact findPrev_fuel l f1 f2 n p hc2 (by simpa using hf) hr

theorem findLast_fuel {w : World} : ∀ (l : List Nat) (f1 f2 u m : Nat),
    IsChain w (some u) l → l.length ≤ f2 → findLast w f1 u = some m →
    findLast w f2 u = some m
  | [], _, _, u, m, hc, _, _ => absurd hc (by simp [IsChain, IsSeg])
  | a :: l, 0, _, u, m, _, _, hr => by simp [findLast] at hr
  | a :: l, _ + 1, 0, u, m, _, hf, _ => by simp at hf
  | a :: l, f1 + 1, f2 + 1, u, m, hc, hf, hr => by
    have hu : some u = some a := hc.1
    simp only [Option.some.injEq] at hu
    subst hu
    simp only [findLast] at hr ⊢
    cases hn : (w u).next with
    | none =>
      simp only [hn] at hr ⊢
      exact hr
    | some n =>
      simp only [hn] at hr ⊢
      have hc2 : IsChain w (some n) l := by
        have := hc.2
        rwa [hn] at this
      exact findLast_fuel l f1 f2 n m hc2 (by simpa using hf) hr

theorem FindGoodVehiclePos.sameEngine_fuel {w : World} {eng : Nat} :
    ∀ (l : List Nat) (f1 f2 u : Nat) (b : Bool),
    IsChain w (some u) l → l.length ≤ f2 →
    FindGoodVehiclePos.sameEngine w eng f1 u = some b →
    FindGoodVehiclePos.sameEngine w eng f2 u = some b
  | [], _, _, u, b, hc, _, _ => absurd hc (by simp [IsChain, IsSeg])
  | a :: l, 0, _, u, b, _, _, hr => by simp [FindGoodVehiclePos.sameEngine] at hr
  | a :: l, _ + 1, 0, u, b, _, hf, _ => by simp at hf
  | a :: l, f1 + 1, f2 + 1, u, b, hc, hf, hr => by
    have hu : some u = some a := hc.1
    simp only [Option.some.injEq] at hu
    subst hu
    simp only [FindGoodVehiclePos.sameEngine] at hr ⊢
    split_ifs at hr ⊢ with he
    · cases hn : (w u).next with
      | none =>
        simp only [hn] at hr ⊢
        exact hr
      | some n =>
        simp only [hn] at hr ⊢
        have hc2 : IsChain w (some n) l := by
          have := hc.2
          rwa [hn] at this
        exact FindGoodVehiclePos.sameEngine_fuel l f1 f2 n b hc2 (by simpa using hf) hr
    · exact hr

theorem TrainCargoChanged.cargo_loop_fuel (env : Env) (v : Nat) :
    ∀ (l : List Nat) (f1 f2 : Nat) (h : Option Nat) (wt : Nat) (w : World)
      (r : World × Nat),
    IsChain w h l → l.length ≤ f2 →
    TrainCargoChanged.loop env v f1 h wt w = some r →
    TrainCargoChanged.loop env v f2 h wt w = some r
  | [], f1, f2, h, wt, w, r, hc, _, hr => by
    have hh : h = none := hc
    subst hh
    cases f1 <;> cases f2 <;> simpa [TrainCargoChanged.loop] using hr
  | u :: l, 0, _, h, wt, w, r, hc, _, hr => by
    have hh : h = some u := hc.1
    subst hh
    simp [TrainCargoChanged.loop] at hr
  | u :: l, _ + 1, 0, h, wt, w, r, _, hf, _ => by simp at hf
  | u :: l, f1 + 1, f2 + 1, h, wt, w, r, hc, hf, hr => by
    have hh : h = some u := hc.1
    subst hh
    simp only [TrainCargoChanged.loop] at hr ⊢
    refine TrainCargoChanged.cargo_loop_fuel env v l f1 f2 _ _ _ r ?_ (by simpa using hf) hr
    rw [World.set_same]
    exact IsSeg.set_same_next hc.2 u _ rfl

theorem TrainCargoChanged.cargo_fuel (env : Env) (w : World) (v : Nat) (l : List Nat)
    (f1 f2 : Nat) (w1 : World) (hc : IsChain w (some v) l) (hf : l.length ≤ f2)
    (hr : TrainCargoChanged env w v f1 = some w1) : TrainCargoChanged env w v f2 = some w1 := by
  unfold TrainCargoChanged at hr ⊢
  cases hl : TrainCargoChanged.loop env v f1 (some v) 0 w with
  | none => simp [hl] at hr
  | some r =>
    rw [TrainCargoChanged.cargo_loop_fuel env v l f1 f2 _ _ _ r hc hf hl]
    rw [hl] at hr
    exact hr

theorem TrainConsistChanged.consist_loop_fuel (env : Env) (rvi_v : RailVehicleInfo)
    (v fe : Nat) :
    ∀ (l : List Nat) (f1 f2 : Nat) (h : Option Nat) (p m : Nat) (w : World)
      (r : World × Nat × Nat),
    IsChain w h l → l.length ≤ f2 →
    TrainConsistChanged.loop env rvi_v v fe f1 h p m w = some r →
    TrainConsistChanged.loop env rvi_v v fe f2 h p m w = some r
  | [], f1, f2, h, p, m, w, r, hc, _, hr => by
    have hh : h = none := hc
    subst hh
    cases f1 <;> cases f2 <;> simpa [TrainConsistChanged.loop] using hr
  | u :: l, 0, _, h, p, m, w, r, hc, _, hr => by
    have hh : h = some u := hc.1
    subst hh
    simp [TrainConsistChanged.loop] at hr
  | u :: l, _ + 1, 0, h, p, m, w, r, _, hf, _ => by simp at hf
  | u :: l, f1 + 1, f2 + 1, h, p, m, w, r, hc, hf, hr => by
    have hh : h = some u := hc.1
    subst hh
    obtain ⟨wb, pb, mb, hbody, _, hsame, _⟩ :=
      TrainConsistChanged.body_spec env rvi_v v fe u p m w
    simp only [TrainConsistChanged.loop, hbody] at hr ⊢
    refine TrainConsistChanged.consist_loop_fuel env rvi_v v fe l f1 f2 _ _ _ _ r ?_
      (by simpa using hf) hr
    rw [hsame.next u]
    exact (hsame.isSeg l _ none).mpr hc.2

theorem TrainConsistChanged.consist_fuel (env : Env) (w : World) (v : Nat) (l : List Nat)
    (f1 f2 : Nat) (w4 : World) (hc : IsChain w (some v) l) (hf : l.length ≤ f2)
    (hr : TrainConsistChanged env w v f1 = some w4) :
    TrainConsistChanged env w v f2 = some w4 := by
  unfold TrainConsistChanged at hr ⊢
  by_cases h1 : (w v).type ≠ env.VEH_Train
  · rw [if_pos h1] at hr
    exact absurd hr (by simp)
  rw [if_neg h1] at hr ⊢
  by_cases h2 : ¬ ((w v).subtype = env.TS_Front_Engine ∨ (w v).subtype = env.TS_Free_Car)
  · rw [if_pos h2] at hr
    exact absurd hr (by simp)
  rw [if_neg h2] at hr ⊢
  simp only at hr ⊢
  generalize (if (w v).subtype = env.TS_Front_Engine then (w v).engine_type
        else env.INVALID_VEHICLE) = fe at hr ⊢
  cases hl : TrainConsistChanged.loop env (env.RailVehInfo (w v).engine_type) v fe f1
      (some v) 0 65535 w with
  | none => simp [hl] at hr
  | some r =>
    rw [TrainConsistChanged.consist_loop_fuel env _ v fe l f1 f2 _ _ _ _ r hc hf hl]
    obtain ⟨w1, p1, m1⟩ := r
    simp only [hl] at hr
    simp only
    have h01 := TrainConsistChanged.consist_loop_keeps env _ v _ f1 _ _ _ _ _ _ _ hl
    have h12 := SameUpToCaches.set_rail w1 v
      { (w1 v).rail with cached_max_speed := m1 } ⟨rfl, rfl, rfl⟩
    generalize w1.set v { w1 v with rail := { (w1 v).rail with cached_max_speed := m1 } }
      = w2 at hr h12 ⊢
    have h23 := SameUpToCaches.set_rail w2 v
      { (w2 v).rail with cached_power := p1 } ⟨rfl, rfl, rfl⟩
    generalize w2.set v { w2 v with rail := { (w2 v).rail with cached_power := p1 } }
      = w3 at hr h23 ⊢
    have h03 := (h01.trans_caches h12).trans_caches h23
    exact TrainCargoChanged.cargo_fuel env w3 v l f1 f2 w4
      ((h03.isSeg l _ none).mpr hc) hf hr

theorem CmdMoveRailVehicle.refresh_fuel (env : Env) (w : World) (head : Option Nat)
    (f1 f2 : Nat) (w1 : World)
    (hc : ∀ x, head = some x → ∃ l, IsChain w (some x) l ∧ l.length ≤ f2)
    (hr : CmdMoveRailVehicle.refresh env w head f1 = some w1) :
    CmdMoveRailVehicle.refresh env w head f2 = some w1 := by
  unfold CmdMoveRailVehicle.refresh at hr ⊢
  cases head with
  | none => exact hr
  | some hd =>
    obtain ⟨l, hl, hf⟩ := hc hd rfl
    simp only at hr ⊢
    cases ht : TrainConsistChanged env w hd f1 with
    | none => simp [ht] at hr
    | some wa =>
      rw [TrainConsistChanged.consist_fuel env w hd l f1 f2 wa hl hf ht]
      rw [ht] at hr
      exact hr

theorem SameLinks.symm_links {w w1 : World} (h : SameLinks w w1) : SameLinks w1 w :=
  fun j => ⟨(h j).1.symm, (h j).2.1.symm, (h j).2.2.symm⟩

/-- In a well-formed state the walk from a unit of a chain is a chain no longer
than the number of units of the state. -/
theorem WellFormedChains.chain_of_mem {w : World} {cs : List (List Nat)}
    (hwf : WellFormedChains w cs) {x : Nat} (hx : x ∈ cs.flatten) :
    ∃ l, IsChain w (some x) l ∧ l.length ≤ cs.flatten.length := by
  obtain ⟨c, hc, hxc⟩ := List.mem_flatten.mp hx
  obtain ⟨A, B, rfl⟩ := List.append_of_mem hxc
  have hch := hwf.1 _ hc
  obtain ⟨_, h2, _⟩ := IsChain.split_at hch
  refine ⟨x :: B, h2, ?_⟩
  have hnd : (x :: B).Nodup := IsChain.nodup _ _ h2
  have hsub : x :: B ⊆ cs.flatten := by
    intro y hy
    exact List.mem_flatten.mpr ⟨_, hc, List.mem_append_right _ hy⟩
  exact (hnd.subperm hsub).length_le

theorem WellFormedChains.length_le {w : World} {cs : List (List Nat)}
    (hwf : WellFormedChains w cs) {c : List Nat} (hc : c ∈ cs) :
    c.length ≤ cs.flatten.length := by
  have hnd : c.Nodup := IsChain.nodup _ _ (hwf.1 c hc)
  exact (hnd.subperm (fun y hy => List.mem_flatten.mpr ⟨c, hc, hy⟩)).length_le

theorem dragToFirstHead_fuel (cenv : CmdEnv) (w : World) (src : Nat) (c : List Nat)
    (hc : IsChain w c.head? c)
    (hp : ∀ u ∈ c, ∀ v, cenv.GetPrevVehicleInChain w u = some v →
      v ∈ c ∧ (w v).next = some u) :
    ∀ (n : Nat) (D1 D2 : List Nat) (d f1 f2 r : Nat), D1.length = n →
      c = D1 ++ d :: D2 → D1.length < f2 →
      dragToFirstHead cenv w src f1 d = some r → dragToFirstHead cenv w src f2 d = some r := by
  intro n
  induction n with
  | zero =>
    intro D1 D2 d f1 f2 r hn hcd hf hr
    cases f1 with
    | zero => simp [dragToFirstHead] at hr
    | succ f1 =>
    cases f2 with
    | zero => simp at hf
    | succ f2 =>
    simp only [dragToFirstHead] at hr ⊢
    split_ifs at hr ⊢ with hcond
    · cases hpv : cenv.GetPrevVehicleInChain w d with
      | none =>
        simp only [hpv] at hr ⊢
        exact hr
      | some v =>
        exfalso
        have hD1 : D1 = [] := List.length_eq_zero.mp hn
        subst hD1
        have hdc : d ∈ c := by rw [hcd]; simp
        obtain ⟨hvc, hvn⟩ := hp d hdc v hpv
        obtain ⟨X, Y, hXY⟩ := List.append_of_mem hvc
        have hch := hc
        rw [hXY] at hch
        obtain ⟨_, _, h3⟩ := IsChain.split_at hch
        rw [hvn] at h3
        obtain ⟨Y1, hY1⟩ := h3.cons_of_some
        have hnd : c.Nodup := IsChain.nodup _ _ hc
        have hnd2 := hnd
        rw [hcd] at hnd2
        rw [hXY, hY1] at hcd
        have hmem : d ∈ D2 := by
          have : d ∈ (X ++ v :: d :: Y1).tail := by
            cases X with
            | nil => simp
            | cons a X1 => simp
          rw [hcd] at this
          simpa using this
        exact (List.nodup_cons.mp hnd2).1 hmem
    · exact hr
  | succ n ih =>
    intro D1 D2 d f1 f2 r hn hcd hf hr
    cases f1 with
    | zero => simp [dragToFirstHead] at hr
    | succ f1 =>
    cases f2 with
    | zero => simp at hf
    | succ f2 =>
    simp only [dragToFirstHead] at hr ⊢
    split_ifs at hr ⊢ with hcond
    · cases hpv : cenv.GetPrevVehicleInChain w d with
      | none =>
        simp only [hpv] at hr ⊢
        exact hr
      | some v =>
        simp only [hpv] at hr ⊢
        split_ifs at hr ⊢ with hsv
        · exact hr
        · have hdc : d ∈ c := by rw [hcd]; simp
          obtain ⟨hvc, hvn⟩ := hp d hdc v hpv
          obtain ⟨X, Y, hXY⟩ := List.append_of_mem hvc
          have hch := hc
          rw [hXY] at hch
          obtain ⟨_, _, h3⟩ := IsChain.split_at hch
          rw [hvn] at h3
          obtain ⟨Y1, hY1⟩ := h3.cons_of_some
          have hnd : c.Nodup := IsChain.nodup _ _ hc
          have hnd2 := hnd
          rw [hcd] at hnd2
          have hnd3 := hnd
          rw [hXY, hY1] at hnd3
          have hdX : d ∉ X ++ [v] := by
            intro h
            have h4 : (X ++ [v] ++ d :: Y1).Nodup := by simpa using hnd3
            exact (List.nodup_append.mp h4).2.2 h (List.mem_cons_self _ _)
          have heq : X ++ [v] ++ d :: Y1 = D1 ++ d :: D2 := by
            rw [← hcd, hXY, hY1]
            simp
          have hdY : d ∉ Y1 := by
            intro h
            have h4 : (X ++ [v] ++ d :: Y1).Nodup := by simpa using hnd3
            exact (List.nodup_cons.mp (List.nodup_append.mp h4).2.1).1 h
          have hD1 : X ++ [v] = D1 :=
            ((List.append_cons_inj_of_not_mem hdX hdY).mp heq).1
          have hXn : X.length = n := by
            have := congrArg List.length hD1
            simp only [List.length_append, List.length_singleton] at this
            omega
          exact ih X Y v f1 f2 r hXn hXY (by omega) hr
    · exact hr

theorem CmdMoveRailVehicle.unlink_fuel (env : Env) (w : World) (p2 src sH : Nat)
    (dh : Option Nat) (l : List Nat) (f1 f2 : Nat) (r : World × Option Nat × Option Nat)
    (hc : IsChain w (some sH) l) (hf : l.length ≤ f2)
    (hr : CmdMoveRailVehicle.unlink env w p2 src sH dh f1 = some r) :
    CmdMoveRailVehicle.unlink env w p2 src sH dh f2 = some r := by
  unfold CmdMoveRailVehicle.unlink at hr ⊢
  cases hb : HASBIT p2 0 with
  | true =>
    simp only [hb, if_true] at hr ⊢
    by_cases hs : src ≠ sH
    · rw [if_pos hs] at hr ⊢
      cases hfp : findPrev w src f1 sH with
      | none => simp [hfp] at hr
      | some v =>
        rw [findPrev_fuel l f1 f2 sH v hc hf hfp]
        rw [hfp] at hr
        exact hr
    · rw [if_neg hs] at hr ⊢
      exact hr
  | false =>
    simp only [hb, Bool.false_eq_true, if_false] at hr ⊢
    have hu : ∀ x, UnlinkWagon env w src sH f1 = some x →
        UnlinkWagon env w src sH f2 = some x := by
      intro x hx
      unfold UnlinkWagon at hx ⊢
      by_cases hs : src = sH
      · rw [if_pos hs] at hx ⊢
        exact hx
      · rw [if_neg hs] at hx ⊢
        cases hfp : findPrev w src f1 sH with
        | none => simp [hfp] at hx
        | some v =>
          rw [findPrev_fuel l f1 f2 sH v hc hf hfp]
          rw [hfp] at hx
          exact hx
    cases hx : UnlinkWagon env w src sH f1 with
    | none => simp [hx] at hr
    | some x =>
      rw [hu x hx]
      rw [hx] at hr
      exact hr

theorem CmdMoveRailVehicle.link_fuel (env : Env) (cenv : CmdEnv)
    (hdel : cenv.DeleteKeepsLinks) (w : World) (src : Nat) (dst dh : Option Nat)
    (is_loco : Bool) (M : List Nat) (f1 f2 : Nat) (r : World × Option Nat)
    (hc : IsChain w (some src) M) (hf : M.length ≤ f2)
    (hr : CmdMoveRailVehicle.link env cenv w src dst dh is_loco f1 = some r) :
    CmdMoveRailVehicle.link env cenv w src dst dh is_loco f2 = some r := by
  unfold CmdMoveRailVehicle.link at hr ⊢
  cases dst with
  | none => exact hr
  | some d =>
    simp only at hr ⊢
    have hk : SameLinks w (if (w src).subtype = env.TS_Front_Engine
        then cenv.DeleteVehicleOrders w src else w) := by
      split_ifs
      · exact hdel w src
      · exact SameLinks.rfl_links w
    generalize (if (w src).subtype = env.TS_Front_Engine
        then cenv.DeleteVehicleOrders w src else w) = wa at hr hk ⊢
    have hc2 : IsChain (wa.set src { wa src with subtype := env.TS_Not_First, unitnumber := 0 })
        (some src) M := by
      exact IsSeg.set_same_next ((hk.isSeg_links M _ none).mpr hc) src _ rfl
    generalize wa.set src { wa src with subtype := env.TS_Not_First, unitnumber := 0 }
      = wb at hr hc2 ⊢
    cases hfl : findLast wb f1 src with
    | none => simp [hfl] at hr
    | some v =>
      rw [findLast_fuel M f1 f2 src v hc2 hf hfl]
      rw [hfl] at hr
      exact hr

theorem CmdMoveRailVehicle.link_head (env : Env) (cenv : CmdEnv) (w : World) (src : Nat)
    (dst dh : Option Nat) (is_loco : Bool) (fuel : Nat) (w2 : World) (dh2 : Option Nat)
    (hr : CmdMoveRailVehicle.link env cenv w src dst dh is_loco fuel = some (w2, dh2)) :
    dh2 = some src ∨ dh2 = dh := by
  unfold CmdMoveRailVehicle.link at hr
  cases dst with
  | none =>
    left
    simp only at hr
    split_ifs at hr <;> simp only [Option.some.injEq, Prod.mk.injEq] at hr <;> exact hr.2.symm
  | some d =>
    right
    simp only at hr
    split at hr
    · simp at hr
    · simp only [Option.some.injEq, Prod.mk.injEq] at hr
      exact hr.2.symm

theorem FindGoodVehiclePos.scan_fuel (env : Env) (w : World) (src f1 f2 : Nat) :
    ∀ (l : List Nat) (r : Option Nat),
      (∀ d ∈ l, (w d).type = env.VEH_Train → ∃ c, IsChain w (some d) c ∧ c.length ≤ f2) →
      FindGoodVehiclePos.scan env w src f1 l = some r →
      FindGoodVehiclePos.scan env w src f2 l = some r := by
  intro l
  induction l with
  | nil =>
    intro r _ h
    exact h
  | cons a rest ih =>
    intro r hch h
    simp only [FindGoodVehiclePos.scan] at h ⊢
    have ih2 := ih r (fun d hd => hch d (List.mem_cons_of_mem _ hd))
    split_ifs at h ⊢ with hcond
    · obtain ⟨c, hc, hf⟩ := hch a (List.mem_cons_self _ _) hcond.1
      cases hse : FindGoodVehiclePos.sameEngine w (w src).engine_type f1 a with
      | none => simp [hse] at h
      | some b =>
        rw [FindGoodVehiclePos.sameEngine_fuel c f1 f2 a b hc hf hse]
        rw [hse] at h
        cases b with
        | true => exact h
        | false => exact ih2 h
    · exact ih2 h

theorem CmdMoveRailVehicle.checkDst_fuel (env : Env) (cenv : CmdEnv) (w : World)
    (src sH : Nat) (dst dh : Option Nat) (f1 f2 : Nat) (r : Option Nat ⊕ Int)
    (hdh : ∀ x, dh = some x → ∃ l, IsChain w (some x) l ∧ l.length ≤ f2)
    (hdrag : ∀ d r, dst = some d → dragToFirstHead cenv w src f1 d = some r →
      dragToFirstHead cenv w src f2 d = some r)
    (hr : CmdMoveRailVehicle.checkDst env cenv w src sH dst dh f1 = some r) :
    CmdMoveRailVehicle.checkDst env cenv w src sH dst dh f2 = some r := by
  cases dst with
  | none =>
    simp only [CmdMoveRailVehicle.checkDst] at hr ⊢
    exact hr
  | some d =>
    cases dh with
    | none =>
      simp only [CmdMoveRailVehicle.checkDst] at hr ⊢
      exact hr
    | some x =>
      obtain ⟨l, hl, hf⟩ := hdh x rfl
      simp only [CmdMoveRailVehicle.checkDst] at hr ⊢
      cases hc : CheckTrainStoppedInDepot env cenv w x f1 with
      | none => simp [hc] at hr
      | some num =>
        rw [CheckTrainStoppedInDepot.stopped_fuel env cenv w x l f1 f2 num hl hf hc]
        rw [hc] at hr
        simp only at hr ⊢
        by_cases g1 : num < 0
        · rw [if_pos g1] at hr ⊢
          exact hr
        rw [if_neg g1] at hr ⊢
        by_cases g2 : num > (if cenv.mammoth_trains = true then 100 else 9) ∧
            (w x).subtype = env.TS_Front_Engine
        · rw [if_pos g2] at hr ⊢
          exact hr
        rw [if_neg g2] at hr ⊢
        cases hd : dragToFirstHead cenv w src f1 d with
        | none => simp [hd] at hr
        | some d1 =>
          rw [hdrag d d1 rfl hd]
          rw [hd] at hr
          exact hr

/-- The `DC_EXEC` block on a well-formed state returns the same with every fuel
that is at least the number of units of the state. -/
theorem CmdMoveRailVehicle.exec_fuel (env : Env) (cenv : CmdEnv)
    (hdel : cenv.DeleteKeepsLinks) (w : World) (cs : List (List Nat))
    (hwf : WellFormedChains w cs)
    (p2 src sH : Nat) (dst dh : Option Nat) (is_loco : Bool) (f1 f2 : Nat) (w4 : World)
    (cS : List Nat) (hcS : cS ∈ cs) (hsrc : src ∈ cS) (hsH : cS.head? = some sH)
    (hdst : ∀ d, dst = some d → d ≠ src ∧ ∃ cD ∈ cs, d ∈ cD ∧ dh = cD.head?)
    (hdh : ∀ x, dh = some x → x ∈ cs.flatten)
    (hnot : ¬ (HASBIT p2 0 = true ∧ some sH = dh))
    (hf : cs.flatten.length ≤ f2)
    (hex : CmdMoveRailVehicle.exec env cenv w p2 src dst sH dh is_loco f1 = some w4) :
    CmdMoveRailVehicle.exec env cenv w p2 src dst sH dh is_loco f2 = some w4 := by
  obtain ⟨old, new, rest, hr⟩ :=
    CmdMoveRailVehicle.exec_chains env cenv hdel w cs hwf p2 src sH dst dh is_loco f1 w4
      cS hcS hsrc hsH hdst hnot hex
  obtain ⟨hwf4, hperm4⟩ := hr.wellFormed hwf
  have hlen4 : (new ++ rest).flatten.length = cs.flatten.length := hperm4.length_eq
  obtain ⟨A, B, rfl⟩ := List.append_of_mem hsrc
  have hc : IsChain w (some sH) (A ++ src :: B) := by
    have := hwf.1 _ hcS
    rwa [hsH] at this
  have hlenS : (A ++ src :: B).length ≤ f2 := le_trans (hwf.length_le hcS) hf
  unfold CmdMoveRailVehicle.exec at hex ⊢
  cases hun : CmdMoveRailVehicle.unlink env w p2 src sH dh f1 with
  | none => simp [hun] at hex
  | some r1 =>
    rw [CmdMoveRailVehicle.unlink_fuel env w p2 src sH dh _ f1 f2 r1 hc hlenS hun]
    obtain ⟨w1, sh1, dh1⟩ := r1
    simp only [hun] at hex
    simp only
    obtain ⟨hM1, hR1, _, _, _, hdh1, _⟩ :=
      CmdMoveRailVehicle.unlink_spec env w p2 src sH dh f1 w1 sh1 dh1 A B hc hun
    have hMlen : (if HASBIT p2 0 = true then src :: B else [src]).length ≤ f2 := by
      refine le_trans ?_ hlenS
      split_ifs
      · simp
      · simp only [List.length_singleton, List.length_append, List.length_cons,
          List.length_nil]
        omega
    have hsh1 : ∀ x, sh1 = some x → x ∈ cs.flatten := by
      intro x hx
      rw [hx] at hR1
      obtain ⟨R1, hR1e⟩ := hR1.cons_of_some
      have hxR : x ∈ (if HASBIT p2 0 = true then A else A ++ B) := by
        rw [hR1e]
        exact List.mem_cons_self _ _
      refine List.mem_flatten.mpr ⟨_, hcS, ?_⟩
      split_ifs at hxR
      · exact List.mem_append_left _ hxR
      · rcases List.mem_append.mp hxR with h | h
        · exact List.mem_append_left _ h
        · exact List.mem_append_right _ (List.mem_cons_of_mem _ h)
    cases hli : CmdMoveRailVehicle.link env cenv w1 src dst dh1 is_loco f1 with
    | none => simp [hli] at hex
    | some r2 =>
      rw [CmdMoveRailVehicle.link_fuel env cenv hdel w1 src dst dh1 is_loco _ f1 f2 r2
        hM1 hMlen hli]
      obtain ⟨w2, dh2⟩ := r2
      simp only [hli] at hex
      simp only
      have hdh2 : ∀ x, dh2 = some x → x ∈ cs.flatten := by
        intro x hx
        rcases CmdMoveRailVehicle.link_head env cenv w1 src dst dh1 is_loco f1 w2 dh2 hli
          with h | h
        · rw [hx, Option.some.injEq] at h
          rw [h]
          exact List.mem_flatten.mpr ⟨_, hcS, by simp⟩
        · rw [h, hdh1] at hx
          split_ifs at hx
          exact hdh x hx
      cases hr1 : CmdMoveRailVehicle.refresh env w2 sh1 f1 with
      | none => simp [hr1] at hex
      | some w3 =>
        simp only [hr1] at hex
        have k3 := CmdMoveRailVehicle.refresh_keeps env w2 sh1 f1 w3 hr1
        have k4 := CmdMoveRailVehicle.refresh_keeps env w3 dh2 f1 w4 hex
        have hwf3 : WellFormedChains w3 (new ++ rest) := hwf4.congr_links k4.symm_links
        have hwf2 : WellFormedChains w2 (new ++ rest) := hwf3.congr_links k3.symm_links
        have hch : ∀ (wx : World), WellFormedChains wx (new ++ rest) → ∀ (h : Option Nat),
            (∀ x, h = some x → x ∈ cs.flatten) →
            ∀ x, h = some x → ∃ l, IsChain wx (some x) l ∧ l.length ≤ f2 := by
          intro wx hwx h hm x hx
          obtain ⟨l, hl1, hl2⟩ := hwx.chain_of_mem (hperm4.mem_iff.mpr (hm x hx))
          exact ⟨l, hl1, by omega⟩
        rw [CmdMoveRailVehicle.refresh_fuel env w2 sh1 f1 f2 w3 (hch w2 hwf2 sh1 hsh1) hr1]
        simp only
        exact CmdMoveRailVehicle.refresh_fuel env w3 dh2 f1 f2 w4 (hch w3 hwf3 dh2 hdh2) hex

/-- A call on a well-formed state that returns with some fuel returns the same
with every fuel that is at least the number of units of the state. -/
theorem CmdMoveRailVehicle.cmd_fuel (env : Env) (cenv : CmdEnv)
    (hdel : cenv.DeleteKeepsLinks) (w : World) (cs : List (List Nat))
    (hwf : WellFormedChains w cs) (hfirst : env.FirstIsHead w cs)
    (hprev : cenv.PrevInChain w cs)
    (flags p1 p2 f1 f2 : Nat) (hcov : CoversCall env cenv w cs p1)
    (w1 : World) (r : Int) (hf : cs.flatten.length ≤ f2)
    (hres : CmdMoveRailVehicle env cenv w flags p1 p2 f1 = some (w1, r)) :
    CmdMoveRailVehicle env cenv w flags p1 p2 f2 = some (w1, r) := by
  obtain ⟨hcsrc, hcdst, hcall⟩ := hcov
  have hchain : ∀ (wx : World), SameLinks w wx → ∀ x, x ∈ cs.flatten →
      ∃ l, IsChain wx (some x) l ∧ l.length ≤ f2 := by
    intro wx hl x hx
    obtain ⟨l, hl1, hl2⟩ := (hwf.congr_links hl).chain_of_mem hx
    exact ⟨l, hl1, le_trans hl2 hf⟩
  unfold CmdMoveRailVehicle at hres ⊢
  dsimp only at hres ⊢
  generalize hsrc : p1 &&& 0xFFFF = src at hres hcsrc ⊢
  by_cases h1 : cenv.IsVehicleIndex w src = false
  · rw [if_pos h1] at hres ⊢
    exact hres
  rw [if_neg h1] at hres ⊢
  by_cases h2 : (w src).type ≠ env.VEH_Train
  · rw [if_pos h2] at hres ⊢
    exact hres
  rw [if_neg h2] at hres ⊢
  have hsrcmem : src ∈ cs.flatten :=
    hcsrc (by simpa using h1) (by simpa using h2)
  generalize (decide ((env.RailVehInfo (w src).engine_type).flags &&& env.RVI_WAGON = 0) &&
    IS_FIRSTHEAD_SPRITE cenv (w src).spritenum) = is_loco at hres ⊢
  have key : ∀ dst, (if (p1 >>> 16) % 65536 = 0xFFFF then
        if is_loco = true then some none else FindGoodVehiclePos env cenv w src f1
      else if (p1 >>> 16) % 65536 < 0x8000 then some (some ((p1 >>> 16) % 65536))
      else none) = some dst →
      (if (p1 >>> 16) % 65536 = 0xFFFF then
        if is_loco = true then some none else FindGoodVehiclePos env cenv w src f2
      else if (p1 >>> 16) % 65536 < 0x8000 then some (some ((p1 >>> 16) % 65536))
      else none) = some dst := by
    intro dst hd
    split_ifs at hd ⊢ with g1 g2 g3
    · exact hd
    · refine FindGoodVehiclePos.scan_fuel env w src f1 f2 _ dst ?_ hd
      intro d hdm hdt
      exact hchain w (SameLinks.rfl_links w) d (hcall d hdm hdt)
    · exact hd
  split at hres
  · simp at hres
  rename_i dst hdo
  have hdstmem : ∀ d, dst = some d → d ∈ cs.flatten := by
    intro d hd
    subst hd
    split_ifs at hdo with g1 g2 g3
    · simp at hdo
    · obtain ⟨hm, ht⟩ := FindGoodVehiclePos.scan_spec env w src f1 _ d hdo
      exact hcall d hm ht
    · simp only [Option.some.injEq] at hdo
      rw [← hdo]
      exact hcdst g3
  rw [key dst hdo]
  clear hdo key
  simp only
  by_cases h3 : some src = dst
  · rw [if_pos h3] at hres ⊢
    exact hres
  rw [if_neg h3] at hres ⊢
  split at hres
  · rename_i h4
    rw [if_pos h4]
    exact hres
  rename_i h4
  rw [if_neg h4]
  clear h4
  obtain ⟨cS, hcS, hsrcS⟩ := List.mem_flatten.mp hsrcmem
  have hsH : cS.head? = some (env.GetFirstVehicleInChain w src) :=
    (hfirst cS hcS src hsrcS).symm
  have hsHmem : env.GetFirstVehicleInChain w src ∈ cs.flatten :=
    List.mem_flatten.mpr ⟨cS, hcS, List.mem_of_mem_head? hsH⟩
  have hdhmem : ∀ x, Option.map (env.GetFirstVehicleInChain w) dst = some x →
      x ∈ cs.flatten := by
    intro x hx
    cases dst with
    | none => simp at hx
    | some d =>
      obtain ⟨cD, hcD, hdD⟩ := List.mem_flatten.mp (hdstmem d rfl)
      have := hfirst cD hcD d hdD
      simp only [Option.map_some', Option.some.injEq] at hx
      rw [hx] at this
      exact List.mem_flatten.mpr ⟨cD, hcD, List.mem_of_mem_head? this.symm⟩
  generalize hwr : (match dst with
    | none => env.afterFirstRead w src
    | some d => env.afterFirstRead (env.afterFirstRead w src) d) = wr at hres ⊢
  have hlr : SameLinks w wr := by
    rw [← hwr]
    cases dst <;> exact fun _ => ⟨rfl, rfl, rfl⟩
  cases hwa : clearFirst wr f1 (some (env.GetFirstVehicleInChain w src)) with
  | none => simp [hwa] at hres
  | some wa =>
  obtain ⟨la, hla1, hla2⟩ := hchain wr hlr _ hsHmem
  rw [clearFirst_fuel la f1 f2 _ wr wa hla1 hla2 hwa]
  simp only [hwa] at hres
  simp only
  have hlwa : SameLinks w wa := hlr.trans_links (clearFirst_keeps _ _ _ _ hwa)
  cases hwb : clearFirst wa f1 (Option.map (env.GetFirstVehicleInChain w) dst) with
  | none => simp [hwb] at hres
  | some wb =>
  have hwb2 : clearFirst wa f2 (Option.map (env.GetFirstVehicleInChain w) dst) = some wb := by
    cases hdh : Option.map (env.GetFirstVehicleInChain w) dst with
    | none =>
      rw [hdh] at hwb
      exact clearFirst_fuel [] f1 f2 none wa wb rfl (Nat.zero_le _) hwb
    | some x =>
      rw [hdh] at hwb
      obtain ⟨lb, hlb1, hlb2⟩ := hchain wa hlwa x (hdhmem x hdh)
      exact clearFirst_fuel lb f1 f2 _ wa wb hlb1 hlb2 hwb
  rw [hwb2]
  simp only [hwb] at hres
  simp only
  have hlb : SameLinks w wb := hlwa.trans_links (clearFirst_keeps _ _ _ _ hwb)
  clear hwa hwb hwb2 hla1 hla2
  cases hn : CheckTrainStoppedInDepot env cenv wb (env.GetFirstVehicleInChain w src) f1 with
  | none => simp [hn] at hres
  | some n =>
  obtain ⟨lc, hlc1, hlc2⟩ := hchain wb hlb _ hsHmem
  rw [CheckTrainStoppedInDepot.stopped_fuel env cenv wb _ lc f1 f2 n hlc1 hlc2 hn]
  simp only [hn] at hres
  simp only
  by_cases h5 : n < 0
  · rw [if_pos h5] at hres ⊢
    exact hres
  rw [if_neg h5] at hres ⊢
  clear hn h5 hlc1 hlc2
  cases hchk : CmdMoveRailVehicle.checkDst env cenv wb src (env.GetFirstVehicleInChain w src)
      dst (Option.map (env.GetFirstVehicleInChain w) dst) f1 with
  | none => simp [hchk] at hres
  | some res =>
  have hchk2 : CmdMoveRailVehicle.checkDst env cenv wb src (env.GetFirstVehicleInChain w src)
      dst (Option.map (env.GetFirstVehicleInChain w) dst) f2 = some res := by
    refine CmdMoveRailVehicle.checkDst_fuel env cenv wb src _ dst _ f1 f2 res ?_ ?_ hchk
    · intro x hx
      exact hchain wb hlb x (hdhmem x hx)
    · intro d r1 hd hdr
      obtain ⟨cD, hcD, hdD⟩ := List.mem_flatten.mp (hdstmem d hd)
      obtain ⟨D1, D2, hD⟩ := List.append_of_mem hdD
      have hcDch : IsChain wb cD.head? cD := (hlb.isSeg_links cD _ none).mpr (hwf.1 cD hcD)
      refine dragToFirstHead_fuel cenv wb src cD hcDch
        (fun u hu v hv => hprev wb hlb cD hcD u hu v hv) D1.length D1 D2 d f1 f2 r1 rfl hD
        ?_ hdr
      have h1 := hwf.length_le hcD
      have h2 := congrArg List.length hD
      simp only [List.length_append, List.length_cons] at h2
      omega
  rw [hchk2]
  cases res with
  | inr rr =>
    simp only [hchk] at hres
    exact hres
  | inl dst1 =>
  simp only [hchk] at hres
  simp only
  by_cases h6 : HASBIT p2 0 = true ∧
      some (env.GetFirstVehicleInChain w src) = Option.map (env.GetFirstVehicleInChain w) dst
  · rw [if_pos h6] at hres ⊢
    exact hres
  rw [if_neg h6] at hres ⊢
  have hdst : ∀ d1, dst1 = some d1 → d1 ≠ src ∧
      ∃ cD ∈ cs, d1 ∈ cD ∧ Option.map (env.GetFirstVehicleInChain w) dst = cD.head? := by
    intro d1 hd1
    cases dst with
    | none =>
      have := CmdMoveRailVehicle.checkDst_none env cenv wb src _ f1 _ dst1 hchk
      rw [this] at hd1
      simp at hd1
    | some d =>
      obtain ⟨d2, hd2, hdrag⟩ :=
        CmdMoveRailVehicle.checkDst_some env cenv wb src _ d _ f1 dst1 hchk
      rw [hd1, Option.some.injEq] at hd2
      subst hd2
      obtain ⟨cD, hcD, hdD⟩ := List.mem_flatten.mp (hdstmem d rfl)
      have hds : d ≠ src := fun e => h3 (by rw [e])
      obtain ⟨g1, g2⟩ := dragToFirstHead_spec cenv wb src cD
        (fun u hu v hv => (hprev wb hlb cD hcD u hu v hv).1) f1 d d1 hds hdD hdrag
      exact ⟨g1, cD, hcD, g2, hfirst cD hcD d hdD⟩
  clear hchk hchk2
  generalize decide (dst1 = none ∧ (wb src).subtype ≠ env.TS_Front_Engine ∧ is_loco = true)
    = newLoco at hres ⊢
  by_cases h7 : newLoco = true ∧ cenv.GetFreeUnitNumber wb > cenv.max_trains
  · rw [if_pos h7] at hres ⊢
    exact hres
  rw [if_neg h7] at hres ⊢
  have hl3 : SameLinks wb (if newLoco = true ∧ flags &&& cenv.DC_EXEC ≠ 0 then
      wb.set src { wb src with unitnumber := cenv.GetFreeUnitNumber wb } else wb) := by
    split_ifs
    · apply SameLinks.set_links
      exact ⟨rfl, rfl, rfl⟩
    · exact SameLinks.rfl_links wb
  generalize (if newLoco = true ∧ flags &&& cenv.DC_EXEC ≠ 0 then
      wb.set src { wb src with unitnumber := cenv.GetFreeUnitNumber wb } else wb) = w3
    at hres hl3 ⊢
  have hl : SameLinks w w3 := hlb.trans_links hl3
  by_cases h8 : flags &&& cenv.DC_EXEC ≠ 0
  · rw [if_pos h8] at hres ⊢
    cases hex : CmdMoveRailVehicle.exec env cenv w3 p2 src dst1
        (env.GetFirstVehicleInChain w src) (Option.map (env.GetFirstVehicleInChain w) dst)
        is_loco f1 with
    | none => simp [hex] at hres
    | some w4 =>
      rw [CmdMoveRailVehicle.exec_fuel env cenv hdel w3 cs (hwf.congr_links hl) p2 src _
        dst1 _ is_loco f1 f2 w4 cS hcS hsrcS hsH hdst hdhmem h6 hf hex]
      rw [hex] at hres
      exact hres
  · rw [if_neg h8] at hres ⊢
    exact hres

/-- C4: on a well-formed vehicle state, given as the list `cs` of its chains (every
chain the finite walk over `next` from its first unit, no unit twice within a chain or
in two chains), every call of `CmdMoveRailVehicle` that returns, with `DC_EXEC` or
without and whatever the return value, leaves a well-formed state: the chains `old`
that the call touched are replaced by chains `new` over the same units, no unit lost or
duplicated, and the other chains `rest` stay as they are.  The result does not hang on
the fuel of the model: the call returns the same pool and value with every fuel that is
at least the number of units of the state. -/
theorem C4_move_keeps_chains_well_formed (env : Env) (cenv : CmdEnv)
    (hdel : cenv.DeleteKeepsLinks) (w : World) (cs : List (List Nat))
    (hwf : WellFormedChains w cs) (hfirst : env.FirstIsHead w cs)
    (hprev : cenv.PrevInChain w cs)
    (flags p1 p2 fuel : Nat) (hcov : CoversCall env cenv w cs p1)
    (w1 : World) (r : Int)
    (hres : CmdMoveRailVehicle env cenv w flags p1 p2 fuel = some (w1, r)) :
    (∀ fuel2, cs.flatten.length ≤ fuel2 →
      CmdMoveRailVehicle env cenv w flags p1 p2 fuel2 = some (w1, r)) ∧
    ∃ old new rest, cs.Perm (old ++ rest) ∧ new.flatten.Perm old.flatten ∧
      WellFormedChains w1 (new ++ rest) := by
  obtain ⟨old, new, rest, hr⟩ :=
    CmdMoveRailVehicle.cmd_chains env cenv hdel w cs hwf hfirst hprev flags p1 p2 fuel hcov
      w1 r hres
  exact ⟨fun fuel2 hf2 => CmdMoveRailVehicle.cmd_fuel env cenv hdel w cs hwf hfirst hprev
      flags p1 p2 fuel fuel2 hcov w1 r hf2 hres,
    old, new, rest, hr.1, hr.2.2.1, (hr.wellFormed hwf).1⟩

/-- C5: on a well-formed vehicle state in which every chain has a first unit of subtype
`TS_Front_Engine` or `TS_Free_Car` and all its other units have subtype `TS_Not_First`,
every call of `CmdMoveRailVehicle` that returns leaves a well-formed state with the
same property on every chain: on what is left of the source chain, on the destination
chain and on a newly created line (the chains `new`), and on the untouched chains.  The
call returns the same pool and value with every fuel that is at least the number of
units of the state. -/
theorem C5_move_keeps_head_invariant (env : Env) (cenv : CmdEnv)
    (hdel : cenv.DeleteKeepsLinks) (w : World) (cs : List (List Nat))
    (hwf : WellFormedChains w cs) (hhead : HeadInvariant env w cs)
    (hfirst : env.FirstIsHead w cs) (hprev : cenv.PrevInChain w cs)
    (flags p1 p2 fuel : Nat) (hcov : CoversCall env cenv w cs p1)
    (w1 : World) (r : Int)
    (hres : CmdMoveRailVehicle env cenv w flags p1 p2 fuel = some (w1, r)) :
    (∀ fuel2, cs.flatten.length ≤ fuel2 →
      CmdMoveRailVehicle env cenv w flags p1 p2 fuel2 = some (w1, r)) ∧
    ∃ cs1, WellFormedChains w1 cs1 ∧ cs1.flatten.Perm cs.flatten ∧
      HeadInvariant env w1 cs1 := by
  obtain ⟨old, new, rest, hr⟩ :=
    CmdMoveRailVehicle.cmd_chains env cenv hdel w cs hwf hfirst hprev flags p1 p2 fuel hcov
      w1 r hres
  exact ⟨fun fuel2 hf2 => CmdMoveRailVehicle.cmd_fuel env cenv hdel w cs hwf hfirst hprev
      flags p1 p2 fuel fuel2 hcov w1 r hf2 hres,
    new ++ rest, (hr.wellFormed hwf).1, (hr.wellFormed hwf).2,
    hr.headInvariant hwf hhead⟩

theorem exCmdEnv_deleteKeepsLinks : exCmdEnv.DeleteKeepsLinks := by
  intro w u
  apply SameLinks.set_links
  exact ⟨rfl, rfl, rfl⟩

theorem exDepot_prevInChain : exCmdEnv.PrevInChain exDepot [[0, 1, 2], [3, 4]] := by
  intro wx hl c hc u hu v hv
  have hv2 : exPrev wx u = some v := hv
  unfold exPrev at hv2
  have hmem := List.mem_of_find?_eq_some hv2
  have hp := List.find?_some hv2
  simp only [decide_eq_true_eq] at hp
  have hlt : v < 16 := List.mem_range.mp hmem
  refine ⟨?_, hp⟩
  rw [(hl v).1] at hp
  have key : ∀ v < 16, ∀ c ∈ [[0, 1, 2], [3, 4]], ∀ u ∈ c,
      (exDepot v).next = some u → v ∈ c := by decide
  exact key v hlt c hc u hu hp

set_option maxRecDepth 100000 in
/-- Moving wagon 1 of the train of `exDepot` behind the free wagon 3 with `DC_EXEC`
returns 0. -/
theorem exDepot_move_returns :
    ∃ w1, CmdMoveRailVehicle exEnv exCmdEnv exDepot 1 196609 0 16 = some (w1, 0) := by
  have h : (CmdMoveRailVehicle exEnv exCmdEnv exDepot 1 196609 0 16).map (fun x => x.2)
      = some 0 := by decide
  cases hc : CmdMoveRailVehicle exEnv exCmdEnv exDepot 1 196609 0 16 with
  | none =>
    rw [hc] at h
    simp at h
  | some x =>
    obtain ⟨w1, r⟩ := x
    rw [hc] at h
    simp only [Option.map_some', Option.some.injEq] at h
    exact ⟨w1, by rw [h]⟩

set_option maxRecDepth 100000 in
/-- The links after that move: the train is 0, 2 and the line is 3, 1, 4, with
wagon 1 a not-first unit. -/
theorem exDepot_moved :
    (CmdMoveRailVehicle exEnv exCmdEnv exDepot 1 196609 0 16).map
      (fun x => ([(x.1 0).next, (x.1 1).next, (x.1 2).next, (x.1 3).next, (x.1 4).next],
        (x.1 1).subtype)) =
      some ([some 2, some 4, none, some 1, none], 2) := by
  decide

/-- Witness of C4: wagon 1 of the train 0, 1, 2 of `exDepot` is moved behind the free
wagon 3 of the line 3, 4. -/
theorem C4_move_keeps_chains_well_formed_witness :
    exCmdEnv.DeleteKeepsLinks ∧ WellFormedChains exDepot [[0, 1, 2], [3, 4]] ∧
    exEnv.FirstIsHead exDepot [[0, 1, 2], [3, 4]] ∧
    exCmdEnv.PrevInChain exDepot [[0, 1, 2], [3, 4]] ∧
    CoversCall exEnv exCmdEnv exDepot [[0, 1, 2], [3, 4]] 196609 ∧
    ∃ w1, CmdMoveRailVehicle exEnv exCmdEnv exDepot 1 196609 0 16 = some (w1, 0) ∧
      (∀ fuel2, [[0, 1, 2], [3, 4]].flatten.length ≤ fuel2 →
        CmdMoveRailVehicle exEnv exCmdEnv exDepot 1 196609 0 fuel2 = some (w1, 0)) ∧
      ∃ old new rest, [[0, 1, 2], [3, 4]].Perm (old ++ rest) ∧
        new.flatten.Perm old.flatten ∧ WellFormedChains w1 (new ++ rest) := by
  obtain ⟨w1, h1⟩ := exDepot_move_returns
  have hwf : WellFormedChains exDepot [[0, 1, 2], [3, 4]] := ⟨by decide, by decide⟩
  have hfirst : exEnv.FirstIsHead exDepot [[0, 1, 2], [3, 4]] := by
    unfold Env.FirstIsHead
    decide
  have hcov : CoversCall exEnv exCmdEnv exDepot [[0, 1, 2], [3, 4]] 196609 :=
    ⟨by decide, by decide, by decide⟩
  exact ⟨exCmdEnv_deleteKeepsLinks, hwf, hfirst, exDepot_prevInChain, hcov, w1, h1,
    C4_move_keeps_chains_well_formed exEnv exCmdEnv exCmdEnv_deleteKeepsLinks exDepot
      [[0, 1, 2], [3, 4]] hwf hfirst exDepot_prevInChain 1 196609 0 16 hcov w1 0 h1⟩

/-- Witness of C5: the same move; the train keeps its front engine 0 as first unit and
the line its free wagon 3, and the moved wagon 1 stays a not-first unit. -/
theorem C5_move_keeps_head_invariant_witness :
    exCmdEnv.DeleteKeepsLinks ∧ WellFormedChains exDepot [[0, 1, 2], [3, 4]] ∧
    HeadInvariant exEnv exDepot [[0, 1, 2], [3, 4]] ∧
    exEnv.FirstIsHead exDepot [[0, 1, 2], [3, 4]] ∧
    exCmdEnv.PrevInChain exDepot [[0, 1, 2], [3, 4]] ∧
    CoversCall exEnv exCmdEnv exDepot [[0, 1, 2], [3, 4]] 196609 ∧
    ∃ w1, CmdMoveRailVehicle exEnv exCmdEnv exDepot 1 196609 0 16 = some (w1, 0) ∧
      (∀ fuel2, [[0, 1, 2], [3, 4]].flatten.length ≤ fuel2 →
        CmdMoveRailVehicle exEnv exCmdEnv exDepot 1 196609 0 fuel2 = some (w1, 0)) ∧
      ∃ cs1, WellFormedChains w1 cs1 ∧ cs1.flatten.Perm [[0, 1, 2], [3, 4]].flatten ∧
        HeadInvariant exEnv w1 cs1 := by
  obtain ⟨w1, h1⟩ := exDepot_move_returns
  have hwf : WellFormedChains exDepot [[0, 1, 2], [3, 4]] := ⟨by decide, by decide⟩
  have hhead : HeadInvariant exEnv exDepot [[0, 1, 2], [3, 4]] := by
    intro c hc
    simp only [List.mem_cons, List.mem_singleton, List.not_mem_nil, or_false] at hc
    rcases hc with rfl | rfl
    · exact HeadOK.cons_intro (by decide) (by decide)
    · exact HeadOK.cons_intro (by decide) (by decide)
  have hfirst : exEnv.FirstIsHead exDepot [[0, 1, 2], [3, 4]] := by
    unfold Env.FirstIsHead
    decide
  have hcov : CoversCall exEnv exCmdEnv exDepot [[0, 1, 2], [3, 4]] 196609 :=
    ⟨by decide, by decide, by decide⟩
  exact ⟨exCmdEnv_deleteKeepsLinks, hwf, hhead, hfirst, exDepot_prevInChain, hcov, w1, h1,
    C5_move_keeps_head_invariant exEnv exCmdEnv exCmdEnv_deleteKeepsLinks exDepot
      [[0, 1, 2], [3, 4]] hwf hhead hfirst exDepot_prevInChain 1 196609 0 16 hcov w1 0 h1⟩

/-! ### The swap of two units -/

theorem hidden_bit_taken (s o h : Nat) (hh : h < 256) :
    ((s &&& (255 ^^^ h)) ||| (o &&& h)) &&& h = o &&& h ∧
    ((s &&& (255 ^^^ h)) ||| (o &&& h)) &&& (255 ^^^ h) = s &&& (255 ^^^ h) := by
  have hbit : ∀ i, 8 ≤ i → h.testBit i = false := fun i hi =>
    Nat.testBit_lt_two_pow (lt_of_lt_of_le hh
      (Nat.pow_le_pow_right (show 0 < 2 by norm_num) hi))
  constructor
  · apply Nat.eq_of_testBit_eq
    intro i
    simp only [Nat.testBit_land, Nat.testBit_lor, Nat.testBit_xor]
    by_cases hi : i < 8
    · have h255 : (255 : Nat).testBit i = true := by
        rw [show (255 : Nat) = 2 ^ 8 - 1 from rfl, Nat.testBit_two_pow_sub_one]
        simpa using hi
      rw [h255]
      cases s.testBit i <;> cases o.testBit i <;> cases h.testBit i <;> rfl
    · rw [hbit i (not_lt.mp hi)]
      simp
  · apply Nat.eq_of_testBit_eq
    intro i
    simp only [Nat.testBit_land, Nat.testBit_lor, Nat.testBit_xor]
    by_cases hi : i < 8
    · have h255 : (255 : Nat).testBit i = true := by
        rw [show (255 : Nat) = 2 ^ 8 - 1 from rfl, Nat.testBit_two_pow_sub_one]
        simpa using hi
      rw [h255]
      cases s.testBit i <;> cases o.testBit i <;> cases h.testBit i <;> rfl
    · rw [hbit i (not_lt.mp hi)]
      simp

theorem UpdateVarsAfterSwap.keeps_status (hooks : Hooks) (hs : hooks.KeepStatus) (w : World)
    (v j : Nat) : (UpdateVarsAfterSwap hooks w v j).vehstatus = (w j).vehstatus := by
  unfold UpdateVarsAfterSwap
  simp only
  rw [hs.1]
  by_cases hj : j = v
  · subst hj
    rw [World.set_same]
    simp only [UpdateTrainDeltaXY, World.set_same]
  · rw [World.set_other _ _ _ _ hj]
    simp only [UpdateTrainDeltaXY]
    rw [World.set_other _ _ _ _ hj]

/-- The status bytes after `ReverseTrainSwapVeh` on two distinct units. -/
theorem ReverseTrainSwapVeh.swap_status (env : Env) (hooks : Hooks) (hs : hooks.KeepStatus)
    (w : World) (v l r a b : Nat)
    (ha : nthNext w l v = some a) (hb : nthNext w r v = some b) (hab : a ≠ b) (w1 : World)
    (hrun : ReverseTrainSwapVeh env hooks w v l r = some w1) :
    (w1 a).vehstatus =
      ((w a).vehstatus &&& (255 ^^^ env.VS_HIDDEN)) ||| ((w b).vehstatus &&& env.VS_HIDDEN) ∧
    (w1 b).vehstatus =
      ((w b).vehstatus &&& (255 ^^^ env.VS_HIDDEN)) ||| ((w a).vehstatus &&& env.VS_HIDDEN) := by
  unfold ReverseTrainSwapVeh at hrun
  simp only [ha, hb, if_pos hab, Option.some.injEq] at hrun
  rw [← hrun]
  simp only [hs.2, UpdateVarsAfterSwap.keeps_status hooks hs]
  rw [World.set_same, World.set_other _ _ _ _ hab, World.set_same]
  exact ⟨rfl, rfl⟩

/-- C20, as the code has it: `ReverseTrainSwapVeh` on two distinct units `a` and `b`
exchanges their occupied-track value, x, y, z, tile and hidden bit (all other status
bits stay with their unit) and gives each unit the former direction of the other
turned by 180 degrees (xor 4), except that the direction is taken over unturned when
the track value the unit received has the bit 0x80 (inside a depot). -/
theorem C20_swap_exchanges_places (env : Env) (hooks : Hooks) (hk : hooks.KeepPlaces)
    (hs : hooks.KeepStatus) (hh : env.VS_HIDDEN < 256)
    (w : World) (v l r a b : Nat)
    (ha : nthNext w l v = some a) (hb : nthNext w r v = some b) (hab : a ≠ b) :
    ∃ w1, ReverseTrainSwapVeh env hooks w v l r = some w1 ∧
      TookPlaceOf env (w1 a) (w a) (w b) ∧ TookPlaceOf env (w1 b) (w b) (w a) := by
  obtain ⟨w1, hrun, _, hpa, hpb, _⟩ :=
    ReverseTrainSwapVeh.swap_spec env hooks hk w v l r a b ha hb
  obtain ⟨hsa, hsb⟩ :=
    ReverseTrainSwapVeh.swap_status env hooks hs w v l r a b ha hb hab w1 hrun
  have hdir : ∀ x y : Vehicle, x.place = flipPlace y.place →
      x.rail.track = y.rail.track ∧ x.x_pos = y.x_pos ∧ x.y_pos = y.y_pos ∧
      x.z_pos = y.z_pos ∧ x.tile = y.tile ∧
      x.direction = (if y.rail.track &&& 0x80 = 0 then y.direction ^^^ 4 else y.direction) := by
    intro x y hxy
    have h1 := congrArg Place.track hxy
    have h2 := congrArg Place.x_pos hxy
    have h3 := congrArg Place.y_pos hxy
    have h4 := congrArg Place.z_pos hxy
    have h5 := congrArg Place.tile hxy
    have h6 := congrArg Place.direction hxy
    exact ⟨h1, h2, h3, h4, h5, h6⟩
  obtain ⟨a1, a2, a3, a4, a5, a6⟩ := hdir _ _ hpa
  obtain ⟨b1, b2, b3, b4, b5, b6⟩ := hdir _ _ hpb
  refine ⟨w1, hrun, ⟨a1, a2, a3, a4, a5, ?_, ?_, a6⟩, ⟨b1, b2, b3, b4, b5, ?_, ?_, b6⟩⟩
  · rw [hsa]
    exact (hidden_bit_taken _ _ _ hh).1
  · rw [hsa]
    exact (hidden_bit_taken _ _ _ hh).2
  · rw [hsb]
    exact (hidden_bit_taken _ _ _ hh).1
  · rw [hsb]
    exact (hidden_bit_taken _ _ _ hh).2

theorem exHooks_keepStatus : exHooks.KeepStatus :=
  ⟨fun _ _ _ => rfl, fun _ _ _ _ _ _ => rfl⟩

/-- Witness of C20: the two end units of the train of `exLine`. -/
theorem C20_swap_exchanges_places_witness :
    exEnv.VS_HIDDEN < 256 ∧ nthNext exLine 0 0 = some 0 ∧ nthNext exLine 2 0 = some 2 ∧
    ∃ w1, ReverseTrainSwapVeh exEnv exHooks exLine 0 0 2 = some w1 ∧
      TookPlaceOf exEnv (w1 0) (exLine 0) (exLine 2) ∧
      TookPlaceOf exEnv (w1 2) (exLine 2) (exLine 0) :=
  ⟨by decide, by decide, by decide,
    C20_swap_exchanges_places exEnv exHooks exHooks_keepPlaces exHooks_keepStatus (by decide)
      exLine 0 0 2 0 2 (by decide) (by decide) (by decide)⟩

/-- Counterexample to C20 as stated: the engine 0 of `exTunnelSwap` is swapped with
the wagon 1 inside a tunnel; it receives the tunnel value 0x40 as its track and the
direction 5, the direction 1 of the wagon turned by 180 degrees, not the unturned
direction 1. -/
theorem C20_counterexample :
    (exTunnelSwap 1).rail.track = 0x40 ∧ (exTunnelSwap 1).direction = 1 ∧
    (ReverseTrainSwapVeh exEnv exHooks exTunnelSwap 0 0 1).map
      (fun w => ((w 0).rail.track, (w 0).direction)) = some (0x40, 5) := by
  decide

/-! ### Track choice -/

set_option maxRecDepth 100000 in
theorem FIND_FIRST_BIT_spec : ∀ b < 64, b ≠ 0 →
    (b.testBit (FIND_FIRST_BIT b) = true ∧ FIND_FIRST_BIT b < 6) := by
  decide

set_option maxRecDepth 100000 in
theorem KILL_FIRST_BIT_spec : ∀ b < 64, b ≠ 0 →
    (KILL_FIRST_BIT b = b &&& (b - 1) ∧ KILL_FIRST_BIT b < 64 ∧
      trackCount (KILL_FIRST_BIT b) + 1 = trackCount b) := by
  decide

/-- C11: for a candidate bitset with exactly one of the six track bits set,
`ChooseTrainTrack` returns the index of that bit, whatever the vehicle, the tile, the
entry direction, the pathfinding settings, the pathfinders and the random values. -/
theorem C11_single_candidate_returned (penv : PathEnv) (m : Map) (w : World)
    (rnd : Nat → Nat) (v tile enterdir fuel : Nat) (i : Nat) (hi : i < 6) :
    ChooseTrainTrack penv m w rnd v tile enterdir (1 <<< i) fuel = some i := by
  unfold ChooseTrainTrack
  interval_cases i <;> rfl

/-- Witness of C11: the single candidate track 3 (bitset 8). -/
theorem C11_single_candidate_returned_witness :
    (3 : Nat) < 6 ∧ ChooseTrainTrack exPathEnv exMap exLine (fun _ => 0) 0 10 1 (1 <<< 3) 0
      = some 3 :=
  ⟨by decide, C11_single_candidate_returned exPathEnv exMap exLine (fun _ => 0) 0 10 1 0 3
    (by decide)⟩

theorem testBit_lt_six {b i : Nat} (hb : b < 64) (h : b.testBit i = true) : i < 6 := by
  by_contra hi
  have : b.testBit i = false :=
    Nat.testBit_lt_two_pow (lt_of_lt_of_le hb
      (Nat.pow_le_pow_right (show 0 < 2 by norm_num) (not_lt.mp hi)))
  rw [this] at h
  exact absurd h (by simp)

theorem trackCount_pos {b : Nat} (hb : b < 64) (h0 : b ≠ 0) : 0 < trackCount b := by
  have := (KILL_FIRST_BIT_spec b hb h0).2.2
  omega

/-- The loop of the original pathfinding returns a candidate of the bitset
`bits0` it started from, whatever the searches and the random values give. -/
theorem ChooseTrainTrack.legacy_loop_spec (penv : PathEnv) (m : Map)
    (tile enterdir train_dir : Nat) (rnd : Nat → Nat) (bits0 : Nat) :
    ∀ (fuel bits : Nat) (fd : TrainTrackFollowerData) (bt bbd btd k : Nat),
      bits < 64 → bits ≠ 0 → trackCount bits ≤ fuel →
      (∀ j, bits.testBit j = true → bits0.testBit j = true) →
      (bt = 4294967295 ∨ bits0.testBit bt = true) →
      ∃ r, ChooseTrainTrack.loop penv m tile enterdir train_dir rnd fuel bits fd bt bbd btd k
          = some r ∧ bits0.testBit r = true := by
  intro fuel
  induction fuel with
  | zero =>
    intro bits fd bt bbd btd k hb h0 hf _ _
    have := trackCount_pos hb h0
    omega
  | succ n ih =>
    intro bits fd bt bbd btd k hb h0 hf hsub hbt
    obtain ⟨hk1, hk2, hk3⟩ := KILL_FIRST_BIT_spec bits hb h0
    obtain ⟨hf1, _⟩ := FIND_FIRST_BIT_spec bits hb h0
    simp only [ChooseTrainTrack.loop]
    generalize penv.NewTrainPathfind m tile
      ((_search_directions.getD (FIND_FIRST_BIT bits) []).getD enterdir 0)
      (TrainTrackFollower penv m)
      { fd with best_bird_dist := 4294967295, best_track_dist := 4294967295 } = fd1
    have hgood : bt = 4294967295 →
        ChooseTrainTrack.better fd1 (FIND_FIRST_BIT bits) bt bbd btd train_dir (rnd k) = true := by
      intro h
      simp [ChooseTrainTrack.better, h]
    have hbt1 : bits0.testBit (if ChooseTrainTrack.better fd1 (FIND_FIRST_BIT bits) bt bbd btd
        train_dir (rnd k) = true then FIND_FIRST_BIT bits else bt) = true := by
      split_ifs with hg
      · exact hsub _ hf1
      · rcases hbt with h | h
        · exact absurd (hgood h) hg
        · exact h
    by_cases hrest : KILL_FIRST_BIT bits ≠ 0
    · rw [if_pos hrest]
      apply ih _ _ _ _ _ _ hk2 hrest (by omega) _ (Or.inr hbt1)
      intro j hj
      rw [hk1, Nat.testBit_land, Bool.and_eq_true] at hj
      exact hsub j hj.1
    · rw [if_neg hrest]
      exact ⟨_, rfl, hbt1⟩

/-- C12, as the code has it: for a non-empty candidate bitset within the six track
bits, `ChooseTrainTrack` returns an index whose bit is set in the bitset, with the
original pathfinding for every search result and every random value, and with a new
pathfinding when the pathfinder reports no direction (0xff) or a direction whose low
three bits name a candidate. -/
theorem C12_choice_is_candidate (penv : PathEnv) (m : Map) (w : World) (rnd : Nat → Nat)
    (v tile enterdir bits fuel : Nat) (hb : bits < 64) (h0 : bits ≠ 0) (hf : 6 ≤ fuel)
    (hpf : PathfinderNamesCandidate penv m w v tile enterdir bits) :
    ∃ i, ChooseTrainTrack penv m w rnd v tile enterdir bits fuel = some i ∧
      bits.testBit i = true := by
  have hmod : bits % 256 = bits := Nat.mod_eq_of_lt (by omega)
  have hdiv : bits / 64 = 0 := Nat.div_eq_of_lt hb
  obtain ⟨hf1, _⟩ := FIND_FIRST_BIT_spec bits hb h0
  unfold ChooseTrainTrack
  simp only [hmod, hdiv, ne_eq, not_true_eq_false, if_false]
  by_cases hk : KILL_FIRST_BIT bits = 0
  · rw [if_pos hk]
    exact ⟨_, rfl, hf1⟩
  rw [if_neg hk]
  cases hall : penv.new_pathfinding_all with
  | true =>
    obtain ⟨htd, hres⟩ := hpf.1 hall
    simp only [if_true, if_neg htd]
    rcases hres with h | h
    · rw [if_pos h]
      exact ⟨_, rfl, hf1⟩
    · by_cases h2 : penv.NPFRouteToStationOrTile m w v
          (tileAdd tile (- penv.TileOffsByDir enterdir)) (penv.GetVehicleTrackdir w v) = 0xff
      · rw [if_pos h2]
        exact ⟨_, rfl, hf1⟩
      · rw [if_neg h2]
        exact ⟨_, rfl, h⟩
  | false =>
    simp only [Bool.false_eq_true, if_false]
    cases hnew : penv.new_pathfinding with
    | true =>
      have hres := hpf.2 hall hnew
      simp only [if_true]
      rcases hres with h | h
      · rw [if_pos h]
        exact ⟨_, rfl, hf1⟩
      · split_ifs
        · exact ⟨_, rfl, hf1⟩
        · exact ⟨_, rfl, h⟩
    | false =>
      simp only [Bool.false_eq_true, if_false]
      have hcnt : trackCount bits ≤ fuel := by
        have : trackCount bits ≤ 6 := by
          unfold trackCount
          exact le_trans (List.length_filter_le _ _) (by simp)
        omega
      obtain ⟨r, hrun, hr⟩ := ChooseTrainTrack.legacy_loop_spec penv m tile enterdir
        ((w v).direction &&& 3) rnd bits fuel bits (FillWithStationData penv {} (w v))
        4294967295 0 0 0 hb h0 hcnt (fun _ h => h) (Or.inl rfl)
      have hr6 := testBit_lt_six hb hr
      rw [hrun]
      simp only
      rw [if_neg (by omega), Nat.mod_eq_of_lt (by omega)]
      exact ⟨r, rfl, hr⟩

theorem exPathEnv_namesCandidate (w : World) (v tile enterdir bits : Nat) :
    PathfinderNamesCandidate exPathEnv exMap w v tile enterdir bits :=
  ⟨fun h => absurd h (by decide), fun _ h => absurd h (by decide)⟩

/-- Witness of C12: the candidates 0 and 1 under the original pathfinding. -/
theorem C12_choice_is_candidate_witness :
    (3 : Nat) < 64 ∧ (3 : Nat) ≠ 0 ∧
    ∃ i, ChooseTrainTrack exPathEnv exMap exLine (fun _ => 0) 0 10 1 3 6 = some i ∧
      (3 : Nat).testBit i = true :=
  ⟨by decide, by decide,
    C12_choice_is_candidate exPathEnv exMap exLine (fun _ => 0) 0 10 1 3 6 (by decide)
      (by decide) (by decide) (exPathEnv_namesCandidate exLine 0 10 1 3)⟩

/-- Counterexample to C12 as stated: with the new pathfinding for everything and a
route search that reports the track direction 5, the candidates 0 and 1 (bitset 3)
give the choice 5, whose bit is not in the bitset. -/
theorem C12_counterexample :
    ChooseTrainTrack exPathEnvNPF exMap exLine (fun _ => 0) 0 10 1 3 6 = some 5 ∧
    (3 : Nat).testBit 5 = false := by
  decide

/-! ### Acceleration -/

theorem GetTrainAcceleration.curve45_ge (dir ndir i : Nat) (s : CurveScan)
    (h : 61 ≤ s.max_speed) : 61 ≤ (GetTrainAcceleration.curve45 dir ndir i s).max_speed := by
  unfold GetTrainAcceleration.curve45
  by_cases h1 : curveNeighbour _curve_neighbours45 dir i = ndir
  · rw [if_pos h1]
    by_cases hi : i = 0 <;> by_cases hl : s.lastpos = -1 <;>
      by_cases hp : s.pos - s.lastpos = 1 <;> simp [hi, hl, hp, h]
  · rw [if_neg h1]
    exact h

theorem GetTrainAcceleration.curveStep_ge (dir ndir : Nat) (s : CurveScan)
    (h : 61 ≤ s.max_speed) : 61 ≤ (GetTrainAcceleration.curveStep dir ndir s).max_speed := by
  unfold GetTrainAcceleration.curveStep
  have h1 := GetTrainAcceleration.curve45_ge dir ndir 1 _
    (GetTrainAcceleration.curve45_ge dir ndir 0 s h)
  simp only
  split_ifs
  · norm_num
  · exact h1

/-- The curve scan returns on a finite chain and leaves a speed limit of at
least 61. -/
theorem GetTrainAcceleration.curveLoop_total (w : World) :
    ∀ (l : List Nat) (fuel u : Nat) (s : CurveScan), IsChain w (some u) l →
      l.length ≤ fuel → 61 ≤ s.max_speed →
      ∃ s1, GetTrainAcceleration.curveLoop w fuel u s = some s1 ∧ 61 ≤ s1.max_speed
  | [], _, u, s, hc, _, _ => absurd hc (by simp [IsChain, IsSeg])
  | a :: l, 0, u, s, _, hf, _ => by simp at hf
  | a :: l, fuel + 1, u, s, hc, hf, hs => by
    have hu : some u = some a := hc.1
    simp only [Option.some.injEq] at hu
    subst hu
    simp only [GetTrainAcceleration.curveLoop]
    cases hn : (w u).next with
    | none => exact ⟨s, rfl, hs⟩
    | some n =>
      simp only
      have hc2 : IsChain w (some n) l := by
        have := hc.2
        rwa [hn] at this
      exact GetTrainAcceleration.curveLoop_total w l fuel n _ hc2 (by simpa using hf)
        (GetTrainAcceleration.curveStep_ge _ _ s hs)

theorem clamp_int_bounds (a lo hi : Int) (h : lo ≤ hi) :
    lo ≤ clamp_int a lo hi ∧ clamp_int a lo hi ≤ hi := by
  unfold clamp_int
  split_ifs <;> constructor <;> omega

theorem GetTrainAcceleration.curveCap_total (w : World) (v : Nat) (l : List Nat) (fuel : Nat)
    (hc : IsChain w (some v) l) (hf : l.length ≤ fuel) :
    ∃ c, GetTrainAcceleration.curveCap w v fuel = some c ∧ 61 ≤ c := by
  obtain ⟨s, hs, hge⟩ := GetTrainAcceleration.curveLoop_total w l fuel v {} hc hf
    (by norm_num [CurveScan.max_speed])
  unfold GetTrainAcceleration.curveCap
  simp only [hs]
  have hsum : ∃ sum, (if s.numcurve > 0 then idiv s.sum s.numcurve else some s.sum) = some sum := by
    split_ifs with h
    · unfold idiv
      rw [if_neg (by omega)]
      exact ⟨_, rfl⟩
    · exact ⟨_, rfl⟩
  obtain ⟨sum, hsum⟩ := hsum
  rw [hsum]
  simp only
  split_ifs
  · exact ⟨_, rfl, by norm_num⟩
  · refine ⟨_, rfl, ?_⟩
    obtain ⟨h1, h2⟩ := clamp_int_bounds sum 1 12 (by norm_num)
    nlinarith
  · exact ⟨_, rfl, hge⟩
  · exact ⟨_, rfl, hge⟩

theorem GetTrainAcceleration.stationLength_total (aenv : AccelEnv) (m : Map) (x : Vehicle) :
    ∀ (fuel tile : Nat) (len : Int),
      (∃ k, k < fuel ∧ aenv.IsCompatibleTrainStationTile m
        (GetTrainAcceleration.platformTile aenv x tile (k + 1)) x.tile = false) →
      ∃ n, GetTrainAcceleration.stationLength aenv m x fuel tile len = some n ∧ len < n := by
  intro fuel
  induction fuel with
  | zero =>
    rintro tile len ⟨k, hk, _⟩
    omega
  | succ f ih =>
    rintro tile len ⟨k, hk, hend⟩
    simp only [GetTrainAcceleration.stationLength]
    by_cases hcomp : aenv.IsCompatibleTrainStationTile m
        (tileAdd tile (aenv.TileOffsByDir (x.direction / 2))) x.tile = true
    · rw [if_pos hcomp]
      cases k with
      | zero =>
        simp only [GetTrainAcceleration.platformTile] at hend
        rw [hend] at hcomp
        exact absurd hcomp (by simp)
      | succ k1 =>
        obtain ⟨n, hn, hlt⟩ := ih (tileAdd tile (aenv.TileOffsByDir (x.direction / 2)))
          (len + 1) ⟨k1, by omega, hend⟩
        exact ⟨n, hn, by omega⟩
    · rw [if_neg hcomp]
      exact ⟨_, rfl, by omega⟩

/-- The speed cap is computed on every finite chain of a train whose
platform walk ends, and it is not negative. -/
theorem GetTrainAcceleration.speedCap_total (env : Env) (aenv : AccelEnv) (m : Map)
    (w : World) (v : Nat) (l : List Nat) (fuel : Nat)
    (hc : IsChain w (some v) l) (hf : l.length ≤ fuel)
    (htype : (w v).type = env.VEH_Train) (hwalk : StationWalkEnds env aenv m w v fuel) :
    ∃ c, GetTrainAcceleration.speedCap env aenv m w v fuel = some c ∧ 0 ≤ c := by
  obtain ⟨c0, hc0, hge⟩ := GetTrainAcceleration.curveCap_total w v l fuel hc hf
  unfold GetTrainAcceleration.speedCap
  simp only [hc0]
  have hmul : 0 ≤ c0 + c0.tdiv 2 * ((w v).rail.railtype : Int) := by
    have h1 : 0 ≤ c0.tdiv 2 := Int.tdiv_nonneg (by omega) (by norm_num)
    have h2 : (0 : Int) ≤ ((w v).rail.railtype : Int) := Int.ofNat_nonneg _
    have := mul_nonneg h1 h2
    omega
  by_cases hst : m.GetTileType (w v).tile = TileType.MP_STATION ∧
      (w v).subtype = env.TS_Front_Engine
  · rw [if_pos hst]
    have hts : ∃ b, TrainShouldStop env aenv m (w v) (w v).tile = some b := by
      unfold TrainShouldStop
      simp only [htype, hst.1, ne_eq, not_true_eq_false, if_false]
      split_ifs <;> exact ⟨_, rfl⟩
    obtain ⟨b, hb⟩ := hts
    rw [hb]
    cases b with
    | false => exact ⟨_, rfl, hmul⟩
    | true =>
      obtain ⟨n, hn, hpos⟩ := GetTrainAcceleration.stationLength_total aenv m (w v) fuel
        (w v).tile 0 (hwalk hst.1 hst.2)
      simp only [hn]
      unfold idiv
      rw [if_neg (by omega)]
      simp only
      refine ⟨_, rfl, ?_⟩
      exact le_trans (by omega) (le_max_right _ _)
  · rw [if_neg hst]
    exact ⟨_, rfl, hmul⟩

/-- The loop over the units returns on a finite chain; it caps the speed at
61 when a unit is inside a depot and leaves it alone otherwise. -/
theorem GetTrainAcceleration.unitLoop_spec (env : Env) (w : World) :
    ∀ (l : List Nat) (fuel : Nat) (h : Option Nat) (s : UnitScan), IsChain w h l →
      l.length ≤ fuel →
      ∃ s1, GetTrainAcceleration.unitLoop env w fuel h s = some s1 ∧
        s1.max_speed = (if ∃ u ∈ l, (w u).rail.track = 0x80 then min 61 s.max_speed
          else s.max_speed)
  | [], fuel, h, s, hc, _ => by
    have hh : h = none := hc
    subst hh
    refine ⟨s, by cases fuel <;> rfl, ?_⟩
    simp
  | a :: l, 0, h, s, _, hf => by simp at hf
  | a :: l, fuel + 1, h, s, hc, hf => by
    have hh : h = some a := hc.1
    subst hh
    simp only [GetTrainAcceleration.unitLoop]
    obtain ⟨s1, hrun, hms⟩ := GetTrainAcceleration.unitLoop_spec env w l fuel (w a).next
      (GetTrainAcceleration.unitStep env (w a) s) hc.2 (by simpa using hf)
    refine ⟨s1, hrun, ?_⟩
    rw [hms]
    have hstep : (GetTrainAcceleration.unitStep env (w a) s).max_speed =
        (if (w a).rail.track = 0x80 then min 61 s.max_speed else s.max_speed) := by
      unfold GetTrainAcceleration.unitStep
      simp only
      split_ifs <;> rfl
    rw [hstep]
    by_cases ha : (w a).rail.track = 0x80
    · have hex : ∃ u ∈ a :: l, (w u).rail.track = 0x80 := ⟨a, List.mem_cons_self _ _, ha⟩
      rw [if_pos ha, if_pos hex]
      split_ifs
      · rw [← min_assoc, min_self]
      · rfl
    · rw [if_neg ha]
      by_cases hl : ∃ u ∈ l, (w u).rail.track = 0x80
      · have hex : ∃ u ∈ a :: l, (w u).rail.track = 0x80 := by
          obtain ⟨u, hu, hut⟩ := hl
          exact ⟨u, List.mem_cons_of_mem _ hu, hut⟩
        rw [if_pos hl, if_pos hex]
      · have hex : ¬ ∃ u ∈ a :: l, (w u).rail.track = 0x80 := by
          rintro ⟨u, hu, hut⟩
          rcases List.mem_cons.mp hu with h | h
          · exact ha (h ▸ hut)
          · exact hl ⟨u, h, hut⟩
        rw [if_neg hl, if_neg hex]

theorem GetTrainAcceleration.scan_total (env : Env) (aenv : AccelEnv) (m : Map)
    (w : World) (v : Nat) (l : List Nat) (fuel : Nat)
    (hc : IsChain w (some v) l) (hf : l.length ≤ fuel)
    (htype : (w v).type = env.VEH_Train) (hwalk : StationWalkEnds env aenv m w v fuel) :
    ∃ c s, GetTrainAcceleration.speedCap env aenv m w v fuel = some c ∧ 0 ≤ c ∧
      GetTrainAcceleration.scan env aenv m w v fuel = some s ∧
      s.max_speed = (if ∃ u ∈ l, (w u).rail.track = 0x80
        then min 61 (min c ((w v).rail.cached_max_speed : Int))
        else min c ((w v).rail.cached_max_speed : Int)) := by
  obtain ⟨c, hcap, hge⟩ := GetTrainAcceleration.speedCap_total env aenv m w v l fuel hc hf
    htype hwalk
  obtain ⟨s, hs, hms⟩ := GetTrainAcceleration.unitLoop_spec env w l fuel (some v)
    { max_speed := min c ((w v).rail.cached_max_speed : Int) } hc hf
  refine ⟨c, s, hcap, hge, ?_, hms⟩
  unfold GetTrainAcceleration.scan
  simp only [hcap]
  exact hs

theorem GetTrainAcceleration.force_total (railtype : Nat) (mass power speed resistance : Int) :
    ∃ f, GetTrainAcceleration.force railtype mass power speed resistance = some f := by
  unfold GetTrainAcceleration.force
  by_cases hsp : speed > 0
  · simp only [hsp, if_true]
    by_cases h01 : railtype = 0 ∨ railtype = 1
    · simp only [h01, if_true]
      unfold idiv
      rw [if_neg (by omega)]
      exact ⟨_, rfl⟩
    · simp only [h01, if_false]
      split_ifs <;> exact ⟨_, rfl⟩
  · simp only [hsp, if_false]
    exact ⟨_, rfl⟩

/-- With the scans done and a cached weight that is not 0, the call returns
in both modes the quotient of the source. -/
theorem GetTrainAcceleration.returns (env : Env) (aenv : AccelEnv) (m : Map)
    (w : World) (v : Nat) (fuel : Nat) (s : UnitScan)
    (hs : GetTrainAcceleration.scan env aenv m w v fuel = some s)
    (hmass : (w v).rail.cached_weight ≠ 0) :
    ∃ r f, GetTrainAcceleration.totalResistance env aenv m w v fuel = some r ∧
      GetTrainAcceleration.finalForce env aenv m w v fuel = some f ∧
      GetTrainAcceleration env aenv m w v AM_ACCEL fuel =
        some (w.set v { w v with max_speed := (s.max_speed % 65536).toNat },
          (f - r).tdiv (((w v).rail.cached_weight : Int) * 4)) ∧
      GetTrainAcceleration env aenv m w v AM_BRAKE fuel =
        some (w.set v { w v with max_speed := (s.max_speed % 65536).toNat },
          min ((-f - r).tdiv (((w v).rail.cached_weight : Int) * 4))
            ((10000 : Int).tdiv (((w v).rail.cached_weight : Int) * 4))) := by
  obtain ⟨f, hforce⟩ := GetTrainAcceleration.force_total (w v).rail.railtype
    (w v).rail.cached_weight (toInt32 ((w v).rail.cached_power * 746))
    ((((w v).cur_speed : Int) * 10).tdiv 16)
    (GetTrainAcceleration.resistance (w v).rail.railtype (w v).rail.cached_weight
      ((((w v).cur_speed : Int) * 10).tdiv 16) s)
  have hm4 : ((w v).rail.cached_weight : Int) * 4 ≠ 0 := by
    have : ((w v).rail.cached_weight : Int) ≠ 0 := by exact_mod_cast hmass
    omega
  refine ⟨GetTrainAcceleration.resistance (w v).rail.railtype (w v).rail.cached_weight
      ((((w v).cur_speed : Int) * 10).tdiv 16) s, f,
    by simp only [GetTrainAcceleration.totalResistance, hs, Option.map_some'],
    by simp only [GetTrainAcceleration.finalForce, GetTrainAcceleration.totalResistance, hs,
      Option.map_some', Option.some_bind, hforce], ?_, ?_⟩
  · simp only [GetTrainAcceleration, hs, hforce, idiv, if_neg hm4, if_true]
  · simp only [GetTrainAcceleration, hs, hforce, idiv, if_neg hm4, AM_ACCEL, AM_BRAKE,
      Bool.true_eq_false, if_false]

theorem exRunning_walkEnds : StationWalkEnds exEnv exAccelEnv exStationMap exRunning 0 2 :=
  fun _ _ => ⟨1, by decide, by decide⟩

theorem exLeavingDepot_walkEnds : StationWalkEnds exEnv exAccelEnv exMap exLeavingDepot 0 2 :=
  fun h _ => absurd h (by decide)

/-- C16: for a train whose cached weight is positive, `GetTrainAcceleration`
returns `(F - R) / (mass * 4)` in the mode `AM_ACCEL` and
`min((-F - R) / (mass * 4), 10000 / (mass * 4))` in the mode `AM_BRAKE`, with
truncating division, where `R` is the total resistance and `F` the final force
that it computed; so a braking result never exceeds `10000 / (mass * 4)`.
The chain of the train is finite, the head is a train and the platform walk
of a stopping head ends. -/
theorem C16_acceleration_quotient (env : Env) (aenv : AccelEnv) (m : Map) (w : World)
    (v : Nat) (l : List Nat) (fuel : Nat)
    (hc : IsChain w (some v) l) (hf : l.length ≤ fuel)
    (htype : (w v).type = env.VEH_Train) (hwalk : StationWalkEnds env aenv m w v fuel)
    (hmass : 0 < (w v).rail.cached_weight) :
    ∃ r f, GetTrainAcceleration.totalResistance env aenv m w v fuel = some r ∧
      GetTrainAcceleration.finalForce env aenv m w v fuel = some f ∧
      (GetTrainAcceleration env aenv m w v AM_ACCEL fuel).map Prod.snd =
        some ((f - r).tdiv (((w v).rail.cached_weight : Int) * 4)) ∧
      (GetTrainAcceleration env aenv m w v AM_BRAKE fuel).map Prod.snd =
        some (min ((-f - r).tdiv (((w v).rail.cached_weight : Int) * 4))
          ((10000 : Int).tdiv (((w v).rail.cached_weight : Int) * 4))) ∧
      ∀ b, (GetTrainAcceleration env aenv m w v AM_BRAKE fuel).map Prod.snd = some b →
        b ≤ (10000 : Int).tdiv (((w v).rail.cached_weight : Int) * 4) := by
  obtain ⟨c, s, _, _, hs, _⟩ := GetTrainAcceleration.scan_total env aenv m w v l fuel hc hf
    htype hwalk
  obtain ⟨r, f, hr, hfo, hacc, hbr⟩ := GetTrainAcceleration.returns env aenv m w v fuel s hs
    (by omega)
  refine ⟨r, f, hr, hfo, ?_, ?_, ?_⟩
  · rw [hacc]
    rfl
  · rw [hbr]
    rfl
  · intro b hb
    rw [hbr] at hb
    simp only [Option.map_some', Option.some.injEq] at hb
    rw [← hb]
    exact min_le_right _ _

/-- Witness of C16: the running train of weight 80 on its platform; the
resistance is 14496, the force 16412, the results 5 and -96. -/
theorem C16_acceleration_quotient_witness :
    0 < (exRunning 0).rail.cached_weight ∧
    ∃ r f, GetTrainAcceleration.totalResistance exEnv exAccelEnv exStationMap exRunning 0 2
        = some r ∧
      GetTrainAcceleration.finalForce exEnv exAccelEnv exStationMap exRunning 0 2 = some f ∧
      (GetTrainAcceleration exEnv exAccelEnv exStationMap exRunning 0 AM_ACCEL 2).map Prod.snd =
        some ((f - r).tdiv (((exRunning 0).rail.cached_weight : Int) * 4)) ∧
      (GetTrainAcceleration exEnv exAccelEnv exStationMap exRunning 0 AM_BRAKE 2).map Prod.snd =
        some (min ((-f - r).tdiv (((exRunning 0).rail.cached_weight : Int) * 4))
          ((10000 : Int).tdiv (((exRunning 0).rail.cached_weight : Int) * 4))) ∧
      ∀ b, (GetTrainAcceleration exEnv exAccelEnv exStationMap exRunning 0 AM_BRAKE 2).map
          Prod.snd = some b →
        b ≤ (10000 : Int).tdiv (((exRunning 0).rail.cached_weight : Int) * 4) :=
  ⟨by decide,
    C16_acceleration_quotient exEnv exAccelEnv exStationMap exRunning 0 [0, 1] 2 (by decide)
      (by decide) rfl exRunning_walkEnds (by decide)⟩

/-- C17, amended: `GetTrainAcceleration` returns and writes one field, the
`max_speed` of the head; every other field of the head and every other
record of the pool is as before the call.  The chain of the train is finite,
the head is a train of non-zero cached weight and the platform walk of a
stopping head ends. -/
theorem C17_only_head_max_speed_written (env : Env) (aenv : AccelEnv) (m : Map) (w : World)
    (v : Nat) (l : List Nat) (mode : Bool) (fuel : Nat)
    (hc : IsChain w (some v) l) (hf : l.length ≤ fuel)
    (htype : (w v).type = env.VEH_Train) (hwalk : StationWalkEnds env aenv m w v fuel)
    (hmass : (w v).rail.cached_weight ≠ 0) :
    ∃ w1 a, GetTrainAcceleration env aenv m w v mode fuel = some (w1, a) ∧
      (∀ u, u ≠ v → w1 u = w u) ∧ w1 v = { w v with max_speed := (w1 v).max_speed } := by
  obtain ⟨c, s, _, _, hs, _⟩ := GetTrainAcceleration.scan_total env aenv m w v l fuel hc hf
    htype hwalk
  obtain ⟨r, f, _, _, hacc, hbr⟩ := GetTrainAcceleration.returns env aenv m w v fuel s hs hmass
  have hframe : (∀ u, u ≠ v →
      (w.set v { w v with max_speed := (s.max_speed % 65536).toNat }) u = w u) ∧
      (w.set v { w v with max_speed := (s.max_speed % 65536).toNat }) v =
        { w v with max_speed :=
          ((w.set v { w v with max_speed := (s.max_speed % 65536).toNat }) v).max_speed } := by
    constructor
    · intro u hu
      simp only [World.set, if_neg hu]
    · simp only [World.set, if_true]
  cases mode with
  | false => exact ⟨_, _, hacc, hframe⟩
  | true => exact ⟨_, _, hbr, hframe⟩

/-- Witness of C17: the running train on its platform, accelerating. -/
theorem C17_only_head_max_speed_written_witness :
    (exRunning 0).rail.cached_weight ≠ 0 ∧
    ∃ w1 a, GetTrainAcceleration exEnv exAccelEnv exStationMap exRunning 0 AM_ACCEL 2
        = some (w1, a) ∧
      (∀ u, u ≠ 0 → w1 u = exRunning u) ∧
      w1 0 = { exRunning 0 with max_speed := (w1 0).max_speed } :=
  ⟨by decide,
    C17_only_head_max_speed_written exEnv exAccelEnv exStationMap exRunning 0 [0, 1] AM_ACCEL 2
      (by decide) (by decide) rfl exRunning_walkEnds (by decide)⟩

/-- Counterexample to C17 as stated: the head of the running train carries
the speed limit 200 before the call and 100 after it. -/
theorem C17_counterexample :
    (exRunning 0).max_speed = 200 ∧
    (GetTrainAcceleration exEnv exAccelEnv exStationMap exRunning 0 AM_ACCEL 2).map
      (fun r => (r.1 0).max_speed) = some 100 := by
  decide

/-- C18, amended: for a train whose cached weight is not 0,
`GetTrainAcceleration` returns a value in both modes, for every current
speed and every rail type: no division of it meets a divisor 0.  The chain
of the train is finite, the head is a train and the platform walk of a
stopping head ends. -/
theorem C18_returns_for_nonzero_weight (env : Env) (aenv : AccelEnv) (m : Map) (w : World)
    (v : Nat) (l : List Nat) (mode : Bool) (fuel : Nat)
    (hc : IsChain w (some v) l) (hf : l.length ≤ fuel)
    (htype : (w v).type = env.VEH_Train) (hwalk : StationWalkEnds env aenv m w v fuel)
    (hmass : (w v).rail.cached_weight ≠ 0) :
    ∃ r, GetTrainAcceleration env aenv m w v mode fuel = some r := by
  obtain ⟨c, s, _, _, hs, _⟩ := GetTrainAcceleration.scan_total env aenv m w v l fuel hc hf
    htype hwalk
  obtain ⟨r, f, _, _, hacc, hbr⟩ := GetTrainAcceleration.returns env aenv m w v fuel s hs hmass
  cases mode with
  | false => exact ⟨_, hacc⟩
  | true => exact ⟨_, hbr⟩

/-- Witness of C18: the running train on its platform, braking. -/
theorem C18_returns_for_nonzero_weight_witness :
    (exRunning 0).rail.cached_weight ≠ 0 ∧
    ∃ r, GetTrainAcceleration exEnv exAccelEnv exStationMap exRunning 0 AM_BRAKE 2 = some r :=
  ⟨by decide,
    C18_returns_for_nonzero_weight exEnv exAccelEnv exStationMap exRunning 0 [0, 1] AM_BRAKE 2
      (by decide) (by decide) rfl exRunning_walkEnds (by decide)⟩

/-- Counterexample to C18 as stated: a train with the cached weight 0.  Both
scans are done, the resistance is 12960 and the force 0, but the last division
has the divisor `mass * 4 = 0`, and no value is returned in either mode. -/
theorem C18_counterexample :
    (exWeightless 0).rail.cached_weight = 0 ∧
    GetTrainAcceleration.totalResistance exEnv exAccelEnv exMap exWeightless 0 2 = some 12960 ∧
    GetTrainAcceleration.finalForce exEnv exAccelEnv exMap exWeightless 0 2 = some 0 ∧
    idiv (0 - 12960) (((exWeightless 0).rail.cached_weight : Int) * 4) = none ∧
    (GetTrainAcceleration exEnv exAccelEnv exMap exWeightless 0 AM_ACCEL 2).isNone = true ∧
    (GetTrainAcceleration exEnv exAccelEnv exMap exWeightless 0 AM_BRAKE 2).isNone = true := by
  decide

/-- C19, amended: after `GetTrainAcceleration` the `max_speed` of the head is
`min(C, cached_max_speed)` when no unit of the train is inside a depot
(track 0x80), and `min(61, min(C, cached_max_speed))` when one is; `C` is the
curve limit after the rail type factor, replaced by the station approach
limit for a head that must stop at the station it stands on.  The cached
maximum speed is a 16-bit value, the chain is finite, the head is a train of
non-zero cached weight and the platform walk of a stopping head ends. -/
theorem C19_stored_speed_limit (env : Env) (aenv : AccelEnv) (m : Map) (w : World)
    (v : Nat) (l : List Nat) (mode : Bool) (fuel : Nat)
    (hc : IsChain w (some v) l) (hf : l.length ≤ fuel)
    (htype : (w v).type = env.VEH_Train) (hwalk : StationWalkEnds env aenv m w v fuel)
    (hmass : (w v).rail.cached_weight ≠ 0) (hms : (w v).rail.cached_max_speed < 65536) :
    ∃ c w1 a, GetTrainAcceleration.speedCap env aenv m w v fuel = some c ∧
      GetTrainAcceleration env aenv m w v mode fuel = some (w1, a) ∧
      ((w1 v).max_speed : Int) = (if ∃ u ∈ l, (w u).rail.track = 0x80
        then min 61 (min c ((w v).rail.cached_max_speed : Int))
        else min c ((w v).rail.cached_max_speed : Int)) := by
  obtain ⟨c, s, hcap, hge, hs, hsm⟩ := GetTrainAcceleration.scan_total env aenv m w v l fuel
    hc hf htype hwalk
  obtain ⟨r, f, _, _, hacc, hbr⟩ := GetTrainAcceleration.returns env aenv m w v fuel s hs hmass
  have hrange : 0 ≤ s.max_speed ∧ s.max_speed < 65536 := by
    rw [hsm]
    have h1 : (0 : Int) ≤ ((w v).rail.cached_max_speed : Int) := Int.ofNat_nonneg _
    have h2 : ((w v).rail.cached_max_speed : Int) < 65536 := by exact_mod_cast hms
    split_ifs
    · refine ⟨le_min (by norm_num) (le_min hge h1), ?_⟩
      exact lt_of_le_of_lt (min_le_left _ _) (by norm_num)
    · exact ⟨le_min hge h1, lt_of_le_of_lt (min_le_right _ _) h2⟩
  have hstore : (((w.set v { w v with max_speed := (s.max_speed % 65536).toNat }) v).max_speed
      : Int) = s.max_speed := by
    simp only [World.set, if_true]
    rw [Int.emod_eq_of_lt hrange.1 hrange.2, Int.toNat_of_nonneg hrange.1]
  cases mode with
  | false => exact ⟨c, _, _, hcap, hacc, hstore.trans hsm⟩
  | true => exact ⟨c, _, _, hcap, hbr, hstore.trans hsm⟩

/-- Witness of C19: the running train on its platform; the station approach
limit is 155, the cached maximum speed 100, and 100 is stored. -/
theorem C19_stored_speed_limit_witness :
    (exRunning 0).rail.cached_weight ≠ 0 ∧ (exRunning 0).rail.cached_max_speed < 65536 ∧
    ∃ c w1 a, GetTrainAcceleration.speedCap exEnv exAccelEnv exStationMap exRunning 0 2
        = some c ∧
      GetTrainAcceleration exEnv exAccelEnv exStationMap exRunning 0 AM_ACCEL 2
        = some (w1, a) ∧
      ((w1 0).max_speed : Int) = (if ∃ u ∈ ([0, 1] : List Nat), (exRunning u).rail.track = 0x80
        then min 61 (min c ((exRunning 0).rail.cached_max_speed : Int))
        else min c ((exRunning 0).rail.cached_max_speed : Int)) :=
  ⟨by decide, by decide,
    C19_stored_speed_limit exEnv exAccelEnv exStationMap exRunning 0 [0, 1] AM_ACCEL 2
      (by decide) (by decide) rfl exRunning_walkEnds (by decide) (by decide)⟩

/-- Counterexample to C19 as stated: a train on plain track whose wagon is
still inside a depot.  The limit `C` is 2000 and the cached maximum speed
100, so the minimum of the two is 100, but the head gets the limit 61. -/
theorem C19_counterexample :
    GetTrainAcceleration.speedCap exEnv exAccelEnv exMap exLeavingDepot 0 2 = some 2000 ∧
    (exLeavingDepot 0).rail.cached_max_speed = 100 ∧
    (GetTrainAcceleration exEnv exAccelEnv exMap exLeavingDepot 0 AM_ACCEL 2).map
      (fun r => (r.1 0).max_speed) = some 61 := by
  decide

/-! ### Movement -/

theorem GetNewVehicleDirectionByTile.enterdir_valid (menv : MoveEnv) (new_tile old_tile dir : Nat)
    (h : GetNewVehicleDirectionByTile menv new_tile old_tile = some dir) :
    dir >>> 1 = 0 ∨ dir >>> 1 = 1 ∨ dir >>> 1 = 2 ∨ dir >>> 1 = 3 := by
  unfold GetNewVehicleDirectionByTile at h
  simp only at h
  split at h
  · rename_i hlt
    simp only [Option.some.injEq] at h
    subst h
    generalize toUint _ = offs at hlt
    interval_cases offs <;> decide
  · exact absurd h (by simp)

/-! ### The reversal on the tile grid -/

theorem SameHalt.rfl_halt (w : World) : SameHalt w w := fun _ => ⟨rfl, rfl, rfl⟩

theorem SameHalt.trans_halt {w w1 w2 : World} (h1 : SameHalt w w1) (h2 : SameHalt w1 w2) :
    SameHalt w w2 := fun j =>
  ⟨(h2 j).1.trans (h1 j).1, (h2 j).2.1.trans (h1 j).2.1, (h2 j).2.2.trans (h1 j).2.2⟩

theorem SameHalt.set_halt (w : World) (u : Nat) (x : Vehicle) (hx : x.sameHalt (w u)) :
    SameHalt w (w.set u x) := by
  intro j
  by_cases hj : j = u
  · subst hj
    rw [World.set_same]
    exact hx
  · rw [World.set_other _ _ _ _ hj]
    exact ⟨rfl, rfl, rfl⟩

theorem UpdateVarsAfterSwap.keeps_halt (hooks : Hooks) (hk : hooks.KeepHalt) (w : World)
    (v : Nat) : SameHalt w (UpdateVarsAfterSwap hooks w v) := by
  unfold UpdateVarsAfterSwap
  have h1 : SameHalt w (UpdateTrainDeltaXY w v (w v).direction) :=
    SameHalt.set_halt w v _ ⟨rfl, rfl, rfl⟩
  generalize UpdateTrainDeltaXY w v (w v).direction = w1 at h1
  have h2 : SameHalt w1 (w1.set v { w1 v with
      cur_image := hooks.GetTrainImage w1 v (w1 v).direction }) :=
    SameHalt.set_halt w1 v _ ⟨rfl, rfl, rfl⟩
  exact (h1.trans_halt h2).trans_halt (fun j => hk.1 _ v j)

/-- `ReverseTrainSwapVeh` leaves the speed, the sub-speed and the wait counter
of every unit as they are, when the hooks do. -/
theorem ReverseTrainSwapVeh.swap_halt (env : Env) (hooks : Hooks) (hk : hooks.KeepHalt)
    (w : World) (v l r : Nat) (w1 : World)
    (hrun : ReverseTrainSwapVeh env hooks w v l r = some w1) : SameHalt w w1 := by
  unfold ReverseTrainSwapVeh at hrun
  split at hrun
  · rename_i a b _ _
    by_cases hab : a = b
    · subst hab
      rw [if_neg (not_not.mpr rfl)] at hrun
      simp only [Option.some.injEq] at hrun
      rw [← hrun]
      have h1 : SameHalt w (w.set a { w a with
          direction := toggleDirection (w a).rail.track (w a).direction }) :=
        SameHalt.set_halt w a _ ⟨rfl, rfl, rfl⟩
      exact (h1.trans_halt (UpdateVarsAfterSwap.keeps_halt hooks hk _ a)).trans_halt
        (fun j => hk.2 _ _ _ _ _ j)
    · rw [if_pos hab] at hrun
      simp only [Option.some.injEq] at hrun
      rw [← hrun]
      have h1 : SameHalt w (w.set a (swappedRecord env (w a) (w b)
          (SwapTrainFlags env (w a).rail.flags (w b).rail.flags).1)) :=
        SameHalt.set_halt w a _ ⟨rfl, rfl, rfl⟩
      have h2 : SameHalt w ((w.set a (swappedRecord env (w a) (w b)
          (SwapTrainFlags env (w a).rail.flags (w b).rail.flags).1)).set b
          (swappedRecord env (w b) (w a)
            (SwapTrainFlags env (w a).rail.flags (w b).rail.flags).2)) := by
        refine h1.trans_halt (SameHalt.set_halt _ b _ ?_)
        rw [World.set_other _ _ _ _ (fun e => hab e.symm)]
        exact ⟨rfl, rfl, rfl⟩
      exact (((h2.trans_halt (UpdateVarsAfterSwap.keeps_halt hooks hk _ a)).trans_halt
        (UpdateVarsAfterSwap.keeps_halt hooks hk _ b)).trans_halt
        (fun j => hk.2 _ _ _ _ _ j)).trans_halt (fun j => hk.2 _ _ _ _ _ j)
  · simp at hrun

theorem ReverseTrainDirection.swaps_halt (env : Env) (hooks : Hooks) (hk : hooks.KeepHalt)
    (v : Nat) : ∀ (fuel : Nat) (l r : Int) (w w1 : World),
      ReverseTrainDirection.swaps env hooks v fuel l r w = some w1 → SameHalt w w1
  | 0, _, _, _, _, h => by simp [ReverseTrainDirection.swaps] at h
  | fuel + 1, l, r, w, w1, h => by
    simp only [ReverseTrainDirection.swaps] at h
    cases hs : ReverseTrainSwapVeh env hooks w v l.toNat r.toNat with
    | none => simp [hs] at h
    | some wa =>
      simp only [hs] at h
      have h1 := ReverseTrainSwapVeh.swap_halt env hooks hk w v _ _ wa hs
      split_ifs at h
      · exact h1.trans_halt (ReverseTrainDirection.swaps_halt env hooks hk v fuel _ _ wa w1 h)
      · simp only [Option.some.injEq] at h
        rw [← h]
        exact h1

/-- On a chain whose units all have the same cached length the loop of
`AdvanceWagons` never calls the controller and returns the pool and the tile
grid as they are. -/
theorem AdvanceWagons.loopOnGrid_equal_lengths
    (ctrl : World → Map → Nat → Option (World × Map)) (before : Bool)
    (w : World) (m : Map) (len : Nat) :
    ∀ (fuel : Nat) (c : List Nat) (base : Nat) (length : Nat),
      IsChain w (some base) (base :: c) →
      (∀ u ∈ base :: c, (w u).rail.cached_veh_length = len) →
      length ≤ c.length + 1 → length ≤ fuel + 2 →
      AdvanceWagons.loopOnGrid ctrl before fuel base (w base).next length w m = some (w, m)
  | 0, c, base, length, _, _, _, hf => by
    simp only [AdvanceWagons.loopOnGrid]
    rw [if_neg (by omega)]
  | fuel + 1, c, base, length, hc, hlen, hl, hf => by
    simp only [AdvanceWagons.loopOnGrid]
    by_cases hgt : length > 2
    · rw [if_pos hgt]
      cases c with
      | nil => simp at hl; omega
      | cons b c =>
        have hn : (w base).next = some b := hc.2.1
        have hc2 : IsChain w (some b) (b :: c) := ⟨rfl, hc.2.2⟩
        have hl2 : length - 3 < (b :: c).length := by
          simp only [List.length_cons] at hl ⊢
          omega
        have hlast := nthNext_chain (b :: c) (length - 3) b none hc2 hl2
        have hmem : (b :: c).getD (length - 3) 0 ∈ base :: b :: c := by
          apply List.mem_cons_of_mem
          rw [List.getD_eq_getElem _ _ hl2]
          exact List.getElem_mem _
        have hd : ((w ((b :: c).getD (length - 3) 0)).rail.cached_veh_length : Int) -
            ((w base).rail.cached_veh_length : Int) = 0 := by
          rw [hlen _ hmem, hlen base (List.mem_cons_self _ _)]
          simp
        simp only [hn, hlast, hd]
        have hnot : ¬ ((if before = true then (0 : Int) * (-1) else 0) > 0) := by
          split_ifs <;> simp
        rw [if_neg hnot]
        simp only
        exact AdvanceWagons.loopOnGrid_equal_lengths ctrl before w m len fuel c b (length - 2)
          hc2 (fun u hu => hlen u (List.mem_cons_of_mem _ hu))
          (by simp only [List.length_cons] at hl; omega) (by omega)
    · rw [if_neg hgt]

theorem AdvanceWagons.onGrid_equal_lengths (ctrl : World → Map → Nat → Option (World × Map))
    (before : Bool) (m : Map) (w : World) (v : Nat) (c : List Nat) (fuel : Nat)
    (hc : IsChain w (some v) c)
    (hlen : ∀ u ∈ c, (w u).rail.cached_veh_length = (w v).rail.cached_veh_length)
    (hf : c.length ≤ fuel) :
    AdvanceWagons.onGrid ctrl m w v before fuel = some (w, m) := by
  obtain ⟨t, rfl⟩ := hc.head_cons
  unfold AdvanceWagons.onGrid
  rw [CountVehiclesInChain.count_chain w t v fuel hc hf]
  simp only
  exact AdvanceWagons.loopOnGrid_equal_lengths ctrl before w m _ fuel t v _ hc hlen
    (by simp) (by simp only [List.length_cons] at hf ⊢; omega)

/-- One reversal on the tile grid of a chain of units of equal cached length,
with hooks that keep the places: it returns; the pool is the one after the
swap loop `w2` with the reversing flag of the head cleared; every unit is in
the flipped place of its mirror unit; and the only change of the grid is the
one of `DisableTrainCrossing`. -/
theorem ReverseTrainDirection.onGrid_spec (env : Env) (hooks : Hooks) (penv : PathEnv)
    (ctrl : World → Map → Nat → Option (World × Map)) (hk : hooks.KeepPlaces)
    (m : Map) (w : World) (v : Nat) (c : List Nat) (fuel : Nat)
    (hc : IsChain w (some v) c)
    (hlen : ∀ u ∈ c, (w u).rail.cached_veh_length = (w v).rail.cached_veh_length)
    (hf : c.length ≤ fuel) :
    ∃ w2, ReverseTrainDirection.swaps env hooks v fuel 0 ((c.length - 1 : Nat) : Int) w =
        some w2 ∧
      (∃ tile, ReverseTrainDirection.onGrid env hooks penv ctrl m w v fuel =
        some (w2.set v { w2 v with rail := { (w2 v).rail with
          flags := CLRBIT (w2 v).rail.flags env.VRF_REVERSING } },
          DisableTrainCrossing env w m tile)) ∧
      (∀ i, i < c.length →
        (w2 (c.getD i 0)).place = flipPlace (w (c.getD (c.length - 1 - i) 0)).place) := by
  obtain ⟨t, ht⟩ := hc.head_cons
  have hpos : 0 < c.length := by rw [ht]; simp
  have hcount : ReverseTrainDirection.count w fuel v (-1) = some ((c.length - 1 : Nat) : Int) := by
    subst ht
    rw [ReverseTrainDirection.walk_count_spec w t v fuel (-1) hc hf]
    congr 1
    simp
  obtain ⟨w2, hswaps, hkeep2, hplace2⟩ :=
    ReverseTrainDirection.swaps_spec env hooks hk v c w hc fuel 0 (c.length - 1) w
      (by omega) (by omega) (by omega) (fun _ => ⟨rfl, rfl⟩)
      (by
        intro i hi
        rw [if_neg (by omega)])
  have hc2 : IsChain w2 (some v) c :=
    (IsSeg.congr c _ none (fun j _ => (hkeep2 j).1)).mpr hc
  have hlen2 : ∀ u ∈ c, (w2 u).rail.cached_veh_length = (w2 v).rail.cached_veh_length := by
    intro u hu
    rw [(hkeep2 u).2, (hkeep2 v).2]
    exact hlen u hu
  simp only [Nat.cast_zero] at hswaps
  refine ⟨w2, hswaps, ⟨tileAdd (w v).tile (penv.TileOffsByDir
    (if ((w v).direction &&& 1) = 0 ∧
        (w v).rail.track ≠ _state_dir_table.getD ((w v).direction >>> 1) 0 then
      (((((w v).direction >>> 1 : Nat) : Int) - 1) % 4).toNat
    else (w v).direction >>> 1)), ?_⟩, hplace2⟩
  unfold ReverseTrainDirection.onGrid
  simp only [hcount, AdvanceWagons.onGrid_equal_lengths ctrl true _ w v c fuel hc hlen hf,
    hswaps, AdvanceWagons.onGrid_equal_lengths ctrl false _ w2 v c fuel hc2 hlen2 hf]

/-- The code at the label `reverse_train_direction` for a chain of units of
equal cached length, with hooks that keep the places: the step returns with
every unit in the flipped place of its mirror unit, and with hooks that keep
speed, sub-speed and wait counter these three are 0 for `v` in the pool
returned. -/
theorem TrainController.reverse_spec_grid (env : Env) (hooks : Hooks) (penv : PathEnv)
    (ctrl : World → Map → Nat → Option (World × Map)) (hk : hooks.KeepPlaces)
    (m : Map) (w : World) (v : Nat) (c : List Nat) (fuel : Nat)
    (hc : IsChain w (some v) c)
    (hlen : ∀ u ∈ c, (w u).rail.cached_veh_length = (w v).rail.cached_veh_length)
    (hf : c.length ≤ fuel) :
    ∃ w1 m1, TrainController.reverse_train_direction env hooks penv ctrl m w v fuel =
        some (Outcome.done w1 m1) ∧
      (∀ i, i < c.length →
        (w1 (c.getD i 0)).place = flipPlace (w (c.getD (c.length - 1 - i) 0)).place) ∧
      (hooks.KeepHalt → (w1 v).cur_speed = 0 ∧ (w1 v).subspeed = 0 ∧
        (w1 v).load_unload_time_rem = 0) := by
  have hkeys : SameKeys w (w.set v { w v with load_unload_time_rem := 0, cur_speed := 0, subspeed := 0 }) :=
    SameKeys.set_key w v _ ⟨rfl, rfl, rfl⟩
  generalize hw0 : w.set v { w v with load_unload_time_rem := 0, cur_speed := 0, subspeed := 0 } = w0
    at hkeys
  have h0 : (w0 v).cur_speed = 0 ∧ (w0 v).subspeed = 0 ∧ (w0 v).load_unload_time_rem = 0 := by
    rw [← hw0, World.set_same]
    exact ⟨rfl, rfl, rfl⟩
  obtain ⟨w2, hswaps, ⟨tile, hrun⟩, hflip⟩ :=
    ReverseTrainDirection.onGrid_spec env hooks penv ctrl hk m w0 v c fuel
      ((hkeys.isSeg_keys c _ none).mpr hc)
      (by
        intro u hu
        rw [(hkeys u).2.2, (hkeys v).2.2]
        exact hlen u hu) hf
  have hfin : SameKeys w2 (w2.set v { w2 v with rail := { (w2 v).rail with
      flags := CLRBIT (w2 v).rail.flags env.VRF_REVERSING } }) :=
    SameKeys.set_key w2 v _ ⟨rfl, rfl, rfl⟩
  refine ⟨w2.set v { w2 v with rail := { (w2 v).rail with
      flags := CLRBIT (w2 v).rail.flags env.VRF_REVERSING } },
    DisableTrainCrossing env w0 m tile, ?_, ?_, ?_⟩
  · unfold TrainController.reverse_train_direction
    simp only [hw0, hrun, Option.map_some']
  · intro i hi
    rw [(hfin _).2.1, hflip i hi, (hkeys _).2.1]
  · intro hh
    have hs := ReverseTrainDirection.swaps_halt env hooks hh v fuel _ _ w0 w2 hswaps
    rw [World.set_same]
    exact ⟨(hs v).1.trans h0.1, (hs v).2.1.trans h0.2.1, (hs v).2.2.trans h0.2.2⟩

/-! ### The reversal on the pool and on the grid

For calls of `TrainController` whose pool does not hang on the tile grid, the
pool after the functions on the grid is the pool after the functions on the
pool alone. -/

theorem repeatController.repeat_pool (ctrl2 : World → Map → Nat → Option (World × Map))
    (ctrl : World → Nat → Option World)
    (h : ∀ w m u, (ctrl2 w m u).map Prod.fst = ctrl w u) (first : Nat) :
    ∀ (n : Nat) (w : World) (m : Map),
      (repeatController.onGrid ctrl2 first n w m).map Prod.fst = repeatController ctrl first n w
  | 0, w, m => rfl
  | n + 1, w, m => by
    simp only [repeatController.onGrid, repeatController]
    rw [← h w m first]
    cases ctrl2 w m first with
    | none => rfl
    | some r =>
      obtain ⟨w1, m1⟩ := r
      exact repeatController.repeat_pool ctrl2 ctrl h first n w1 m1

theorem AdvanceWagons.loopOnGrid_pool (ctrl2 : World → Map → Nat → Option (World × Map))
    (ctrl : World → Nat → Option World)
    (h : ∀ w m u, (ctrl2 w m u).map Prod.fst = ctrl w u) (before : Bool) :
    ∀ (fuel base : Nat) (first : Option Nat) (length : Nat) (w : World) (m : Map),
      (AdvanceWagons.loopOnGrid ctrl2 before fuel base first length w m).map Prod.fst =
        AdvanceWagons.loop ctrl before fuel base first length w
  | 0, base, first, length, w, m => by
    simp only [AdvanceWagons.loopOnGrid, AdvanceWagons.loop]
    split_ifs <;> rfl
  | fuel + 1, base, first, length, w, m => by
    simp only [AdvanceWagons.loopOnGrid, AdvanceWagons.loop]
    by_cases hgt : length > 2
    · rw [if_pos hgt, if_pos hgt]
      cases first with
      | none => rfl
      | some fst =>
        simp only
        cases hl : nthNext w (length - 3) fst with
        | none => rfl
        | some last =>
          simp only
          by_cases hd : (if before = true then
              (((w last).rail.cached_veh_length : Int) -
                ((w base).rail.cached_veh_length : Int)) * (-1)
            else ((w last).rail.cached_veh_length : Int) -
              ((w base).rail.cached_veh_length : Int)) > 0
          · rw [if_pos hd, if_pos hd]
            rw [← repeatController.repeat_pool ctrl2 ctrl h fst _ _ m]
            cases repeatController.onGrid ctrl2 fst _ (w.set last { w last with next := none })
                m with
            | none => rfl
            | some r =>
              obtain ⟨w2, m2⟩ := r
              exact AdvanceWagons.loopOnGrid_pool ctrl2 ctrl h before fuel _ _ _ _ _
          · rw [if_neg hd, if_neg hd]
            exact AdvanceWagons.loopOnGrid_pool ctrl2 ctrl h before fuel _ _ _ _ _
    · rw [if_neg hgt, if_neg hgt]
      rfl

theorem AdvanceWagons.advance_pool (ctrl2 : World → Map → Nat → Option (World × Map))
    (ctrl : World → Nat → Option World)
    (h : ∀ w m u, (ctrl2 w m u).map Prod.fst = ctrl w u) (before : Bool) (m : Map)
    (w : World) (v fuel : Nat) :
    (AdvanceWagons.onGrid ctrl2 m w v before fuel).map Prod.fst =
      AdvanceWagons ctrl w v before fuel := by
  unfold AdvanceWagons.onGrid AdvanceWagons
  cases CountVehiclesInChain w fuel v with
  | none => rfl
  | some n => exact AdvanceWagons.loopOnGrid_pool ctrl2 ctrl h before fuel _ _ _ _ _

/-- The pool after `ReverseTrainDirection.onGrid` is the pool after
`ReverseTrainDirection`, for calls of `TrainController` whose pool does not
hang on the tile grid. -/
theorem ReverseTrainDirection.reverse_pool (env : Env) (hooks : Hooks) (penv : PathEnv)
    (ctrl2 : World → Map → Nat → Option (World × Map)) (ctrl : World → Nat → Option World)
    (h : ∀ w m u, (ctrl2 w m u).map Prod.fst = ctrl w u) (m : Map) (w : World)
    (v fuel : Nat) :
    (ReverseTrainDirection.onGrid env hooks penv ctrl2 m w v fuel).map Prod.fst =
      ReverseTrainDirection env hooks ctrl w v fuel := by
  unfold ReverseTrainDirection.onGrid ReverseTrainDirection
  simp only
  cases ReverseTrainDirection.count w fuel v (-1) with
  | none => rfl
  | some r =>
    simp only
    rw [← AdvanceWagons.advance_pool ctrl2 ctrl h true _ w v fuel]
    cases AdvanceWagons.onGrid ctrl2 _ w v true fuel with
    | none => rfl
    | some r1 =>
      obtain ⟨w1, m1⟩ := r1
      simp only [Option.map_some']
      cases ReverseTrainDirection.swaps env hooks v fuel 0 r w1 with
      | none => rfl
      | some w2 =>
        simp only
        rw [← AdvanceWagons.advance_pool ctrl2 ctrl h false m1 w2 v fuel]
        cases AdvanceWagons.onGrid ctrl2 m1 w2 v false fuel with
        | none => rfl
        | some r3 =>
          obtain ⟨w3, m3⟩ := r3
          rfl

/-- The new-tile branch sends a unit whose tile offers no track bits, or
fails the compatibility check, to the label `invalid_rail`. -/
theorem TrainController.newTile_invalid (env : Env) (hooks : Hooks) (penv : PathEnv)
    (menv : MoveEnv) (ctrl : World → Map → Nat → Option (World × Map)) (rnd : Nat → Nat) (m : Map)
    (w : World) (prev : Option Nat) (v : Nat) (gp : GetNewVehiclePosResult) (fuel dir : Nat)
    (hdir : GetNewVehicleDirectionByTile menv gp.new_tile gp.old_tile = some dir)
    (hbad : (TrainController.trackBits penv menv m w prev v gp.new_tile (dir >>> 1)).2.2 = 0 ∨
      CheckCompatibleRail env m (w v) gp.new_tile = false) :
    TrainController.newTile env hooks penv menv ctrl rnd m w prev v gp fuel =
      TrainController.invalid_rail env hooks penv ctrl m w prev v fuel := by
  have hvalid := GetNewVehicleDirectionByTile.enterdir_valid menv _ _ dir hdir
  unfold TrainController.newTile
  simp only [hdir]
  rw [if_neg (not_not.mpr hvalid)]
  by_cases hb : (TrainController.trackBits penv menv m w prev v gp.new_tile (dir >>> 1)).2.2 = 0
  · simp only [hb, if_true]
  · rcases hbad with h | h
    · exact absurd h hb
    · simp only [hb, if_false, h, if_true]

/-- C13: in `TrainController`, when the tile about to be entered offers no
reachable track bits or fails the compatibility check, the step of the head
(no unit before it in the loop) stores 0 in its wait counter, its speed and
its sub-speed, reverses the consist with `ReverseTrainDirection` and returns
without the error.  For a chain of units of equal cached length and hooks
that keep the places the reversal returns with every unit in the flipped
place of its mirror unit; with hooks that keep speed, sub-speed and wait
counter the head has speed 0, sub-speed 0 and wait counter 0 in the pool
returned.  The step of a trailing unit ends with the fatal disconnect error
with the pool and the tile grid as they were before the step: the unit has
not been moved. -/
theorem C13_invalid_rail_reverses_or_disconnects (env : Env) (hooks : Hooks) (penv : PathEnv)
    (aenv : AccelEnv) (menv : MoveEnv) (ctrl : World → Map → Nat → Option (World × Map))
    (rnd : Nat → Nat) (m : Map) (w : World) (prev : Option Nat) (v : Nat) (fuel dir : Nat)
    (htrack : (w v).rail.track ≠ 0x40)
    (hnew : (menv.GetNewVehiclePos w v).2 = false)
    (hdir : GetNewVehicleDirectionByTile menv (menv.GetNewVehiclePos w v).1.new_tile
      (menv.GetNewVehiclePos w v).1.old_tile = some dir)
    (hbad : (TrainController.trackBits penv menv m w prev v
        (menv.GetNewVehiclePos w v).1.new_tile (dir >>> 1)).2.2 = 0 ∨
      CheckCompatibleRail env m (w v) (menv.GetNewVehiclePos w v).1.new_tile = false) :
    (prev = none →
      TrainController.step env hooks penv aenv menv ctrl rnd m w prev v fuel =
        (ReverseTrainDirection.onGrid env hooks penv ctrl m
          (w.set v { w v with load_unload_time_rem := 0, cur_speed := 0, subspeed := 0 })
          v fuel).map (fun r => Outcome.done r.1 r.2)) ∧
    (prev = none → ∀ c : List Nat, IsChain w (some v) c →
      (∀ u ∈ c, (w u).rail.cached_veh_length = (w v).rail.cached_veh_length) →
      c.length ≤ fuel → hooks.KeepPlaces →
      ∃ w1 m1, TrainController.step env hooks penv aenv menv ctrl rnd m w prev v fuel =
          some (Outcome.done w1 m1) ∧
        (∀ i, i < c.length →
          (w1 (c.getD i 0)).place = flipPlace (w (c.getD (c.length - 1 - i) 0)).place) ∧
        (hooks.KeepHalt → (w1 v).cur_speed = 0 ∧ (w1 v).subspeed = 0 ∧
          (w1 v).load_unload_time_rem = 0)) ∧
    (prev ≠ none →
      TrainController.step env hooks penv aenv menv ctrl rnd m w prev v fuel =
        some (Outcome.disconnect w m)) := by
  have hstep : TrainController.step env hooks penv aenv menv ctrl rnd m w prev v fuel =
      TrainController.invalid_rail env hooks penv ctrl m w prev v fuel := by
    unfold TrainController.step
    simp only [ne_eq, htrack, not_false_eq_true, if_true, hnew, Bool.false_eq_true, if_false]
    exact TrainController.newTile_invalid env hooks penv menv ctrl rnd m w prev v _ fuel dir
      hdir hbad
  have hhead : prev = none →
      TrainController.step env hooks penv aenv menv ctrl rnd m w prev v fuel =
        TrainController.reverse_train_direction env hooks penv ctrl m w v fuel := by
    intro hp
    rw [hstep]
    unfold TrainController.invalid_rail
    rw [if_neg (not_not.mpr hp)]
  refine ⟨?_, ?_, ?_⟩
  · intro hp
    rw [hhead hp]
    rfl
  · intro hp c hc hlen hf hk
    rw [hhead hp]
    exact TrainController.reverse_spec_grid env hooks penv ctrl hk m w v c fuel hc hlen hf
  · intro hp
    rw [hstep]
    unfold TrainController.invalid_rail
    rw [if_pos hp]

theorem exHooks_keepHalt : exHooks.KeepHalt :=
  ⟨fun _ _ _ => ⟨rfl, rfl, rfl⟩, fun _ _ _ _ _ _ => ⟨rfl, rfl, rfl⟩⟩

/-- Witness of C13: on the line of `exRailMap` tile 11 has no track.  The
head 0 of the first train, two units of equal length, is reversed: the step
returns with the two units in exchanged, flipped places and the head at
speed 0, sub-speed 0 and wait counter 0.  The wagon 3 of the second train
ends in the disconnect error. -/
theorem C13_invalid_rail_reverses_or_disconnects_witness :
    (TrainController.step exEnv exHooks exSignalEnv exAccelEnv exMoveEnv (fun _ _ _ => none)
        (fun _ => 0) exRailMap exTracks none 0 4 =
      (ReverseTrainDirection.onGrid exEnv exHooks exSignalEnv (fun _ _ _ => none) exRailMap
        (exTracks.set 0 { exTracks 0 with load_unload_time_rem := 0, cur_speed := 0, subspeed := 0 })
        0 4).map (fun r => Outcome.done r.1 r.2)) ∧
    (∃ w1 m1, TrainController.step exEnv exHooks exSignalEnv exAccelEnv exMoveEnv
        (fun _ _ _ => none) (fun _ => 0) exRailMap exTracks none 0 4 =
          some (Outcome.done w1 m1) ∧
        (w1 0).place = flipPlace (exTracks 1).place ∧
        (w1 1).place = flipPlace (exTracks 0).place ∧
        (w1 0).cur_speed = 0 ∧ (w1 0).subspeed = 0 ∧ (w1 0).load_unload_time_rem = 0) ∧
    (TrainController.step exEnv exHooks exSignalEnv exAccelEnv exMoveEnv (fun _ _ _ => none)
        (fun _ => 0) exRailMap exTracks (some 2) 3 4 =
      some (Outcome.disconnect exTracks exRailMap)) := by
  refine ⟨(C13_invalid_rail_reverses_or_disconnects exEnv exHooks exSignalEnv exAccelEnv
      exMoveEnv (fun _ _ _ => none) (fun _ => 0) exRailMap exTracks none 0 4 5 (by decide)
      (by decide) (by decide) (Or.inl (by decide))).1 rfl, ?_,
    (C13_invalid_rail_reverses_or_disconnects exEnv exHooks exSignalEnv exAccelEnv exMoveEnv
      (fun _ _ _ => none) (fun _ => 0) exRailMap exTracks (some 2) 3 4 5 (by decide)
      (by decide) (by decide) (Or.inl (by decide))).2.2 (by simp)⟩
  obtain ⟨w1, m1, h1, h2, h3⟩ :=
    (C13_invalid_rail_reverses_or_disconnects exEnv exHooks exSignalEnv exAccelEnv
      exMoveEnv (fun _ _ _ => none) (fun _ => 0) exRailMap exTracks none 0 4 5 (by decide)
      (by decide) (by decide) (Or.inl (by decide))).2.1 rfl [0, 1] (by decide) (by decide)
      (by decide) exHooks_keepPlaces
  exact ⟨w1, m1, h1, h2 0 (by decide), h2 1 (by decide), h3 exHooks_keepHalt⟩

/-- The step of the head 0 in front of the trackless tile 11: it returns
(kind 1) with the two units in exchanged places, turned from direction 5 to
direction 1, and the head at speed 0, sub-speed 0 and wait counter 0. -/
theorem exTracks_head_reversed :
    (TrainController.step exEnv exHooks exSignalEnv exAccelEnv exMoveEnv (fun _ _ _ => none)
        (fun _ => 0) exRailMap exTracks none 0 4).map
      (fun o => (o.kind, [0, 1].map (fun u => ((o.pool u).x_pos, (o.pool u).direction)),
        (o.pool 0).cur_speed, (o.pool 0).subspeed, (o.pool 0).load_unload_time_rem)) =
      some (1, [(167, 1), (175, 1)], 0, 0, 0) := by
  decide

set_option maxRecDepth 100000 in
/-- The reversal of the single engine 4 of `exTracks`, which stands in front
of the crossing of tile 21 with nobody on it, switches the light of that
crossing off and leaves the rest of the grid alone; the reversal of the train
0, 1 in front of the crossing of tile 11, on which the engine 2 stands,
leaves the light on. -/
theorem exTracks_crossing_light :
    (ReverseTrainDirection.onGrid exEnv exHooks exSignalEnv (fun _ _ _ => none) exCrossingMap
      exTracks 4 4).map (fun r => ((r.1 4).direction, [11, 20, 21, 22].map r.2.map5)) =
      some (1, [0x14, 0x41, 0x10, 0x41]) ∧
    (ReverseTrainDirection.onGrid exEnv exHooks exSignalEnv (fun _ _ _ => none) exCrossingMap
      exTracks 0 4).map (fun r => ((r.1 0).direction, [11, 20, 21, 22].map r.2.map5)) =
      some (1, [0x14, 0x41, 0x14, 0x41]) := by
  decide

/-- C14, amended: a head `v` in front of a red two-way signal, with
force-proceed 0, is stopped by the step: in the pool `ws` after the stores
its speed and its sub-speed are 0, `progress` is 245 and the wait counter is
incremented (a 16-bit field), while tile and track are the old ones.  Let
`opp` be the result of the scan `VehicleFromPos` with `CheckVehicleAtSignal`
on the far side of the signal.  While the incremented counter is below
`wait_twoway_signal * 73` and the scan finds no opposing train, the step
returns with exactly the pool `ws` and the old tile grid: the head neither
enters the tile nor reverses.  When an opposing train is found, or when the
counter has reached the threshold, the step stores 0 in the wait counter, the
speed and the sub-speed and reverses the consist with
`ReverseTrainDirection`; for a chain of units of equal cached length and
hooks that keep the places every unit is then in the flipped place of its
mirror unit, so the head has not entered the tile, and with hooks that keep
speed, sub-speed and wait counter all three are 0 for the head in the pool
returned. -/
theorem C14_red_two_way_signal_waits_or_reverses (env : Env) (hooks : Hooks) (penv : PathEnv)
    (aenv : AccelEnv) (menv : MoveEnv) (ctrl : World → Map → Nat → Option (World × Map))
    (rnd : Nat → Nat) (m : Map) (w : World) (v : Nat) (fuel dir : Nat)
    (hred : RedTwoWaySignalAhead env penv menv rnd m w v fuel dir) :
    ∀ (ws : World) (o_tile : Nat) (opp : Option Nat),
      ws = w.set v { w v with cur_speed := 0, subspeed := 0, progress := 245, load_unload_time_rem := ((w v).load_unload_time_rem + 1) % 65536 } →
      o_tile = tileAdd (menv.GetNewVehiclePos w v).1.new_tile (penv.TileOffsByDir (dir >>> 1)) →
      opp = env.VehicleFromPos ws o_tile
        (fun u => CheckVehicleAtSignal env ws u { tile := o_tile, direction := (dir ^^^ 4) % 256 }) →
      ((ws v).cur_speed = 0 ∧ (ws v).subspeed = 0 ∧
        (ws v).load_unload_time_rem = ((w v).load_unload_time_rem + 1) % 65536 ∧
        (ws v).tile = (w v).tile ∧ (ws v).rail.track = (w v).rail.track) ∧
      ((((w v).load_unload_time_rem + 1) % 65536 < menv.wait_twoway_signal * 73 ∧
          opp = none) →
        TrainController.step env hooks penv aenv menv ctrl rnd m w none v fuel =
          some (Outcome.done ws m)) ∧
      (¬ (((w v).load_unload_time_rem + 1) % 65536 < menv.wait_twoway_signal * 73 ∧
          opp = none) →
        TrainController.step env hooks penv aenv menv ctrl rnd m w none v fuel =
          (ReverseTrainDirection.onGrid env hooks penv ctrl m
            (ws.set v { ws v with load_unload_time_rem := 0, cur_speed := 0, subspeed := 0 })
            v fuel).map (fun r => Outcome.done r.1 r.2)) ∧
      (¬ (((w v).load_unload_time_rem + 1) % 65536 < menv.wait_twoway_signal * 73 ∧
          opp = none) →
        ∀ c : List Nat, IsChain w (some v) c →
        (∀ u ∈ c, (w u).rail.cached_veh_length = (w v).rail.cached_veh_length) →
        c.length ≤ fuel → hooks.KeepPlaces →
        ∃ w1 m1, TrainController.step env hooks penv aenv menv ctrl rnd m w none v fuel =
            some (Outcome.done w1 m1) ∧
          (∀ i, i < c.length →
            (w1 (c.getD i 0)).place = flipPlace (w (c.getD (c.length - 1 - i) 0)).place) ∧
          (hooks.KeepHalt → (w1 v).cur_speed = 0 ∧ (w1 v).subspeed = 0 ∧
            (w1 v).load_unload_time_rem = 0)) := by
  intro ws o_tile opp hws ho hopp
  have hoppT : TrainController.opposingTrain env penv ws
      (menv.GetNewVehiclePos w v).1.new_tile (dir >>> 1) dir = opp := by
    rw [hopp, ho]
    rfl
  obtain ⟨htrack, hnew, hdir, hbits, hcompat, ⟨track, hchoice, hvalid, hsig⟩, hfp, hagainst,
    halong⟩ := hred
  have hvalidDir := GetNewVehicleDirectionByTile.enterdir_valid menv _ _ dir hdir
  have hcount : (ws v).load_unload_time_rem = ((w v).load_unload_time_rem + 1) % 65536 := by
    rw [hws, World.set_same]
  have hkeys : SameKeys w ws := by
    rw [hws]
    exact SameKeys.set_key w v _ ⟨rfl, rfl, rfl⟩
  have hstep : TrainController.step env hooks penv aenv menv ctrl rnd m w none v fuel =
      TrainController.red_light env hooks penv menv ctrl m w v (menv.GetNewVehiclePos w v).1
        (TrainController.trackBits penv menv m w none v
          (menv.GetNewVehiclePos w v).1.new_tile (dir >>> 1)).1 (dir >>> 1) dir fuel := by
    unfold TrainController.step
    simp only [ne_eq, htrack, not_false_eq_true, if_true, hnew, Bool.false_eq_true, if_false]
    unfold TrainController.newTile
    simp only [hdir]
    rw [if_neg (not_not.mpr hvalidDir)]
    simp only [hbits, if_false, hcompat, Bool.true_eq_false, hchoice, hvalid]
    rw [if_pos ⟨hsig, hfp⟩]
  have hred2 : TrainController.red_light env hooks penv menv ctrl m w v
      (menv.GetNewVehiclePos w v).1
      (TrainController.trackBits penv menv m w none v
        (menv.GetNewVehiclePos w v).1.new_tile (dir >>> 1)).1 (dir >>> 1) dir fuel =
      (if ((w v).load_unload_time_rem + 1) % 65536 < menv.wait_twoway_signal * 73 then
        match TrainController.opposingTrain env penv ws
            (menv.GetNewVehiclePos w v).1.new_tile (dir >>> 1) dir with
        | none => some (Outcome.done ws m)
        | some _ => TrainController.reverse_train_direction env hooks penv ctrl m ws v fuel
      else TrainController.reverse_train_direction env hooks penv ctrl m ws v fuel) := by
    unfold TrainController.red_light
    simp only [hagainst, if_false, ne_eq, halong, not_false_eq_true, if_true]
    rw [show (255 - 10 : Nat) = 245 from rfl, ← hws, hcount]
  have hrev : ¬ (((w v).load_unload_time_rem + 1) % 65536 < menv.wait_twoway_signal * 73 ∧
      opp = none) →
      TrainController.step env hooks penv aenv menv ctrl rnd m w none v fuel =
        TrainController.reverse_train_direction env hooks penv ctrl m ws v fuel := by
    intro hnot
    rw [hstep, hred2]
    by_cases hlt : ((w v).load_unload_time_rem + 1) % 65536 < menv.wait_twoway_signal * 73
    · rw [if_pos hlt]
      cases hopp2 : TrainController.opposingTrain env penv ws
          (menv.GetNewVehiclePos w v).1.new_tile (dir >>> 1) dir with
      | none => exact absurd ⟨hlt, hoppT.symm.trans hopp2⟩ hnot
      | some u => rfl
    · rw [if_neg hlt]
  refine ⟨⟨?_, ?_, hcount, ?_, ?_⟩, ?_, ?_, ?_⟩
  · rw [hws, World.set_same]
  · rw [hws, World.set_same]
  · rw [hws, World.set_same]
  · rw [hws, World.set_same]
  · rintro ⟨hlt, hnone⟩
    rw [hstep, hred2, if_pos hlt, hoppT, hnone]
  · intro hnot
    rw [hrev hnot]
    rfl
  · intro hnot c hc hlen hf hk
    rw [hrev hnot]
    obtain ⟨w1, m1, h1, h2, h3⟩ := TrainController.reverse_spec_grid env hooks penv ctrl hk m
      ws v c fuel ((hkeys.isSeg_keys c _ none).mpr hc)
      (by
        intro u hu
        rw [(hkeys u).2.2, (hkeys v).2.2]
        exact hlen u hu) hf
    refine ⟨w1, m1, h1, ?_, h3⟩
    intro i hi
    rw [h2 i hi, (hkeys _).2.1]

theorem exTracks_redSignal_6 :
    RedTwoWaySignalAhead exEnv exSignalEnv exMoveEnv (fun _ => 0) exRailMap exTracks 6 4 5 :=
  ⟨by decide, by decide, by decide, by decide, by decide, ⟨0, by decide, by decide, by decide⟩,
    by decide, by decide, by decide⟩

theorem exTracks_redSignal_7 :
    RedTwoWaySignalAhead exEnv exSignalEnv exMoveEnv (fun _ => 0) exRailMap exTracks 7 4 5 :=
  ⟨by decide, by decide, by decide, by decide, by decide, ⟨0, by decide, by decide, by decide⟩,
    by decide, by decide, by decide⟩

/-- Witness of C14: the engine 6 in front of the red two-way signal of tile
31 with the wait counter 7 and nobody on the far side waits, with speed and
sub-speed 0 and the wait counter 8; the single engine 7 with the wait counter
2992 reaches the threshold 41 * 73 = 2993 and is reversed in its place, with
speed, sub-speed and wait counter 0. -/
theorem C14_red_two_way_signal_waits_or_reverses_witness :
    (TrainController.step exEnv exHooks exSignalEnv exAccelEnv exMoveEnv (fun _ _ _ => none)
        (fun _ => 0) exRailMap exTracks none 6 4 =
      some (Outcome.done (exTracks.set 6 { exTracks 6 with cur_speed := 0, subspeed := 0, progress := 245, load_unload_time_rem := 8 }) exRailMap)) ∧
    (∃ w1 m1, TrainController.step exEnv exHooks exSignalEnv exAccelEnv exMoveEnv
        (fun _ _ _ => none) (fun _ => 0) exRailMap exTracks none 7 4 =
          some (Outcome.done w1 m1) ∧
        (w1 7).place = flipPlace (exTracks 7).place ∧
        (w1 7).cur_speed = 0 ∧ (w1 7).subspeed = 0 ∧ (w1 7).load_unload_time_rem = 0) := by
  refine ⟨((C14_red_two_way_signal_waits_or_reverses exEnv exHooks exSignalEnv exAccelEnv
      exMoveEnv (fun _ _ _ => none) (fun _ => 0) exRailMap exTracks 6 4 5 exTracks_redSignal_6
      _ _ _ rfl rfl rfl).2.1 ⟨by decide, by decide⟩), ?_⟩
  obtain ⟨w1, m1, h1, h2, h3⟩ :=
    (C14_red_two_way_signal_waits_or_reverses exEnv exHooks exSignalEnv exAccelEnv
      exMoveEnv (fun _ _ _ => none) (fun _ => 0) exRailMap exTracks 7 4 5 exTracks_redSignal_7
      _ _ _ rfl rfl rfl).2.2.2 (fun h => absurd h.1 (by decide)) [7] (by decide) (by decide)
      (by decide) exHooks_keepPlaces
  exact ⟨w1, m1, h1, h2 0 (by decide), h3 exHooks_keepHalt⟩

/-- Counterexample to C14 as stated.  First: the engine 6 with the wait
counter 7, far below the threshold 2993, but with the front engine 8 waiting
on the far side of the signal: the step returns with the engine reversed
(direction 1 instead of 5), on its old tile 30, wait counter 0.  Second: the
engine 7 at the threshold with nobody on the far side: it does not proceed
onto tile 31 but is reversed as well. -/
theorem C14_counterexample :
    RedTwoWaySignalAhead exEnv exSignalEnv exMoveEnv (fun _ => 0) exRailMap exOpposing 6 4 5 ∧
    (exOpposing 6).load_unload_time_rem + 1 < exMoveEnv.wait_twoway_signal * 73 ∧
    (exOpposing 6).direction = 5 ∧
    (TrainController.step exEnv exHooks exSignalEnv exAccelEnv exMoveEnv (fun _ _ _ => none)
        (fun _ => 0) exRailMap exOpposing none 6 4).map
      (fun o => (o.kind, (o.pool 6).tile, (o.pool 6).direction, (o.pool 6).cur_speed,
        (o.pool 6).load_unload_time_rem)) = some (1, 30, 1, 0, 0) ∧
    RedTwoWaySignalAhead exEnv exSignalEnv exMoveEnv (fun _ => 0) exRailMap exTracks 7 4 5 ∧
    TrainController.opposingTrain exEnv exSignalEnv
      (exTracks.set 7 { exTracks 7 with cur_speed := 0, subspeed := 0, progress := 245, load_unload_time_rem := 2993 })
      31 2 5 = none ∧
    (exTracks 7).load_unload_time_rem + 1 = exMoveEnv.wait_twoway_signal * 73 ∧
    (TrainController.step exEnv exHooks exSignalEnv exAccelEnv exMoveEnv (fun _ _ _ => none)
        (fun _ => 0) exRailMap exTracks none 7 4).map
      (fun o => (o.kind, (o.pool 7).tile, (o.pool 7).direction, (o.pool 7).cur_speed,
        (o.pool 7).load_unload_time_rem)) = some (1, 30, 1, 0, 0) :=
  ⟨⟨by decide, by decide, by decide, by decide, by decide,
      ⟨0, by decide, by decide, by decide⟩, by decide, by decide, by decide⟩,
    by decide, by decide, by decide,
    ⟨by decide, by decide, by decide, by decide, by decide,
      ⟨0, by decide, by decide, by decide⟩, by decide, by decide, by decide⟩,
    by decide, by decide, by decide⟩

theorem TrainController.reverse_not_next (env : Env) (hooks : Hooks) (penv : PathEnv)
    (ctrl : World → Map → Nat → Option (World × Map)) (m : Map) (w : World) (v fuel : Nat)
    (w1 : World) (m1 : Map) :
    TrainController.reverse_train_direction env hooks penv ctrl m w v fuel ≠
      some (Outcome.next w1 m1) := by
  unfold TrainController.reverse_train_direction
  simp only
  cases ReverseTrainDirection.onGrid env hooks penv ctrl m
    (w.set v { w v with load_unload_time_rem := 0, cur_speed := 0, subspeed := 0 }) v fuel <;>
    simp

theorem TrainController.invalid_not_next (env : Env) (hooks : Hooks) (penv : PathEnv)
    (ctrl : World → Map → Nat → Option (World × Map)) (m : Map) (w : World) (prev : Option Nat)
    (v fuel : Nat) (w1 : World) (m1 : Map) :
    TrainController.invalid_rail env hooks penv ctrl m w prev v fuel ≠
      some (Outcome.next w1 m1) := by
  unfold TrainController.invalid_rail
  split_ifs
  · simp
  · exact TrainController.reverse_not_next env hooks penv ctrl m w v fuel w1 m1

theorem TrainController.red_not_next (env : Env) (hooks : Hooks) (penv : PathEnv)
    (menv : MoveEnv) (ctrl : World → Map → Nat → Option (World × Map)) (m : Map) (w : World) (v : Nat)
    (gp : GetNewVehiclePosResult) (ts enterdir dir fuel : Nat) (w1 : World) (m1 : Map) :
    TrainController.red_light env hooks penv menv ctrl m w v gp ts enterdir dir fuel ≠
      some (Outcome.next w1 m1) := by
  unfold TrainController.red_light
  simp only
  split_ifs
  · simp
  · exact TrainController.reverse_not_next _ _ _ _ _ _ _ _ _ _
  · split
    · simp
    · exact TrainController.reverse_not_next _ _ _ _ _ _ _ _ _ _
  · exact TrainController.reverse_not_next _ _ _ _ _ _ _ _ _ _
  · exact TrainController.reverse_not_next _ _ _ _ _ _ _ _ _ _

/-- The code from the label `common` on leaves the tile grid alone. -/
theorem TrainController.common_grid (env : Env) (hooks : Hooks) (menv : MoveEnv) (m : Map)
    (w : World) (prev : Option Nat) (v : Nat) (gp : GetNewVehiclePosResult)
    (w1 : World) (m1 : Map)
    (h : TrainController.common env hooks menv m w prev v gp = some (Outcome.next w1 m1)) :
    m1 = m := by
  unfold TrainController.common at h
  cases hd : GetNewVehicleDirection (w v) gp.x gp.y with
  | none =>
    rw [hd] at h
    exact absurd h (by simp)
  | some d =>
    rw [hd] at h
    simp only [Option.some.injEq, Outcome.next.injEq] at h
    exact h.2.symm

theorem TrainController.moved_links (env : Env) (w : World) (v r new_tile chosen_track : Nat) :
    ((TrainController.moved env w v r new_tile chosen_track) v).next = (w v).next ∧
    ((TrainController.moved env w v r new_tile chosen_track) v).subtype = (w v).subtype := by
  unfold TrainController.moved
  by_cases h1 : (w v).subtype = env.TS_Front_Engine <;> by_cases h2 : (r &&& 0x4) = 0 <;>
    simp only [h1, h2, if_true, if_false, World.set, and_self]

/-- A tile entry that goes on with the next unit has updated the signals for
the entered tile if the unit is a front engine and then for the left tile if
the unit is the last one. -/
theorem TrainController.enter_grid (env : Env) (hooks : Hooks) (penv : PathEnv)
    (menv : MoveEnv)
    (ctrl : World → Map → Nat → Option (World × Map)) (hk : hooks.EnterKeepsLinks) (m : Map) (w : World)
    (prev : Option Nat) (v : Nat) (gp : GetNewVehiclePosResult)
    (enterdir chosen_track fuel : Nat) (w1 : World) (m1 : Map)
    (h : TrainController.enter env hooks penv menv ctrl m w prev v gp enterdir chosen_track fuel =
      some (Outcome.next w1 m1)) :
    m1 = signalsAfterTransition menv m gp.new_tile gp.old_tile enterdir
      (decide ((w v).subtype = env.TS_Front_Engine)) (decide ((w v).next = none)) := by
  unfold TrainController.enter at h
  split at h
  · exact absurd h (by simp)
  · simp only at h
    split at h
    · exact absurd h (TrainController.invalid_not_next _ _ _ _ _ _ _ _ _ _ _)
    · have hm := TrainController.common_grid _ _ _ _ _ _ _ _ _ _ h
      rw [hm, (TrainController.moved_links env _ v _ gp.new_tile chosen_track).1,
        (TrainController.moved_links env _ v _ gp.new_tile chosen_track).2,
        (hk w v gp.new_tile _ _).1, (hk w v gp.new_tile _ _).2]
      unfold signalsAfterTransition
      simp only [decide_eq_true_eq]

/-- A step in the new-tile branch that goes on with the next unit has entered
the tile, and the tile grid is the old one after the signal updates of the
transition. -/
theorem TrainController.newTile_grid (env : Env) (hooks : Hooks) (penv : PathEnv)
    (menv : MoveEnv) (ctrl : World → Map → Nat → Option (World × Map)) (rnd : Nat → Nat)
    (hk : hooks.EnterKeepsLinks) (m : Map) (w : World) (prev : Option Nat) (v : Nat)
    (gp : GetNewVehiclePosResult) (fuel : Nat) (w1 : World) (m1 : Map)
    (h : TrainController.newTile env hooks penv menv ctrl rnd m w prev v gp fuel =
      some (Outcome.next w1 m1)) :
    ∃ dir, GetNewVehicleDirectionByTile menv gp.new_tile gp.old_tile = some dir ∧
      m1 = signalsAfterTransition menv m gp.new_tile gp.old_tile (dir >>> 1)
        (decide ((w v).subtype = env.TS_Front_Engine)) (decide ((w v).next = none)) := by
  unfold TrainController.newTile at h
  cases hd : GetNewVehicleDirectionByTile menv gp.new_tile gp.old_tile with
  | none =>
    rw [hd] at h
    exact absurd h (by simp)
  | some dir =>
    rw [hd] at h
    refine ⟨dir, rfl, ?_⟩
    simp only at h
    split at h
    · exact absurd h (by simp)
    split at h
    · exact absurd h (TrainController.invalid_not_next _ _ _ _ _ _ _ _ _ _ _)
    split at h
    · exact absurd h (TrainController.invalid_not_next _ _ _ _ _ _ _ _ _ _ _)
    split at h
    · split at h
      · exact absurd h (by simp)
      · split at h
        · exact absurd h (by simp)
        · split at h
          · exact absurd h (TrainController.red_not_next _ _ _ _ _ _ _ _ _ _ _ _ _ _ _)
          · exact TrainController.enter_grid env hooks penv menv ctrl hk m w _ v gp _ _ fuel w1 m1 h
    · split at h
      · exact absurd h (by simp)
      · exact TrainController.enter_grid env hooks penv menv ctrl hk m w _ v gp _ _ fuel w1 m1 h

/-- C15: a step of `TrainController` in which a unit outside a tunnel enters
a new tile and the loop goes on (a successful tile transition) leaves the
tile grid as follows.  For a unit that is neither a front engine nor the last
unit the grid is unchanged: no signal update.  For a front engine that is
not the last unit it is the grid after `TrainMovedChangeSignals` for the
entered tile with the entry direction.  For a last unit that is not a front
engine it is the grid after `TrainMovedChangeSignals` for the left tile with
the opposite direction.  For a front engine that is also the last unit both
updates are made, in this order.  The tile-entry handler is taken not to
change the link or the subtype of the unit. -/
theorem C15_signal_updates_on_transition (env : Env) (hooks : Hooks) (penv : PathEnv)
    (aenv : AccelEnv) (menv : MoveEnv) (ctrl : World → Map → Nat → Option (World × Map)) (rnd : Nat → Nat)
    (m : Map) (w : World) (prev : Option Nat) (v : Nat) (fuel : Nat) (w1 : World) (m1 : Map)
    (hk : hooks.EnterKeepsLinks)
    (htrack : (w v).rail.track ≠ 0x40)
    (hnew : (menv.GetNewVehiclePos w v).2 = false)
    (hres : TrainController.step env hooks penv aenv menv ctrl rnd m w prev v fuel =
      some (Outcome.next w1 m1)) :
    ∃ dir, GetNewVehicleDirectionByTile menv (menv.GetNewVehiclePos w v).1.new_tile
        (menv.GetNewVehiclePos w v).1.old_tile = some dir ∧
      ((w v).subtype ≠ env.TS_Front_Engine → (w v).next ≠ none → m1 = m) ∧
      ((w v).subtype = env.TS_Front_Engine → (w v).next ≠ none →
        m1 = TrainMovedChangeSignals menv m (menv.GetNewVehiclePos w v).1.new_tile
          (dir >>> 1)) ∧
      ((w v).subtype ≠ env.TS_Front_Engine → (w v).next = none →
        m1 = TrainMovedChangeSignals menv m (menv.GetNewVehiclePos w v).1.old_tile
          ((dir >>> 1) ^^^ 2)) ∧
      ((w v).subtype = env.TS_Front_Engine → (w v).next = none →
        m1 = TrainMovedChangeSignals menv
          (TrainMovedChangeSignals menv m (menv.GetNewVehiclePos w v).1.new_tile (dir >>> 1))
          (menv.GetNewVehiclePos w v).1.old_tile ((dir >>> 1) ^^^ 2)) := by
  unfold TrainController.step at hres
  simp only [ne_eq, htrack, not_false_eq_true, if_true, hnew, Bool.false_eq_true,
    if_false] at hres
  obtain ⟨dir, hdir, hm⟩ := TrainController.newTile_grid env hooks penv menv ctrl rnd hk m w
    prev v _ fuel w1 m1 hres
  refine ⟨dir, hdir, ?_, ?_, ?_, ?_⟩ <;> intro hs hn <;> rw [hm] <;>
    simp only [signalsAfterTransition, hs, hn, decide_True, decide_False, if_true, if_false,
      Bool.false_eq_true]

theorem exHooks_enterKeepsLinks : exHooks.EnterKeepsLinks :=
  fun _ _ _ _ _ => ⟨rfl, rfl⟩

theorem exTracks_enters : ∃ w1 m1,
    TrainController.step exEnv exHooks exSignalEnv exAccelEnv exMoveEnv (fun _ _ _ => none)
      (fun _ => 0) exRailMap exTracks none 4 4 = some (Outcome.next w1 m1) :=
  ⟨_, _, rfl⟩

/-- Witness of C15: the single engine 4 enters tile 21 from tile 20; it is
front engine and last unit at once. -/
theorem C15_signal_updates_on_transition_witness :
    ∃ w1 m1, TrainController.step exEnv exHooks exSignalEnv exAccelEnv exMoveEnv
        (fun _ _ _ => none) (fun _ => 0) exRailMap exTracks none 4 4 = some (Outcome.next w1 m1) ∧
      ∃ dir, GetNewVehicleDirectionByTile exMoveEnv (exMoveEnv.GetNewVehiclePos exTracks 4).1.new_tile
          (exMoveEnv.GetNewVehiclePos exTracks 4).1.old_tile = some dir ∧
        ((exTracks 4).subtype ≠ exEnv.TS_Front_Engine → (exTracks 4).next ≠ none →
          m1 = exRailMap) ∧
        ((exTracks 4).subtype = exEnv.TS_Front_Engine → (exTracks 4).next ≠ none →
          m1 = TrainMovedChangeSignals exMoveEnv exRailMap
            (exMoveEnv.GetNewVehiclePos exTracks 4).1.new_tile (dir >>> 1)) ∧
        ((exTracks 4).subtype ≠ exEnv.TS_Front_Engine → (exTracks 4).next = none →
          m1 = TrainMovedChangeSignals exMoveEnv exRailMap
            (exMoveEnv.GetNewVehiclePos exTracks 4).1.old_tile ((dir >>> 1) ^^^ 2)) ∧
        ((exTracks 4).subtype = exEnv.TS_Front_Engine → (exTracks 4).next = none →
          m1 = TrainMovedChangeSignals exMoveEnv
            (TrainMovedChangeSignals exMoveEnv exRailMap
              (exMoveEnv.GetNewVehiclePos exTracks 4).1.new_tile (dir >>> 1))
            (exMoveEnv.GetNewVehiclePos exTracks 4).1.old_tile ((dir >>> 1) ^^^ 2)) := by
  obtain ⟨w1, m1, h⟩ := exTracks_enters
  exact ⟨w1, m1, h, C15_signal_updates_on_transition exEnv exHooks exSignalEnv exAccelEnv
    exMoveEnv (fun _ _ _ => none) (fun _ => 0) exRailMap exTracks none 4 4 w1 m1
    exHooks_enterKeepsLinks (by decide) (by decide) h⟩

/-- The step of the single engine 4: it goes on (kind 0) on tile 21, and the
signal updates have been made for the left tile 20 (direction 1, entry 101)
and for the entered tile 21 (direction 5, entry 105), and for no other
tile. -/
theorem exTracks_signals_updated :
    (TrainController.step exEnv exHooks exSignalEnv exAccelEnv exMoveEnv (fun _ _ _ => none)
        (fun _ => 0) exRailMap exTracks none 4 4).map
      (fun o => (o.kind, (o.pool 4).tile, [19, 20, 21, 22].map o.grid.map2)) =
      some (0, 21, [0, 101, 105, 0]) := by
  decide

/-! ### Slope flags of a swap -/

theorem testBit_SETBIT (x y i : Nat) :
    (SETBIT x y).testBit i = (decide (i < 8) && (x.testBit i || decide (y = i))) := by
  unfold SETBIT
  rw [show (256 : Nat) = 2 ^ 8 from rfl, Nat.testBit_mod_two_pow, Nat.testBit_lor,
    Nat.one_shiftLeft, Nat.testBit_two_pow]

theorem testBit_CLRBIT (x y i : Nat) :
    (CLRBIT x y).testBit i = (x.testBit i && decide (i < 8) && !decide (y = i)) := by
  unfold CLRBIT
  rw [Nat.testBit_land, Nat.testBit_xor, Nat.one_shiftLeft,
    show (256 : Nat) = 2 ^ 8 from rfl, Nat.testBit_mod_two_pow, Nat.testBit_two_pow,
    show (255 : Nat) = 2 ^ 8 - 1 from rfl, Nat.testBit_two_pow_sub_one]
  cases x.testBit i <;> cases decide (i < 8) <;> cases decide (y = i) <;> rfl

/-- The bits of the first byte after `SwapTrainFlags`. -/
theorem SwapTrainFlags.fst_testBit (env : Env) (f1 f2 : Nat)
    (hU : env.VRF_GOINGUP < 8) (hD : env.VRF_GOINGDOWN < 8)
    (hUD : env.VRF_GOINGUP ≠ env.VRF_GOINGDOWN) (i : Nat) :
    (SwapTrainFlags env f1 f2).1.testBit i =
      (if i = env.VRF_GOINGDOWN then f2.testBit env.VRF_GOINGUP
       else if i = env.VRF_GOINGUP then
         (f2.testBit env.VRF_GOINGDOWN && !f2.testBit env.VRF_GOINGUP)
       else (f1.testBit i && decide (i < 8))) := by
  unfold SwapTrainFlags
  simp only [HASBIT_eq_testBit]
  by_cases hiD : i = env.VRF_GOINGDOWN
  · subst hiD
    have hne : ¬ env.VRF_GOINGUP = env.VRF_GOINGDOWN := hUD
    cases h2U : f2.testBit env.VRF_GOINGUP <;> cases h2D : f2.testBit env.VRF_GOINGDOWN <;>
      simp [testBit_SETBIT, testBit_CLRBIT, hD, hne]
  · by_cases hiU : i = env.VRF_GOINGUP
    · subst hiU
      have hne : ¬ env.VRF_GOINGDOWN = env.VRF_GOINGUP := fun h => hUD h.symm
      cases h2U : f2.testBit env.VRF_GOINGUP <;> cases h2D : f2.testBit env.VRF_GOINGDOWN <;>
        simp [testBit_SETBIT, testBit_CLRBIT, hU, hne, hiD]
    · have h1 : ¬ env.VRF_GOINGDOWN = i := fun h => hiD h.symm
      have h2 : ¬ env.VRF_GOINGUP = i := fun h => hiU h.symm
      cases h2U : f2.testBit env.VRF_GOINGUP <;> cases h2D : f2.testBit env.VRF_GOINGDOWN <;>
        cases hlt : decide (i < 8) <;>
        simp [testBit_SETBIT, testBit_CLRBIT, hiD, hiU, h1, h2, hlt]

/-- The bits of the second byte after `SwapTrainFlags`. -/
theorem SwapTrainFlags.snd_testBit (env : Env) (f1 f2 : Nat)
    (hU : env.VRF_GOINGUP < 8) (hD : env.VRF_GOINGDOWN < 8)
    (hUD : env.VRF_GOINGUP ≠ env.VRF_GOINGDOWN) (i : Nat) :
    (SwapTrainFlags env f1 f2).2.testBit i =
      (if i = env.VRF_GOINGDOWN then f1.testBit env.VRF_GOINGUP
       else if i = env.VRF_GOINGUP then
         (f1.testBit env.VRF_GOINGDOWN && !f1.testBit env.VRF_GOINGUP)
       else (f2.testBit i && decide (i < 8))) := by
  unfold SwapTrainFlags
  simp only [HASBIT_eq_testBit]
  by_cases hiD : i = env.VRF_GOINGDOWN
  · subst hiD
    have hne : ¬ env.VRF_GOINGUP = env.VRF_GOINGDOWN := hUD
    cases h2U : f1.testBit env.VRF_GOINGUP <;> cases h2D : f1.testBit env.VRF_GOINGDOWN <;>
      simp [testBit_SETBIT, testBit_CLRBIT, hD, hne]
  · by_cases hiU : i = env.VRF_GOINGUP
    · subst hiU
      have hne : ¬ env.VRF_GOINGDOWN = env.VRF_GOINGUP := fun h => hUD h.symm
      cases h2U : f1.testBit env.VRF_GOINGUP <;> cases h2D : f1.testBit env.VRF_GOINGDOWN <;>
        simp [testBit_SETBIT, testBit_CLRBIT, hU, hne, hiD]
    · have h1 : ¬ env.VRF_GOINGDOWN = i := fun h => hiD h.symm
      have h2 : ¬ env.VRF_GOINGUP = i := fun h => hiU h.symm
      cases h2U : f1.testBit env.VRF_GOINGUP <;> cases h2D : f1.testBit env.VRF_GOINGDOWN <;>
        cases hlt : decide (i < 8) <;>
        simp [testBit_SETBIT, testBit_CLRBIT, hiD, hiU, h1, h2, hlt]

theorem testBit_of_lt_256 (f i : Nat) (hf : f < 256) :
    (f.testBit i && decide (i < 8)) = f.testBit i := by
  by_cases hi : i < 8
  · simp [hi]
  · have : f.testBit i = false :=
      Nat.testBit_lt_two_pow (lt_of_lt_of_le hf
        (by
          rw [show (256 : Nat) = 2 ^ 8 from rfl]
          exact Nat.pow_le_pow_right (show 0 < 2 by norm_num) (not_lt.mp hi)))
    simp [this]

/-- C21: `SwapTrainFlags` cross-assigns the slope flags.  Afterwards the first
byte has going-down set iff the second had going-up set, and going-up set iff
the second had going-down set but not going-up, and the same with the bytes
exchanged; every other bit of both bytes is as before; and when neither byte
has both slope flags set, a second application gives back both bytes.  The
two flags are different bits of the byte. -/
theorem C21_swap_flags_cross_assigns (env : Env) (f1 f2 : Nat)
    (hU : env.VRF_GOINGUP < 8) (hD : env.VRF_GOINGDOWN < 8)
    (hUD : env.VRF_GOINGUP ≠ env.VRF_GOINGDOWN) (h1 : f1 < 256) (h2 : f2 < 256) :
    HASBIT (SwapTrainFlags env f1 f2).1 env.VRF_GOINGDOWN = HASBIT f2 env.VRF_GOINGUP ∧
    HASBIT (SwapTrainFlags env f1 f2).1 env.VRF_GOINGUP =
      (HASBIT f2 env.VRF_GOINGDOWN && !HASBIT f2 env.VRF_GOINGUP) ∧
    HASBIT (SwapTrainFlags env f1 f2).2 env.VRF_GOINGDOWN = HASBIT f1 env.VRF_GOINGUP ∧
    HASBIT (SwapTrainFlags env f1 f2).2 env.VRF_GOINGUP =
      (HASBIT f1 env.VRF_GOINGDOWN && !HASBIT f1 env.VRF_GOINGUP) ∧
    (∀ i, i ≠ env.VRF_GOINGUP → i ≠ env.VRF_GOINGDOWN →
      HASBIT (SwapTrainFlags env f1 f2).1 i = HASBIT f1 i ∧
      HASBIT (SwapTrainFlags env f1 f2).2 i = HASBIT f2 i) ∧
    (¬ (HASBIT f1 env.VRF_GOINGUP = true ∧ HASBIT f1 env.VRF_GOINGDOWN = true) →
      ¬ (HASBIT f2 env.VRF_GOINGUP = true ∧ HASBIT f2 env.VRF_GOINGDOWN = true) →
      SwapTrainFlags env (SwapTrainFlags env f1 f2).1 (SwapTrainFlags env f1 f2).2 =
        (f1, f2)) := by
  have hDU : env.VRF_GOINGDOWN ≠ env.VRF_GOINGUP := fun h => hUD h.symm
  simp only [HASBIT_eq_testBit]
  refine ⟨?_, ?_, ?_, ?_, ?_, ?_⟩
  · rw [SwapTrainFlags.fst_testBit env f1 f2 hU hD hUD, if_pos rfl]
  · rw [SwapTrainFlags.fst_testBit env f1 f2 hU hD hUD, if_neg hUD, if_pos rfl]
  · rw [SwapTrainFlags.snd_testBit env f1 f2 hU hD hUD, if_pos rfl]
  · rw [SwapTrainFlags.snd_testBit env f1 f2 hU hD hUD, if_neg hUD, if_pos rfl]
  · intro i hiU hiD
    rw [SwapTrainFlags.fst_testBit env f1 f2 hU hD hUD, if_neg hiD, if_neg hiU,
      SwapTrainFlags.snd_testBit env f1 f2 hU hD hUD, if_neg hiD, if_neg hiU,
      testBit_of_lt_256 f1 i h1, testBit_of_lt_256 f2 i h2]
    exact ⟨rfl, rfl⟩
  · intro hn1 hn2
    apply Prod.ext
    · apply Nat.eq_of_testBit_eq
      intro i
      rw [SwapTrainFlags.fst_testBit env _ _ hU hD hUD]
      simp only [SwapTrainFlags.fst_testBit env f1 f2 hU hD hUD,
        SwapTrainFlags.snd_testBit env f1 f2 hU hD hUD]
      by_cases hiD : i = env.VRF_GOINGDOWN
      · subst hiD
        simp only [if_true, if_neg hUD]
        cases hu : f1.testBit env.VRF_GOINGUP <;> cases hd : f1.testBit env.VRF_GOINGDOWN <;>
          simp_all
      · by_cases hiU : i = env.VRF_GOINGUP
        · subst hiU
          simp only [if_true, if_neg hUD, if_neg hiD]
          cases hu : f1.testBit env.VRF_GOINGUP <;> cases hd : f1.testBit env.VRF_GOINGDOWN <;>
            simp_all
        · simp only [if_neg hiD, if_neg hiU, Bool.and_assoc, Bool.and_self]
          exact testBit_of_lt_256 f1 i h1
    · apply Nat.eq_of_testBit_eq
      intro i
      rw [SwapTrainFlags.snd_testBit env _ _ hU hD hUD]
      simp only [SwapTrainFlags.fst_testBit env f1 f2 hU hD hUD,
        SwapTrainFlags.snd_testBit env f1 f2 hU hD hUD]
      by_cases hiD : i = env.VRF_GOINGDOWN
      · subst hiD
        simp only [if_true, if_neg hUD]
        cases hu : f2.testBit env.VRF_GOINGUP <;> cases hd : f2.testBit env.VRF_GOINGDOWN <;>
          simp_all
      · by_cases hiU : i = env.VRF_GOINGUP
        · subst hiU
          simp only [if_true, if_neg hUD, if_neg hiD]
          cases hu : f2.testBit env.VRF_GOINGUP <;> cases hd : f2.testBit env.VRF_GOINGDOWN <;>
            simp_all
        · simp only [if_neg hiD, if_neg hiU, Bool.and_assoc, Bool.and_self]
          exact testBit_of_lt_256 f2 i h2

/-- Witness of C21: the bytes 10 (going up, and bit 3) and 1 (bit 0 only)
with going-up as bit 1 and going-down as bit 2. -/
theorem C21_swap_flags_cross_assigns_witness :
    exEnv.VRF_GOINGUP < 8 ∧ exEnv.VRF_GOINGDOWN < 8 ∧
    exEnv.VRF_GOINGUP ≠ exEnv.VRF_GOINGDOWN ∧ (10 : Nat) < 256 ∧ (1 : Nat) < 256 ∧
    HASBIT (SwapTrainFlags exEnv 10 1).1 exEnv.VRF_GOINGDOWN = HASBIT 1 exEnv.VRF_GOINGUP ∧
    HASBIT (SwapTrainFlags exEnv 10 1).1 exEnv.VRF_GOINGUP =
      (HASBIT 1 exEnv.VRF_GOINGDOWN && !HASBIT 1 exEnv.VRF_GOINGUP) ∧
    HASBIT (SwapTrainFlags exEnv 10 1).2 exEnv.VRF_GOINGDOWN = HASBIT 10 exEnv.VRF_GOINGUP ∧
    HASBIT (SwapTrainFlags exEnv 10 1).2 exEnv.VRF_GOINGUP =
      (HASBIT 10 exEnv.VRF_GOINGDOWN && !HASBIT 10 exEnv.VRF_GOINGUP) ∧
    (∀ i, i ≠ exEnv.VRF_GOINGUP → i ≠ exEnv.VRF_GOINGDOWN →
      HASBIT (SwapTrainFlags exEnv 10 1).1 i = HASBIT 10 i ∧
      HASBIT (SwapTrainFlags exEnv 10 1).2 i = HASBIT 1 i) ∧
    (¬ (HASBIT 10 exEnv.VRF_GOINGUP = true ∧ HASBIT 10 exEnv.VRF_GOINGDOWN = true) →
      ¬ (HASBIT 1 exEnv.VRF_GOINGUP = true ∧ HASBIT 1 exEnv.VRF_GOINGDOWN = true) →
      SwapTrainFlags exEnv (SwapTrainFlags exEnv 10 1).1 (SwapTrainFlags exEnv 10 1).2 =
        (10, 1)) :=
  ⟨by decide, by decide, by decide, by decide, by decide,
    C21_swap_flags_cross_assigns exEnv 10 1 (by decide) (by decide) (by decide) (by decide)
      (by decide)⟩

/-- The swap of the bytes 10 and 1 gives 8 and 5: the going-up flag of the
first byte has become the going-down flag of the second. -/
theorem exEnv_swap_flags : SwapTrainFlags exEnv 10 1 = (8, 5) ∧
    SwapTrainFlags exEnv 8 5 = (10, 1) := by
  decide

/-! ### Crash flag and depot check -/

/-- C27: `SetVehicleCrashed` applied to the head of a chain whose crash
animation counter is 0 returns, sets the crashed flag on every unit of the
chain and leaves the counter of the head non-zero (it is 1); applied to a
head whose counter is not 0 it returns the pool as it was.  The crashed flag
is a non-zero mask of the status byte. -/
theorem C27_set_crashed (env : Env) (hm : 0 < env.VS_CRASHED ∧ env.VS_CRASHED < 256)
    (w : World) (v : Nat) (l : List Nat) (fuel : Nat)
    (hc : IsChain w (some v) l) (hf : l.length ≤ fuel) :
    ((w v).rail.crash_anim_pos = 0 →
      ∃ w1, SetVehicleCrashed env w v fuel = some w1 ∧
        (∀ u ∈ l, isCrashed env (w1 u)) ∧ (w1 v).rail.crash_anim_pos = 1 ∧
        (w1 v).rail.crash_anim_pos ≠ 0) ∧
    ((w v).rail.crash_anim_pos ≠ 0 → SetVehicleCrashed env w v fuel = some w) := by
  constructor
  · intro h0
    obtain ⟨w1, hrun, hall, _, _, _, hpos⟩ :=
      SetVehicleCrashed.crash_spec env hm w v l fuel hc hf h0
    exact ⟨w1, hrun, hall, hpos, by rw [hpos]; norm_num⟩
  · intro h0
    unfold SetVehicleCrashed
    rw [if_pos h0]

/-- Witness of C27: the three-unit train, whose crash animation has not
started. -/
theorem C27_set_crashed_witness :
    (0 < exEnv.VS_CRASHED ∧ exEnv.VS_CRASHED < 256) ∧ IsChain exTrain (some 0) [0, 1, 2] ∧
    ((exTrain 0).rail.crash_anim_pos = 0 →
      ∃ w1, SetVehicleCrashed exEnv exTrain 0 3 = some w1 ∧
        (∀ u ∈ [0, 1, 2], isCrashed exEnv (w1 u)) ∧ (w1 0).rail.crash_anim_pos = 1 ∧
        (w1 0).rail.crash_anim_pos ≠ 0) ∧
    ((exTrain 0).rail.crash_anim_pos ≠ 0 → SetVehicleCrashed exEnv exTrain 0 3 = some exTrain) :=
  ⟨by decide, by decide,
    C27_set_crashed exEnv (by decide) exTrain 0 [0, 1, 2] 3 (by decide) (by decide)⟩

/-- The loop of `CheckTrainStoppedInDepot` on a finite chain: -1 if a unit is
outside the depot track, on another tile, or a front engine that is not
stopped; else the counter plus the number of units. -/
theorem CheckTrainStoppedInDepot.stopped_loop_spec (env : Env) (cenv : CmdEnv) (w : World)
    (tile : Nat) :
    ∀ (l : List Nat) (fuel : Nat) (h : Option Nat) (count : Int),
      IsChain w h l → l.length ≤ fuel →
      ((∃ u ∈ l, (w u).rail.track ≠ 0x80 ∨ (w u).tile ≠ tile ∨
          ((w u).subtype = env.TS_Front_Engine ∧
            ((w u).vehstatus &&& cenv.VS_STOPPED) = 0)) →
        CheckTrainStoppedInDepot.loop env cenv w tile fuel h count = some (-1)) ∧
      ((¬ ∃ u ∈ l, (w u).rail.track ≠ 0x80 ∨ (w u).tile ≠ tile ∨
          ((w u).subtype = env.TS_Front_Engine ∧
            ((w u).vehstatus &&& cenv.VS_STOPPED) = 0)) →
        CheckTrainStoppedInDepot.loop env cenv w tile fuel h count =
          some (count + (l.length : Int)))
  | [], fuel, h, count, hc, _ => by
    have hh : h = none := hc
    subst hh
    constructor
    · rintro ⟨u, hu, _⟩
      exact absurd hu (List.not_mem_nil u)
    · intro _
      cases fuel <;> simp [CheckTrainStoppedInDepot.loop]
  | a :: l, 0, h, count, _, hf => by simp at hf
  | a :: l, fuel + 1, h, count, hc, hf => by
    have hh : h = some a := hc.1
    subst hh
    obtain ⟨ih1, ih2⟩ := CheckTrainStoppedInDepot.stopped_loop_spec env cenv w tile l fuel
      (w a).next (count + 1) hc.2 (by simpa using hf)
    by_cases ha : (w a).rail.track ≠ 0x80 ∨ (w a).tile ≠ tile ∨
        ((w a).subtype = env.TS_Front_Engine ∧ ((w a).vehstatus &&& cenv.VS_STOPPED) = 0)
    · constructor
      · intro _
        simp only [CheckTrainStoppedInDepot.loop]
        rw [if_pos ha]
      · intro hn
        exact absurd ⟨a, List.mem_cons_self _ _, ha⟩ hn
    · constructor
      · rintro ⟨u, hu, hbad⟩
        simp only [CheckTrainStoppedInDepot.loop]
        rw [if_neg ha]
        rcases List.mem_cons.mp hu with rfl | hu
        · exact absurd hbad ha
        · exact ih1 ⟨u, hu, hbad⟩
      · intro hn
        simp only [CheckTrainStoppedInDepot.loop]
        rw [if_neg ha, ih2 (fun ⟨u, hu, hbad⟩ => hn ⟨u, List.mem_cons_of_mem _ hu, hbad⟩)]
        congr 1
        simp only [List.length_cons, Nat.cast_add, Nat.cast_one]
        ring

/-- C24: on a finite chain `CheckTrainStoppedInDepot(head)` returns a value;
the value is -1 if and only if the tile of the head is not a rail depot, or
the speed of the head is not 0, or some unit of the chain is not on the depot
track 0x80, or some unit is on another tile than the head, or some front
engine of the chain does not carry the stopped flag; and if it is not -1 it
is the number of units of the chain, which is at least 1. -/
theorem C24_stopped_in_depot_count (env : Env) (cenv : CmdEnv) (w : World) (v : Nat)
    (l : List Nat) (fuel : Nat) (hc : IsChain w (some v) l) (hf : l.length ≤ fuel) :
    ∃ r, CheckTrainStoppedInDepot env cenv w v fuel = some r ∧
      (r = -1 ↔ (cenv.IsTileDepotType (w v).tile = false ∨ (w v).cur_speed ≠ 0 ∨
        (∃ u ∈ l, (w u).rail.track ≠ 0x80) ∨ (∃ u ∈ l, (w u).tile ≠ (w v).tile) ∨
        (∃ u ∈ l, (w u).subtype = env.TS_Front_Engine ∧
          ((w u).vehstatus &&& cenv.VS_STOPPED) = 0))) ∧
      (r ≠ -1 → r = (l.length : Int) ∧ 1 ≤ l.length) := by
  obtain ⟨t, ht⟩ := hc.head_cons
  have hpos : 1 ≤ l.length := by
    rw [ht]
    simp
  obtain ⟨h1, h2⟩ := CheckTrainStoppedInDepot.stopped_loop_spec env cenv w (w v).tile l fuel
    (some v) 0 hc hf
  have hsplit : (∃ u ∈ l, (w u).rail.track ≠ 0x80 ∨ (w u).tile ≠ (w v).tile ∨
        ((w u).subtype = env.TS_Front_Engine ∧ ((w u).vehstatus &&& cenv.VS_STOPPED) = 0)) ↔
      ((∃ u ∈ l, (w u).rail.track ≠ 0x80) ∨ (∃ u ∈ l, (w u).tile ≠ (w v).tile) ∨
        (∃ u ∈ l, (w u).subtype = env.TS_Front_Engine ∧
          ((w u).vehstatus &&& cenv.VS_STOPPED) = 0)) := by
    constructor
    · rintro ⟨u, hu, h | h | h⟩
      · exact Or.inl ⟨u, hu, h⟩
      · exact Or.inr (Or.inl ⟨u, hu, h⟩)
      · exact Or.inr (Or.inr ⟨u, hu, h⟩)
    · rintro (⟨u, hu, h⟩ | ⟨u, hu, h⟩ | ⟨u, hu, h⟩)
      · exact ⟨u, hu, Or.inl h⟩
      · exact ⟨u, hu, Or.inr (Or.inl h)⟩
      · exact ⟨u, hu, Or.inr (Or.inr h)⟩
  unfold CheckTrainStoppedInDepot
  by_cases hd : cenv.IsTileDepotType (w v).tile = false ∨ (w v).cur_speed ≠ 0
  · simp only [hd, if_true]
    refine ⟨-1, rfl, ⟨fun _ => ?_, fun _ => rfl⟩, fun h => absurd rfl h⟩
    rcases hd with hd | hd
    · exact Or.inl hd
    · exact Or.inr (Or.inl hd)
  · simp only [hd, if_false]
    by_cases hbad : ∃ u ∈ l, (w u).rail.track ≠ 0x80 ∨ (w u).tile ≠ (w v).tile ∨
        ((w u).subtype = env.TS_Front_Engine ∧ ((w u).vehstatus &&& cenv.VS_STOPPED) = 0)
    · refine ⟨-1, h1 hbad, ⟨fun _ => Or.inr (Or.inr (hsplit.mp hbad)), fun _ => rfl⟩,
        fun h => absurd rfl h⟩
    · refine ⟨_, h2 hbad, ⟨fun h => ?_, fun h => ?_⟩, fun _ => ⟨by simp, hpos⟩⟩
      · simp only [zero_add] at h
        omega
      · rcases h with h | h | h
        · exact absurd (Or.inl h) hd
        · exact absurd (Or.inr h) hd
        · exact absurd (hsplit.mpr h) hbad

/-- Witness of C24: the stopped train of three units in the depot of
`exDepot`; the result is 3. -/
theorem C24_stopped_in_depot_count_witness :
    IsChain exDepot (some 0) [0, 1, 2] ∧
    CheckTrainStoppedInDepot exEnv exCmdEnv exDepot 0 3 = some 3 ∧
    ∃ r, CheckTrainStoppedInDepot exEnv exCmdEnv exDepot 0 3 = some r ∧
      (r = -1 ↔ (exCmdEnv.IsTileDepotType (exDepot 0).tile = false ∨
        (exDepot 0).cur_speed ≠ 0 ∨
        (∃ u ∈ [0, 1, 2], (exDepot u).rail.track ≠ 0x80) ∨
        (∃ u ∈ [0, 1, 2], (exDepot u).tile ≠ (exDepot 0).tile) ∨
        (∃ u ∈ [0, 1, 2], (exDepot u).subtype = exEnv.TS_Front_Engine ∧
          ((exDepot u).vehstatus &&& exCmdEnv.VS_STOPPED) = 0))) ∧
      (r ≠ -1 → r = (([0, 1, 2] : List Nat).length : Int) ∧
        1 ≤ ([0, 1, 2] : List Nat).length) :=
  ⟨by decide, by decide,
    C24_stopped_in_depot_count exEnv exCmdEnv exDepot 0 [0, 1, 2] 3 (by decide) (by decide)⟩

/-! ### Powered wagons and cached lengths -/

theorem TrainConsistChanged.vehLen_eq (env : Env) (w : World) (u : Nat) :
    TrainConsistChanged.vehLen env (env.RailVehInfo (w u).engine_type) w u =
      clamp (vehLengthCode env w u) 0 7 := by
  unfold TrainConsistChanged.vehLen vehLengthCode
  by_cases hm : HASBIT (env.RailVehInfo (w u).engine_type).callbackmask env.CBM_VEH_LENGTH
      = true
  · by_cases hr : env.GetCallBackResult env.CBID_VEH_LENGTH (w u).engine_type w u % 65536
        = env.CALLBACK_FAILED
    · simp [hm, hr]
    · simp [hm, hr]
  · simp [hm]

theorem clamp_le (a lo hi : Nat) (h : lo ≤ hi) : clamp a lo hi ≤ hi := by
  unfold clamp
  split_ifs <;> omega

/-- The unit `u` after its iteration of the loop of `TrainConsistChanged`:
the powered-wagon bit is the result of the test and the cached length is 8
minus the clamped length, both taken on pools that differ from the pool
before the iteration in caches only. -/
theorem TrainConsistChanged.bodyWorld_unit (env : Env) (rvi_v : RailVehicleInfo)
    (v fe u : Nat) (w : World) (hb : env.VRF_POWEREDWAGON < 8) :
    ∃ wc wl, SameUpToCaches w wc ∧ SameUpToCaches w wl ∧
      HASBIT ((TrainConsistChanged.bodyWorld env rvi_v v fe u w) u).rail.flags
          env.VRF_POWEREDWAGON =
        TrainConsistChanged.powered env rvi_v (env.RailVehInfo (wc u).engine_type) wc u ∧
      ((TrainConsistChanged.bodyWorld env rvi_v v fe u w) u).rail.cached_veh_length =
        8 - TrainConsistChanged.vehLen env (env.RailVehInfo (wl u).engine_type) wl u := by
  have htest : SameUpToCaches w (TrainConsistChanged.testWorld env v fe u w) := by
    rw [TrainConsistChanged.testWorld_eq]
    exact SameUpToCaches.set_rail w u _ ⟨rfl, rfl, rfl⟩
  have hte : ((TrainConsistChanged.testWorld env v fe u w) u).engine_type = (w u).engine_type :=
    htest.engine_type u
  obtain ⟨fl, len, hw2, hfl⟩ := TrainConsistChanged.bodyWorld_eq env rvi_v v fe u w hb
  have hl : ∀ w3, SameUpToCaches w w3 →
      8 - TrainConsistChanged.vehLen env (env.RailVehInfo (w u).engine_type) w3 u =
        8 - TrainConsistChanged.vehLen env (env.RailVehInfo (w3 u).engine_type) w3 u :=
    fun w3 h => by rw [h.engine_type u]
  by_cases hp : TrainConsistChanged.powered env rvi_v (env.RailVehInfo (w u).engine_type)
      (TrainConsistChanged.testWorld env v fe u w) u = true
  · have h3 : SameUpToCaches w ((TrainConsistChanged.testWorld env v fe u w).set u
        { (TrainConsistChanged.testWorld env v fe u w) u with rail :=
          { ((TrainConsistChanged.testWorld env v fe u w) u).rail with
            flags := SETBIT ((TrainConsistChanged.testWorld env v fe u w) u).rail.flags
              env.VRF_POWEREDWAGON } }) :=
      htest.trans_caches (SameUpToCaches.set_rail _ u _ ⟨rfl, rfl, rfl⟩)
    refine ⟨_, _, htest, h3, ?_, ?_⟩
    · rw [hw2, World.set_same, hte]
      exact hfl
    · rw [← hl _ h3]
      simp only [TrainConsistChanged.bodyWorld, hp, if_true, World.set_same]
  · refine ⟨_, _, htest, htest, ?_, ?_⟩
    · rw [hw2, World.set_same, hte]
      exact hfl
    · rw [← hl _ htest]
      simp only [TrainConsistChanged.bodyWorld, hp, World.set_same]
      simp

theorem SameUpToCaches.symm_caches {w w1 : World} (h : SameUpToCaches w w1) :
    SameUpToCaches w1 w := fun j => (h j).symm

/-- The loop of `TrainConsistChanged` on a finite chain, unit by unit. -/
theorem TrainConsistChanged.consist_loop_units (env : Env) (rvi_v : RailVehicleInfo)
    (v fe : Nat) (hb : env.VRF_POWEREDWAGON < 8) :
    ∀ (l : List Nat) (fuel : Nat) (h : Option Nat) (p m : Nat) (w : World),
      IsChain w h l → l.Nodup → l.length ≤ fuel → p < 4294967296 →
      ∃ w1 p1 m1, TrainConsistChanged.loop env rvi_v v fe fuel h p m w = some (w1, p1, m1) ∧
        ∀ u ∈ l, ∃ wc wl, SameUpToCaches w wc ∧ SameUpToCaches w wl ∧
          HASBIT (w1 u).rail.flags env.VRF_POWEREDWAGON =
            TrainConsistChanged.powered env rvi_v (env.RailVehInfo (wc u).engine_type) wc u ∧
          (w1 u).rail.cached_veh_length =
            8 - TrainConsistChanged.vehLen env (env.RailVehInfo (wl u).engine_type) wl u
  | [], fuel, h, p, m, w, hc, _, _, _ => by
    have hh : h = none := hc
    subst hh
    refine ⟨w, p, m, by cases fuel <;> rfl, ?_⟩
    intro u hu
    exact absurd hu (List.not_mem_nil u)
  | a :: l, 0, h, p, m, w, _, _, hf, _ => by simp at hf
  | a :: l, fuel + 1, h, p, m, w, hc, hnd, hf, _ => by
    have hh : h = some a := hc.1
    subst hh
    have hc2 : IsChain w (w a).next l := hc.2
    obtain ⟨wb, pb, mb, hbody, hfr, hsame, hpb2, _, _⟩ :=
      TrainConsistChanged.body_spec env rvi_v v fe a p m w
    have hwb : wb = TrainConsistChanged.bodyWorld env rvi_v v fe a w := by
      have := congrArg Prod.fst hbody
      simpa [TrainConsistChanged.body] using this.symm
    have hal : a ∉ l := (List.nodup_cons.mp hnd).1
    have hc3 : IsChain wb (wb a).next l := by
      rw [hsame.next a]
      exact (hsame.isSeg l _ none).mpr hc2
    obtain ⟨w1, p1, m1, hloop, hfr1, _, _, _, _⟩ :=
      TrainConsistChanged.consist_loop_spec env rvi_v v fe l fuel _ pb mb wb hc3
        (List.nodup_cons.mp hnd).2 (by simpa using hf) hpb2
    obtain ⟨w1b, p1b, m1b, hloopb, hunits⟩ :=
      TrainConsistChanged.consist_loop_units env rvi_v v fe hb l fuel _ pb mb wb hc3
        (List.nodup_cons.mp hnd).2 (by simpa using hf) hpb2
    have heq : w1b = w1 := by
      rw [hloop] at hloopb
      simp only [Option.some.injEq, Prod.mk.injEq] at hloopb
      exact hloopb.1.symm
    subst heq
    refine ⟨w1b, p1, m1, ?_, ?_⟩
    · simp only [TrainConsistChanged.loop, hbody]
      exact hloop
    · intro u hu
      rcases List.mem_cons.mp hu with rfl | hu
      · rw [hfr1 u hal, hwb]
        exact TrainConsistChanged.bodyWorld_unit env rvi_v v fe u w hb
      · obtain ⟨wc, wl, h1, h2, h3, h4⟩ := hunits u hu
        exact ⟨wc, wl, hsame.trans_caches h1, hsame.trans_caches h2, h3, h4⟩

/-- `TrainConsistChanged` on the chain of a head, unit by unit: it returns,
and every unit carries the result of its powered-wagon test and 8 minus its
clamped length, taken on pools that differ from the given one in caches
only. -/
theorem TrainConsistChanged.consist_units (env : Env) (w : World) (v : Nat) (l : List Nat)
    (fuel : Nat) (hb : env.VRF_POWEREDWAGON < 8)
    (htype : (w v).type = env.VEH_Train)
    (hsub : (w v).subtype = env.TS_Front_Engine ∨ (w v).subtype = env.TS_Free_Car)
    (hc : IsChain w (some v) l) (hf : l.length ≤ fuel) :
    ∃ w4, TrainConsistChanged env w v fuel = some w4 ∧
      ∀ u ∈ l, ∃ wc wl, SameUpToCaches w wc ∧ SameUpToCaches w wl ∧
        HASBIT (w4 u).rail.flags env.VRF_POWEREDWAGON =
          TrainConsistChanged.powered env (env.RailVehInfo (w v).engine_type)
            (env.RailVehInfo (wc u).engine_type) wc u ∧
        (w4 u).rail.cached_veh_length =
          8 - TrainConsistChanged.vehLen env (env.RailVehInfo (wl u).engine_type) wl u := by
  obtain ⟨w1, p1, m1, hloop, hunits⟩ :=
    TrainConsistChanged.consist_loop_units env (env.RailVehInfo (w v).engine_type) v
      (if (w v).subtype = env.TS_Front_Engine then (w v).engine_type else env.INVALID_VEHICLE)
      hb l fuel (some v) 0 65535 w hc (IsChain.nodup l _ hc) hf (by norm_num)
  obtain ⟨w1b, p1b, m1b, hloopb, _, hsame1, _, _, _⟩ :=
    TrainConsistChanged.consist_loop_spec env (env.RailVehInfo (w v).engine_type) v
      (if (w v).subtype = env.TS_Front_Engine then (w v).engine_type else env.INVALID_VEHICLE)
      l fuel (some v) 0 65535 w hc (IsChain.nodup l _ hc) hf (by norm_num)
  have heq : w1b = w1 := by
    rw [hloop] at hloopb
    simp only [Option.some.injEq, Prod.mk.injEq] at hloopb
    exact hloopb.1.symm
  subst heq
  have h12 := SameUpToCaches.set_rail w1b v
    { (w1b v).rail with cached_max_speed := m1 } ⟨rfl, rfl, rfl⟩
  generalize hw2 : w1b.set v { w1b v with rail := { (w1b v).rail with cached_max_speed := m1 } }
    = w2 at h12
  have h23 := SameUpToCaches.set_rail w2 v
    { (w2 v).rail with cached_power := p1 } ⟨rfl, rfl, rfl⟩
  generalize hw3 : w2.set v { w2 v with rail := { (w2 v).rail with cached_power := p1 } }
    = w3 at h23
  have hs3 : SameUpToCaches w w3 := (hsame1.trans_caches h12).trans_caches h23
  have hc3 : IsChain w3 (some v) l := (hs3.isSeg l _ none).mpr hc
  obtain ⟨w4, hcargo, hsame4, _, _⟩ := TrainCargoChanged.cargo_spec env w3 v l fuel hc3 hf
  have hflags : ∀ u, (w4 u).rail.flags = (w1b u).rail.flags := by
    intro u
    rw [hsame4.flags u, ← hw3, ← hw2]
    by_cases hu : u = v
    · subst hu
      simp only [World.set_same]
    · simp only [World.set_other _ _ _ _ hu]
  have hlens : ∀ u, (w4 u).rail.cached_veh_length = (w1b u).rail.cached_veh_length := by
    intro u
    have h4 : (w4 u).rail.cached_veh_length = (w3 u).rail.cached_veh_length := by
      have := congrArg (fun x => x.rail.cached_veh_length) (hsame4 u)
      simpa [Vehicle.eraseWeights] using this
    rw [h4, ← hw3, ← hw2]
    by_cases hu : u = v
    · subst hu
      simp only [World.set_same]
    · simp only [World.set_other _ _ _ _ hu]
  refine ⟨w4, ?_, ?_⟩
  · simp only [TrainConsistChanged, htype, hsub, hloop, hw2, hw3, hcargo]
    simp
  · intro u hu
    obtain ⟨wc, wl, h1, h2, h3, h4⟩ := hunits u hu
    exact ⟨wc, wl, h1, h2, by rw [hflags u, h3], by rw [hlens u, h4]⟩

theorem vehLengthCode_blind (env : Env) (hblind : env.CacheBlind) (w wc : World)
    (h : SameUpToCaches w wc) (u : Nat) : vehLengthCode env wc u = vehLengthCode env w u := by
  unfold vehLengthCode
  rw [h.engine_type u, ((hblind w wc h).2 _ _ u)]

theorem exEnv_cacheBlind : exEnv.CacheBlind :=
  fun _ _ _ => ⟨fun _ => rfl, fun _ _ _ => rfl⟩

/-- On `exPowered` the engine is not flagged and the wagon is. -/
theorem exPowered_flags :
    (TrainConsistChanged exEnv exPowered 0 2).map
      (fun w => [0, 1].map (fun u => HASBIT (w u).rail.flags exEnv.VRF_POWEREDWAGON)) =
      some [false, true] := by
  decide

/-- C23: `TrainConsistChanged(head)` returns on a finite chain, and afterwards
the cached length of every unit is `8 - clamp(L, 0, 7)`, where `L` is the
result of the length callback when that callback is enabled and did not fail
and the `shorten_factor` of the engine otherwise; so every cached length
lies in 1..8.  The callback is the one made during the call, on a pool that
differs from the given one in caches only; when the queries do not look at
the caches, `L` is read on the given pool. -/
theorem C23_cached_length (env : Env) (w : World) (v : Nat) (l : List Nat)
    (fuel : Nat) (hb : env.VRF_POWEREDWAGON < 8)
    (htype : (w v).type = env.VEH_Train)
    (hsub : (w v).subtype = env.TS_Front_Engine ∨ (w v).subtype = env.TS_Free_Car)
    (hc : IsChain w (some v) l) (hf : l.length ≤ fuel) :
    ∃ w1, TrainConsistChanged env w v fuel = some w1 ∧
      (∀ u ∈ l, ∃ wl, SameUpToCaches w wl ∧
        (w1 u).rail.cached_veh_length = 8 - clamp (vehLengthCode env wl u) 0 7 ∧
        1 ≤ (w1 u).rail.cached_veh_length ∧ (w1 u).rail.cached_veh_length ≤ 8) ∧
      (env.CacheBlind → ∀ u ∈ l,
        (w1 u).rail.cached_veh_length = 8 - clamp (vehLengthCode env w u) 0 7) := by
  obtain ⟨w1, hrun, hunits⟩ :=
    TrainConsistChanged.consist_units env w v l fuel hb htype hsub hc hf
  have hmain : ∀ u ∈ l, ∃ wl, SameUpToCaches w wl ∧
      (w1 u).rail.cached_veh_length = 8 - clamp (vehLengthCode env wl u) 0 7 ∧
      1 ≤ (w1 u).rail.cached_veh_length ∧ (w1 u).rail.cached_veh_length ≤ 8 := by
    intro u hu
    obtain ⟨_, wl, _, h2, _, h4⟩ := hunits u hu
    rw [TrainConsistChanged.vehLen_eq] at h4
    have hle := clamp_le (vehLengthCode env wl u) 0 7 (by norm_num)
    exact ⟨wl, h2, h4, by omega, by omega⟩
  refine ⟨w1, hrun, hmain, ?_⟩
  intro hblind u hu
  obtain ⟨wl, h1, h2, _⟩ := hmain u hu
  rw [h2, vehLengthCode_blind env hblind w wl h1 u]

/-- Witness of C23: the three-unit train of `exTrain`. -/
theorem C23_cached_length_witness :
    exEnv.VRF_POWEREDWAGON < 8 ∧ IsChain exTrain (some 0) [0, 1, 2] ∧
    ∃ w1, TrainConsistChanged exEnv exTrain 0 3 = some w1 ∧
      (∀ u ∈ [0, 1, 2], ∃ wl, SameUpToCaches exTrain wl ∧
        (w1 u).rail.cached_veh_length = 8 - clamp (vehLengthCode exEnv wl u) 0 7 ∧
        1 ≤ (w1 u).rail.cached_veh_length ∧ (w1 u).rail.cached_veh_length ≤ 8) ∧
      (exEnv.CacheBlind → ∀ u ∈ [0, 1, 2],
        (w1 u).rail.cached_veh_length = 8 - clamp (vehLengthCode exEnv exTrain u) 0 7) :=
  ⟨by decide, by decide,
    C23_cached_length exEnv exTrain 0 [0, 1, 2] 3 (by decide) rfl (Or.inl rfl) (by decide)
      (by decide)⟩

/-! ### Tie-break and wagon follow -/

/-- In a tie the comparison of the original pathfinding is the test of the
shifted random byte against 127. -/
theorem ChooseTrainTrack.better_tie (fd : TrainTrackFollowerData)
    (i best_track bb bt train_dir random : Nat)
    (hdraw : ChooseTrainTrack.draws fd best_track bb bt = true) :
    ChooseTrainTrack.better fd i best_track bb bt train_dir random =
      decide ((127 : Int) < ((random % 256 : Nat) : Int) +
        (if _pick_track_table.getD i 0 = train_dir then 80 else 0) -
        (if _pick_track_table.getD best_track 0 = train_dir then 80 else 0)) := by
  unfold ChooseTrainTrack.draws at hdraw
  simp only [Bool.and_eq_true, decide_eq_true_eq] at hdraw
  obtain ⟨hb, hrest⟩ := hdraw
  unfold ChooseTrainTrack.better
  rw [if_pos hb]
  have htie : (if (if _pick_track_table.getD best_track 0 = train_dir then
        (if _pick_track_table.getD i 0 = train_dir then ((random % 256 : Nat) : Int) + 80
          else ((random % 256 : Nat) : Int)) - 80
        else (if _pick_track_table.getD i 0 = train_dir then ((random % 256 : Nat) : Int) + 80
          else ((random % 256 : Nat) : Int))) ≤ 127 then false else true) =
      decide ((127 : Int) < ((random % 256 : Nat) : Int) +
        (if _pick_track_table.getD i 0 = train_dir then 80 else 0) -
        (if _pick_track_table.getD best_track 0 = train_dir then 80 else 0)) := by
    have hx : ∀ x : Int, (if x ≤ 127 then false else true) = decide ((127 : Int) < x) := by
      intro x
      by_cases h : x ≤ 127
      · rw [if_pos h]
        exact (decide_eq_false (by omega)).symm
      · rw [if_neg h]
        exact (decide_eq_true (by omega)).symm
    by_cases h1 : _pick_track_table.getD i 0 = train_dir <;>
      by_cases h2 : _pick_track_table.getD best_track 0 = train_dir <;>
      simp only [h1, h2, if_true, if_false, add_zero, sub_zero] <;>
      exact hx _
  by_cases hbt : bt = 4294967295
  · rw [if_pos hbt] at hrest
    simp only [decide_eq_true_eq] at hrest
    simp only [hbt, if_true, hrest.1, hrest.2, gt_iff_lt, lt_self_iff_false, if_false]
    exact htie
  · rw [if_neg hbt] at hrest
    simp only [decide_eq_true_eq] at hrest
    simp only [hbt, if_false, hrest.1, hrest.2, gt_iff_lt, lt_self_iff_false]
    exact htie

set_option maxRecDepth 100000 in
theorem tie_counts :
    ((List.range 256).filter (fun r => decide ((127 : Int) < ((r % 256 : Nat) : Int) + 80 - 0))).length
      = 208 ∧
    ((List.range 256).filter (fun r => decide ((127 : Int) < ((r % 256 : Nat) : Int) + 0 - 80))).length
      = 48 ∧
    ((List.range 256).filter (fun r => decide ((127 : Int) < ((r % 256 : Nat) : Int) + 0 - 0))).length
      = 128 ∧
    ((List.range 256).filter (fun r => decide ((127 : Int) < ((r % 256 : Nat) : Int) + 80 - 80))).length
      = 128 := by
  decide

/-- C29: in a tie of the original pathfinding of `ChooseTrainTrack` (the
call of `Random()` is reached), counted over the 256 values of the random
byte: a new candidate that continues the heading of the train replaces an
incumbent that does not for exactly 208 values, a new candidate that does not
replaces an incumbent that does for exactly 48 values, and when neither or
both continue the heading the new candidate wins for exactly 128 values.  A
track continues the heading when its entry of `_pick_track_table` is the
direction of the train modulo 4. -/
theorem C29_tie_break_counts (fd : TrainTrackFollowerData)
    (i best_track bb bt train_dir : Nat)
    (hdraw : ChooseTrainTrack.draws fd best_track bb bt = true) :
    ((_pick_track_table.getD i 0 = train_dir ∧
        _pick_track_table.getD best_track 0 ≠ train_dir) →
      ((List.range 256).filter (fun r =>
        ChooseTrainTrack.better fd i best_track bb bt train_dir r)).length = 208) ∧
    ((_pick_track_table.getD i 0 ≠ train_dir ∧
        _pick_track_table.getD best_track 0 = train_dir) →
      ((List.range 256).filter (fun r =>
        ChooseTrainTrack.better fd i best_track bb bt train_dir r)).length = 48) ∧
    ((_pick_track_table.getD i 0 = train_dir ↔
        _pick_track_table.getD best_track 0 = train_dir) →
      ((List.range 256).filter (fun r =>
        ChooseTrainTrack.better fd i best_track bb bt train_dir r)).length = 128) := by
  simp only [ChooseTrainTrack.better_tie fd i best_track bb bt train_dir _ hdraw]
  refine ⟨?_, ?_, ?_⟩
  · rintro ⟨h1, h2⟩
    simp only [h1, h2, if_true, if_false]
    exact tie_counts.1
  · rintro ⟨h1, h2⟩
    simp only [h1, h2, if_true, if_false]
    exact tie_counts.2.1
  · intro h
    by_cases h1 : _pick_track_table.getD i 0 = train_dir
    · simp only [h1, h.mp h1, if_true]
      exact tie_counts.2.2.2
    · have h2 : ¬ _pick_track_table.getD best_track 0 = train_dir := fun h2 => h1 (h.mpr h2)
      simp only [h1, h2, if_false]
      exact tie_counts.2.2.1

/-- Witness of C29: two candidates that both did not reach the destination
and have the bird distance 7; the new one is track 0 and the incumbent track
1, the train heads in direction 1, which track 0 continues. -/
theorem C29_tie_break_counts_witness :
    ChooseTrainTrack.draws { best_bird_dist := 7, best_track_dist := 4294967295 } 1 7
      4294967295 = true ∧
    _pick_track_table.getD 0 0 = 1 ∧ _pick_track_table.getD 1 0 ≠ 1 ∧
    ((List.range 256).filter (fun r =>
      ChooseTrainTrack.better { best_bird_dist := 7, best_track_dist := 4294967295 } 0 1 7
        4294967295 1 r)).length = 208 :=
  ⟨by decide, by decide, by decide,
    (C29_tie_break_counts { best_bird_dist := 7, best_track_dist := 4294967295 } 0 1 7
      4294967295 1 (by decide)).1 ⟨by decide, by decide⟩⟩

/-- The folded track bits of a masked status are among the folded bits of
the mask. -/
theorem fold_submask (s r : Nat) :
    ((((s &&& r) ||| ((s &&& r) >>> 8)) &&& 255) &&& ((r ||| (r >>> 8)) &&& 255)) =
      (((s &&& r) ||| ((s &&& r) >>> 8)) &&& 255) := by
  apply Nat.eq_of_testBit_eq
  intro i
  simp only [Nat.testBit_land, Nat.testBit_lor, Nat.testBit_shiftRight]
  cases s.testBit i <;> cases r.testBit i <;> cases s.testBit (8 + i) <;>
    cases r.testBit (8 + i) <;> cases (255 : Nat).testBit i <;> rfl

set_option maxRecDepth 1000000 in
theorem matching_single_e (e : Nat) (he : e < 4) :
    ∀ b < 256, ∀ d < 8, b &&& (((_reachable_tracks.getD e 0) |||
        ((_reachable_tracks.getD e 0) >>> 8)) &&& 255) = b →
      ((_matching_tracks.getD d 0 &&& b) % 256 = 0 ∨
        (_matching_tracks.getD d 0 &&& b) % 256 = 1 ∨
        (_matching_tracks.getD d 0 &&& b) % 256 = 2 ∨
        (_matching_tracks.getD d 0 &&& b) % 256 = 4 ∨
        (_matching_tracks.getD d 0 &&& b) % 256 = 8 ∨
        (_matching_tracks.getD d 0 &&& b) % 256 = 16 ∨
        (_matching_tracks.getD d 0 &&& b) % 256 = 32) := by
  interval_cases e <;> decide

theorem direction_table_lt (o : Nat) : _new_vehicle_direction_table.getD o 0 < 8 := by
  by_cases h : o < 11
  · interval_cases o <;> decide
  · rw [List.getD_eq_default _ _ (by simpa [_new_vehicle_direction_table] using h)]
    norm_num

/-- C30: for every entry direction `e` in 0..3, every track status of the
tile (masked by `_reachable_tracks[e]` and folded to the low byte as
`TrainController` does for a trailing unit) and every direction `d` in 0..7
towards the unit in front, the byte `_matching_tracks[d] & bits` is 0 or a
single one of the six track bits; and the direction that
`GetDirectionToVehicle` returns is always in 0..7. -/
theorem C30_wagon_follow_single_track (penv : PathEnv) (menv : MoveEnv) (m : Map) (w : World)
    (p v new_tile e d : Nat) (he : e < 4) (hd : d < 8) :
    ((_matching_tracks.getD d 0 &&&
        (TrainController.trackBits penv menv m w (some p) v new_tile e).2.2) % 256 = 0 ∨
      (_matching_tracks.getD d 0 &&&
        (TrainController.trackBits penv menv m w (some p) v new_tile e).2.2) % 256 = 1 ∨
      (_matching_tracks.getD d 0 &&&
        (TrainController.trackBits penv menv m w (some p) v new_tile e).2.2) % 256 = 2 ∨
      (_matching_tracks.getD d 0 &&&
        (TrainController.trackBits penv menv m w (some p) v new_tile e).2.2) % 256 = 4 ∨
      (_matching_tracks.getD d 0 &&&
        (TrainController.trackBits penv menv m w (some p) v new_tile e).2.2) % 256 = 8 ∨
      (_matching_tracks.getD d 0 &&&
        (TrainController.trackBits penv menv m w (some p) v new_tile e).2.2) % 256 = 16 ∨
      (_matching_tracks.getD d 0 &&&
        (TrainController.trackBits penv menv m w (some p) v new_tile e).2.2) % 256 = 32) ∧
    (∀ (x : Vehicle) (gx gy : Int) (d1 : Nat),
      GetDirectionToVehicle x gx gy = some d1 → d1 < 8) := by
  constructor
  · have hbits : (TrainController.trackBits penv menv m w (some p) v new_tile e).2.2 =
        (((menv.GetTileTrackStatus m new_tile &&& _reachable_tracks.getD e 0) |||
          ((menv.GetTileTrackStatus m new_tile &&& _reachable_tracks.getD e 0) >>> 8)) &&&
          255) := by
      unfold TrainController.trackBits
      simp
    rw [hbits]
    have hsub := fold_submask (menv.GetTileTrackStatus m new_tile) (_reachable_tracks.getD e 0)
    have hlt : (((menv.GetTileTrackStatus m new_tile &&& _reachable_tracks.getD e 0) |||
          ((menv.GetTileTrackStatus m new_tile &&& _reachable_tracks.getD e 0) >>> 8)) &&&
          255) < 256 :=
      lt_of_le_of_lt Nat.and_le_right (by norm_num)
    exact matching_single_e e he _ hlt d hd hsub
  · intro x gx gy d1 h
    have key : ∀ (o : Nat) (c : Prop) [Decidable c],
        (if c then some (_new_vehicle_direction_table.getD o 0) else none) = some d1 →
        d1 < 8 := by
      intro o c _ hc
      by_cases hcc : c
      · rw [if_pos hcc] at hc
        simp only [Option.some.injEq] at hc
        rw [← hc]
        exact direction_table_lt o
      · rw [if_neg hcc] at hc
        exact absurd hc (by simp)
    exact key _ _ h

/-- Witness of C30: a wagon entering tile 21 of `exRailMap` through entry
direction 2 behind a unit seen in direction 5: the byte is the track bit 1. -/
theorem C30_wagon_follow_single_track_witness :
    (2 : Nat) < 4 ∧ (5 : Nat) < 8 ∧
    (_matching_tracks.getD 5 0 &&&
      (TrainController.trackBits exSignalEnv exMoveEnv exRailMap exTracks (some 2) 3 21 2).2.2)
        % 256 = 1 ∧
    ((_matching_tracks.getD 5 0 &&&
        (TrainController.trackBits exSignalEnv exMoveEnv exRailMap exTracks (some 2) 3 21
          2).2.2) % 256 = 0 ∨
      (_matching_tracks.getD 5 0 &&&
        (TrainController.trackBits exSignalEnv exMoveEnv exRailMap exTracks (some 2) 3 21
          2).2.2) % 256 = 1 ∨
      (_matching_tracks.getD 5 0 &&&
        (TrainController.trackBits exSignalEnv exMoveEnv exRailMap exTracks (some 2) 3 21
          2).2.2) % 256 = 2 ∨
      (_matching_tracks.getD 5 0 &&&
        (TrainController.trackBits exSignalEnv exMoveEnv exRailMap exTracks (some 2) 3 21
          2).2.2) % 256 = 4 ∨
      (_matching_tracks.getD 5 0 &&&
        (TrainController.trackBits exSignalEnv exMoveEnv exRailMap exTracks (some 2) 3 21
          2).2.2) % 256 = 8 ∨
      (_matching_tracks.getD 5 0 &&&
        (TrainController.trackBits exSignalEnv exMoveEnv exRailMap exTracks (some 2) 3 21
          2).2.2) % 256 = 16 ∨
      (_matching_tracks.getD 5 0 &&&
        (TrainController.trackBits exSignalEnv exMoveEnv exRailMap exTracks (some 2) 3 21
          2).2.2) % 256 = 32) :=
  ⟨by decide, by decide, by decide,
    (C30_wagon_follow_single_track exSignalEnv exMoveEnv exRailMap exTracks 2 3 21 2 5
      (by decide) (by decide)).1⟩

/-! ### Original pathfinding -/

theorem ChooseTrainTrack.better_true_cases (fd : TrainTrackFollowerData)
    (i best bb bt td r : Nat) (hb : best ≠ 4294967295)
    (h : ChooseTrainTrack.better fd i best bb bt td r = true) :
    (bt = 4294967295 ∧ fd.best_track_dist = 4294967295 ∧ fd.best_bird_dist ≤ bb) ∨
    (bt = 4294967295 ∧ fd.best_track_dist ≠ 4294967295) ∨
    (bt ≠ 4294967295 ∧ fd.best_track_dist ≠ 4294967295 ∧ fd.best_track_dist ≤ bt) := by
  unfold ChooseTrainTrack.better at h
  rw [if_pos hb] at h
  simp only at h
  by_cases h1 : bt = 4294967295
  · rw [if_pos h1] at h
    by_cases h2 : fd.best_track_dist = 4294967295
    · rw [if_pos h2] at h
      by_cases h3 : fd.best_bird_dist > bb
      · rw [if_pos h3] at h
        exact absurd h (by simp)
      · exact Or.inl ⟨h1, h2, by omega⟩
    · exact Or.inr (Or.inl ⟨h1, h2⟩)
  · rw [if_neg h1] at h
    by_cases h2 : fd.best_track_dist = 4294967295
    · rw [if_pos h2] at h
      exact absurd h (by simp)
    · rw [if_neg h2] at h
      by_cases h3 : fd.best_track_dist > bt
      · rw [if_pos h3] at h
        exact absurd h (by simp)
      · exact Or.inr (Or.inr ⟨h1, h2, by omega⟩)

theorem ChooseTrainTrack.better_false_cases (fd : TrainTrackFollowerData)
    (i best bb bt td r : Nat)
    (h : ChooseTrainTrack.better fd i best bb bt td r = false) :
    best ≠ 4294967295 ∧
    ((bt = 4294967295 ∧ fd.best_track_dist = 4294967295 ∧ bb ≤ fd.best_bird_dist) ∨
    (bt ≠ 4294967295 ∧ fd.best_track_dist = 4294967295) ∨
    (bt ≠ 4294967295 ∧ fd.best_track_dist ≠ 4294967295 ∧ bt ≤ fd.best_track_dist)) := by
  unfold ChooseTrainTrack.better at h
  by_cases hb : best ≠ 4294967295
  · refine ⟨hb, ?_⟩
    rw [if_pos hb] at h
    simp only at h
    by_cases h1 : bt = 4294967295
    · rw [if_pos h1] at h
      by_cases h2 : fd.best_track_dist = 4294967295
      · rw [if_pos h2] at h
        by_cases h3 : fd.best_bird_dist < bb
        · rw [if_neg (by omega), if_pos h3] at h
          exact absurd h (by simp)
        · exact Or.inl ⟨h1, h2, by omega⟩
      · rw [if_neg h2] at h
        exact absurd h (by simp)
    · rw [if_neg h1] at h
      by_cases h2 : fd.best_track_dist = 4294967295
      · exact Or.inr (Or.inl ⟨h1, h2⟩)
      · rw [if_neg h2] at h
        by_cases h3 : fd.best_track_dist < bt
        · rw [if_neg (by omega), if_pos h3] at h
          exact absurd h (by simp)
        · exact Or.inr (Or.inr ⟨h1, h2, by omega⟩)
  · rw [if_neg hb] at h
    exact absurd h (by simp)

/-- One more search keeps the best track: the comparison of the loop takes
the new candidate only if it is at least as good. -/
theorem ChooseTrainTrack.BestOf.step (s : List (Nat × TrainTrackFollowerData))
    (fd : TrainTrackFollowerData) (i best bb bt td r : Nat)
    (hs : (best = 4294967295 ∧ s = []) ∨
      (best ≠ 4294967295 ∧ ChooseTrainTrack.BestOf s best bb bt)) :
    ChooseTrainTrack.BestOf (s ++ [(i, fd)])
      (if ChooseTrainTrack.better fd i best bb bt td r = true then i else best)
      (if ChooseTrainTrack.better fd i best bb bt td r = true then fd.best_bird_dist else bb)
      (if ChooseTrainTrack.better fd i best bb bt td r = true then fd.best_track_dist
        else bt) := by
  rcases hs with ⟨hb, hnil⟩ | ⟨hb, fdt, hmem, hbb, hbt, hreach, hnone⟩
  · subst hnil
    have hg : ChooseTrainTrack.better fd i best bb bt td r = true := by
      simp [ChooseTrainTrack.better, hb]
    simp only [hg, if_true, List.nil_append]
    refine ⟨fd, List.mem_singleton.mpr rfl, rfl, rfl, ?_, ?_⟩
    · rintro ⟨p, hp, hpr⟩
      rw [List.mem_singleton] at hp
      subst hp
      refine ⟨hpr, ?_⟩
      intro q hq _
      rw [List.mem_singleton] at hq
      subst hq
      exact le_refl _
    · intro _ q hq
      rw [List.mem_singleton] at hq
      subst hq
      exact le_refl _
  · cases hg : ChooseTrainTrack.better fd i best bb bt td r with
    | true =>
      simp only [if_true]
      refine ⟨fd, List.mem_append_right _ (List.mem_singleton.mpr rfl), rfl, rfl, ?_, ?_⟩
      · rintro ⟨p, hp, hpr⟩
        rcases ChooseTrainTrack.better_true_cases fd i best bb bt td r hb hg with
          ⟨h1, h2, _⟩ | ⟨h1, h2⟩ | ⟨h1, h2, h3⟩
        · -- nobody reached before, and the new one did not
          exfalso
          rcases List.mem_append.mp hp with hp | hp
          · exact (hreach ⟨p, hp, hpr⟩).1 h1
          · rw [List.mem_singleton] at hp
            subst hp
            exact hpr h2
        · refine ⟨h2, ?_⟩
          intro q hq hqr
          rcases List.mem_append.mp hq with hq | hq
          · exact absurd h1 (hreach ⟨q, hq, hqr⟩).1
          · rw [List.mem_singleton] at hq
            subst hq
            exact le_refl _
        · refine ⟨h2, ?_⟩
          intro q hq hqr
          rcases List.mem_append.mp hq with hq | hq
          · exact le_trans h3 ((hreach ⟨q, hq, hqr⟩).2 q hq hqr)
          · rw [List.mem_singleton] at hq
            subst hq
            exact le_refl _
      · intro hall q hq
        have hfdn : fd.best_track_dist = 4294967295 :=
          hall (i, fd) (List.mem_append_right _ (List.mem_singleton.mpr rfl))
        have hsn : ∀ p ∈ s, p.2.best_track_dist = 4294967295 :=
          fun p hp => hall p (List.mem_append_left _ hp)
        rcases ChooseTrainTrack.better_true_cases fd i best bb bt td r hb hg with
          ⟨_, _, h3⟩ | ⟨_, h2⟩ | ⟨_, h2, _⟩
        · rcases List.mem_append.mp hq with hq | hq
          · exact le_trans h3 (hnone hsn q hq)
          · rw [List.mem_singleton] at hq
            subst hq
            exact le_refl _
        · exact absurd hfdn h2
        · exact absurd hfdn h2
    | false =>
      simp only [Bool.false_eq_true, if_false]
      refine ⟨fdt, List.mem_append_left _ hmem, hbb, hbt, ?_, ?_⟩
      · rintro ⟨p, hp, hpr⟩
        rcases (ChooseTrainTrack.better_false_cases fd i best bb bt td r hg).2 with
          ⟨h1, h2, _⟩ | ⟨h1, h2⟩ | ⟨h1, h2, h3⟩
        · exfalso
          rcases List.mem_append.mp hp with hp | hp
          · exact (hreach ⟨p, hp, hpr⟩).1 h1
          · rw [List.mem_singleton] at hp
            subst hp
            exact hpr h2
        · refine ⟨h1, ?_⟩
          intro q hq hqr
          rcases List.mem_append.mp hq with hq | hq
          · exact (hreach ⟨q, hq, hqr⟩).2 q hq hqr
          · rw [List.mem_singleton] at hq
            subst hq
            exact absurd h2 hqr
        · refine ⟨h1, ?_⟩
          intro q hq hqr
          rcases List.mem_append.mp hq with hq | hq
          · exact (hreach ⟨q, hq, hqr⟩).2 q hq hqr
          · rw [List.mem_singleton] at hq
            subst hq
            exact h3
      · intro hall q hq
        have hfdn : fd.best_track_dist = 4294967295 :=
          hall (i, fd) (List.mem_append_right _ (List.mem_singleton.mpr rfl))
        have hsn : ∀ p ∈ s, p.2.best_track_dist = 4294967295 :=
          fun p hp => hall p (List.mem_append_left _ hp)
        rcases List.mem_append.mp hq with hq | hq
        · exact hnone hsn q hq
        · rw [List.mem_singleton] at hq
          subst hq
          rcases (ChooseTrainTrack.better_false_cases fd i best bb bt td r hg).2 with
            ⟨_, _, h3⟩ | ⟨h1, _⟩ | ⟨h1, _, _⟩
          · exact h3
          · exact absurd (hbt ▸ hsn _ hmem) h1
          · exact absurd (hbt ▸ hsn _ hmem) h1

/-- The loop of the original pathfinding returns a best track of the
searches made so far followed by its own searches. -/
theorem ChooseTrainTrack.legacy_loop_best (penv : PathEnv) (m : Map)
    (tile enterdir train_dir : Nat) (rnd : Nat → Nat) :
    ∀ (fuel bits : Nat) (fd : TrainTrackFollowerData) (best bb bt k : Nat)
      (s : List (Nat × TrainTrackFollowerData)),
      bits < 64 → bits ≠ 0 → trackCount bits ≤ fuel →
      ((best = 4294967295 ∧ s = []) ∨
        (best ≠ 4294967295 ∧ ChooseTrainTrack.BestOf s best bb bt)) →
      ∃ t bb1 bt1,
        ChooseTrainTrack.loop penv m tile enterdir train_dir rnd fuel bits fd best bb bt k
          = some t ∧
        ChooseTrainTrack.BestOf
          (s ++ ChooseTrainTrack.searches penv m tile enterdir fuel bits fd) t bb1 bt1 := by
  intro fuel
  induction fuel with
  | zero =>
    intro bits fd best bb bt k s hb h0 hf _
    have := trackCount_pos hb h0
    omega
  | succ n ih =>
    intro bits fd best bb bt k s hb h0 hf hs
    obtain ⟨_, hk2, hk3⟩ := KILL_FIRST_BIT_spec bits hb h0
    obtain ⟨_, hf6⟩ := FIND_FIRST_BIT_spec bits hb h0
    simp only [ChooseTrainTrack.loop, ChooseTrainTrack.searches]
    generalize penv.NewTrainPathfind m tile
      ((_search_directions.getD (FIND_FIRST_BIT bits) []).getD enterdir 0)
      (TrainTrackFollower penv m)
      { fd with best_bird_dist := 4294967295, best_track_dist := 4294967295 } = fd1
    have hstep := ChooseTrainTrack.BestOf.step s fd1 (FIND_FIRST_BIT bits) best bb bt
      train_dir (rnd k) hs
    have hne : (if ChooseTrainTrack.better fd1 (FIND_FIRST_BIT bits) best bb bt train_dir
        (rnd k) = true then FIND_FIRST_BIT bits else best) ≠ 4294967295 := by
      cases hg : ChooseTrainTrack.better fd1 (FIND_FIRST_BIT bits) best bb bt train_dir (rnd k)
        with
      | true =>
        simp only [if_true]
        omega
      | false =>
        simp only [Bool.false_eq_true, if_false]
        exact (ChooseTrainTrack.better_false_cases fd1 _ best bb bt train_dir (rnd k) hg).1
    by_cases hrest : KILL_FIRST_BIT bits ≠ 0
    · rw [if_pos hrest, if_pos hrest]
      obtain ⟨t, bb1, bt1, hrun, hbest⟩ := ih (KILL_FIRST_BIT bits) fd1 _ _ _
        (if ChooseTrainTrack.draws fd1 best bb bt = true then k + 1 else k)
        (s ++ [(FIND_FIRST_BIT bits, fd1)]) hk2 hrest (by omega) (Or.inr ⟨hne, hstep⟩)
      refine ⟨t, bb1, bt1, hrun, ?_⟩
      rw [List.append_assoc, List.singleton_append] at hbest
      exact hbest
    · rw [if_neg hrest, if_neg hrest]
      exact ⟨_, _, _, rfl, hstep⟩

set_option maxRecDepth 100000 in
theorem first_bit_or_rest : ∀ b < 64, ∀ j < 6, b.testBit j = true →
    (j = FIND_FIRST_BIT b ∨ (KILL_FIRST_BIT b).testBit j = true) := by
  decide

/-- The searches of the original pathfinding are those of the candidate
tracks of the bitset, each of them once. -/
theorem ChooseTrainTrack.searches_cover (penv : PathEnv) (m : Map) (tile enterdir : Nat) :
    ∀ (fuel bits : Nat) (fd : TrainTrackFollowerData),
      bits < 64 → bits ≠ 0 → trackCount bits ≤ fuel →
      (∀ p ∈ ChooseTrainTrack.searches penv m tile enterdir fuel bits fd,
        bits.testBit p.1 = true) ∧
      (∀ j, bits.testBit j = true →
        ∃ fdj, (j, fdj) ∈ ChooseTrainTrack.searches penv m tile enterdir fuel bits fd) := by
  intro fuel
  induction fuel with
  | zero =>
    intro bits fd hb h0 hf
    have := trackCount_pos hb h0
    omega
  | succ n ih =>
    intro bits fd hb h0 hf
    obtain ⟨hk1, hk2, hk3⟩ := KILL_FIRST_BIT_spec bits hb h0
    obtain ⟨hf1, _⟩ := FIND_FIRST_BIT_spec bits hb h0
    simp only [ChooseTrainTrack.searches]
    generalize penv.NewTrainPathfind m tile
      ((_search_directions.getD (FIND_FIRST_BIT bits) []).getD enterdir 0)
      (TrainTrackFollower penv m)
      { fd with best_bird_dist := 4294967295, best_track_dist := 4294967295 } = fd1
    by_cases hrest : KILL_FIRST_BIT bits ≠ 0
    · rw [if_pos hrest]
      obtain ⟨ih1, ih2⟩ := ih (KILL_FIRST_BIT bits) fd1 hk2 hrest (by omega)
      constructor
      · intro p hp
        rcases List.mem_cons.mp hp with rfl | hp
        · exact hf1
        · have := ih1 p hp
          rw [hk1, Nat.testBit_land, Bool.and_eq_true] at this
          exact this.1
      · intro j hj
        rcases first_bit_or_rest bits hb j (testBit_lt_six hb hj) hj with rfl | h
        · exact ⟨fd1, List.mem_cons_self _ _⟩
        · obtain ⟨fdj, hfdj⟩ := ih2 j h
          exact ⟨fdj, List.mem_cons_of_mem _ hfdj⟩
    · rw [if_neg hrest]
      constructor
      · intro p hp
        rw [List.mem_singleton] at hp
        subst hp
        exact hf1
      · intro j hj
        rcases first_bit_or_rest bits hb j (testBit_lt_six hb hj) hj with rfl | h
        · exact ⟨fd1, List.mem_singleton.mpr rfl⟩
        · rw [not_not.mp hrest] at h
          exact absurd h (by simp)

/-- C28: under the original pathfinding, for a bitset with two or more of
the six candidate tracks, `ChooseTrainTrack` returns a track `t` that is a
candidate and was searched, and the searches are those of the candidates.
If the search of some candidate reached the destination (left a track
distance other than the initial value), the search of `t` reached it and its
track distance is the least among the searches that reached it; if none
reached it, the bird distance of `t` is the least among all searches.  This
holds for every sequence `rnd` of random values. -/
theorem C28_legacy_choice_is_best (penv : PathEnv) (m : Map) (w : World) (rnd : Nat → Nat)
    (v tile enterdir bits fuel : Nat)
    (hall : penv.new_pathfinding_all = false) (hnew : penv.new_pathfinding = false)
    (hb : bits < 64) (h2 : 2 ≤ trackCount bits) (hf : 6 ≤ fuel) :
    ∃ t fdt, ChooseTrainTrack penv m w rnd v tile enterdir bits fuel = some t ∧
      bits.testBit t = true ∧
      (t, fdt) ∈ ChooseTrainTrack.searches penv m tile enterdir fuel bits
        (FillWithStationData penv {} (w v)) ∧
      (∀ p ∈ ChooseTrainTrack.searches penv m tile enterdir fuel bits
          (FillWithStationData penv {} (w v)), bits.testBit p.1 = true) ∧
      (∀ j, bits.testBit j = true →
        ∃ fdj, (j, fdj) ∈ ChooseTrainTrack.searches penv m tile enterdir fuel bits
          (FillWithStationData penv {} (w v))) ∧
      ((∃ p ∈ ChooseTrainTrack.searches penv m tile enterdir fuel bits
          (FillWithStationData penv {} (w v)), p.2.best_track_dist ≠ 4294967295) →
        fdt.best_track_dist ≠ 4294967295 ∧
        ∀ p ∈ ChooseTrainTrack.searches penv m tile enterdir fuel bits
          (FillWithStationData penv {} (w v)),
          p.2.best_track_dist ≠ 4294967295 → fdt.best_track_dist ≤ p.2.best_track_dist) ∧
      ((∀ p ∈ ChooseTrainTrack.searches penv m tile enterdir fuel bits
          (FillWithStationData penv {} (w v)), p.2.best_track_dist = 4294967295) →
        ∀ p ∈ ChooseTrainTrack.searches penv m tile enterdir fuel bits
          (FillWithStationData penv {} (w v)), fdt.best_bird_dist ≤ p.2.best_bird_dist) := by
  have h0 : bits ≠ 0 := by
    rintro rfl
    have : trackCount 0 = 0 := by decide
    omega
  obtain ⟨_, hk2, hk3⟩ := KILL_FIRST_BIT_spec bits hb h0
  have hkill : KILL_FIRST_BIT bits ≠ 0 := by
    intro h
    rw [h] at hk3
    have : trackCount 0 = 0 := by decide
    omega
  have hmod : bits % 256 = bits := Nat.mod_eq_of_lt (by omega)
  have hdiv : bits / 64 = 0 := Nat.div_eq_of_lt hb
  have hcnt : trackCount bits ≤ fuel := by
    have : trackCount bits ≤ 6 := by
      unfold trackCount
      exact le_trans (List.length_filter_le _ _) (by simp)
    omega
  obtain ⟨r, hrun, hr⟩ := ChooseTrainTrack.legacy_loop_spec penv m tile enterdir
    ((w v).direction &&& 3) rnd bits fuel bits (FillWithStationData penv {} (w v))
    4294967295 0 0 0 hb h0 hcnt (fun _ h => h) (Or.inl rfl)
  obtain ⟨t, bb1, bt1, hrun2, fdt, hmem, hbb, hbt, hreach, hnone⟩ :=
    ChooseTrainTrack.legacy_loop_best penv m tile enterdir ((w v).direction &&& 3) rnd fuel
      bits (FillWithStationData penv {} (w v)) 4294967295 0 0 0 [] hb h0 hcnt
      (Or.inl ⟨rfl, rfl⟩)
  have htr : t = r := by
    rw [hrun] at hrun2
    simp only [Option.some.injEq] at hrun2
    exact hrun2.symm
  subst htr
  have hr6 := testBit_lt_six hb hr
  rw [List.nil_append] at hmem hreach hnone
  obtain ⟨hc1, hc2⟩ := ChooseTrainTrack.searches_cover penv m tile enterdir fuel bits
    (FillWithStationData penv {} (w v)) hb h0 hcnt
  refine ⟨t, fdt, ?_, hr, hmem, hc1, hc2, ?_, ?_⟩
  · unfold ChooseTrainTrack
    simp only [hmod, hdiv, ne_eq, not_true_eq_false, if_false, hkill, hall, hnew,
      Bool.false_eq_true, hrun]
    rw [if_neg (by omega), Nat.mod_eq_of_lt (by omega)]
  · intro h
    rw [hbt]
    exact hreach h
  · intro h
    rw [hbb]
    exact hnone h

/-- Witness of C28: the candidates 0 and 1 with a search that reaches the
destination on track 1 only. -/
theorem C28_legacy_choice_is_best_witness :
    exPathEnvSearch.new_pathfinding_all = false ∧ exPathEnvSearch.new_pathfinding = false ∧
    (3 : Nat) < 64 ∧ 2 ≤ trackCount 3 ∧
    ∃ t fdt, ChooseTrainTrack exPathEnvSearch exMap exLine (fun _ => 0) 0 10 1 3 6 = some t ∧
      (3 : Nat).testBit t = true ∧
      (t, fdt) ∈ ChooseTrainTrack.searches exPathEnvSearch exMap 10 1 6 3
        (FillWithStationData exPathEnvSearch {} (exLine 0)) ∧
      (∀ p ∈ ChooseTrainTrack.searches exPathEnvSearch exMap 10 1 6 3
          (FillWithStationData exPathEnvSearch {} (exLine 0)), (3 : Nat).testBit p.1 = true) ∧
      (∀ j, (3 : Nat).testBit j = true →
        ∃ fdj, (j, fdj) ∈ ChooseTrainTrack.searches exPathEnvSearch exMap 10 1 6 3
          (FillWithStationData exPathEnvSearch {} (exLine 0))) ∧
      ((∃ p ∈ ChooseTrainTrack.searches exPathEnvSearch exMap 10 1 6 3
          (FillWithStationData exPathEnvSearch {} (exLine 0)),
          p.2.best_track_dist ≠ 4294967295) →
        fdt.best_track_dist ≠ 4294967295 ∧
        ∀ p ∈ ChooseTrainTrack.searches exPathEnvSearch exMap 10 1 6 3
          (FillWithStationData exPathEnvSearch {} (exLine 0)),
          p.2.best_track_dist ≠ 4294967295 → fdt.best_track_dist ≤ p.2.best_track_dist) ∧
      ((∀ p ∈ ChooseTrainTrack.searches exPathEnvSearch exMap 10 1 6 3
          (FillWithStationData exPathEnvSearch {} (exLine 0)),
          p.2.best_track_dist = 4294967295) →
        ∀ p ∈ ChooseTrainTrack.searches exPathEnvSearch exMap 10 1 6 3
          (FillWithStationData exPathEnvSearch {} (exLine 0)),
          fdt.best_bird_dist ≤ p.2.best_bird_dist) :=
  ⟨rfl, rfl, by decide, by decide,
    C28_legacy_choice_is_best exPathEnvSearch exMap exLine (fun _ => 0) 0 10 1 3 6 rfl rfl
      (by decide) (by decide) (by decide)⟩

/-- With the search of `exPathEnvSearch` the track 1, the only one that
reaches the destination, is chosen from the candidates 0 and 1. -/
theorem exPathEnvSearch_choice :
    ChooseTrainTrack exPathEnvSearch exMap exLine (fun _ => 0) 0 10 1 3 6 = some 1 ∧
    (ChooseTrainTrack.searches exPathEnvSearch exMap 10 1 6 3
      (FillWithStationData exPathEnvSearch {} (exLine 0))).map
        (fun p => (p.1, p.2.best_bird_dist, p.2.best_track_dist)) =
      [(0, 4, 4294967295), (1, 0, 30)] := by
  decide

/-! ### Leaving the depot -/

theorem CheckTrainStayInDepot.allInDepot_spec (w : World) (tile : Nat) :
    ∀ (l : List Nat) (fuel : Nat) (h : Option Nat), IsChain w h l → l.length ≤ fuel →
      ((∃ u ∈ l, (w u).rail.track ≠ 0x80 ∨ (w u).tile ≠ tile) →
        CheckTrainStayInDepot.allInDepot w tile fuel h = some false) ∧
      ((∀ u ∈ l, (w u).rail.track = 0x80 ∧ (w u).tile = tile) →
        CheckTrainStayInDepot.allInDepot w tile fuel h = some true)
  | [], fuel, h, hc, _ => by
    have hh : h = none := hc
    subst hh
    constructor
    · rintro ⟨u, hu, _⟩
      exact absurd hu (List.not_mem_nil u)
    · intro _
      cases fuel <;> rfl
  | a :: l, 0, h, _, hf => by simp at hf
  | a :: l, fuel + 1, h, hc, hf => by
    have hh : h = some a := hc.1
    subst hh
    obtain ⟨ih1, ih2⟩ := CheckTrainStayInDepot.allInDepot_spec w tile l fuel (w a).next hc.2
      (by simpa using hf)
    simp only [CheckTrainStayInDepot.allInDepot]
    by_cases ha : (w a).rail.track ≠ 0x80 ∨ (w a).tile ≠ tile
    · rw [if_pos ha]
      refine ⟨fun _ => rfl, fun hall => ?_⟩
      obtain ⟨h1, h2⟩ := hall a (List.mem_cons_self _ _)
      rcases ha with ha | ha
      · exact absurd h1 ha
      · exact absurd h2 ha
    · rw [if_neg ha]
      constructor
      · rintro ⟨u, hu, hbad⟩
        rcases List.mem_cons.mp hu with rfl | hu
        · exact absurd hbad ha
        · exact ih1 ⟨u, hu, hbad⟩
      · intro hall
        exact ih2 (fun u hu => hall u (List.mem_cons_of_mem _ hu))

theorem hidden_bit_cleared (x h : Nat) : (x &&& (255 ^^^ (h % 256))) &&& h = 0 := by
  apply Nat.eq_of_testBit_eq
  intro i
  rw [Nat.testBit_land, Nat.testBit_land, Nat.testBit_xor, show (256 : Nat) = 2 ^ 8 from rfl,
    Nat.testBit_mod_two_pow, show (255 : Nat) = 2 ^ 8 - 1 from rfl,
    Nat.testBit_two_pow_sub_one, Nat.zero_testBit]
  cases x.testBit i <;> cases decide (i < 8) <;> cases h.testBit i <;> rfl

theorem CheckTrainStayInDepot.leaveWorld_spec (env : Env) (hooks : Hooks) (menv : MoveEnv)
    (w : World) (v : Nat)
    (hserv : KeepsUnit menv.VehicleServiceInDepot)
    (hpos : KeepsUnit hooks.VehiclePositionChanged) :
    ((CheckTrainStayInDepot.leaveWorld env hooks menv w v) v).rail.track =
      (if ((w v).direction &&& 2) ≠ 0 then 2 else 1) ∧
    (((CheckTrainStayInDepot.leaveWorld env hooks menv w v) v).vehstatus &&& env.VS_HIDDEN)
      = 0 ∧
    ((CheckTrainStayInDepot.leaveWorld env hooks menv w v) v).cur_speed = 0 ∧
    ((CheckTrainStayInDepot.leaveWorld env hooks menv w v) v).subtype = (w v).subtype ∧
    ((CheckTrainStayInDepot.leaveWorld env hooks menv w v) v).rail.cached_weight =
      (w v).rail.cached_weight := by
  obtain ⟨s1, s2, _, _, s5⟩ := hserv w v
  have p1 : ∀ w u, ((hooks.VehiclePositionChanged w u) u).rail = (w u).rail :=
    fun w u => (hpos w u).2.2.2.2
  have p2 : ∀ w u, ((hooks.VehiclePositionChanged w u) u).vehstatus = (w u).vehstatus :=
    fun w u => (hpos w u).2.2.1
  have p3 : ∀ w u, ((hooks.VehiclePositionChanged w u) u).cur_speed = (w u).cur_speed :=
    fun w u => (hpos w u).2.2.2.1
  have p4 : ∀ w u, ((hooks.VehiclePositionChanged w u) u).subtype = (w u).subtype :=
    fun w u => (hpos w u).2.1
  unfold CheckTrainStayInDepot.leaveWorld
  generalize menv.VehicleServiceInDepot w v = ws at s1 s2 s5 ⊢
  rw [← s1, ← s2, ← s5]
  by_cases hd : ((ws v).direction &&& 2) ≠ 0
  · simp only [p1, p2, p3, p4, UpdateTrainDeltaXY, World.set_same, hd, if_true,
      not_false_eq_true, ne_eq]
    exact ⟨trivial, hidden_bit_cleared _ _, trivial, trivial, trivial⟩
  · simp only [p1, p2, p3, p4, UpdateTrainDeltaXY, World.set_same, hd, if_false,
      not_false_eq_true, ne_eq]
    exact ⟨trivial, hidden_bit_cleared _ _, trivial, trivial, trivial⟩

/-- The train leaves: the end of `CheckTrainStayInDepot` returns false with
the head on track 2 if `direction & 2` is not 0 and on track 1 otherwise,
not hidden and at speed 0. -/
theorem CheckTrainStayInDepot.leave_spec (env : Env) (hooks : Hooks) (menv : MoveEnv) (m : Map)
    (w : World) (v : Nat)
    (hserv : KeepsUnit menv.VehicleServiceInDepot)
    (hpos : KeepsUnit hooks.VehiclePositionChanged)
    (hfe : (w v).subtype = env.TS_Front_Engine) (hwt : (w v).rail.cached_weight ≠ 0) :
    ∃ w1 m1, CheckTrainStayInDepot.leave env hooks menv m w v = some (w1, m1, false) ∧
      (w1 v).rail.track = (if ((w v).direction &&& 2) ≠ 0 then 2 else 1) ∧
      ((w1 v).vehstatus &&& env.VS_HIDDEN) = 0 ∧ (w1 v).cur_speed = 0 := by
  obtain ⟨h1, h2, h3, h4, h5⟩ :=
    CheckTrainStayInDepot.leaveWorld_spec env hooks menv w v hserv hpos
  unfold CheckTrainStayInDepot.leave
  generalize CheckTrainStayInDepot.leaveWorld env hooks menv w v = w8 at h1 h2 h3 h4 h5 ⊢
  have hacc : UpdateTrainAcceleration env w8 v =
      some ((w8.set v { w8 v with max_speed := (w8 v).rail.cached_max_speed }).set v
        { (w8.set v { w8 v with max_speed := (w8 v).rail.cached_max_speed }) v with acceleration := if ((w8 v).rail.cached_power / (w8 v).rail.cached_weight * 4) % 4294967296 ≥ 2147483648 then 1 else clamp (((w8 v).rail.cached_power / (w8 v).rail.cached_weight * 4) % 4294967296) 1 255 }) := by
    unfold UpdateTrainAcceleration
    have hw : (w8 v).rail.cached_weight ≠ 0 := by rwa [h5]
    simp only [h4, hfe, ne_eq, not_true_eq_false, if_false, hw]
  simp only [hacc]
  refine ⟨_, _, rfl, ?_, ?_, ?_⟩
  · simp only [World.set_same]
    exact h1
  · simp only [World.set_same]
    exact h2
  · simp only [World.set_same]
    exact h3

theorem exHooks_keepsUnit : KeepsUnit exHooks.VehiclePositionChanged :=
  fun _ _ => ⟨rfl, rfl, rfl, rfl, rfl⟩

theorem exMoveEnv_keepsUnit : KeepsUnit exMoveEnv.VehicleServiceInDepot := by
  intro w u
  simp only [exMoveEnv, World.set_same, and_self]

/-- C25: `CheckTrainStayInDepot(head)` on a train whose chain is `l`.  If some
unit is not on depot track `0x80` on the head's tile, it returns false with
the pool and the tile grid unchanged.  If all units are, force-proceed is 0
and the incremented wait counter is below 37, it returns true and the pool
differs only in the head's counter.  If all units are and either
force-proceed is set or the counter has reached 37 with no signal update
pending, the train leaves: for hooks that keep the head's own fields, a head
that is a front engine and a consist weight other than 0, it returns false
with the head's track 2 if `direction & 2` is not 0 and 1 otherwise, the
hidden bit cleared and the speed 0. -/
theorem C25_stay_in_depot (env : Env) (hooks : Hooks) (menv : MoveEnv) (m : Map) (w : World)
    (v : Nat) (l : List Nat) (fuel : Nat)
    (hc : IsChain w (some v) l) (hf : l.length ≤ fuel) :
    ((∃ u ∈ l, (w u).rail.track ≠ 0x80 ∨ (w u).tile ≠ (w v).tile) →
      CheckTrainStayInDepot env hooks menv m w v fuel = some (w, m, false)) ∧
    ((∀ u ∈ l, (w u).rail.track = 0x80 ∧ (w u).tile = (w v).tile) →
      (w v).force_proceed = 0 → ((w v).load_unload_time_rem + 1) % 65536 < 37 →
      CheckTrainStayInDepot env hooks menv m w v fuel =
        some (w.set v { w v with
          load_unload_time_rem := ((w v).load_unload_time_rem + 1) % 65536 }, m, true)) ∧
    ((∀ u ∈ l, (w u).rail.track = 0x80 ∧ (w u).tile = (w v).tile) →
      ((w v).force_proceed ≠ 0 ∨
        (¬ ((w v).load_unload_time_rem + 1) % 65536 < 37 ∧
          menv.UpdateSignalsOnSegmentResult m (w v).tile (w v).direction = false)) →
      KeepsUnit menv.VehicleServiceInDepot → KeepsUnit hooks.VehiclePositionChanged →
      (w v).subtype = env.TS_Front_Engine → (w v).rail.cached_weight ≠ 0 →
      ∃ w1 m1, CheckTrainStayInDepot env hooks menv m w v fuel = some (w1, m1, false) ∧
        (w1 v).rail.track = (if ((w v).direction &&& 2) ≠ 0 then 2 else 1) ∧
        ((w1 v).vehstatus &&& env.VS_HIDDEN) = 0 ∧ (w1 v).cur_speed = 0) := by
  obtain ⟨h1, h2⟩ := CheckTrainStayInDepot.allInDepot_spec w (w v).tile l fuel (some v) hc hf
  refine ⟨fun hbad => ?_, fun hall hfp hlt => ?_, fun hall hgo hserv hpos hfe hwt => ?_⟩
  · unfold CheckTrainStayInDepot
    rw [h1 hbad]
  · unfold CheckTrainStayInDepot
    rw [h2 hall]
    simp only [hfp, if_true, World.set_same, hlt]
  · unfold CheckTrainStayInDepot
    rw [h2 hall]
    rcases hgo with hfp | ⟨hge, hsig⟩
    · simp only [hfp, if_false]
      exact CheckTrainStayInDepot.leave_spec env hooks menv m w v hserv hpos hfe hwt
    · by_cases hfp : (w v).force_proceed = 0
      · rw [if_pos hfp]
        simp only [World.set_same]
        rw [if_neg hge, hsig]
        simp only [Bool.false_eq_true, if_false]
        refine Exists.imp (fun w1 => Exists.imp (fun m1 h => ⟨h.1, ?_, h.2.2⟩))
          (CheckTrainStayInDepot.leave_spec env hooks menv _ _ v hserv hpos ?_ ?_)
        · simpa only [World.set_same] using h.2.1
        · simpa only [World.set_same] using hfe
        · simpa only [World.set_same] using hwt
      · simp only [hfp, if_false]
        exact CheckTrainStayInDepot.leave_spec env hooks menv m w v hserv hpos hfe hwt

/-- Witness of C25 on `exInDepot`: the train of the units 0 and 1 stays with
the wait counter 6, and the train of the units 2 and 3, which has
force-proceed set and heads in direction 2, leaves on track 2. -/
theorem C25_stay_in_depot_witness :
    IsChain exInDepot (some 2) [2, 3] ∧ [2, 3].length ≤ 2 ∧
    (∃ w1 m1, CheckTrainStayInDepot exEnv exHooks exMoveEnv exRailMap exInDepot 2 2 =
        some (w1, m1, false) ∧
      (w1 2).rail.track = 2 ∧ ((w1 2).vehstatus &&& exEnv.VS_HIDDEN) = 0 ∧
      (w1 2).cur_speed = 0) :=
  ⟨by decide, by decide,
    (C25_stay_in_depot exEnv exHooks exMoveEnv exRailMap exInDepot 2 [2, 3] 2 (by decide)
      (by decide)).2.2 (by decide) (Or.inl (by decide)) exMoveEnv_keepsUnit exHooks_keepsUnit
      (by decide) (by decide)⟩

/-- On `exInDepot` the train of the units 0 and 1 stays in the depot: the run
returns true and leaves the wait counter 6. -/
theorem exInDepot_stays :
    (CheckTrainStayInDepot exEnv exHooks exMoveEnv exRailMap exInDepot 0 2).map
      (fun r => (r.2.2, (r.1 0).load_unload_time_rem, (r.1 0).rail.track)) =
      some (true, 6, 128) := by
  decide

/-! ### Rejected commands -/

theorem FirstCleared.rfl_cleared (w : World) : FirstCleared w w := fun _ => Or.inl rfl

theorem FirstCleared.trans_cleared {w w1 w2 : World} (h1 : FirstCleared w w1)
    (h2 : FirstCleared w1 w2) : FirstCleared w w2 := by
  intro u
  rcases h2 u with h | h
  · rw [h]
    exact h1 u
  · rcases h1 u with g | g
    · rw [h, g]
      exact Or.inr rfl
    · rw [h, g]
      exact Or.inr rfl

theorem clearFirst_cleared : ∀ (fuel : Nat) (h : Option Nat) (w w1 : World),
    clearFirst w fuel h = some w1 → FirstCleared w w1 := by
  intro fuel
  induction fuel with
  | zero =>
    intro h w w1 hc
    cases h with
    | none =>
      simp only [clearFirst, Option.some.injEq] at hc
      rw [← hc]
      exact FirstCleared.rfl_cleared w
    | some u => simp [clearFirst] at hc
  | succ n ih =>
    intro h w w1 hc
    cases h with
    | none =>
      simp only [clearFirst, Option.some.injEq] at hc
      rw [← hc]
      exact FirstCleared.rfl_cleared w
    | some u =>
      simp only [clearFirst] at hc
      have h1 : FirstCleared w (w.set u { w u with first := none }) := by
        intro x
        by_cases hx : x = u
        · subst hx
          rw [World.set_same]
          exact Or.inr rfl
        · rw [World.set_other _ _ _ _ hx]
          exact Or.inl rfl
      exact h1.trans_cleared (ih _ _ _ hc)

theorem SameButFirst.rfl_first (w : World) : SameButFirst w w := fun _ => rfl

theorem SameButFirst.trans_first {w w1 w2 : World} (h1 : SameButFirst w w1)
    (h2 : SameButFirst w1 w2) : SameButFirst w w2 := by
  intro u
  have e : ({ w2 u with first := (w u).first } : Vehicle) =
      { ({ w2 u with first := (w1 u).first } : Vehicle) with first := (w u).first } := rfl
  rw [e, h2 u]
  exact h1 u

theorem FirstCleared.butFirst {w w1 : World} (h : FirstCleared w w1) : SameButFirst w w1 := by
  intro u
  rcases h u with g | g <;> rw [g]

theorem SameButFirst.afterRead (env : Env) (w : World) (v : Nat) :
    SameButFirst w (env.afterFirstRead w v) := fun _ => rfl

/-- A run of `CmdMoveRailVehicle` that returns `CMD_ERROR`, a value other
than 0, has changed the pool at most in `first` caches: the pool returned is
the pool `wr` left by the head lookups, if any, with `first` caches
cleared. -/
theorem CmdMoveRailVehicle.move_rejected (env : Env) (cenv : CmdEnv) (w : World)
    (flags p1 p2 fuel : Nat) (hE : cenv.CMD_ERROR ≠ 0) (w1 : World)
    (hres : CmdMoveRailVehicle env cenv w flags p1 p2 fuel = some (w1, cenv.CMD_ERROR)) :
    ∃ wr, (wr = w ∨ wr = env.afterFirstRead w (p1 &&& 0xFFFF) ∨
        ∃ d, wr = env.afterFirstRead (env.afterFirstRead w (p1 &&& 0xFFFF)) d) ∧
      FirstCleared wr w1 := by
  have noop : ∀ (wx : World) (rx : Int),
      (∃ wr, (wr = w ∨ wr = env.afterFirstRead w (p1 &&& 0xFFFF) ∨
        ∃ d, wr = env.afterFirstRead (env.afterFirstRead w (p1 &&& 0xFFFF)) d) ∧
        FirstCleared wr wx) →
      some (wx, rx) = some (w1, cenv.CMD_ERROR) →
      ∃ wr, (wr = w ∨ wr = env.afterFirstRead w (p1 &&& 0xFFFF) ∨
        ∃ d, wr = env.afterFirstRead (env.afterFirstRead w (p1 &&& 0xFFFF)) d) ∧
        FirstCleared wr w1 := by
    intro wx rx hl he
    simp only [Option.some.injEq, Prod.mk.injEq] at he
    rw [← he.1]
    exact hl
  have zero : ∀ (wx : World), some (wx, (0 : Int)) = some (w1, cenv.CMD_ERROR) →
      ∃ wr, (wr = w ∨ wr = env.afterFirstRead w (p1 &&& 0xFFFF) ∨
        ∃ d, wr = env.afterFirstRead (env.afterFirstRead w (p1 &&& 0xFFFF)) d) ∧
        FirstCleared wr w1 := by
    intro wx he
    simp only [Option.some.injEq, Prod.mk.injEq] at he
    exact absurd he.2.symm hE
  have same : ∃ wr, (wr = w ∨ wr = env.afterFirstRead w (p1 &&& 0xFFFF) ∨
      ∃ d, wr = env.afterFirstRead (env.afterFirstRead w (p1 &&& 0xFFFF)) d) ∧
      FirstCleared wr w := ⟨w, Or.inl rfl, FirstCleared.rfl_cleared w⟩
  unfold CmdMoveRailVehicle at hres
  dsimp only at hres
  generalize p1 &&& 0xFFFF = src at hres noop zero same ⊢
  by_cases h1 : cenv.IsVehicleIndex w src = false
  · rw [if_pos h1] at hres
    exact noop _ _ same hres
  rw [if_neg h1] at hres
  by_cases h2 : (w src).type ≠ env.VEH_Train
  · rw [if_pos h2] at hres
    exact noop _ _ same hres
  rw [if_neg h2] at hres
  split at hres
  · simp at hres
  rename_i dst hdo
  clear hdo
  generalize (decide ((env.RailVehInfo (w src).engine_type).flags &&& env.RVI_WAGON = 0) &&
    IS_FIRSTHEAD_SPRITE cenv (w src).spritenum) = is_loco at hres
  by_cases h3 : some src = dst
  · rw [if_pos h3] at hres
    exact zero _ hres
  rw [if_neg h3] at hres
  split at hres
  · exact noop _ _ same hres
  generalize hwr : (match dst with
    | none => env.afterFirstRead w src
    | some d => env.afterFirstRead (env.afterFirstRead w src) d) = wr at hres
  have hlr : wr = w ∨ wr = env.afterFirstRead w src ∨
      ∃ d, wr = env.afterFirstRead (env.afterFirstRead w src) d := by
    rw [← hwr]
    cases dst with
    | none => exact Or.inr (Or.inl rfl)
    | some d => exact Or.inr (Or.inr ⟨d, rfl⟩)
  cases hwa : clearFirst wr fuel (some (env.GetFirstVehicleInChain w src)) with
  | none => simp [hwa] at hres
  | some wa =>
  simp only [hwa] at hres
  cases hwb : clearFirst wa fuel (Option.map (env.GetFirstVehicleInChain w) dst) with
  | none => simp [hwb] at hres
  | some wb =>
  simp only [hwb] at hres
  have hlb : ∃ wr, (wr = w ∨ wr = env.afterFirstRead w src ∨
      ∃ d, wr = env.afterFirstRead (env.afterFirstRead w src) d) ∧ FirstCleared wr wb :=
    ⟨wr, hlr, (clearFirst_cleared _ _ _ _ hwa).trans_cleared (clearFirst_cleared _ _ _ _ hwb)⟩
  cases hn : CheckTrainStoppedInDepot env cenv wb (env.GetFirstVehicleInChain w src) fuel with
  | none => simp [hn] at hres
  | some n =>
  simp only [hn] at hres
  by_cases h5 : n < 0
  · rw [if_pos h5] at hres
    exact noop _ _ hlb hres
  rw [if_neg h5] at hres
  clear hn h5
  cases hchk : CmdMoveRailVehicle.checkDst env cenv wb src (env.GetFirstVehicleInChain w src)
      dst (Option.map (env.GetFirstVehicleInChain w) dst) fuel with
  | none => simp [hchk] at hres
  | some res =>
  cases res with
  | inr rr =>
    simp only [hchk] at hres
    exact noop _ _ hlb hres
  | inl dst1 =>
  simp only [hchk] at hres
  by_cases h6 : HASBIT p2 0 = true ∧
      some (env.GetFirstVehicleInChain w src) = Option.map (env.GetFirstVehicleInChain w) dst
  · rw [if_pos h6] at hres
    exact zero _ hres
  rw [if_neg h6] at hres
  clear hchk
  generalize decide (dst1 = none ∧ (wb src).subtype ≠ env.TS_Front_Engine ∧ is_loco = true)
    = newLoco at hres
  by_cases h7 : newLoco = true ∧ cenv.GetFreeUnitNumber wb > cenv.max_trains
  · rw [if_pos h7] at hres
    exact noop _ _ hlb hres
  rw [if_neg h7] at hres
  by_cases h8 : flags &&& cenv.DC_EXEC ≠ 0
  · rw [if_pos h8] at hres
    split at hres
    · simp at hres
    · exact zero _ hres
  · rw [if_neg h8] at hres
    exact zero _ hres

/-- A run of `CmdReverseTrainDirection` that returns `CMD_ERROR`, a value
other than 0, has left the pool and the tile grid as they were. -/
theorem CmdReverseTrainDirection.reverse_rejected (env : Env) (cenv : CmdEnv) (hooks : Hooks)
    (penv : PathEnv) (ctrl : World → Map → Nat → Option (World × Map)) (ra : Bool) (m : Map)
    (w : World) (flags p1 fuel : Nat) (hE : cenv.CMD_ERROR ≠ 0) (w1 : World) (m1 : Map)
    (hres : CmdReverseTrainDirection env cenv hooks penv ctrl ra m w flags p1 fuel =
      some (w1, m1, cenv.CMD_ERROR)) : w1 = w ∧ m1 = m := by
  have noop : ∀ (rx : Int), some (w, m, rx) = some (w1, m1, cenv.CMD_ERROR) →
      w1 = w ∧ m1 = m := by
    intro rx he
    simp only [Option.some.injEq, Prod.mk.injEq] at he
    exact ⟨he.1.symm, he.2.1.symm⟩
  have zero : ∀ (wx : World) (mx : Map),
      some (wx, mx, (0 : Int)) = some (w1, m1, cenv.CMD_ERROR) → w1 = w ∧ m1 = m := by
    intro wx mx he
    simp only [Option.some.injEq, Prod.mk.injEq] at he
    exact absurd he.2.2.symm hE
  unfold CmdReverseTrainDirection at hres
  dsimp only at hres
  split_ifs at hres
  · exact noop _ hres
  · exact noop _ hres
  · exact noop _ hres
  · exact zero _ _ hres
  · split at hres
    · simp at hres
    · exact zero _ _ hres
  · exact zero _ _ hres

theorem int32_of_range (x : Int) (h1 : -2147483648 ≤ x) (h2 : x < 2147483648) :
    int32 x = x := by
  unfold int32
  omega

theorem CmdRefitRailVehicle.body_cost (env : Env) (cenv : CmdEnv) (tenv : TradeEnv)
    (flags new_cid : Nat) (skip : Bool) (w : World) (v : Nat) (cost : Int) (num : Nat)
    (hc : 0 ≤ tenv.build_railvehicle >>> 8) (h0 : 0 ≤ cost)
    (hb : cost + (tenv.build_railvehicle >>> 8) < 2147483648) :
    cost ≤ (CmdRefitRailVehicle.body env cenv tenv flags new_cid skip w v cost num).2.1 ∧
    (CmdRefitRailVehicle.body env cenv tenv flags new_cid skip w v cost num).2.1 ≤
      cost + (tenv.build_railvehicle >>> 8) := by
  unfold CmdRefitRailVehicle.body
  dsimp only
  generalize tenv.build_railvehicle >>> 8 = c at hc hb ⊢
  have hi : int32 (cost + c) = cost + c := int32_of_range _ (by omega) hb
  split_ifs <;> simp only [hi] <;> omega

theorem CmdRefitRailVehicle.loop_cost (env : Env) (cenv : CmdEnv) (tenv : TradeEnv)
    (flags new_cid : Nat) (skip : Bool) (hc : 0 ≤ tenv.build_railvehicle >>> 8) :
    ∀ (fuel : Nat) (v : Option Nat) (w : World) (cost : Int) (num : Nat) (w1 : World)
      (cost1 : Int) (num1 : Nat), 0 ≤ cost →
      cost + (fuel : Int) * (tenv.build_railvehicle >>> 8) < 2147483648 →
      CmdRefitRailVehicle.loop env cenv tenv flags new_cid skip fuel v w cost num =
        some (w1, cost1, num1) → 0 ≤ cost1 := by
  intro fuel
  induction fuel with
  | zero =>
    intro v w cost num w1 cost1 num1 _ _ h
    simp [CmdRefitRailVehicle.loop] at h
  | succ n ih =>
    intro v w cost num w1 cost1 num1 h0 hb h
    cases v with
    | none => simp [CmdRefitRailVehicle.loop] at h
    | some v =>
      have hm : ((n + 1 : Nat) : Int) * (tenv.build_railvehicle >>> 8) =
          (n : Int) * (tenv.build_railvehicle >>> 8) + (tenv.build_railvehicle >>> 8) := by
        push_cast
        ring
      have hn : 0 ≤ (n : Int) * (tenv.build_railvehicle >>> 8) :=
        mul_nonneg (Int.ofNat_nonneg n) hc
      obtain ⟨b1, b2⟩ := CmdRefitRailVehicle.body_cost env cenv tenv flags new_cid skip w v
        cost num hc h0 (by omega)
      rcases hbody : CmdRefitRailVehicle.body env cenv tenv flags new_cid skip w v cost num
        with ⟨wb, cb, nb⟩
      rw [hbody] at b1 b2
      dsimp only at b1 b2
      simp only [CmdRefitRailVehicle.loop, hbody] at h
      split_ifs at h
      · exact ih _ _ _ _ _ _ _ (by omega) (by omega) h
      · simp only [Option.some.injEq, Prod.mk.injEq] at h
        obtain ⟨_, hcb, _⟩ := h
        omega

/-- A run of `CmdRefitRailVehicle` that returns `CMD_ERROR`, the least
`int32`, has left the pool as it was, when the price of a refit is not
negative and the refit of `fuel` units costs less than `2^31`. -/
theorem CmdRefitRailVehicle.refit_rejected (env : Env) (cenv : CmdEnv) (tenv : TradeEnv)
    (w : World) (flags p1 p2 fuel : Nat) (hE : cenv.CMD_ERROR = -2147483648)
    (hc : 0 ≤ tenv.build_railvehicle >>> 8)
    (hb : (fuel : Int) * (tenv.build_railvehicle >>> 8) < 2147483648) (w1 : World)
    (hres : CmdRefitRailVehicle env cenv tenv w flags p1 p2 fuel = some (w1, cenv.CMD_ERROR)) :
    w1 = w := by
  have noop : ∀ (rx : Int), some (w, rx) = some (w1, cenv.CMD_ERROR) → w1 = w := by
    intro rx he
    simp only [Option.some.injEq, Prod.mk.injEq] at he
    exact he.1.symm
  unfold CmdRefitRailVehicle at hres
  dsimp only at hres
  by_cases h1 : cenv.IsVehicleIndex w p1 = false
  · rw [if_pos h1] at hres
    exact noop _ hres
  rw [if_neg h1] at hres
  by_cases h2 : (w p1).type ≠ env.VEH_Train ∨ cenv.CheckOwnership (w p1).owner = false
  · rw [if_pos h2] at hres
    exact noop _ hres
  rw [if_neg h2] at hres
  split at hres
  · simp at hres
  · exact noop _ hres
  · by_cases h3 : p2 &&& 0xFF > tenv.NUM_CARGO
    · rw [if_pos h3] at hres
      exact noop _ hres
    rw [if_neg h3] at hres
    split at hres
    · simp at hres
    · rename_i wl cost num hl
      simp only [Option.some.injEq, Prod.mk.injEq] at hres
      have := CmdRefitRailVehicle.loop_cost env cenv tenv flags _ _ hc fuel _ _ _ _ _ _ _
        (le_refl 0) (by omega) hl
      rw [hres.2, hE] at this
      omega

theorem UnlinkWagon_values (env : Env) (w : World) (v first fuel : Nat) (w1 : World)
    (f : Option Nat) (h : UnlinkWagon env w v first fuel = some (w1, f)) :
    ∀ x, (w1 x).value = (w x).value := by
  intro x
  unfold UnlinkWagon at h
  split_ifs at h with h1
  · cases hn : (w v).next with
    | none =>
      simp only [hn, Option.some.injEq, Prod.mk.injEq] at h
      rw [← h.1]
    | some n =>
      simp only [hn, Option.some.injEq, Prod.mk.injEq] at h
      rw [← h.1]
      by_cases hx : x = n
      · subst hx
        rw [World.set_same]
      · rw [World.set_other _ _ _ _ hx]
  · cases hp : findPrev w v fuel first with
    | none => simp [hp] at h
    | some u =>
      simp only [hp, Option.some.injEq, Prod.mk.injEq] at h
      rw [← h.1]
      by_cases hx : x = u
      · subst hx
        rw [World.set_same]
      · rw [World.set_other _ _ _ _ hx]

theorem FirstCleared.values {w w1 : World} (h : FirstCleared w w1) :
    ∀ x, (w1 x).value = (w x).value := by
  intro x
  rcases h x with g | g <;> rw [g]

theorem CmdSellRailWagon.rear_cost (env : Env) (cenv : CmdEnv) (tenv : TradeEnv) (w : World)
    (flags v fuel : Nat) (V : Int) (hdel : tenv.DeleteKeepsValues)
    (hV : ∀ u, 0 ≤ (w u).value ∧ (w u).value ≤ V) (hb : V < 2147483648)
    (w1 : World) (v1 : Option Nat) (cost : Int)
    (h : CmdSellRailWagon.rear env cenv tenv w flags v fuel = some (w1, v1, cost)) :
    (∀ x, (w1 x).value = (w x).value) ∧ -V ≤ cost ∧ cost ≤ 0 := by
  have hi : int32 (0 - (w v).value) = 0 - (w v).value :=
    int32_of_range _ (by have := hV v; omega) (by have := hV v; omega)
  have hv := hV v
  unfold CmdSellRailWagon.rear at h
  dsimp only at h
  split at h
  · simp at h
  · simp only [Option.some.injEq, Prod.mk.injEq] at h
    obtain ⟨e1, _, e3⟩ := h
    rw [← e1, ← e3]
    exact ⟨fun _ => rfl, by omega, le_refl 0⟩
  · rename_i r _
    rw [hi] at h
    split_ifs at h
    · cases hu : UnlinkWagon env w r v fuel with
      | none => simp [hu] at h
      | some p =>
        obtain ⟨wu, fu⟩ := p
        simp only [hu, Option.some.injEq, Prod.mk.injEq] at h
        obtain ⟨e1, _, e3⟩ := h
        rw [← e1, ← e3]
        refine ⟨fun x => ?_, by omega, by omega⟩
        rw [hdel wu r x]
        exact UnlinkWagon_values env w r v fuel wu fu hu x
    · simp only [Option.some.injEq, Prod.mk.injEq] at h
      obtain ⟨e1, _, e3⟩ := h
      rw [← e1, ← e3]
      exact ⟨fun _ => rfl, by omega, by omega⟩

theorem CmdSellRailWagon.promote_values (env : Env) (cenv : CmdEnv) (w : World)
    (first fuel : Nat) (w1 : World) (b : Bool)
    (h : CmdSellRailWagon.promote env cenv w first fuel = some (w1, b)) :
    ∀ x, (w1 x).value = (w x).value := by
  unfold CmdSellRailWagon.promote at h
  dsimp only at h
  cases hc : clearFirst w fuel (some first) with
  | none => simp [hc] at h
  | some wc =>
    have hcv := (clearFirst_cleared _ _ _ _ hc).values
    simp only [hc] at h
    intro x
    rw [← hcv x]
    split at h
    · simp only [Option.some.injEq, Prod.mk.injEq] at h
      rw [← h.1]
    · rename_i nf _
      split_ifs at h
      · simp only [Option.some.injEq, Prod.mk.injEq] at h
        rw [← h.1]
        by_cases hx : x = first
        · subst hx
          rw [World.set_same]
          by_cases hx2 : x = nf
          · subst hx2
            rw [World.set_same]
          · rw [World.set_other _ _ _ _ hx2]
        · rw [World.set_other _ _ _ _ hx]
          by_cases hx2 : x = nf
          · subst hx2
            rw [World.set_same]
          · rw [World.set_other _ _ _ _ hx2]
      · simp only [Option.some.injEq, Prod.mk.injEq] at h
        rw [← h.1]

theorem CmdSellRailWagon.single_cost (env : Env) (cenv : CmdEnv) (tenv : TradeEnv)
    (w : World) (flags p2 v first fuel : Nat) (V : Int) (hdel : tenv.DeleteKeepsValues)
    (hV : ∀ u, 0 ≤ (w u).value ∧ (w u).value ≤ V) (hb : 2 * V < 2147483648)
    (w1 : World) (cost : Int)
    (h : CmdSellRailWagon.single env cenv tenv w flags p2 v first fuel = some (w1, cost)) :
    -2147483648 < cost := by
  have hv0 := hV v
  unfold CmdSellRailWagon.single at h
  dsimp only at h
  cases hr : CmdSellRailWagon.rear env cenv tenv w flags v fuel with
  | none => simp [hr] at h
  | some p =>
    obtain ⟨wr, vr, cr⟩ := p
    obtain ⟨r1, r2, r3⟩ := CmdSellRailWagon.rear_cost env cenv tenv w flags v fuel V hdel hV
      (by omega) wr vr cr hr
    simp only [hr] at h
    split at h
    · simp at h
    · simp at h
    · rename_i w2 sw v2 hst
      have h2 : ∀ x, (w2 x).value = (w x).value := by
        intro x
        rw [← r1 x]
        split_ifs at hst
        · exact CmdSellRailWagon.promote_values env cenv wr first fuel w2 sw hst x
        · simp only [Option.some.injEq, Prod.mk.injEq] at hst
          rw [← hst.1]
      have hv2 := hV v2
      rw [← h2 v2] at hv2
      have hi : int32 (cr - (w2 v2).value) = cr - (w2 v2).value :=
        int32_of_range _ (by omega) (by omega)
      rw [hi] at h
      split_ifs at h
      · split at h
        · simp at h
        · simp only [Option.some.injEq, Prod.mk.injEq] at h
          omega
      · simp only [Option.some.injEq, Prod.mk.injEq] at h
        omega

theorem CmdSellRailWagon.sellOne_cost (env : Env) (cenv : CmdEnv) (tenv : TradeEnv)
    (flags fuel0 : Nat) (w : World) (v : Nat) (first : Option Nat) (cost V : Int)
    (hdel : tenv.DeleteKeepsValues) (hV : ∀ u, 0 ≤ (w u).value ∧ (w u).value ≤ V)
    (h0 : cost ≤ 0) (hb : -2147483648 < cost - V)
    (w1 : World) (f1 : Option Nat) (cost1 : Int)
    (h : CmdSellRailWagon.sellOne env cenv tenv flags fuel0 w v first cost =
      some (w1, f1, cost1)) :
    (∀ x, (w1 x).value = (w x).value) ∧ cost - V ≤ cost1 ∧ cost1 ≤ cost := by
  have hv := hV v
  have hi : int32 (cost - (w v).value) = cost - (w v).value :=
    int32_of_range _ (by omega) (by omega)
  unfold CmdSellRailWagon.sellOne at h
  dsimp only at h
  rw [hi] at h
  split_ifs at h
  · split at h
    · simp at h
    · rename_i f
      cases hu : UnlinkWagon env w v f fuel0 with
      | none => simp [hu] at h
      | some p =>
        obtain ⟨wu, fu⟩ := p
        simp only [hu, Option.some.injEq, Prod.mk.injEq] at h
        obtain ⟨e1, _, e3⟩ := h
        rw [← e1, ← e3]
        refine ⟨fun x => ?_, by omega, by omega⟩
        rw [hdel wu v x]
        exact UnlinkWagon_values env w v f fuel0 wu fu hu x
  · simp only [Option.some.injEq, Prod.mk.injEq] at h
    obtain ⟨e1, _, e3⟩ := h
    rw [← e1, ← e3]
    exact ⟨fun _ => rfl, by omega, by omega⟩

theorem CmdSellRailWagon.sellRest_cost (env : Env) (cenv : CmdEnv) (tenv : TradeEnv)
    (flags fuel0 : Nat) (V : Int) (hdel : tenv.DeleteKeepsValues) (hV0 : 0 ≤ V) :
    ∀ (fuel : Nat) (v : Option Nat) (w : World) (first : Option Nat) (enf enr cost : Int)
      (w1 : World) (f1 : Option Nat) (cost1 : Int),
      (∀ u, 0 ≤ (w u).value ∧ (w u).value ≤ V) → cost ≤ 0 →
      -2147483648 < cost - (fuel : Int) * V →
      CmdSellRailWagon.sellRest env cenv tenv flags fuel0 fuel v w first enf enr cost =
        some (w1, f1, cost1) → -2147483648 < cost1 := by
  intro fuel
  induction fuel with
  | zero =>
    intro v w first enf enr cost w1 f1 cost1 _ _ hb h
    cases v with
    | none =>
      simp only [CmdSellRailWagon.sellRest, Option.some.injEq, Prod.mk.injEq] at h
      obtain ⟨_, _, e3⟩ := h
      simp only [Nat.cast_zero, zero_mul, sub_zero] at hb
      omega
    | some v => simp [CmdSellRailWagon.sellRest] at h
  | succ n ih =>
    intro v w first enf enr cost w1 f1 cost1 hV h0 hb h
    have hm : ((n + 1 : Nat) : Int) * V = (n : Int) * V + V := by
      push_cast
      ring
    have hn : 0 ≤ (n : Int) * V := mul_nonneg (Int.ofNat_nonneg n) hV0
    cases v with
    | none =>
      simp only [CmdSellRailWagon.sellRest, Option.some.injEq, Prod.mk.injEq] at h
      obtain ⟨_, _, e3⟩ := h
      omega
    | some v =>
      have sold : ∀ (enf1 enr1 : Int),
          (match CmdSellRailWagon.sellOne env cenv tenv flags fuel0 w v first cost with
            | none => none
            | some (wa, fa, ca) =>
              CmdSellRailWagon.sellRest env cenv tenv flags fuel0 n (w v).next wa fa enf1 enr1
                ca) = some (w1, f1, cost1) → -2147483648 < cost1 := by
        intro enf1 enr1 hs
        cases ho : CmdSellRailWagon.sellOne env cenv tenv flags fuel0 w v first cost with
        | none => simp [ho] at hs
        | some p =>
          obtain ⟨wa, fa, ca⟩ := p
          simp only [ho] at hs
          obtain ⟨o1, o2, o3⟩ := CmdSellRailWagon.sellOne_cost env cenv tenv flags fuel0 w v
            first cost V hdel hV h0 (by omega) wa fa ca ho
          refine ih _ _ _ _ _ _ _ _ _ (fun u => ?_) (by omega) (by omega) hs
          rw [o1 u]
          exact hV u
      simp only [CmdSellRailWagon.sellRest] at h
      split_ifs at h
      · exact sold _ _ h
      · exact sold _ _ h
      · exact ih _ _ _ _ _ _ _ _ _ hV h0 (by omega) h
      · exact sold _ _ h

theorem CmdSellRailWagon.chain_cost (env : Env) (cenv : CmdEnv) (tenv : TradeEnv)
    (w : World) (flags v first fuel : Nat) (V : Int) (hdel : tenv.DeleteKeepsValues)
    (hV : ∀ u, 0 ≤ (w u).value ∧ (w u).value ≤ V) (hb : (fuel : Int) * V < 2147483648)
    (w1 : World) (cost : Int)
    (h : CmdSellRailWagon.chain env cenv tenv w flags v first fuel = some (w1, cost)) :
    -2147483648 < cost := by
  have hV0 : 0 ≤ V := le_trans (hV 0).1 (hV 0).2
  unfold CmdSellRailWagon.chain at h
  split at h
  · simp at h
  · rename_i enf enr _
    cases hs : CmdSellRailWagon.sellRest env cenv tenv flags fuel fuel (some v) w (some first)
        enf enr 0 with
    | none => simp [hs] at h
    | some p =>
      obtain ⟨ws, fs, cs⟩ := p
      have hc := CmdSellRailWagon.sellRest_cost env cenv tenv flags fuel V hdel hV0 fuel _ _ _
        _ _ _ _ _ _ hV (le_refl 0) (by omega) hs
      simp only [hs] at h
      split_ifs at h
      · split at h
        · simp at h
        · simp only [Option.some.injEq, Prod.mk.injEq] at h
          omega
      · simp only [Option.some.injEq, Prod.mk.injEq] at h
        omega

/-- A run of `CmdSellRailWagon` that returns `CMD_ERROR`, the least `int32`,
has left the pool as it was when one of the leading checks has failed, and
else as it was after the head lookup of the call, when the deletion keeps
the values, the values lie between 0 and `V`, and `fuel + 2` such values stay
below `2^31`. -/
theorem CmdSellRailWagon.sell_rejected (env : Env) (cenv : CmdEnv) (tenv : TradeEnv)
    (w : World) (flags p1 p2 fuel : Nat) (V : Int) (hE : cenv.CMD_ERROR = -2147483648)
    (hdel : tenv.DeleteKeepsValues) (hV : ∀ u, 0 ≤ (w u).value ∧ (w u).value ≤ V)
    (hb : ((fuel : Int) + 2) * V < 2147483648) (w1 : World)
    (hres : CmdSellRailWagon env cenv tenv w flags p1 p2 fuel = some (w1, cenv.CMD_ERROR)) :
    w1 = if (cenv.IsVehicleIndex w p1 = false ∨ p2 > 2) ∨
        ((w p1).type ≠ env.VEH_Train ∨ cenv.CheckOwnership (w p1).owner = false) then w
      else env.afterFirstRead w p1 := by
  have hV0 : 0 ≤ V := le_trans (hV 0).1 (hV 0).2
  have hm : ((fuel : Int) + 2) * V = (fuel : Int) * V + 2 * V := by ring
  have hn : 0 ≤ (fuel : Int) * V := mul_nonneg (Int.ofNat_nonneg fuel) hV0
  have hVr : ∀ u, 0 ≤ ((env.afterFirstRead w p1) u).value ∧
      ((env.afterFirstRead w p1) u).value ≤ V := hV
  have noop : ∀ (wx : World) (rx : Int), some (wx, rx) = some (w1, cenv.CMD_ERROR) →
      w1 = wx := by
    intro wx rx he
    simp only [Option.some.injEq, Prod.mk.injEq] at he
    exact he.1.symm
  unfold CmdSellRailWagon at hres
  dsimp only at hres
  by_cases h1 : cenv.IsVehicleIndex w p1 = false ∨ p2 > 2
  · rw [if_pos h1] at hres
    rw [if_pos (Or.inl h1)]
    exact noop _ _ hres
  rw [if_neg h1] at hres
  by_cases h2 : (w p1).type ≠ env.VEH_Train ∨ cenv.CheckOwnership (w p1).owner = false
  · rw [if_pos h2] at hres
    rw [if_pos (Or.inr h2)]
    exact noop _ _ hres
  rw [if_neg h2] at hres
  rw [if_neg (fun h => h.elim h1 h2)]
  split at hres
  · simp at hres
  · split_ifs at hres
    · exact noop _ _ hres
    · have := CmdSellRailWagon.chain_cost env cenv tenv _ flags _ _ fuel V hdel hVr
        (by omega) w1 _ hres
      omega
    · have := CmdSellRailWagon.single_cost env cenv tenv _ flags p2 _ _ fuel V hdel hVr
        (by omega) w1 _ hres
      omega

theorem exTradeEnv_keepsValues : exTradeEnv.DeleteKeepsValues := by
  intro w u x
  by_cases hx : x = u
  · subst hx
    simp only [exTradeEnv, World.set_same]
  · simp only [exTradeEnv, World.set_other _ _ _ _ hx]

theorem exCached_values : ∀ u, 0 ≤ (exCached u).value ∧ (exCached u).value ≤ 5000 := by
  intro u
  unfold exCached
  split_ifs <;> decide

/-- C26 (amended): a train command that returns `CMD_ERROR` has not been
partially applied, but for the `first` cache.  With `CMD_ERROR` the least
`int32`, vehicle values between 0 and `V` that the deletion keeps, and prices
for which `fuel + 2` values and `fuel` refits stay below `2^31`: after a run
of `CmdMoveRailVehicle` or of `CmdSellRailWagon` that returns `CMD_ERROR`
every record has every field other than `first` as before the call.  After
the rejected move every record is the one of the pool `wr`, which is the pool
before the call, the pool `ws` that the head lookup `GetFirstVehicleInChain`
for the source has left or the pool that the lookup for the destination has
left after it, or that record with `first` cleared.  After the rejected sale the pool is the one before the call when one
of the checks in front of the head lookup has failed, and else the pool with
the `first` pointers that the head lookup has left.  A run of
`CmdRefitRailVehicle` or `CmdReverseTrainDirection` that returns `CMD_ERROR`
leaves the pool as it was, and the reversal command the tile grid too. -/
theorem C26_rejected_command_keeps_pool (env : Env) (cenv : CmdEnv) (tenv : TradeEnv)
    (hooks : Hooks) (penv : PathEnv) (ctrl : World → Map → Nat → Option (World × Map))
    (realistic_acceleration : Bool) (m : Map)
    (w : World) (flags p1 p2 fuel : Nat) (V : Int)
    (hE : cenv.CMD_ERROR = -2147483648) (hdel : tenv.DeleteKeepsValues)
    (hV : ∀ u, 0 ≤ (w u).value ∧ (w u).value ≤ V)
    (hb : ((fuel : Int) + 2) * V < 2147483648)
    (hc : 0 ≤ tenv.build_railvehicle >>> 8)
    (hp : (fuel : Int) * (tenv.build_railvehicle >>> 8) < 2147483648) :
    (∀ w1, CmdMoveRailVehicle env cenv w flags p1 p2 fuel = some (w1, cenv.CMD_ERROR) →
      (∀ u, { w1 u with first := (w u).first } = w u) ∧
      ∀ ws : World,
        ws = (fun u => { w u with first := env.FirstCacheAfter w (p1 &&& 0xFFFF) u }) →
        ∃ wr : World,
          (wr = w ∨ wr = ws ∨
            ∃ d, wr = fun u => { ws u with first := env.FirstCacheAfter ws d u }) ∧
          ∀ u, w1 u = wr u ∨ w1 u = { wr u with first := none }) ∧
    (∀ w1, CmdSellRailWagon env cenv tenv w flags p1 p2 fuel = some (w1, cenv.CMD_ERROR) →
      (∀ u, { w1 u with first := (w u).first } = w u) ∧
      w1 = if (cenv.IsVehicleIndex w p1 = false ∨ p2 > 2) ∨
          ((w p1).type ≠ env.VEH_Train ∨ cenv.CheckOwnership (w p1).owner = false) then w
        else fun u => { w u with first := env.FirstCacheAfter w p1 u }) ∧
    (∀ w1, CmdRefitRailVehicle env cenv tenv w flags p1 p2 fuel = some (w1, cenv.CMD_ERROR) →
      w1 = w) ∧
    (∀ w1 m1, CmdReverseTrainDirection env cenv hooks penv ctrl realistic_acceleration m w
      flags p1 fuel = some (w1, m1, cenv.CMD_ERROR) → w1 = w ∧ m1 = m) := by
  have hE0 : cenv.CMD_ERROR ≠ 0 := by
    rw [hE]
    decide
  refine ⟨?_, ?_,
    fun w1 h => CmdRefitRailVehicle.refit_rejected env cenv tenv w flags p1 p2 fuel hE hc hp w1 h,
    fun w1 m1 h => CmdReverseTrainDirection.reverse_rejected env cenv hooks penv ctrl
      realistic_acceleration m w flags p1 fuel hE0 w1 m1 h⟩
  · intro w1 h
    obtain ⟨wr, hwr, hcl⟩ :=
      CmdMoveRailVehicle.move_rejected env cenv w flags p1 p2 fuel hE0 w1 h
    have hb1 : SameButFirst w wr := by
      rcases hwr with g | g | ⟨d, g⟩ <;> rw [g] <;> exact fun _ => rfl
    refine ⟨hb1.trans_first hcl.butFirst, ?_⟩
    intro ws hws
    rw [hws]
    exact ⟨wr, hwr, hcl⟩
  · intro w1 h
    have hs := CmdSellRailWagon.sell_rejected env cenv tenv w flags p1 p2 fuel V hE hdel hV hb
      w1 h
    refine ⟨?_, hs⟩
    rw [hs]
    split_ifs <;> exact fun _ => rfl

/-- Witness of C26 (amended) on `exCached`, for the commands on the wagon 1
with `DC_EXEC`: after the sell command, which is rejected there behind the
head lookup, every field other than `first` of every record is as before, and
the pool is the one with the `first` pointers left by the lookup. -/
theorem C26_rejected_command_keeps_pool_witness :
    exCmdEnv.CMD_ERROR = -2147483648 ∧
    (CmdSellRailWagon exEnv exCmdEnv exTradeEnv exCached 1 1 0 16).map (fun r => r.2) =
      some exCmdEnv.CMD_ERROR ∧
    (∀ w1, CmdSellRailWagon exEnv exCmdEnv exTradeEnv exCached 1 1 0 16 =
      some (w1, exCmdEnv.CMD_ERROR) →
      (∀ u, { w1 u with first := (exCached u).first } = exCached u) ∧
      w1 = if (exCmdEnv.IsVehicleIndex exCached 1 = false ∨ 0 > 2) ∨
          ((exCached 1).type ≠ exEnv.VEH_Train ∨
            exCmdEnv.CheckOwnership (exCached 1).owner = false) then exCached
        else fun u => { exCached u with first := exEnv.FirstCacheAfter exCached 1 u }) :=
  ⟨by decide, by decide,
    (C26_rejected_command_keeps_pool exEnv exCmdEnv exTradeEnv exHooks exSignalEnv
      (fun w m _ => some (w, m)) true exRailMap exCached 1 1 0 16 5000 (by decide)
      exTradeEnv_keepsValues exCached_values (by decide) (by decide) (by decide)).2.1⟩

/-- On `exCached` the four commands on the wagon 1 with `DC_EXEC` are all
rejected. -/
theorem exCached_rejected :
    (CmdMoveRailVehicle exEnv exCmdEnv exCached 1 1 0 16).map (fun r => r.2) =
      some exCmdEnv.CMD_ERROR ∧
    (CmdSellRailWagon exEnv exCmdEnv exTradeEnv exCached 1 1 0 16).map (fun r => r.2) =
      some exCmdEnv.CMD_ERROR ∧
    (CmdRefitRailVehicle exEnv exCmdEnv exTradeEnv exCached 1 1 0 16).map (fun r => r.2) =
      some exCmdEnv.CMD_ERROR ∧
    (CmdReverseTrainDirection exEnv exCmdEnv exHooks exSignalEnv (fun w m _ => some (w, m)) true
      exRailMap exCached 1 1 16).map (fun r => r.2.2) = some exCmdEnv.CMD_ERROR := by
  decide

/-- Counterexample to C26 as stated.  On `exCached` the move of the wagon 1
behind the engine 0 is rejected, the train being outside a depot, and the
`first` caches of both units, which pointed to the engine, are cleared.  On
`exUncached`, the same train with empty caches, the sale of the wagon 1 is
rejected for the same reason, and the head lookup of the call has filled the
`first` caches of both units. -/
theorem C26_counterexample :
    (CmdMoveRailVehicle exEnv exCmdEnv exCached 1 1 0 16).map
      (fun r => (r.2, (r.1 0).first, (r.1 1).first)) =
      some (exCmdEnv.CMD_ERROR, none, none) ∧
    (exCached 0).first = some 0 ∧ (exCached 1).first = some 0 ∧
    (CmdSellRailWagon exEnv exCmdEnv exTradeEnv exUncached 1 1 0 16).map
      (fun r => (r.2, (r.1 0).first, (r.1 1).first)) =
      some (exCmdEnv.CMD_ERROR, some 0, some 0) ∧
    (exUncached 0).first = none ∧ (exUncached 1).first = none := by
  decide

/-! ### Length compensation, pair by pair -/

theorem repeatController_keeps (ctrl : World → Nat → Option World) (hk : CtrlKeepsLinks ctrl)
    (first : Nat) : ∀ (n : Nat) (w w1 : World), repeatController ctrl first n w = some w1 →
      ∀ x, (w1 x).next = (w x).next ∧
        (w1 x).rail.cached_veh_length = (w x).rail.cached_veh_length
  | 0, w, w1, h => by
    simp only [repeatController, Option.some.injEq] at h
    subst h
    exact fun _ => ⟨rfl, rfl⟩
  | n + 1, w, w1, h => by
    simp only [repeatController] at h
    cases hc : ctrl w first with
    | none => simp [hc] at h
    | some w2 =>
      simp only [hc] at h
      intro x
      obtain ⟨a1, a2⟩ := repeatController_keeps ctrl hk first n w2 w1 h x
      obtain ⟨b1, b2⟩ := hk w first w2 hc x
      exact ⟨a1.trans b1, a2.trans b2⟩

theorem getD_drop_add (l : List Nat) (a i : Nat) : (l.drop a).getD i 0 = l.getD (a + i) 0 := by
  simp only [List.getD_eq_getElem?_getD, List.getElem?_drop]

theorem IsChain.drop_seg {w : World} : ∀ (l : List Nat) (h : Option Nat) (k : Nat),
    IsChain w h l → k < l.length → IsChain w (some (l.getD k 0)) (l.drop k)
  | [], _, k, _, hk => by simp at hk
  | a :: l, h, 0, hc, _ => by
    have : h = some a := hc.1
    subst this
    simpa using hc
  | a :: l, h, k + 1, hc, hk => by
    have := IsChain.drop_seg l (w a).next k hc.2 (by simpa using hk)
    simpa using this

theorem IsChain.next_getD {w : World} (l : List Nat) (h : Option Nat) (k : Nat)
    (hc : IsChain w h l) (hk : k + 1 < l.length) :
    (w (l.getD k 0)).next = some (l.getD (k + 1) 0) := by
  have h1 := IsChain.drop_seg l h k hc (by omega)
  have hd : l.drop k = l.getD k 0 :: l.getD (k + 1) 0 :: l.drop (k + 2) := by
    rw [List.getD_eq_getElem _ _ (by omega : k < l.length),
      List.getD_eq_getElem _ _ hk]
    rw [List.drop_eq_getElem_cons (by omega : k < l.length),
      List.drop_eq_getElem_cons (by omega : k + 1 < l.length)]
  rw [hd] at h1
  exact h1.2.1

theorem AdvanceWagons.steps_eq (before : Bool) (a b : Nat) :
    let d : Int := (b : Int) - (a : Int)
    let d := if before then d * (-1) else d
    (d > 0 ↔ AdvanceWagons.stepsFor before a b > 0) ∧
      d.toNat = AdvanceWagons.stepsFor before a b := by
  unfold AdvanceWagons.stepsFor
  cases before <;> simp only [if_true, if_false, Bool.false_eq_true] <;> omega

theorem AdvanceWagons.loop_inward (ctrl : World → Nat → Option World)
    (hk : CtrlKeepsLinks ctrl) (before : Bool) (l : List Nat) (v : Nat) (w0 : World)
    (hc : IsChain w0 (some v) l) :
    ∀ (fuel k : Nat) (w : World), (∀ x, (w x).next = (w0 x).next) → k < l.length →
      (l.length - 2 * k - 1) / 2 ≤ fuel →
      AdvanceWagons.loop ctrl before fuel (l.getD k 0) (w (l.getD k 0)).next
          (l.length - 2 * k) w =
        AdvanceWagons.inward ctrl before l ((l.length - 2 * k - 1) / 2) k w
  | 0, k, w, _, _, hf => by
    have h0 : (l.length - 2 * k - 1) / 2 = 0 := by omega
    rw [h0]
    simp only [AdvanceWagons.loop, AdvanceWagons.inward]
    rw [if_neg (by omega)]
  | fuel + 1, k, w, hl, hkl, hf => by
    simp only [AdvanceWagons.loop]
    by_cases hgt : l.length - 2 * k > 2
    · rw [if_pos hgt]
      have hr : (l.length - 2 * k - 1) / 2 = (l.length - 2 * (k + 1) - 1) / 2 + 1 := by omega
      have hcw : IsChain w (some v) l := (IsSeg.congr l _ none (fun j _ => hl j)).mpr hc
      have hfst : (w (l.getD k 0)).next = some (l.getD (k + 1) 0) :=
        IsChain.next_getD l _ k hcw (by omega)
      have hseg : IsChain w (some (l.getD (k + 1) 0)) (l.drop (k + 1)) :=
        IsChain.drop_seg l _ (k + 1) hcw (by omega)
      have hlast : nthNext w (l.length - 2 * k - 3) (l.getD (k + 1) 0) =
          some (l.getD (l.length - 2 - k) 0) := by
        rw [nthNext_chain (l.drop (k + 1)) _ _ none hseg
          (by rw [List.length_drop]; omega), getD_drop_add]
        congr 2
        omega
      obtain ⟨s1, s2⟩ := AdvanceWagons.steps_eq before
        (w (l.getD k 0)).rail.cached_veh_length
        (w (l.getD (l.length - 2 - k) 0)).rail.cached_veh_length
      rw [hr]
      simp only [hfst, hlast, AdvanceWagons.inward]
      have hlen : l.length - 2 * k - 2 = l.length - 2 * (k + 1) := by omega
      by_cases hpos : AdvanceWagons.stepsFor before (w (l.getD k 0)).rail.cached_veh_length
          (w (l.getD (l.length - 2 - k) 0)).rail.cached_veh_length > 0
      · rw [if_pos (s1.mpr hpos), if_pos hpos, s2]
        cases hrep : repeatController ctrl (l.getD (k + 1) 0)
            (AdvanceWagons.stepsFor before (w (l.getD k 0)).rail.cached_veh_length
              (w (l.getD (l.length - 2 - k) 0)).rail.cached_veh_length)
            (w.set (l.getD (l.length - 2 - k) 0)
              { w (l.getD (l.length - 2 - k) 0) with next := none }) with
        | none => rfl
        | some w2 =>
          simp only
          rw [hlen]
          apply AdvanceWagons.loop_inward ctrl hk before l v w0 hc fuel (k + 1)
          · intro x
            rw [← hl x]
            have h2 := (repeatController_keeps ctrl hk _ _ _ _ hrep x).1
            by_cases hx : x = l.getD (l.length - 2 - k) 0
            · subst hx
              rw [World.set_same]
            · rw [World.set_other _ _ _ _ hx, h2, World.set_other _ _ _ _ hx]
          · omega
          · omega
      · rw [if_neg (fun h => hpos (s1.mp h)), if_neg hpos]
        simp only
        rw [hlen]
        exact AdvanceWagons.loop_inward ctrl hk before l v w0 hc fuel (k + 1) w hl (by omega)
          (by omega)
    · rw [if_neg hgt]
      have h0 : (l.length - 2 * k - 1) / 2 = 0 := by omega
      rw [h0]
      simp only [AdvanceWagons.inward]

theorem exStepCounter_keepsLinks : CtrlKeepsLinks exStepCounter := by
  intro w u w1 h x
  simp only [exStepCounter, Option.some.injEq] at h
  subst h
  by_cases hx : x = u
  · subst hx
    simp only [World.set_same, and_self]
  · simp only [World.set_other _ _ _ _ hx, and_self]

/-- C31 (amended): on a finite chain `l` of `n` units and with a controller
that keeps links and cached lengths, `AdvanceWagons` works through the pairs
from the ends inward: in round `k = 0, 1, ...`, while more than two units
remain, the units between the positions `k` and `n - 1 - k` are moved, and the
number of steps is taken from the cached lengths of the units at the
positions `k` and `n - 2 - k`, the last of the units moved.  Over the call
before the swap and the call after it the steps for two such lengths add up
to their absolute difference, and one of the two calls takes none.  On a
chain of at most 2 units the pool is returned as it is. -/
theorem C31_advance_pairs_inward (ctrl : World → Nat → Option World) (before : Bool)
    (w : World) (v : Nat) (l : List Nat) (fuel : Nat)
    (hc : IsChain w (some v) l) (hf : l.length ≤ fuel) (hk : CtrlKeepsLinks ctrl) :
    AdvanceWagons ctrl w v before fuel =
      AdvanceWagons.inward ctrl before l ((l.length - 1) / 2) 0 w ∧
    (l.length ≤ 2 → AdvanceWagons ctrl w v before fuel = some w) ∧
    (∀ a b : Nat,
      AdvanceWagons.stepsFor true a b + AdvanceWagons.stepsFor false a b =
        ((a : Int) - (b : Int)).natAbs ∧
      (AdvanceWagons.stepsFor true a b = 0 ∨ AdvanceWagons.stepsFor false a b = 0)) := by
  have main : AdvanceWagons ctrl w v before fuel =
      AdvanceWagons.inward ctrl before l ((l.length - 1) / 2) 0 w := by
    cases l with
    | nil => exact absurd hc (by simp [IsChain, IsSeg])
    | cons a c =>
      have hva : some v = some a := hc.1
      simp only [Option.some.injEq] at hva
      subst hva
      unfold AdvanceWagons
      rw [CountVehiclesInChain.count_chain w c v fuel hc hf]
      have := AdvanceWagons.loop_inward ctrl hk before (v :: c) v w hc fuel 0 w
        (fun _ => rfl) (by simp) (by simp only [List.length_cons] at hf ⊢; omega)
      simpa using this
  refine ⟨main, fun h2 => ?_, fun a b => ?_⟩
  · rw [main]
    have h0 : (l.length - 1) / 2 = 0 := by omega
    rw [h0]
    rfl
  · unfold AdvanceWagons.stepsFor
    simp only [if_true, if_false, Bool.false_eq_true]
    omega

/-- Witness of C31 (amended): the train `exFive` of five units with the step
counter as controller. -/
theorem C31_advance_pairs_inward_witness :
    IsChain exFive (some 0) [0, 1, 2, 3, 4] ∧ [0, 1, 2, 3, 4].length ≤ 5 ∧
    AdvanceWagons exStepCounter exFive 0 true 5 =
      AdvanceWagons.inward exStepCounter true [0, 1, 2, 3, 4] (([0, 1, 2, 3, 4].length - 1) / 2)
        0 exFive :=
  ⟨by decide, by decide,
    (C31_advance_pairs_inward exStepCounter true exFive 0 [0, 1, 2, 3, 4] 5 (by decide)
      (by decide) exStepCounter_keepsLinks).1⟩

/-- On `exFive`, with the lengths 8, 5, 6, 7 and 3, the call before the swap
moves the unit 1 once (8 against 7) and the call after it moves the unit 2
once (5 against 6); the last unit, of length 3, is never looked at. -/
theorem exFive_steps :
    (AdvanceWagons exStepCounter exFive 0 true 5).map
      (fun w => (List.range 5).map (fun i => (w i).progress)) = some [0, 1, 0, 0, 0] ∧
    (AdvanceWagons exStepCounter exFive 0 false 5).map
      (fun w => (List.range 5).map (fun i => (w i).progress)) = some [0, 0, 1, 0, 0] := by
  decide

/-- Counterexample to C31 as stated: on the train `exUneven` of three units
the units at the positions 0 and 2 have the same cached length 8, but the
unit between them is moved 3 times in the call before the swap (and not in
the call after it), since the length 5 of the unit at position 1 is the one
compared with the length of the unit at position 0. -/
theorem C31_counterexample :
    (AdvanceWagons exStepCounter exUneven 0 true 3).map (fun w => (w 1).progress) = some 3 ∧
    (AdvanceWagons exStepCounter exUneven 0 false 3).map (fun w => (w 1).progress) = some 0 ∧
    (exUneven 1).progress = 0 ∧
    (((exUneven 0).rail.cached_veh_length : Int) -
      ((exUneven 2).rail.cached_veh_length : Int)).natAbs = 0 := by
  decide

/-! ### Curves of a consist -/

theorem GetTrainAcceleration.curveLoop_fold (w : World) :
    ∀ (l : List Nat) (fuel u : Nat) (s : CurveScan), IsChain w (some u) l →
      l.length ≤ fuel →
      GetTrainAcceleration.curveLoop w fuel u s =
        some ((unitPairs w l).foldl (fun s p => GetTrainAcceleration.curveStep p.1 p.2 s) s)
  | [], _, u, s, hc, _ => absurd hc (by simp [IsChain, IsSeg])
  | a :: l, 0, u, s, _, hf => by simp at hf
  | a :: l, fuel + 1, u, s, hc, hf => by
    have hu : some u = some a := hc.1
    simp only [Option.some.injEq] at hu
    subst hu
    simp only [GetTrainAcceleration.curveLoop]
    cases l with
    | nil =>
      have hn : (w u).next = none := hc.2
      simp [hn, unitPairs]
    | cons b r =>
      have hn : (w u).next = some b := hc.2.1
      have hc2 : IsChain w (some b) (b :: r) := ⟨rfl, hc.2.2⟩
      simp only [hn]
      rw [GetTrainAcceleration.curveLoop_fold w (b :: r) fuel b _ hc2 (by simpa using hf)]
      simp [unitPairs]

theorem curve45_not_both : ∀ d < 8, ∀ nd < 8,
    ¬ (curveNeighbour _curve_neighbours45 d 0 = nd ∧
      curveNeighbour _curve_neighbours45 d 1 = nd) := by
  decide

theorem GetTrainAcceleration.curveStep_curve (d nd : Nat) (s : CurveScan) (hd : d < 8)
    (hnd : nd < 8) (h90 : isCurve90 d nd = false) (h45 : isCurve45 d nd = true) :
    (GetTrainAcceleration.curveStep d nd s).pos = s.pos + 1 ∧
    (GetTrainAcceleration.curveStep d nd s).lastpos = s.pos ∧
    (GetTrainAcceleration.curveStep d nd s).curvecount0 +
      (GetTrainAcceleration.curveStep d nd s).curvecount1 =
      s.curvecount0 + s.curvecount1 + 1 ∧
    (GetTrainAcceleration.curveStep d nd s).numcurve =
      (if s.lastpos ≠ -1 then s.numcurve + 1 else s.numcurve) ∧
    (GetTrainAcceleration.curveStep d nd s).sum =
      (if s.lastpos ≠ -1 then s.sum + (s.pos - s.lastpos) else s.sum) ∧
    (GetTrainAcceleration.curveStep d nd s).max_speed =
      (if s.lastpos ≠ -1 ∧ s.pos - s.lastpos = 1 then 88 else s.max_speed) := by
  have hboth := curve45_not_both d hd nd hnd
  have h90a : ¬ (curveNeighbour _curve_neighbours90 d 0 = nd ∨
      curveNeighbour _curve_neighbours90 d 1 = nd) := by
    simpa [isCurve90] using h90
  have h45a : curveNeighbour _curve_neighbours45 d 0 = nd ∨
      curveNeighbour _curve_neighbours45 d 1 = nd := by
    simpa [isCurve45] using h45
  unfold GetTrainAcceleration.curveStep
  simp only [if_neg h90a]
  by_cases c0 : curveNeighbour _curve_neighbours45 d 0 = nd
  · have c1 : ¬ curveNeighbour _curve_neighbours45 d 1 = nd := fun h => hboth ⟨c0, h⟩
    by_cases hl : s.lastpos = -1
    · simp [GetTrainAcceleration.curve45, c0, c1, hl]
      omega
    · by_cases hg : s.pos - s.lastpos = 1
      · simp [GetTrainAcceleration.curve45, c0, c1, hl, hg]
        omega
      · simp [GetTrainAcceleration.curve45, c0, c1, hl, hg]
        omega
  · have c1 : curveNeighbour _curve_neighbours45 d 1 = nd := h45a.resolve_left c0
    by_cases hl : s.lastpos = -1
    · simp [GetTrainAcceleration.curve45, c0, c1, hl]
      omega
    · by_cases hg : s.pos - s.lastpos = 1
      · simp [GetTrainAcceleration.curve45, c0, c1, hl, hg]
        omega
      · simp [GetTrainAcceleration.curve45, c0, c1, hl, hg]
        omega

theorem GetTrainAcceleration.curveStep_straight (d nd : Nat) (s : CurveScan)
    (h90 : isCurve90 d nd = false) (h45 : isCurve45 d nd = false) :
    GetTrainAcceleration.curveStep d nd s = { s with pos := s.pos + 1 } := by
  have h90a : ¬ (curveNeighbour _curve_neighbours90 d 0 = nd ∨
      curveNeighbour _curve_neighbours90 d 1 = nd) := by
    simpa [isCurve90] using h90
  have h45a : ¬ (curveNeighbour _curve_neighbours45 d 0 = nd ∨
      curveNeighbour _curve_neighbours45 d 1 = nd) := by
    simpa [isCurve45] using h45
  rw [not_or] at h45a
  unfold GetTrainAcceleration.curveStep
  simp only [if_neg h90a, GetTrainAcceleration.curve45, if_neg h45a.1, if_neg h45a.2]

theorem gapsOf_length : ∀ (l : List Int), (gapsOf l).length = l.length - 1
  | [] => rfl
  | [_] => rfl
  | a :: b :: r => by
    simp only [gapsOf, List.length_cons, gapsOf_length (b :: r)]
    omega

theorem GetTrainAcceleration.curveFold_spec :
    ∀ (ps : List (Nat × Nat)) (s : CurveScan), 0 ≤ s.pos →
      (∀ p ∈ ps, p.1 < 8 ∧ p.2 < 8) → (∀ p ∈ ps, isCurve90 p.1 p.2 = false) →
      (∀ g ∈ gapsOf ((if s.lastpos = -1 then [] else [s.lastpos]) ++ curvesFrom s.pos ps),
        g ≠ 1) →
      (ps.foldl (fun s p => GetTrainAcceleration.curveStep p.1 p.2 s) s).curvecount0 +
        (ps.foldl (fun s p => GetTrainAcceleration.curveStep p.1 p.2 s) s).curvecount1 =
        s.curvecount0 + s.curvecount1 + (curvesFrom s.pos ps).length ∧
      (ps.foldl (fun s p => GetTrainAcceleration.curveStep p.1 p.2 s) s).numcurve =
        s.numcurve +
          (gapsOf ((if s.lastpos = -1 then [] else [s.lastpos]) ++ curvesFrom s.pos ps)).length ∧
      (ps.foldl (fun s p => GetTrainAcceleration.curveStep p.1 p.2 s) s).sum =
        s.sum +
          (gapsOf ((if s.lastpos = -1 then [] else [s.lastpos]) ++ curvesFrom s.pos ps)).sum ∧
      (ps.foldl (fun s p => GetTrainAcceleration.curveStep p.1 p.2 s) s).max_speed =
        s.max_speed
  | [], s, _, _, _, _ => by
    by_cases hl : s.lastpos = -1 <;> simp [curvesFrom, gapsOf, hl]
  | p :: ps, s, hpos, hdir, h90, hgap => by
    obtain ⟨hd, hnd⟩ := hdir p (List.mem_cons_self _ _)
    have h90p := h90 p (List.mem_cons_self _ _)
    simp only [List.foldl_cons]
    by_cases h45 : isCurve45 p.1 p.2 = true
    · obtain ⟨e1, e2, e3, e4, e5, e6⟩ :=
        GetTrainAcceleration.curveStep_curve p.1 p.2 s hd hnd h90p h45
      have hne : (GetTrainAcceleration.curveStep p.1 p.2 s).lastpos ≠ -1 := by
        rw [e2]
        omega
      have hgap1 : ∀ g ∈ gapsOf ((if (GetTrainAcceleration.curveStep p.1 p.2 s).lastpos = -1
          then [] else [(GetTrainAcceleration.curveStep p.1 p.2 s).lastpos]) ++
          curvesFrom (GetTrainAcceleration.curveStep p.1 p.2 s).pos ps), g ≠ 1 := by
        intro g hg
        apply hgap g
        rw [if_neg hne, e1, e2] at hg
        simp only [curvesFrom, h45, if_true]
        by_cases hl : s.lastpos = -1
        · simpa [hl] using hg
        · simp only [hl, if_false, List.singleton_append, gapsOf, List.mem_cons]
          exact Or.inr (by simpa using hg)
      obtain ⟨i1, i2, i3, i4⟩ := GetTrainAcceleration.curveFold_spec ps _ (by rw [e1]; omega)
        (fun q hq => hdir q (List.mem_cons_of_mem _ hq))
        (fun q hq => h90 q (List.mem_cons_of_mem _ hq)) hgap1
      rw [if_neg hne, e1, e2] at i2 i3
      rw [e1] at i1
      simp only [curvesFrom, h45, if_true, List.length_cons]
      by_cases hl : s.lastpos = -1
      · simp only [hl, if_true, List.nil_append, ne_eq, not_true_eq_false, if_false,
          false_and] at e4 e5 e6 ⊢
        simp only [List.singleton_append] at i2 i3
        refine ⟨by rw [i1, e3]; push_cast; ring, by rw [i2, e4], by rw [i3, e5],
          by rw [i4, e6]⟩
      · have hg1 : s.pos - s.lastpos ≠ 1 := by
          apply hgap
          simp only [hl, if_false, List.singleton_append, curvesFrom, h45, if_true, gapsOf,
            List.mem_cons, true_or]
        simp only [hl, if_false, List.singleton_append, gapsOf, List.length_cons,
          List.sum_cons, ne_eq, not_false_eq_true, if_true, true_and, hg1] at e4 e5 e6 ⊢
        simp only [List.singleton_append] at i2 i3
        refine ⟨by rw [i1, e3]; push_cast; ring, by rw [i2, e4]; push_cast; ring,
          by rw [i3, e5]; ring, by rw [i4, e6]⟩
    · have h45f : isCurve45 p.1 p.2 = false := by simpa using h45
      have hst := GetTrainAcceleration.curveStep_straight p.1 p.2 s h90p h45f
      rw [hst]
      have key := GetTrainAcceleration.curveFold_spec ps { s with pos := s.pos + 1 }
        (by show 0 ≤ s.pos + 1; omega)
        (fun q hq => hdir q (List.mem_cons_of_mem _ hq))
        (fun q hq => h90 q (List.mem_cons_of_mem _ hq))
        (by
          intro g hg
          apply hgap g
          simpa [curvesFrom, h45f] using hg)
      simpa [curvesFrom, h45f] using key

theorem curveCapFormula_bounds (g : Int) : 88 ≤ curveCapFormula g ∧ curveCapFormula g ≤ 231 := by
  obtain ⟨h1, h2⟩ := clamp_int_bounds g 1 12 (by norm_num)
  unfold curveCapFormula
  generalize clamp_int g 1 12 = c at h1 h2
  constructor <;> nlinarith

theorem clamp_int_mono (a b lo hi : Int) (h : a ≤ b) (hlh : lo ≤ hi) :
    clamp_int a lo hi ≤ clamp_int b lo hi := by
  unfold clamp_int
  split_ifs <;> omega

theorem curveCapFormula_mono (g1 g2 : Int) (h : g1 ≤ g2) :
    curveCapFormula g1 ≤ curveCapFormula g2 := by
  obtain ⟨a1, a2⟩ := clamp_int_bounds g1 1 12 (by norm_num)
  obtain ⟨b1, b2⟩ := clamp_int_bounds g2 1 12 (by norm_num)
  have hm := clamp_int_mono g1 g2 1 12 h (by norm_num)
  unfold curveCapFormula
  generalize clamp_int g1 1 12 = c1 at a1 a2 hm
  generalize clamp_int g2 1 12 = c2 at b1 b2 hm
  nlinarith

theorem unitPairs_dir (w : World) (l : List Nat) (hdir : ∀ u ∈ l, (w u).direction < 8) :
    ∀ p ∈ unitPairs w l, p.1 < 8 ∧ p.2 < 8 := by
  intro p hp
  obtain ⟨a, b⟩ := p
  unfold unitPairs at hp
  obtain ⟨h1, h2⟩ := List.of_mem_zip hp
  have h3 := List.mem_of_mem_tail h2
  rw [List.mem_map] at h1 h3
  obtain ⟨u1, hu1, e1⟩ := h1
  obtain ⟨u2, hu2, e2⟩ := h3
  exact ⟨e1 ▸ hdir u1 hu1, e2 ▸ hdir u2 hu2⟩

/-- C32: for a finite chain of units with directions in 0..7 that contains
three or more 45 degree curves, none of them at the position next to the one
before, and no 90 degree turn, the curve speed limit of
`GetTrainAcceleration` (before the track type enters) is
`232 - (13 - clamp(g, 1, 12))^2`, where `g` is the truncated average of the
gaps between successive curve positions; this value lies between 88 and 231
for every `g` and does not decrease when `g` grows. -/
theorem C32_curve_cap_formula (w : World) (v : Nat) (l : List Nat) (fuel : Nat)
    (hc : IsChain w (some v) l) (hf : l.length ≤ fuel)
    (hdir : ∀ u ∈ l, (w u).direction < 8)
    (h3 : 3 ≤ (curvesFrom 0 (unitPairs w l)).length)
    (hadj : ∀ g ∈ gapsOf (curvesFrom 0 (unitPairs w l)), g ≠ 1)
    (h90 : ∀ p ∈ unitPairs w l, isCurve90 p.1 p.2 = false) :
    GetTrainAcceleration.curveCap w v fuel =
      some (curveCapFormula (averageGap (curvesFrom 0 (unitPairs w l)))) ∧
    (∀ g, 88 ≤ curveCapFormula g ∧ curveCapFormula g ≤ 231) ∧
    (∀ g1 g2, g1 ≤ g2 → curveCapFormula g1 ≤ curveCapFormula g2) := by
  refine ⟨?_, curveCapFormula_bounds, curveCapFormula_mono⟩
  obtain ⟨i1, i2, i3, i4⟩ := GetTrainAcceleration.curveFold_spec (unitPairs w l) {}
    (le_refl 0) (unitPairs_dir w l hdir) h90 (by simpa using hadj)
  have hlen := gapsOf_length (curvesFrom 0 (unitPairs w l))
  unfold GetTrainAcceleration.curveCap
  rw [GetTrainAcceleration.curveLoop_fold w l fuel v {} hc hf]
  generalize (unitPairs w l).foldl (fun s p => GetTrainAcceleration.curveStep p.1 p.2 s) {}
    = s at i1 i2 i3 i4
  simp only [show ((if (({} : CurveScan).lastpos = -1) then ([] : List Int)
    else [({} : CurveScan).lastpos]) = []) from rfl, List.nil_append,
    show ({} : CurveScan).pos = 0 from rfl, show ({} : CurveScan).curvecount0 = 0 from rfl,
    show ({} : CurveScan).curvecount1 = 0 from rfl, show ({} : CurveScan).numcurve = 0 from rfl,
    show ({} : CurveScan).sum = 0 from rfl, show ({} : CurveScan).max_speed = 2000 from rfl,
    zero_add, if_true] at i1 i2 i3 i4
  have hn : s.numcurve > 0 := by
    rw [i2, hlen]
    have : (2 : Int) ≤ (((curvesFrom 0 (unitPairs w l)).length - 1 : Nat) : Int) := by
      have : 2 ≤ (curvesFrom 0 (unitPairs w l)).length - 1 := by omega
      exact_mod_cast this
    omega
  have hcc : (s.curvecount0 ≠ 0 ∨ s.curvecount1 ≠ 0) ∧ s.max_speed > 88 := by
    rw [i4]
    refine ⟨?_, by norm_num⟩
    have : (3 : Int) ≤ ((curvesFrom 0 (unitPairs w l)).length : Int) := by exact_mod_cast h3
    by_contra hcon
    rw [not_or, not_not, not_not] at hcon
    rw [hcon.1, hcon.2] at i1
    omega
  have h11 : ¬ (s.curvecount0 = 1 ∧ s.curvecount1 = 1) := by
    have : (3 : Int) ≤ ((curvesFrom 0 (unitPairs w l)).length : Int) := by exact_mod_cast h3
    rintro ⟨a, b⟩
    rw [a, b] at i1
    omega
  have htot : s.curvecount0 + s.curvecount1 > 1 := by
    have : (3 : Int) ≤ ((curvesFrom 0 (unitPairs w l)).length : Int) := by exact_mod_cast h3
    omega
  have hne : s.numcurve ≠ 0 := by omega
  simp only [if_pos hn, idiv, if_neg hne, if_pos hcc, if_neg h11, if_pos htot]
  unfold curveCapFormula averageGap
  rw [i3, i2]

/-- Witness of C32: the train `exCurvy` with curves at the positions 0, 3
and 5, the average gap 2 and the limit 111. -/
theorem C32_curve_cap_formula_witness :
    IsChain exCurvy (some 0) [0, 1, 2, 3, 4, 5, 6, 7] ∧
    GetTrainAcceleration.curveCap exCurvy 0 8 =
      some (curveCapFormula (averageGap (curvesFrom 0
        (unitPairs exCurvy [0, 1, 2, 3, 4, 5, 6, 7])))) ∧
    curvesFrom 0 (unitPairs exCurvy [0, 1, 2, 3, 4, 5, 6, 7]) = [0, 3, 5] ∧
    curveCapFormula (averageGap [0, 3, 5]) = 111 :=
  ⟨by decide,
    (C32_curve_cap_formula exCurvy 0 [0, 1, 2, 3, 4, 5, 6, 7] 8 (by decide) (by decide)
      (by decide) (by decide) (by decide) (by decide)).1, by decide, by decide⟩

/-- C33: on the train `exRightAngle`, whose head is followed through a
90 degree turn and whose units 2, 3 and 4 run through two 45 degree curves
at adjacent positions, the curve speed limit of `GetTrainAcceleration` is 88
and not 61: the adjacent curves come later in the scan and overwrite the
limit of the turn.  With the same curves in the opposite order, on
`exRightAngleLast`, the limit is 61. -/
theorem C33_right_angle_overwritten :
    IsChain exRightAngle (some 0) [0, 1, 2, 3, 4] ∧
    isCurve90 (exRightAngle 0).direction (exRightAngle 1).direction = true ∧
    GetTrainAcceleration.curveCap exRightAngle 0 5 = some 88 ∧
    IsChain exRightAngleLast (some 0) [0, 1, 2, 3, 4] ∧
    isCurve90 (exRightAngleLast 3).direction (exRightAngleLast 4).direction = true ∧
    GetTrainAcceleration.curveCap exRightAngleLast 0 5 = some 61 := by
  decide

/-! ### Station approach -/

theorem GetTrainAcceleration.stationLength_count (aenv : AccelEnv) (m : Map) (x : Vehicle) :
    ∀ (fuel tile : Nat) (len : Int) (k : Nat), k < fuel →
      (∀ j < k, aenv.IsCompatibleTrainStationTile m
        (GetTrainAcceleration.platformTile aenv x tile (j + 1)) x.tile = true) →
      aenv.IsCompatibleTrainStationTile m
        (GetTrainAcceleration.platformTile aenv x tile (k + 1)) x.tile = false →
      GetTrainAcceleration.stationLength aenv m x fuel tile len = some (len + k + 1)
  | 0, _, _, k, hk, _, _ => by omega
  | fuel + 1, tile, len, 0, _, _, hend => by
    have h1 : aenv.IsCompatibleTrainStationTile m
        (tileAdd tile (aenv.TileOffsByDir (x.direction / 2))) x.tile = false := hend
    simp only [GetTrainAcceleration.stationLength, h1, Bool.false_eq_true, if_false,
      Nat.cast_zero, add_zero]
  | fuel + 1, tile, len, k + 1, hk, hplat, hend => by
    have h1 : aenv.IsCompatibleTrainStationTile m
        (tileAdd tile (aenv.TileOffsByDir (x.direction / 2))) x.tile = true :=
      hplat 0 (by omega)
    simp only [GetTrainAcceleration.stationLength, h1, if_true]
    rw [GetTrainAcceleration.stationLength_count aenv m x fuel _ (len + 1) k (by omega)
      (fun j hj => hplat (j + 1) (by omega)) hend]
    congr 1
    push_cast
    ring

/-- C34 (amended): for a front engine that stands on a station tile at which
`TrainShouldStop` holds, on a platform of `k + 1` tiles (its own tile and the
`k` compatible station tiles that follow in its direction of travel), the
speed limit of `GetTrainAcceleration` before the cached maximum speed enters
is `max(M, 25 * (k + 1))`, where `M` is `cur_speed - (cur_speed / (k + 2)) / 10`
if the `max_speed` of the head exceeds `cur_speed - cur_speed / (k + 2)`, and
120 otherwise; so it is never below `25 * (k + 1)`. -/
theorem C34_station_approach_cap (env : Env) (aenv : AccelEnv) (m : Map) (w : World)
    (v : Nat) (l : List Nat) (fuel k : Nat)
    (hc : IsChain w (some v) l) (hf : l.length ≤ fuel)
    (hst : m.GetTileType (w v).tile = TileType.MP_STATION)
    (hfe : (w v).subtype = env.TS_Front_Engine)
    (hstop : TrainShouldStop env aenv m (w v) (w v).tile = some true)
    (hk : k < fuel)
    (hplat : ∀ j < k, aenv.IsCompatibleTrainStationTile m
      (GetTrainAcceleration.platformTile aenv (w v) (w v).tile (j + 1)) (w v).tile = true)
    (hend : aenv.IsCompatibleTrainStationTile m
      (GetTrainAcceleration.platformTile aenv (w v) (w v).tile (k + 1)) (w v).tile = false) :
    GetTrainAcceleration.speedCap env aenv m w v fuel =
      some (max
        (if ((w v).max_speed : Int) >
            ((w v).cur_speed : Int) - ((w v).cur_speed : Int).tdiv ((k : Int) + 2) then
          ((w v).cur_speed : Int) - (((w v).cur_speed : Int).tdiv ((k : Int) + 2)).tdiv 10
        else 120)
        (25 * ((k : Int) + 1))) ∧
    ∀ c, GetTrainAcceleration.speedCap env aenv m w v fuel = some c →
      25 * ((k : Int) + 1) ≤ c := by
  have main : GetTrainAcceleration.speedCap env aenv m w v fuel =
      some (max
        (if ((w v).max_speed : Int) >
            ((w v).cur_speed : Int) - ((w v).cur_speed : Int).tdiv ((k : Int) + 2) then
          ((w v).cur_speed : Int) - (((w v).cur_speed : Int).tdiv ((k : Int) + 2)).tdiv 10
        else 120)
        (25 * ((k : Int) + 1))) := by
    obtain ⟨c, hcap, _⟩ := GetTrainAcceleration.curveCap_total w v l fuel hc hf
    have hlen := GetTrainAcceleration.stationLength_count aenv m (w v) fuel (w v).tile 0 k hk
      hplat hend
    rw [show (0 : Int) + (k : Int) + 1 = (k : Int) + 1 by ring] at hlen
    have hne : (k : Int) + 2 ≠ 0 := by omega
    have h2 : (k : Int) + 1 + 1 = (k : Int) + 2 := by ring
    unfold GetTrainAcceleration.speedCap
    simp only [hcap, hst, hfe, and_self, if_true, hstop, hlen, idiv, h2, if_neg hne]
  refine ⟨main, fun c hcc => ?_⟩
  rw [main] at hcc
  simp only [Option.some.injEq] at hcc
  rw [← hcc]
  exact le_max_right _ _

/-- Witness of C34 (amended): the train `exRunning` at speed 160 on the first
tile of the two-tile platform of `exStationMap`; the limit is
`max(160 - 53 / 10, 50) = 155`. -/
theorem C34_station_approach_cap_witness :
    IsChain exRunning (some 0) [0, 1] ∧
    GetTrainAcceleration.speedCap exEnv exAccelEnv exStationMap exRunning 0 2 =
      some (max
        (if ((exRunning 0).max_speed : Int) >
            ((exRunning 0).cur_speed : Int) -
              ((exRunning 0).cur_speed : Int).tdiv (((1 : Nat) : Int) + 2) then
          ((exRunning 0).cur_speed : Int) -
            (((exRunning 0).cur_speed : Int).tdiv (((1 : Nat) : Int) + 2)).tdiv 10
        else 120)
        (25 * (((1 : Nat) : Int) + 1))) :=
  ⟨by decide,
    (C34_station_approach_cap exEnv exAccelEnv exStationMap exRunning 0 [0, 1] 2 1 (by decide)
      (by decide) (by decide) (by decide) (by decide) (by decide) (by decide) (by decide)).1⟩

/-- Counterexample to C34 as stated: for `exRunning`, at speed 160 with the
limit 200 on a platform of 2 tiles, the speed limit is 155, while
`max(cur_speed - cur_speed / (station_length + 1), 25 * station_length)` is
`max(160 - 53, 50) = 107`. -/
theorem C34_counterexample :
    GetTrainAcceleration.speedCap exEnv exAccelEnv exStationMap exRunning 0 2 = some 155 ∧
    GetTrainAcceleration.stationLength exAccelEnv exStationMap (exRunning 0) 2
      (exRunning 0).tile 0 = some 2 ∧
    TrainShouldStop exEnv exAccelEnv exStationMap (exRunning 0) (exRunning 0).tile = some true ∧
    max (((exRunning 0).cur_speed : Int) - ((exRunning 0).cur_speed : Int).tdiv (2 + 1))
      (25 * 2) = 107 := by
  decide

/-! ### Driving force -/

theorem GetTrainAcceleration.force_spec (railtype : Nat) (mass power speed resistance : Int)
    (hm : 0 < mass) :
    ∃ raw f, GetTrainAcceleration.force railtype mass power speed resistance = some f ∧
      (speed ≤ 0 → raw = resistance * 10) ∧
      f = (if railtype ≠ 2 then min (if raw ≤ 0 then 10000 else raw) (mass * 10 * 200)
        else (if raw ≤ 0 then 10000 else raw)) ∧
      0 < f ∧ (railtype ≠ 2 → f ≤ 2000 * mass) := by
  have fin : ∀ raw : Int,
      0 < (if railtype ≠ 2 then min (if raw ≤ 0 then 10000 else raw) (mass * 10 * 200)
        else (if raw ≤ 0 then 10000 else raw)) ∧
      (railtype ≠ 2 →
        (if railtype ≠ 2 then min (if raw ≤ 0 then 10000 else raw) (mass * 10 * 200)
          else (if raw ≤ 0 then 10000 else raw)) ≤ 2000 * mass) := by
    intro raw
    have h1 : 0 < (if raw ≤ 0 then (10000 : Int) else raw) := by
      split_ifs <;> omega
    constructor
    · by_cases h2 : railtype ≠ 2
      · rw [if_pos h2]
        exact lt_min h1 (by omega)
      · rw [if_neg h2]
        exact h1
    · intro h2
      rw [if_pos h2]
      exact le_trans (min_le_right _ _) (by omega)
  unfold GetTrainAcceleration.force
  by_cases hs : speed > 0
  · have hs0 : speed ≠ 0 := by omega
    have hle : ¬ speed ≤ 0 := by omega
    by_cases h01 : railtype = 0 ∨ railtype = 1
    · refine ⟨((power.tdiv speed) * 22).tdiv 10, _, ?_, fun h => absurd h hle, rfl,
        (fin _).1, (fin _).2⟩
      simp only [if_pos hs, if_pos h01, idiv, if_neg hs0]
    · by_cases h2 : railtype = 2
      · refine ⟨power.tdiv 25, _, ?_, fun h => absurd h hle, rfl, (fin _).1, (fin _).2⟩
        simp only [if_pos hs, if_neg h01, if_pos h2]
      · refine ⟨0x3FFFFFFF, _, ?_, fun h => absurd h hle, rfl, (fin _).1, (fin _).2⟩
        simp only [if_pos hs, if_neg h01, if_neg h2]
  · refine ⟨resistance * 10, _, ?_, fun _ => rfl, rfl, (fin _).1, (fin _).2⟩
    simp only [if_neg hs]

/-- C35: for a train whose cached weight `mass` is positive,
`GetTrainAcceleration` returns, and the driving force `F` that enters its
result is positive and, for a rail type other than 2 (maglev), at most
`2000 * mass`.  `F` comes from a raw force, which is `10 * R` for the total
resistance `R` when the speed is not positive (the kick-off): a raw force
that is not positive is replaced by 10000, and the minimum with
`mass * 10 * 200` is taken for the rail types other than 2 only.  The chain
of the train is finite, the head is a train and the platform walk of a
stopping head ends. -/
theorem C35_force_positive_and_clamped (env : Env) (aenv : AccelEnv) (m : Map) (w : World)
    (v : Nat) (l : List Nat) (fuel : Nat)
    (hc : IsChain w (some v) l) (hf : l.length ≤ fuel)
    (htype : (w v).type = env.VEH_Train) (hwalk : StationWalkEnds env aenv m w v fuel)
    (hmass : 0 < (w v).rail.cached_weight) :
    ∃ r raw f, GetTrainAcceleration.totalResistance env aenv m w v fuel = some r ∧
      GetTrainAcceleration.finalForce env aenv m w v fuel = some f ∧
      (GetTrainAcceleration env aenv m w v AM_ACCEL fuel).map Prod.snd =
        some ((f - r).tdiv (((w v).rail.cached_weight : Int) * 4)) ∧
      (GetTrainAcceleration env aenv m w v AM_BRAKE fuel).map Prod.snd =
        some (min ((-f - r).tdiv (((w v).rail.cached_weight : Int) * 4))
          ((10000 : Int).tdiv (((w v).rail.cached_weight : Int) * 4))) ∧
      ((((w v).cur_speed : Int) * 10).tdiv 16 ≤ 0 → raw = r * 10) ∧
      f = (if (w v).rail.railtype ≠ 2 then
          min (if raw ≤ 0 then 10000 else raw) (((w v).rail.cached_weight : Int) * 10 * 200)
        else (if raw ≤ 0 then 10000 else raw)) ∧
      0 < f ∧ ((w v).rail.railtype ≠ 2 → f ≤ 2000 * ((w v).rail.cached_weight : Int)) := by
  obtain ⟨c, s, _, _, hs, _⟩ := GetTrainAcceleration.scan_total env aenv m w v l fuel hc hf
    htype hwalk
  obtain ⟨r, f, hr, hfo, hacc, hbr⟩ := GetTrainAcceleration.returns env aenv m w v fuel s hs
    (by omega)
  obtain ⟨raw, f1, e1, e2, e3, e4, e5⟩ := GetTrainAcceleration.force_spec (w v).rail.railtype
    ((w v).rail.cached_weight : Int) (toInt32 ((w v).rail.cached_power * 746))
    ((((w v).cur_speed : Int) * 10).tdiv 16) r (by exact_mod_cast hmass)
  have hff : f1 = f := by
    unfold GetTrainAcceleration.finalForce at hfo
    rw [hr] at hfo
    have hfo2 : GetTrainAcceleration.force (w v).rail.railtype ((w v).rail.cached_weight : Int)
        (toInt32 ((w v).rail.cached_power * 746)) ((((w v).cur_speed : Int) * 10).tdiv 16) r =
        some f := hfo
    rw [e1] at hfo2
    exact Option.some.inj hfo2
  subst hff
  refine ⟨r, raw, f1, hr, hfo, ?_, ?_, e2, e3, e4, e5⟩
  · rw [hacc]
    rfl
  · rw [hbr]
    rfl

/-- Witness of C35: the train `exRunning` of weight 80. -/
theorem C35_force_positive_and_clamped_witness :
    0 < (exRunning 0).rail.cached_weight ∧
    ∃ f, GetTrainAcceleration.finalForce exEnv exAccelEnv exStationMap exRunning 0 2 = some f ∧
      0 < f ∧ ((exRunning 0).rail.railtype ≠ 2 →
        f ≤ 2000 * ((exRunning 0).rail.cached_weight : Int)) := by
  obtain ⟨_, _, f, _, h2, _, _, _, _, h7, h8⟩ :=
    C35_force_positive_and_clamped exEnv exAccelEnv exStationMap exRunning 0 [0, 1] 2
      (by decide) (by decide) rfl exRunning_walkEnds (by decide)
  exact ⟨by decide, f, h2, h7, h8⟩

/-- The force of `exRunning` at speed 160: `1000 * 746 / 100 * 22 / 10`. -/
theorem exRunning_force :
    GetTrainAcceleration.finalForce exEnv exAccelEnv exStationMap exRunning 0 2 =
      some 16412 := by
  decide

/-! ### The refit loop -/

/-- With `SkipStoppedInDepotCheck` set the loop of `CmdRefitRailVehicle`
never returns: its condition holds after every round, so the rounds go on
along the chain and past its end. -/
theorem CmdRefitRailVehicle.loop_autoreplace (env : Env) (cenv : CmdEnv) (tenv : TradeEnv)
    (flags new_cid : Nat) :
    ∀ (fuel : Nat) (v : Option Nat) (w : World) (cost : Int) (num : Nat),
      CmdRefitRailVehicle.loop env cenv tenv flags new_cid true fuel v w cost num = none
  | 0, _, _, _, _ => rfl
  | _ + 1, none, _, _, _ => rfl
  | fuel + 1, some v, w, cost, num => by
    simp only [CmdRefitRailVehicle.loop, or_true, if_true]
    exact CmdRefitRailVehicle.loop_autoreplace env cenv tenv flags new_cid fuel _ _ _ _

theorem CmdRefitRailVehicle.amount_next (env : Env) (tenv : TradeEnv) (w : World)
    (v new_cid x : Nat) :
    ((CmdRefitRailVehicle.amount env tenv w v new_cid).1 x).next = (w x).next := by
  unfold CmdRefitRailVehicle.amount
  dsimp only
  by_cases hx : x = v
  · subst hx
    split_ifs <;> simp only [World.set_same]
  · split_ifs <;> simp only [World.set_other _ _ _ _ hx]

theorem CmdRefitRailVehicle.body_next (env : Env) (cenv : CmdEnv) (tenv : TradeEnv)
    (flags new_cid : Nat) (skip : Bool) (w : World) (v : Nat) (cost : Int) (num x : Nat) :
    ((CmdRefitRailVehicle.body env cenv tenv flags new_cid skip w v cost num).1 x).next =
      (w x).next := by
  have ha := CmdRefitRailVehicle.amount_next env tenv w v new_cid x
  unfold CmdRefitRailVehicle.body
  dsimp only
  by_cases hx : x = v
  · subst hx
    split_ifs <;> simp only [World.set_same, ha]
  · split_ifs <;> simp only [World.set_other _ _ _ _ hx, ha]

/-- With `SkipStoppedInDepotCheck` clear the loop of `CmdRefitRailVehicle`
returns on a finite chain, after one round for each unit from the given one
to the end of the chain, in chain order. -/
theorem CmdRefitRailVehicle.loop_visits_chain (env : Env) (cenv : CmdEnv) (tenv : TradeEnv)
    (flags new_cid : Nat) :
    ∀ (l : List Nat) (fuel : Nat) (v : Nat) (w : World) (cost : Int) (num : Nat),
      IsChain w (some v) l → l.length ≤ fuel →
      CmdRefitRailVehicle.loop env cenv tenv flags new_cid false fuel (some v) w cost num =
        some (l.foldl (fun s u =>
          CmdRefitRailVehicle.body env cenv tenv flags new_cid false s.1 u s.2.1 s.2.2)
          (w, cost, num))
  | [], _, v, w, _, _, hc, _ => absurd hc (by simp [IsChain, IsSeg])
  | a :: l, 0, _, _, _, _, _, hf => by simp at hf
  | a :: l, fuel + 1, v, w, cost, num, hc, hf => by
    have hva : some v = some a := hc.1
    simp only [Option.some.injEq] at hva
    subst hva
    rcases hb : CmdRefitRailVehicle.body env cenv tenv flags new_cid false w v cost num
      with ⟨wb, cb, nb⟩
    have hlinks : ∀ x, (wb x).next = (w x).next := by
      intro x
      have := CmdRefitRailVehicle.body_next env cenv tenv flags new_cid false w v cost num x
      rw [hb] at this
      exact this
    simp only [CmdRefitRailVehicle.loop, hb, List.foldl_cons, Bool.false_eq_true, or_false]
    cases l with
    | nil =>
      have hn : (w v).next = none := hc.2
      rw [hlinks v, hn]
      simp
    | cons b r =>
      have hn : (w v).next = some b := hc.2.1
      have hc2 : IsChain wb (some b) (b :: r) :=
        (IsSeg.congr (b :: r) _ none (fun j _ => hlinks j)).mpr ⟨rfl, hc.2.2⟩
      rw [hlinks v, hn]
      simp only [ne_eq, reduceCtorEq, not_false_eq_true, if_true]
      exact CmdRefitRailVehicle.loop_visits_chain env cenv tenv flags new_cid (b :: r) fuel b
        wb cb nb hc2 (by simpa using hf)

/-- C36: on the stopped train `exRefit` the refit of the last wagon to the
cargo 3 with bit 8 of `p2` set does not return, and neither does the refit of
the wagon before it; there the round for the wagon is followed by a round
for the wagon after it (the link of the refitted wagon is still there and the
loop takes it).  With bit 8 clear the same calls return, the second with both
wagons refitted. -/
theorem C36_autoreplace_refit_runs_on :
    (CmdRefitRailVehicle exRefitEnv exCmdEnv exTradeEnv exRefit 1 2 259 16).isNone = true ∧
    (CmdRefitRailVehicle exRefitEnv exCmdEnv exTradeEnv exRefit 1 1 259 16).isNone = true ∧
    ((CmdRefitRailVehicle.body exRefitEnv exCmdEnv exTradeEnv 1 3 true exRefit 1 0 0).1
      1).next = some 2 ∧
    (CmdRefitRailVehicle exRefitEnv exCmdEnv exTradeEnv exRefit 1 2 3 16).map
      (fun r => (r.2, (r.1 1).cargo_type, (r.1 2).cargo_type)) = some (100, 1, 3) ∧
    (CmdRefitRailVehicle exRefitEnv exCmdEnv exTradeEnv exRefit 1 1 3 16).map
      (fun r => (r.2, (r.1 1).cargo_type, (r.1 2).cargo_type)) = some (200, 3, 3) := by
  decide

/-! ### Matching the rear engine -/

theorem rearCounter_take_succ (cenv : CmdEnv) (w : World) (engine : Nat) (c : Int) (a : Nat)
    (rest : List Nat) (i : Nat) :
    rearCounter cenv w engine c ((a :: rest).take (i + 1)) =
      rearCounter cenv w engine
        (if (w a).engine_type = engine then
          (if IS_FIRSTHEAD_SPRITE cenv (w a).spritenum = true then c + 1 else c - 1)
         else c) (rest.take i) := by
  simp only [List.take_succ_cons, rearCounter]

theorem GetRearEngine.loop_spec (cenv : CmdEnv) (w : World) (engine : Nat) :
    ∀ (rest : List Nat) (fuel : Nat) (h : Option Nat) (c : Int),
      IsChain w h rest → rest.length ≤ fuel → c ≠ 0 →
      ∃ r, GetRearEngine.loop cenv w engine fuel h c = some r ∧
        (r = none ↔ ∀ i < rest.length, rearCounter cenv w engine c (rest.take (i + 1)) ≠ 0) ∧
        (∀ u, r = some u → ∃ i < rest.length, rest.getD i 0 = u ∧
          rearCounter cenv w engine c (rest.take (i + 1)) = 0 ∧
          ∀ j < i, rearCounter cenv w engine c (rest.take (j + 1)) ≠ 0)
  | [], fuel, h, c, hc, _, _ => by
    have hh : h = none := hc
    subst hh
    refine ⟨none, ?_, ?_, ?_⟩
    · cases fuel <;> rfl
    · simp
    · intro u hu
      simp at hu
  | a :: rest, 0, h, c, _, hf, _ => by simp at hf
  | a :: rest, fuel + 1, h, c, hc, hf, hc0 => by
    have hh : h = some a := hc.1
    subst hh
    have hc2 : IsChain w (w a).next rest := hc.2
    have step : ∀ (c1 : Int), c1 ≠ 0 →
        (∀ i, rearCounter cenv w engine c ((a :: rest).take (i + 1)) =
          rearCounter cenv w engine c1 (rest.take i)) →
        ∃ r, GetRearEngine.loop cenv w engine fuel (w a).next c1 = some r ∧
          (r = none ↔ ∀ i < (a :: rest).length,
            rearCounter cenv w engine c ((a :: rest).take (i + 1)) ≠ 0) ∧
          (∀ u, r = some u → ∃ i < (a :: rest).length, (a :: rest).getD i 0 = u ∧
            rearCounter cenv w engine c ((a :: rest).take (i + 1)) = 0 ∧
            ∀ j < i, rearCounter cenv w engine c ((a :: rest).take (j + 1)) ≠ 0) := by
      intro c1 hc1 htk
      obtain ⟨r, hr, hnone, hsome⟩ := GetRearEngine.loop_spec cenv w engine rest fuel
        (w a).next c1 hc2 (by simpa using hf) hc1
      have h0 : rearCounter cenv w engine c ((a :: rest).take (0 + 1)) ≠ 0 := by
        rw [htk 0]
        simpa [rearCounter] using hc1
      refine ⟨r, hr, ?_, ?_⟩
      · rw [hnone]
        constructor
        · intro hall i hi
          cases i with
          | zero => exact h0
          | succ i =>
            rw [htk (i + 1)]
            exact hall i (by simpa using hi)
        · intro hall i hi
          rw [← htk (i + 1)]
          exact hall (i + 1) (by simpa using hi)
      · intro u hu
        obtain ⟨i, hi, hg, hz, hmin⟩ := hsome u hu
        refine ⟨i + 1, by simpa using hi, by simpa using hg, by rw [htk (i + 1)]; exact hz, ?_⟩
        intro j hj
        cases j with
        | zero => exact h0
        | succ j =>
          rw [htk (j + 1)]
          exact hmin j (by omega)
    simp only [GetRearEngine.loop]
    by_cases he : (w a).engine_type = engine
    · rw [if_pos he]
      by_cases hz : c + (if IS_FIRSTHEAD_SPRITE cenv (w a).spritenum = true then 1 else -1) = 0
      · simp only [hz, if_true]
        have hz0 : rearCounter cenv w engine c ((a :: rest).take (0 + 1)) = 0 := by
          rw [rearCounter_take_succ, if_pos he]
          simp only [List.take_zero, rearCounter]
          split_ifs at hz ⊢ <;> omega
        refine ⟨some a, rfl, ?_, ?_⟩
        · simp only [reduceCtorEq, false_iff, not_forall]
          exact ⟨0, by simp, fun h => h hz0⟩
        · intro u hu
          simp only [Option.some.injEq] at hu
          subst hu
          exact ⟨0, by simp, by simp, hz0, fun j hj => absurd hj (by omega)⟩
      · simp only [hz, if_false]
        apply step _ hz
        intro i
        rw [rearCounter_take_succ, if_pos he]
        congr 1
        split_ifs <;> omega
    · rw [if_neg he]
      apply step c hc0
      intro i
      rw [rearCounter_take_succ, if_neg he]

/-- C37: `GetRearEngine(v, engine)` on a finite chain of `v` followed by the
units `rest` returns, and matches engines like parentheses.  With the counter
started at 1, plus one for each unit of type `engine` with a front-head
sprite and minus one for each other unit of that type, it returns `NULL` if
and only if the counter is not 0 after any of the units of `rest`, and a unit
it returns is the first one after which the counter is 0. -/
theorem C37_rear_engine_matches (cenv : CmdEnv) (w : World) (v engine : Nat)
    (rest : List Nat) (fuel : Nat)
    (hc : IsChain w (some v) (v :: rest)) (hf : rest.length ≤ fuel) :
    ∃ r, GetRearEngine cenv w v engine fuel = some r ∧
      (r = none ↔ ∀ i < rest.length, rearCounter cenv w engine 1 (rest.take (i + 1)) ≠ 0) ∧
      (∀ u, r = some u → ∃ i < rest.length, rest.getD i 0 = u ∧
        rearCounter cenv w engine 1 (rest.take (i + 1)) = 0 ∧
        ∀ j < i, rearCounter cenv w engine 1 (rest.take (j + 1)) ≠ 0) := by
  unfold GetRearEngine
  exact GetRearEngine.loop_spec cenv w engine rest fuel (w v).next 1 hc.2 hf (by norm_num)

/-- Witness of C37 on `exDualHead`: behind the front head 0 the wagon 1 does
not count, the front head 2 opens a second pair that the rear head 3 closes,
and the rear head 4 is the match of the head 0. -/
theorem C37_rear_engine_matches_witness :
    IsChain exDualHead (some 0) (0 :: [1, 2, 3, 4]) ∧ [1, 2, 3, 4].length ≤ 4 ∧
    GetRearEngine exCmdEnv exDualHead 0 3 4 = some (some 4) ∧
    ∃ r, GetRearEngine exCmdEnv exDualHead 0 3 4 = some r ∧
      (r = none ↔ ∀ i < [1, 2, 3, 4].length,
        rearCounter exCmdEnv exDualHead 3 1 ([1, 2, 3, 4].take (i + 1)) ≠ 0) ∧
      (∀ u, r = some u → ∃ i < [1, 2, 3, 4].length, [1, 2, 3, 4].getD i 0 = u ∧
        rearCounter exCmdEnv exDualHead 3 1 ([1, 2, 3, 4].take (i + 1)) = 0 ∧
        ∀ j < i, rearCounter exCmdEnv exDualHead 3 1 ([1, 2, 3, 4].take (j + 1)) ≠ 0) :=
  ⟨by decide, by decide, by decide,
    C37_rear_engine_matches exCmdEnv exDualHead 0 3 [1, 2, 3, 4] 4 (by decide) (by decide)⟩

/-- On `exDualHead` the counter after the units 1, 2, 3 and 4 is 1, 2, 1 and
0, and the rear head of the front head 2 is the unit 3. -/
theorem exDualHead_counters :
    (List.range 4).map (fun i => rearCounter exCmdEnv exDualHead 3 1 ([1, 2, 3, 4].take (i + 1)))
      = [1, 2, 1, 0] ∧
    GetRearEngine exCmdEnv exDualHead 2 3 4 = some (some 3) ∧
    GetRearEngine exCmdEnv exDualHead 3 3 4 = some (some 4) ∧
    GetRearEngine exCmdEnv exDualHead 4 3 4 = some none := by
  decide

/-! ### Clearing a crashed train -/

theorem DeleteLastWagon.walk_spec (w : World) (u z : Nat) :
    ∀ (pre : List Nat) (fuel a u0 : Nat), IsChain w (some a) (pre ++ [u, z]) →
      (pre ++ [u, z]).length ≤ fuel → DeleteLastWagon.walk w fuel u0 a = some (u, z)
  | [], fuel, a, u0, hc, hf => by
    have ha : some a = some u := hc.1
    simp only [Option.some.injEq] at ha
    subst ha
    have hn : (w a).next = some z := hc.2.1
    have hz : (w z).next = none := hc.2.2
    match fuel, hf with
    | fuel + 2, _ => simp [DeleteLastWagon.walk, hn, hz]
  | p :: pre, 0, a, u0, _, hf => by simp at hf
  | p :: pre, fuel + 1, a, u0, hc, hf => by
    have ha : some a = some p := hc.1
    simp only [Option.some.injEq] at ha
    subst ha
    have hc2 : IsChain w (w a).next (pre ++ [u, z]) := hc.2
    cases hn : (w a).next with
    | none =>
      rw [hn] at hc2
      cases pre with
      | nil => exact absurd hc2.1 (by simp)
      | cons b c => exact absurd hc2.1 (by simp)
    | some n =>
      rw [hn] at hc2
      simp only [DeleteLastWagon.walk, hn]
      exact DeleteLastWagon.walk_spec w u z pre fuel n a hc2 (by simpa using hf)

theorem DeleteLastWagon.walk_single (w : World) (v u0 fuel : Nat)
    (hc : IsChain w (some v) [v]) : DeleteLastWagon.walk w (fuel + 1) u0 v = some (u0, v) := by
  have hn : (w v).next = none := hc.2
  simp [DeleteLastWagon.walk, hn]

theorem DeleteLastWagon.pool_eq (env : Env) (tenv : TradeEnv) (xenv : WreckEnv) (m : Map)
    (w : World) (v u z fuel : Nat) (hw : DeleteLastWagon.walk w fuel v v = some (u, z)) :
    ∃ m1, DeleteLastWagon env tenv xenv m w v fuel =
      some (tenv.DeleteVehicle (w.set u { w u with next := none }) z, m1) := by
  unfold DeleteLastWagon
  simp only [hw]
  split_ifs <;> exact ⟨_, rfl⟩

theorem DeleteLastWagon.step_spec (env : Env) (tenv : TradeEnv) (xenv : WreckEnv)
    (hdel : tenv.DeleteKeepsNext) (m : Map) (w : World) (v : Nat) (pre : List Nat)
    (u z : Nat) (fuel : Nat)
    (hc : IsChain w (some v) (pre ++ [u, z])) (hf : (pre ++ [u, z]).length ≤ fuel) :
    ∃ w1 m1, DeleteLastWagon env tenv xenv m w v fuel = some (w1, m1) ∧
      w1 = tenv.DeleteVehicle (w.set u { w u with next := none }) z ∧
      IsChain w1 (some v) (pre ++ [u]) ∧
      (∀ x, x ≠ u → (w1 x).next = (w x).next) ∧ (w1 u).next = none := by
  obtain ⟨m1, hm1⟩ := DeleteLastWagon.pool_eq env tenv xenv m w v u z fuel
    (DeleteLastWagon.walk_spec w u z pre fuel v v hc hf)
  refine ⟨_, m1, hm1, rfl, ?_, ?_, ?_⟩
  · have hnd : (pre ++ [u, z]).Nodup := IsChain.nodup _ _ hc
    have hu : u ∉ pre := by
      intro hmem
      rw [List.nodup_append] at hnd
      exact hnd.2.2 hmem (List.mem_cons_self _ _)
    have hseg : IsSeg w (some v) (pre ++ [u]) (some z) := by
      have h1 : IsSeg w (some v) ((pre ++ [u]) ++ [z]) none := by
        simpa [IsChain] using hc
      rw [IsSeg.append] at h1
      obtain ⟨t, h2, h3⟩ := h1
      have : t = some z := h3.1
      rw [this] at h2
      exact h2
    have h4 := IsSeg.set_last hseg hu none
    exact (IsSeg.congr (pre ++ [u]) _ none (fun j _ => hdel _ z j)).mpr h4
  · intro x hx
    rw [hdel, World.set_other _ _ _ _ hx]
  · rw [hdel, World.set_same]

theorem list_two_last (l : List Nat) (h : 2 ≤ l.length) : ∃ pre u z, l = pre ++ [u, z] := by
  rcases List.eq_nil_or_concat l with rfl | ⟨l1, z, rfl⟩
  · simp at h
  · rcases List.eq_nil_or_concat l1 with rfl | ⟨pre, u, rfl⟩
    · simp at h
    · exact ⟨pre, u, z, by simp⟩

theorem DeleteLastWagon.times_spec (env : Env) (tenv : TradeEnv) (xenv : WreckEnv)
    (hdel : tenv.DeleteKeepsNext) (v fuel : Nat) :
    ∀ (k : Nat) (l : List Nat) (w : World) (m : Map), IsChain w (some v) l →
      l.length ≤ fuel → k < l.length →
      ∃ wk mk, DeleteLastWagon.times env tenv xenv v fuel k w m = some (wk, mk) ∧
        IsChain wk (some v) (l.take (l.length - k))
  | 0, l, w, m, hc, _, _ => ⟨w, m, rfl, by simpa using hc⟩
  | k + 1, l, w, m, hc, hf, hk => by
    obtain ⟨pre, u, z, rfl⟩ := list_two_last l (by omega)
    obtain ⟨w1, m1, hrun, _, hc1, _, _⟩ :=
      DeleteLastWagon.step_spec env tenv xenv hdel m w v pre u z fuel hc hf
    obtain ⟨wk, mk, hk1, hk2⟩ := DeleteLastWagon.times_spec env tenv xenv hdel v fuel k
      (pre ++ [u]) w1 m1 hc1 (by simp at hf ⊢; omega) (by simp at hk ⊢; omega)
    refine ⟨wk, mk, ?_, ?_⟩
    · simp only [DeleteLastWagon.times, hrun]
      exact hk1
    · have e : pre ++ [u, z] = (pre ++ [u]) ++ [z] := by simp
      have hl : (pre ++ [u, z]).length - (k + 1) = (pre ++ [u]).length - k := by
        simp
      rw [hl, e, List.take_append_of_le_length (by omega)]
      exact hk2

theorem exTradeEnv_keepsNext : exTradeEnv.DeleteKeepsNext := by
  intro w u x
  by_cases hx : x = u
  · subst hx
    simp only [exTradeEnv, World.set_same]
  · simp only [exTradeEnv, World.set_other _ _ _ _ hx]

/-- C38: for a finite chain of `n >= 2` units, written as `pre` followed by
the one-before-last unit `u` and the last unit `z`, and a deletion that
keeps the links, `DeleteLastWagon(head)` returns; the pool is the one in
which the link of `u` has been cleared and `z` deleted; the chain from the
head is then `pre` followed by `u`, the link of `u` is `NULL` and all other
links are as before.  So `k < n` calls in a row leave the first `n - k`
units as the chain, and a call on a chain of the head alone deletes the
head. -/
theorem C38_delete_last_wagon (env : Env) (tenv : TradeEnv) (xenv : WreckEnv) (m : Map)
    (w : World) (v : Nat) (pre : List Nat) (u z : Nat) (fuel : Nat)
    (hdel : tenv.DeleteKeepsNext)
    (hc : IsChain w (some v) (pre ++ [u, z])) (hf : (pre ++ [u, z]).length ≤ fuel) :
    (∃ w1 m1, DeleteLastWagon env tenv xenv m w v fuel = some (w1, m1) ∧
      w1 = tenv.DeleteVehicle (w.set u { w u with next := none }) z ∧
      IsChain w1 (some v) (pre ++ [u]) ∧
      (∀ x, x ≠ u → (w1 x).next = (w x).next) ∧ (w1 u).next = none) ∧
    (∀ k, k < (pre ++ [u, z]).length →
      ∃ wk mk, DeleteLastWagon.times env tenv xenv v fuel k w m = some (wk, mk) ∧
        IsChain wk (some v) ((pre ++ [u, z]).take ((pre ++ [u, z]).length - k))) ∧
    (∀ w0 m0, IsChain w0 (some v) [v] →
      ∃ m1, DeleteLastWagon env tenv xenv m0 w0 v fuel =
        some (tenv.DeleteVehicle (w0.set v { w0 v with next := none }) v, m1)) := by
  refine ⟨DeleteLastWagon.step_spec env tenv xenv hdel m w v pre u z fuel hc hf,
    fun k hk => DeleteLastWagon.times_spec env tenv xenv hdel v fuel k _ w m hc hf hk,
    fun w0 m0 h0 => ?_⟩
  have hfuel : fuel = (fuel - 1) + 1 := by
    simp at hf
    omega
  apply DeleteLastWagon.pool_eq
  rw [hfuel]
  exact DeleteLastWagon.walk_single w0 v v _ h0

/-- Witness of C38: the train `exFive` loses its last unit 4. -/
theorem C38_delete_last_wagon_witness :
    IsChain exFive (some 0) ([0, 1, 2] ++ [3, 4]) ∧ ([0, 1, 2] ++ [3, 4]).length ≤ 5 ∧
    ∃ w1 m1, DeleteLastWagon exEnv exTradeEnv exWreckEnv exMap exFive 0 5 = some (w1, m1) ∧
      w1 = exTradeEnv.DeleteVehicle (exFive.set 3 { exFive 3 with next := none }) 4 ∧
      IsChain w1 (some 0) ([0, 1, 2] ++ [3]) ∧
      (∀ x, x ≠ 3 → (w1 x).next = (exFive x).next) ∧ (w1 3).next = none :=
  ⟨by decide, by decide,
    (C38_delete_last_wagon exEnv exTradeEnv exWreckEnv exMap exFive 0 [0, 1, 2] 3 4 5
      exTradeEnv_keepsNext (by decide) (by decide)).1⟩

/-- On `exFive` four calls in a row leave the head alone, and the fifth call
deletes the head. -/
theorem exFive_cleared :
    (DeleteLastWagon.times exEnv exTradeEnv exWreckEnv 0 5 4 exFive exMap).map
      (fun r => ((List.range 5).map (fun i => (r.1 i).next),
        (List.range 5).map (fun i => (r.1 i).type))) =
      some ([none, none, none, none, none], [16, 0, 0, 0, 0]) ∧
    (DeleteLastWagon.times exEnv exTradeEnv exWreckEnv 0 5 5 exFive exMap).map
      (fun r => (List.range 5).map (fun i => (r.1 i).type)) = some [0, 0, 0, 0, 0] := by
  decide

/-! ### Speed update -/

theorem ScriptInfoList.find_none_iff : ∀ (l : ScriptInfoList) (key : List Nat),
    l.find key = none ↔ key ∉ l.map Prod.fst
  | [], key => by simp [ScriptInfoList.find]
  | (k, v) :: r, key => by
    simp only [ScriptInfoList.find, List.map_cons, List.mem_cons, not_or]
    by_cases hk : k = key
    · subst hk
      simp
    · have hk2 : ¬ key = k := fun h => hk h.symm
      simp only [if_neg hk, ScriptInfoList.find_none_iff r key, hk2, not_false_eq_true,
        true_and]

theorem ScriptInfoList.mem_of_find : ∀ (l : ScriptInfoList) (key : List Nat)
    (info : ScriptInfo), l.find key = some info → (key, info) ∈ l
  | [], key, info, h => by simp [ScriptInfoList.find] at h
  | (k, v) :: r, key, info, h => by
    simp only [ScriptInfoList.find] at h
    by_cases hk : k = key
    · subst hk
      simp only [if_true, Option.some.injEq] at h
      subst h
      exact List.mem_cons_self _ _
    · rw [if_neg hk] at h
      exact List.mem_cons_of_mem _ (ScriptInfoList.mem_of_find r key info h)

theorem ScriptInfoList.find_of_mem : ∀ (l : ScriptInfoList) (key : List Nat)
    (info : ScriptInfo), (l.map Prod.fst).Nodup → (key, info) ∈ l → l.find key = some info
  | [], key, info, _, h => by simp at h
  | (k, v) :: r, key, info, hnd, h => by
    simp only [List.map_cons, List.nodup_cons] at hnd
    simp only [ScriptInfoList.find]
    rcases List.mem_cons.mp h with h1 | h1
    · simp only [Prod.mk.injEq] at h1
      obtain ⟨rfl, rfl⟩ := h1
      simp
    · by_cases hk : k = key
      · subst hk
        exact absurd (List.mem_map_of_mem Prod.fst h1) hnd.1
      · rw [if_neg hk]
        exact ScriptInfoList.find_of_mem r key info hnd.2 h1

/-- The five registrations of `exCalls`: the three keys `ab.2`, `ab.3` and
`ab.1` are in `info_list`, the first script registered as `ab.2` is kept, the
unique list holds the version 3 under `ab`, and the script with the short
name of three bytes is in neither list. -/
theorem exCalls_registered :
    (ScriptScanner.registerAll exScanEnv {} exCalls).info_list.map
      (fun p => (p.1, p.2.version, p.2.main_script)) =
      [([97, 98, 46, 50], 2, [1]), ([97, 98, 46, 51], 3, [2]), ([97, 98, 46, 49], 1, [4])] ∧
    (ScriptScanner.registerAll exScanEnv {} exCalls).info_single_list.map
      (fun p => (p.1, p.2.version, p.2.main_script)) = [([97, 98], 3, [2])] ∧
    (ScriptScanner.accepted exScanEnv [97, 98] {} exCalls).map (fun i => i.version) =
      [2, 3, 1] := by
  decide

end OpenTTD
